import Mathlib

/-!
# WebProtocolStack: a shallow embedding of the user-space TCP/IP stack

The development follows the C sources `ethernet.c`, `arp.c`, `ip.c`, `icmp.c`, `udp.c`
and `tcp.c`.

* Bytes are natural numbers below 256, byte strings are `List Nat`.
* Machine integers are natural numbers, reduced modulo `2^16`, `2^32` or `2^64`
  wherever the C type can wrap.
* The global variables of the stack (`arp_table`, `arp_buf`, `ip_id`, `txbuf`,
  `tcp_table`, `connect_table`, `udp_table`, `net_table`) are the fields of one record
  `net_t`, which every function takes and returns.
* Calls that leave the modelled code are recorded: `driver_send` appends the frame to
  `sent`, an application handler invocation appends to `events` (TCP) or `udp_events`
  (UDP).  The calls `ip_fragment_out`, `arp_out`, `ip_out` (when made by TCP, UDP or
  ICMP) and `net_in` are recorded with their arguments in `frag_calls`, `arp_calls`,
  `ip_out_calls` and `net_in_calls`.
  A call `panic(msg, __LINE__)` of `tcp.c` appends its line number to `panics`.
* `time(NULL)` is the argument `now`, `rand()` is the argument `rnd`.
* Declarations of the headers and helper files that are not among the sources
  (`buf.c`, `map.c`, `utils.c`, `*.h`) are modelled from the specification; each such
  definition says so.
-/

set_option autoImplicit false

namespace WebProtocolStack

/-! ## Constants of the headers -/

/-- Modelled from the spec: `ETHERNET_MAX_TRANSPORT_UNIT` of `ethernet.h`, "MTU 1500". -/
@[simp] def ETHERNET_MAX_TRANSPORT_UNIT : Nat := 1500

/-- Modelled from the spec: `ETHERNET_MIN_TRANSPORT_UNIT` of `ethernet.h`,
"minimum Ethernet payload 46". -/
@[simp] def ETHERNET_MIN_TRANSPORT_UNIT : Nat := 46

/-- Modelled from the spec: `sizeof(ether_hdr_t)`, the 14-byte Ethernet header
`[dst MAC(6)][src MAC(6)][ethertype(2, BE)]`. -/
@[simp] def ETHER_HDR_LEN : Nat := 14

/-- Modelled from the spec: `NET_MAC_LEN`, a MAC address has 6 bytes. -/
@[simp] def NET_MAC_LEN : Nat := 6

/-- Modelled from the spec: `NET_IP_LEN`, an IPv4 address has 4 bytes. -/
@[simp] def NET_IP_LEN : Nat := 4

/-- Modelled from the spec: `NET_PROTOCOL_IP`, the IPv4 ethertype `0x0800`. -/
@[simp] def NET_PROTOCOL_IP : Nat := 0x0800

/-- Modelled from the spec: `NET_PROTOCOL_ARP`, the ARP ethertype (RFC 826) `0x0806`. -/
@[simp] def NET_PROTOCOL_ARP : Nat := 0x0806

/-- Modelled from the spec: `NET_PROTOCOL_TCP`, "protocol = 6". -/
@[simp] def NET_PROTOCOL_TCP : Nat := 6

/-- Modelled from the spec: `sizeof(ip_hdr_t)`, "Header is fixed 20 bytes (no options)". -/
@[simp] def IP_HDR_LEN : Nat := 20

/-- Modelled from the spec: `IP_HDR_LEN_PER_BYTE`, the IHL field counts 4-byte words. -/
@[simp] def IP_HDR_LEN_PER_BYTE : Nat := 4

/-- Modelled from the spec: `IP_HDR_OFFSET_PER_BYTE`, "The fragment offset is in 8-byte
units". -/
@[simp] def IP_HDR_OFFSET_PER_BYTE : Nat := 8

/-- Modelled from the spec: `IP_VERSION_4`. -/
@[simp] def IP_VERSION_4 : Nat := 4

/-- Modelled from the spec: `IP_DEFALUT_TTL`, "TTL (default 64)". -/
@[simp] def IP_DEFALUT_TTL : Nat := 64

/-- Modelled from the spec: `ARP_HW_ETHER`, "hardware type (=1)". -/
@[simp] def ARP_HW_ETHER : Nat := 1

/-- Modelled from the spec: `ARP_REQUEST`, "opcode (1=request, 2=reply)". -/
@[simp] def ARP_REQUEST : Nat := 1

/-- Modelled from the spec: `ARP_REPLY`, "opcode (1=request, 2=reply)". -/
@[simp] def ARP_REPLY : Nat := 2

/-- Modelled from the spec: `sizeof(arp_pkt_t)`, the RFC 826 packet for Ethernet/IPv4:
2+2+1+1+2+6+4+6+4 = 28 bytes. -/
@[simp] def ARP_PKT_LEN : Nat := 28

/-- Modelled from the spec: `ARP_TIMEOUT_SEC`, "ARP entry TTL ≈ 60 s". -/
@[simp] def ARP_TIMEOUT_SEC : Nat := 60

/-- Modelled from the spec: `ARP_MIN_INTERVAL`, "ARP pending TTL ≈ 1 s". -/
@[simp] def ARP_MIN_INTERVAL : Nat := 1

/-- Modelled from the spec: `ether_broadcast_mac`, the broadcast MAC `ff:ff:ff:ff:ff:ff`. -/
def ether_broadcast_mac : List Nat := [0xff, 0xff, 0xff, 0xff, 0xff, 0xff]

/-- Modelled from the spec: `sizeof(tcp_hdr_t)`, "Header (fixed 20 bytes, no options)". -/
@[simp] def TCP_HDR_LEN : Nat := 20

/-- Modelled from the spec: `sizeof(tcp_peso_hdr_t)`, the 12-byte pseudo-header
(src IP, dst IP, zero, protocol, length). -/
@[simp] def TCP_PESO_HDR_LEN : Nat := 12

/-- The constant `MAX_SQE_RND` of `tcp.c`. -/
@[simp] def MAX_SQE_RND : Nat := 100

/-- Modelled from the spec: `NET_PROTOCOL_ICMP`, the IPv4 protocol number 1 of ICMP. -/
@[simp] def NET_PROTOCOL_ICMP : Nat := 1

/-- Modelled from the spec: `NET_PROTOCOL_UDP`, "protocol (=17)". -/
@[simp] def NET_PROTOCOL_UDP : Nat := 17

/-- Modelled from the spec: `sizeof(icmp_hdr_t)`, "type, code, 16-bit checksum, 16-bit
id, 16-bit sequence": 8 bytes. -/
@[simp] def ICMP_HDR_LEN : Nat := 8

/-- Modelled from the spec: `ICMP_TYPE_ECHO_REQUEST`, "Echo Request (8)". -/
@[simp] def ICMP_TYPE_ECHO_REQUEST : Nat := 8

/-- Modelled from the spec: `ICMP_TYPE_ECHO_REPLY`, "Echo Reply (0)". -/
@[simp] def ICMP_TYPE_ECHO_REPLY : Nat := 0

/-- Modelled from the spec: `ICMP_TYPE_UNREACH`, "Destination Unreachable (type 3)". -/
@[simp] def ICMP_TYPE_UNREACH : Nat := 3

/-- Modelled from the spec: `ICMP_CODE_PROTOCOL_UNREACH`, code 2 of Destination
Unreachable. -/
@[simp] def ICMP_CODE_PROTOCOL_UNREACH : Nat := 2

/-- Modelled from the spec: `ICMP_CODE_PORT_UNREACH`, "ICMP type 3 code 3". -/
@[simp] def ICMP_CODE_PORT_UNREACH : Nat := 3

/-- Modelled from the spec: `sizeof(udp_hdr_t)`, "src port, dst port, length, checksum":
8 bytes. -/
@[simp] def UDP_HDR_LEN : Nat := 8

/-- Modelled from the spec: `sizeof(udp_peso_hdr_t)`, the 12-byte pseudo-header
(src IP, dst IP, zero, protocol, UDP length). -/
@[simp] def UDP_PESO_HDR_LEN : Nat := 12

/-! ## Byte order and checksum (`utils.c`) -/

/-- Modelled from the spec: the two bytes that a `uint16_t` field holds after
`field = swap16(v)`: "All multi-byte fields network byte order". -/
def swap16_bytes (v : Nat) : List Nat := [v / 256 % 256, v % 256]

/-- Modelled from the spec: the four bytes that a `uint32_t` field holds after
`field = swap32(v)` (network byte order). -/
def swap32_bytes (v : Nat) : List Nat :=
  [v / 16777216 % 256, v / 65536 % 256, v / 256 % 256, v % 256]

/-- Modelled from the spec: `swap16(field)` of the 16-bit field at byte offset `off`:
the big-endian value of the two bytes. -/
def get16 (bs : List Nat) (off : Nat) : Nat :=
  bs.getD off 0 * 256 + bs.getD (off + 1) 0

/-- Modelled from the spec: `swap32(field)` of the 32-bit field at byte offset `off`. -/
def get32 (bs : List Nat) (off : Nat) : Nat :=
  bs.getD off 0 * 16777216 + bs.getD (off + 1) 0 * 65536
    + bs.getD (off + 2) 0 * 256 + bs.getD (off + 3) 0

/-- Sum of the big-endian 16-bit words of a byte string; an odd final byte is padded
with a zero byte. -/
def sum16 : List Nat → Nat
  | [] => 0
  | [b] => b * 256
  | hi :: lo :: rest => hi * 256 + lo + sum16 rest

/-- End-around carry: add the bits above 16 to the low 16 bits. -/
def fold16 (s : Nat) : Nat := s % 65536 + s / 65536

/-- Modelled from the spec: `checksum16` of `utils.c`, the "ones-complement 16-bit
internet checksum", which "must handle odd lengths (pad with a final zero byte)".
The value is the one whose big-endian bytes stand in the checksum field.  Two folds
reduce every 32-bit sum. -/
def checksum16 (bs : List Nat) : Nat := 65535 - fold16 (fold16 (sum16 bs))

/-! ## Buffers (`buf.c`) -/

/-- Modelled from the spec: `buf_t`, "a contiguous backing region of fixed maximum
capacity" with "a movable `data` pointer into that region, and a current `len`".
The region `payload` is `head ++ data ++ tail`: `head` are the bytes in front of the
`data` pointer, `data` the `len` bytes of the window, `tail` the bytes behind it. -/
structure buf_t where
  head : List Nat
  data : List Nat
  tail : List Nat
deriving DecidableEq

/-- The capacity of the backing region (`BUF_MAX_LEN` for this buffer). -/
def buf_cap (buf : buf_t) : Nat := buf.head.length + buf.data.length + buf.tail.length

/-- The null buffer: a pointer that was never allocated owns no byte. -/
def buf_null : buf_t := ⟨[], [], []⟩

/-- Modelled from the spec: `buf_init`, "init-to-length".  The window gets `len` bytes
and is placed so that it ends in the middle of the region, which leaves room for
headers in front and for padding behind; the bytes of the region are kept.  It fails
(non-zero result, buffer unchanged) when the window would start before the region,
"Invariant: `data ≥ base`". -/
def buf_init (buf : buf_t) (len : Nat) : Int × buf_t :=
  let payload := buf.head ++ buf.data ++ buf.tail
  let mid := payload.length / 2
  if mid < len then (-1, buf)
  else (0, ⟨payload.take (mid - len), (payload.drop (mid - len)).take len, payload.drop mid⟩)

/-- Modelled from the spec: `buf_add_header`, "add-header (shift `data` backward)";
fails when fewer than `len` bytes of head room are left. -/
def buf_add_header (buf : buf_t) (len : Nat) : Int × buf_t :=
  if buf.head.length < len then (-1, buf)
  else (0, ⟨buf.head.take (buf.head.length - len),
            buf.head.drop (buf.head.length - len) ++ buf.data, buf.tail⟩)

/-- Modelled from the spec: `buf_remove_header`, "remove-header (shift `data` forward)";
fails when the window is shorter than `len`. -/
def buf_remove_header (buf : buf_t) (len : Nat) : Int × buf_t :=
  if buf.data.length < len then (-1, buf)
  else (0, ⟨buf.head ++ buf.data.take len, buf.data.drop len, buf.tail⟩)

/-- Modelled from the spec: `buf_add_padding`, "add-padding (extend `len`)"; fails when
the window would leave the region, "Invariant: `data + len ≤ base + BUF_MAX_LEN`". -/
def buf_add_padding (buf : buf_t) (len : Nat) : Int × buf_t :=
  if buf.tail.length < len then (-1, buf)
  else (0, ⟨buf.head, buf.data ++ buf.tail.take len, buf.tail.drop len⟩)

/-- Modelled from the spec: `buf_remove_padding`, "remove-padding (shrink `len`)". -/
def buf_remove_padding (buf : buf_t) (len : Nat) : Int × buf_t :=
  if buf.data.length < len then (-1, buf)
  else (0, ⟨buf.head, buf.data.take (buf.data.length - len),
            buf.data.drop (buf.data.length - len) ++ buf.tail⟩)

/-- The effect of `memcpy(buf->data + off, bs, |bs|)`: the bytes are written into the
region starting `off` bytes behind the `data` pointer; the window does not move.
Bytes that would fall behind the region are not written. -/
def buf_write (buf : buf_t) (off : Nat) (bs : List Nat) : buf_t :=
  let r := buf.data ++ buf.tail
  let r2 := (r.take off ++ bs ++ r.drop (off + bs.length)).take r.length
  ⟨buf.head, r2.take buf.data.length, r2.drop buf.data.length⟩

/-- The bytes read by `memcpy(dst, buf->data + off, n)`. -/
def buf_read (buf : buf_t) (off n : Nat) : List Nat :=
  ((buf.data ++ buf.tail).drop off).take n

/-! ## Timed maps (`map.c`) -/

/-- Modelled from the spec: `map_t`, a "mapping from a fixed-size key to a fixed-size
value, with an associated wall-clock timestamp per entry and a TTL in seconds"
(`timeout`, "0 = never expires").  All maps of the sources are created with
`max entries = 0`, which is unbounded. -/
structure map_t (K V : Type) where
  timeout : Nat
  entries : List (K × V × Nat)

/-- Modelled from the spec: an entry written at `ts` is alive at `now` when the map
never expires or at most `timeout` seconds have passed. -/
def map_entry_valid (timeout ts now : Nat) : Bool :=
  timeout == 0 || decide (now ≤ ts + timeout)

/-- Modelled from the spec: `map_init` with the given TTL, no entries. -/
def map_init (K V : Type) (timeout : Nat) : map_t K V := ⟨timeout, []⟩

/-- Modelled from the spec: `map_get`, "returns handle or null; expired entries are
purged lazily": an expired entry is never returned. -/
def map_get {K V : Type} [DecidableEq K] (m : map_t K V) (now : Nat) (k : K) : Option V :=
  (m.entries.find? (fun en => decide (en.1 = k) && map_entry_valid m.timeout en.2.2 now)).map
    (fun en => en.2.1)

/-- Modelled from the spec: `map_set`, "upsert; refreshes timestamp".  The value is
stored by copy. -/
def map_set {K V : Type} [DecidableEq K] (m : map_t K V) (now : Nat) (k : K) (v : V) :
    map_t K V :=
  ⟨m.timeout, (k, v, now) :: m.entries.filter (fun en => decide (en.1 ≠ k))⟩

/-- Modelled from the spec: `map_delete`. -/
def map_delete {K V : Type} [DecidableEq K] (m : map_t K V) (k : K) : map_t K V :=
  ⟨m.timeout, m.entries.filter (fun en => decide (en.1 ≠ k))⟩

/-- A store through a pointer that `map_get` returned: the value of the entry is
replaced, its timestamp is kept. -/
def map_store {K V : Type} [DecidableEq K] (m : map_t K V) (k : K) (v : V) : map_t K V :=
  ⟨m.timeout, m.entries.map (fun en => if en.1 = k then (en.1, v, en.2.2) else en)⟩

/-! ## Configuration and global state -/

/-- Modelled from the spec: the host configuration "provided at startup"
(`net_if_mac`, 6 bytes; `net_if_ip`, 4 bytes), and the bytes `heap` that the payload
of a freshly allocated `buf_t` holds (its length is `BUF_MAX_LEN`, its contents are
not specified). -/
structure Config where
  net_if_mac : List Nat
  net_if_ip : List Nat
  heap : List Nat

/-- The buffer that `malloc(sizeof(buf_t))` returns: nothing is initialised. -/
def buf_malloc (e : Config) : buf_t := ⟨[], [], e.heap⟩

/-- Modelled from the spec: `tcp_state_t` of `tcp.h`, the states that `tcp.c` names. -/
inductive tcp_state_t where
  | TCP_LISTEN
  | TCP_SYN_RCVD
  | TCP_ESTABLISHED
  | TCP_CLOSE_WAIT
  | TCP_FIN_WAIT_1
  | TCP_FIN_WAIT_2
  | TCP_LAST_ACK
deriving DecidableEq

/-- Modelled from the spec: `tcp_conn_event_t` of `tcp.h`,
"event ∈ {CONNECTED, DATA_RECV, CLOSED}". -/
inductive tcp_conn_event_t where
  | TCP_CONN_CONNECTED
  | TCP_CONN_DATA_RECV
  | TCP_CONN_CLOSED
deriving DecidableEq

/-- Modelled from the spec: `tcp_flags_t` of `tcp.h`, the
"8 flag bits (CWR, ECE, URG, ACK, PSH, RST, SYN, FIN)". -/
structure tcp_flags_t where
  cwr : Bool
  ece : Bool
  urg : Bool
  ack : Bool
  psh : Bool
  rst : Bool
  syn : Bool
  fin : Bool
deriving DecidableEq

/-- Modelled from the spec: `tcp_flags_ack_syn` of `tcp.h`, SYN|ACK. -/
def tcp_flags_ack_syn : tcp_flags_t := ⟨false, false, false, true, false, false, true, false⟩

/-- Modelled from the spec: `tcp_flags_ack_fin` of `tcp.h`, FIN|ACK. -/
def tcp_flags_ack_fin : tcp_flags_t := ⟨false, false, false, true, false, false, false, true⟩

/-- Modelled from the spec: `tcp_flags_ack` of `tcp.h`, ACK. -/
def tcp_flags_ack : tcp_flags_t := ⟨false, false, false, true, false, false, false, false⟩

/-- Modelled from the spec: `tcp_flags_ack_rst` of `tcp.h`, RST|ACK. -/
def tcp_flags_ack_rst : tcp_flags_t := ⟨false, false, false, true, false, true, false, false⟩

/-- Modelled from the spec: the flag byte of the TCP header on the wire, CWR the most
significant bit and FIN the least significant one. -/
def tcp_flags_byte (f : tcp_flags_t) : Nat :=
  (if f.cwr then 128 else 0) + (if f.ece then 64 else 0) + (if f.urg then 32 else 0)
    + (if f.ack then 16 else 0) + (if f.psh then 8 else 0) + (if f.rst then 4 else 0)
    + (if f.syn then 2 else 0) + (if f.fin then 1 else 0)

/-- Modelled from the spec: reading `hdr->flags` from the flag byte. -/
def tcp_flags_of_byte (b : Nat) : tcp_flags_t :=
  ⟨b / 128 % 2 = 1, b / 64 % 2 = 1, b / 32 % 2 = 1, b / 16 % 2 = 1,
   b / 8 % 2 = 1, b / 4 % 2 = 1, b / 2 % 2 = 1, b % 2 = 1⟩

/-- Modelled from the spec: `tcp_key_t` of `tcp.h`, "Key = (peer IP, peer port, local
port)". -/
structure tcp_key_t where
  ip : List Nat
  src_port : Nat
  dst_port : Nat
deriving DecidableEq

/-- Modelled from the spec: `tcp_connect_t` of `tcp.h`, the connection record.
`rx_buf` and `tx_buf` are pointers in C; a pointer that owns no buffer is `buf_null`. -/
structure tcp_connect_t where
  state : tcp_state_t
  local_port : Nat
  remote_port : Nat
  ip : List Nat
  unack_seq : Nat
  next_seq : Nat
  ack : Nat
  remote_win : Nat
  rx_buf : buf_t
  tx_buf : buf_t
deriving DecidableEq

/-- Modelled from the spec: `CONNECT_LISTEN` of `tcp.h`, "a fresh LISTEN record with
`rx_buf`/`tx_buf` = nil"; the other fields are zero. -/
def CONNECT_LISTEN : tcp_connect_t :=
  ⟨tcp_state_t.TCP_LISTEN, 0, 0, [0, 0, 0, 0], 0, 0, 0, 0, buf_null, buf_null⟩

/-- The arguments of one call of `ip_fragment_out`; `buf` is the window of the buffer. -/
structure ip_fragment_call where
  buf : List Nat
  ip : List Nat
  protocol : Nat
  id : Nat
  offset : Nat
  mf : Nat
deriving DecidableEq

/-- The arguments of one call of `ip_out`; `buf` is the window of the buffer. -/
structure ip_out_call where
  buf : List Nat
  ip : List Nat
  protocol : Nat
deriving DecidableEq

/-- One invocation `(*handler)(connect, event)` of an application handler: the handler
that `tcp_table` holds for the port, the connection record at that moment, the event. -/
structure handler_call where
  handler : Nat
  connect : tcp_connect_t
  event : tcp_conn_event_t
deriving DecidableEq

/-- One invocation `(*handler)(data, len, src_ip, src_port)` of a UDP handler: the
handler that `udp_table` holds for the port and the four arguments, `data` being the
`len` bytes that the pointer refers to. -/
structure udp_handler_call where
  handler : Nat
  data : List Nat
  len : Nat
  src_ip : List Nat
  src_port : Nat
deriving DecidableEq

/-- The arguments of one call of `net_in`; `buf` is the window of the buffer. -/
structure net_in_call where
  buf : List Nat
  protocol : Nat
  src : List Nat
deriving DecidableEq

/-- The global variables of the stack, and the records of the calls that leave it. -/
structure net_t where
  arp_table : map_t (List Nat) (List Nat)
  arp_buf : map_t (List Nat) buf_t
  ip_id : Nat
  txbuf : buf_t
  tcp_table : map_t Nat Nat
  connect_table : map_t tcp_key_t tcp_connect_t
  sent : List (List Nat)
  frag_calls : List ip_fragment_call
  arp_calls : List (List Nat × List Nat)
  ip_out_calls : List ip_out_call
  events : List handler_call
  panics : List Nat
  udp_table : map_t Nat Nat
  net_table : map_t Nat Nat
  udp_events : List udp_handler_call
  net_in_calls : List net_in_call

/-! ## Ethernet (`ethernet.c`) -/

/-- The function `ethernet_out` of `ethernet.c`: pad the payload to 46 bytes, prepend
the 14-byte header, hand the frame to `driver_send`.  The buffer is changed in place,
so it is returned with the state. -/
def ethernet_out (e : Config) (st : net_t) (buf : buf_t) (mac : List Nat) (protocol : Nat) :
    net_t × buf_t :=
  let buf1 := if buf.data.length < ETHERNET_MIN_TRANSPORT_UNIT
    then (buf_add_padding buf (ETHERNET_MIN_TRANSPORT_UNIT - buf.data.length)).2 else buf
  let buf2 := (buf_add_header buf1 ETHER_HDR_LEN).2
  let buf3 := buf_write buf2 0 (mac.take NET_MAC_LEN)
  let buf4 := buf_write buf3 6 (e.net_if_mac.take NET_MAC_LEN)
  let buf5 := buf_write buf4 12 (swap16_bytes (protocol % 65536))
  ({ st with sent := st.sent ++ [buf5.data] }, buf5)

/-! ## ARP (`arp.c`) -/

/-- The 28 bytes of an `arp_pkt_t` as `arp_req` and `arp_resp` fill it. -/
def arp_pkt (opcode : Nat) (sender_mac sender_ip target_mac target_ip : List Nat) : List Nat :=
  swap16_bytes ARP_HW_ETHER ++ swap16_bytes NET_PROTOCOL_IP ++ [NET_MAC_LEN, NET_IP_LEN]
    ++ swap16_bytes opcode ++ sender_mac.take NET_MAC_LEN ++ sender_ip.take NET_IP_LEN
    ++ target_mac.take NET_MAC_LEN ++ target_ip.take NET_IP_LEN

/-- The function `arp_req` of `arp.c`: broadcast an ARP request for `target_ip`, built
in a buffer of its own. -/
def arp_req (e : Config) (st : net_t) (target_ip : List Nat) : net_t :=
  let tbuf := (buf_init (buf_malloc e) ARP_PKT_LEN).2
  let tbuf := buf_write tbuf 0
    (arp_pkt ARP_REQUEST e.net_if_mac e.net_if_ip (List.replicate NET_MAC_LEN 0) target_ip)
  let tbuf := (buf_add_padding tbuf (ETHERNET_MIN_TRANSPORT_UNIT - ARP_PKT_LEN)).2
  (ethernet_out e st tbuf ether_broadcast_mac NET_PROTOCOL_ARP).1

/-- The function `arp_resp` of `arp.c`: send an ARP reply to `target_mac`, built in the
global `txbuf`. -/
def arp_resp (e : Config) (st : net_t) (target_ip target_mac : List Nat) : net_t :=
  let buf := (buf_init st.txbuf ARP_PKT_LEN).2
  let buf := buf_write buf 0
    (arp_pkt ARP_REPLY e.net_if_mac e.net_if_ip target_mac target_ip)
  let buf := (buf_add_padding buf (ETHERNET_MIN_TRANSPORT_UNIT - ARP_PKT_LEN)).2
  let r := ethernet_out e st buf target_mac NET_PROTOCOL_ARP
  { r.1 with txbuf := r.2 }

/-- The function `arp_in` of `arp.c`: validate the packet, learn the sender, then send
the buffer pending for the sender or answer a request for the local IP. -/
def arp_in (e : Config) (st : net_t) (buf : buf_t) (src_mac : List Nat) (now : Nat) : net_t :=
  if buf.data.length < ARP_PKT_LEN then st
  else
    let opcode := get16 buf.data 6
    if get16 buf.data 0 ≠ ARP_HW_ETHER ∨ get16 buf.data 2 ≠ NET_PROTOCOL_IP
        ∨ buf.data.getD 4 0 ≠ NET_MAC_LEN ∨ buf.data.getD 5 0 ≠ NET_IP_LEN
        ∨ (opcode ≠ ARP_REQUEST ∧ opcode ≠ ARP_REPLY) then st
    else
      let src_ip := (buf.data.drop 14).take NET_IP_LEN
      let st1 := { st with arp_table := map_set st.arp_table now src_ip (src_mac.take NET_MAC_LEN) }
      match map_get st1.arp_buf now src_ip with
      | none =>
        if opcode = ARP_REQUEST ∧ (buf.data.drop 24).take NET_IP_LEN = e.net_if_ip.take NET_IP_LEN
        then arp_resp e st1 src_ip src_mac
        else st1
      | some cache =>
        let r := ethernet_out e st1 cache src_mac (get16 buf.data 2)
        { r.1 with arp_buf := map_delete r.1.arp_buf src_ip }

/-- The function `arp_out` of `arp.c`: send `buf` to the MAC of `ip` when it is known,
else queue a copy of `buf` in `arp_buf`, after an ARP request when nothing is pending. -/
def arp_out (e : Config) (st : net_t) (buf : buf_t) (ip : List Nat) (now : Nat) : net_t × buf_t :=
  let st0 := { st with arp_calls := st.arp_calls ++ [(buf.data, ip)] }
  let mac0 := map_get st0.arp_table now (ip.take NET_IP_LEN)
  let mac := if ip.take NET_IP_LEN = e.net_if_ip.take NET_IP_LEN then some e.net_if_mac else mac0
  match mac with
  | none =>
    let st1 := match map_get st0.arp_buf now (ip.take NET_IP_LEN) with
      | none => arp_req e st0 ip
      | some _ => st0
    ({ st1 with arp_buf := map_set st1.arp_buf now (ip.take NET_IP_LEN) buf }, buf)
  | some m => ethernet_out e st0 buf m NET_PROTOCOL_IP

/-- The function `arp_init` of `arp.c`: create both maps and announce the local IP. -/
def arp_init (e : Config) (st : net_t) : net_t :=
  arp_req e { st with arp_table := map_init (List Nat) (List Nat) ARP_TIMEOUT_SEC,
                      arp_buf := map_init (List Nat) buf_t ARP_MIN_INTERVAL } e.net_if_ip

/-! ## IPv4 (`ip.c`) -/

/-- The 20 header bytes that `ip_fragment_out` writes, the checksum field still zero;
`len` is `buf->len` once the header room is added. -/
def ip_hdr_bytes (e : Config) (len : Nat) (ip : List Nat) (protocol id offset mf : Nat) :
    List Nat :=
  [IP_VERSION_4 * 16 + IP_HDR_LEN / IP_HDR_LEN_PER_BYTE, 0]
    ++ swap16_bytes (len % 65536) ++ swap16_bytes (id % 65536)
    ++ swap16_bytes (((mf <<< 13) ||| offset) % 65536)
    ++ [IP_DEFALUT_TTL, protocol % 256, 0, 0]
    ++ e.net_if_ip.take NET_IP_LEN ++ ip.take NET_IP_LEN

/-- The function `ip_fragment_out` of `ip.c`: prepend the IP header to the fragment,
fill it, write the header checksum and hand the datagram to `arp_out`. -/
def ip_fragment_out (e : Config) (st : net_t) (buf : buf_t) (ip : List Nat)
    (protocol id offset mf now : Nat) : net_t × buf_t :=
  let st0 := { st with frag_calls := st.frag_calls ++ [⟨buf.data, ip, protocol, id, offset, mf⟩] }
  let buf1 := (buf_add_header buf IP_HDR_LEN).2
  let buf2 := buf_write buf1 0 (ip_hdr_bytes e buf1.data.length ip protocol id offset mf)
  let c := checksum16 (buf_read buf2 0 IP_HDR_LEN)
  let buf3 := buf_write buf2 10 [c / 256 % 256, c % 256]
  arp_out e st0 buf3 ip now

/-- The `while` loop of `ip_out`: as long as more than `ETHERNET_MAX_TRANSPORT_UNIT`
bytes remain behind `offset * 8`, send a fragment of `MTU - 20` bytes with `mf = 1`.
`len` is a `size_t`, `offset` a `uint16_t`.  The result is `none` when `fuel`
iterations do not reach the end of the loop. -/
def ip_out_loop (e : Config) (buf : buf_t) (ip : List Nat) (protocol now len : Nat) :
    Nat → net_t → buf_t → Nat → Option (net_t × buf_t × Nat)
  | 0, _, _, _ => none
  | fuel + 1, st, tbuf, offset =>
    if (len + 2 ^ 64 - offset * IP_HDR_OFFSET_PER_BYTE) % 2 ^ 64 > ETHERNET_MAX_TRANSPORT_UNIT then
      let l := ETHERNET_MAX_TRANSPORT_UNIT - IP_HDR_LEN
      let tbuf1 := (buf_init tbuf l).2
      let tbuf2 := buf_write tbuf1 0 (buf_read buf (offset * IP_HDR_OFFSET_PER_BYTE) l)
      let r := ip_fragment_out e st tbuf2 ip protocol st.ip_id offset 1 now
      ip_out_loop e buf ip protocol now len fuel r.1 r.2
        ((offset + (ETHERNET_MAX_TRANSPORT_UNIT - IP_HDR_LEN) / IP_HDR_OFFSET_PER_BYTE) % 2 ^ 16)
    else some (st, tbuf, offset)

/-- The function `ip_out` of `ip.c`: run the fragment loop, send the last fragment with
`mf = 0`, then increment `ip_id` (a `uint16_t`). -/
def ip_out (e : Config) (st : net_t) (buf : buf_t) (ip : List Nat) (protocol now fuel : Nat) :
    Option net_t :=
  let len := buf.data.length
  match ip_out_loop e buf ip protocol now len fuel st (buf_malloc e) 0 with
  | none => none
  | some (st1, tbuf, offset) =>
    let l := (len + 2 ^ 64 - offset * IP_HDR_OFFSET_PER_BYTE) % 2 ^ 64
    let tbuf1 := (buf_init tbuf l).2
    let tbuf2 := buf_write tbuf1 0 (buf_read buf (offset * IP_HDR_OFFSET_PER_BYTE) l)
    let r := ip_fragment_out e st1 tbuf2 ip protocol st1.ip_id offset 0 now
    some { r.1 with ip_id := (st1.ip_id + 1) % 2 ^ 16 }

/-! ## TCP (`tcp.c`) -/

/-- The function `init_tcp_connect_rcvd` of `tcp.c`: allocate both buffers when the
record is in LISTEN, initialise them to length 0, go to SYN_RCVD. -/
def init_tcp_connect_rcvd (e : Config) (c : tcp_connect_t) : tcp_connect_t :=
  let c1 := if c.state = tcp_state_t.TCP_LISTEN
    then { c with rx_buf := buf_malloc e, tx_buf := buf_malloc e } else c
  { c1 with rx_buf := (buf_init c1.rx_buf 0).2, tx_buf := (buf_init c1.tx_buf 0).2,
            state := tcp_state_t.TCP_SYN_RCVD }

/-- The function `release_tcp_connect` of `tcp.c`: free both buffers and go back to
LISTEN; nothing happens in LISTEN.  A freed pointer owns no byte. -/
def release_tcp_connect (c : tcp_connect_t) : tcp_connect_t :=
  if c.state = tcp_state_t.TCP_LISTEN then c
  else { c with rx_buf := buf_null, tx_buf := buf_null, state := tcp_state_t.TCP_LISTEN }

/-- The 12 bytes of the pseudo-header that `tcp_checksum` writes in front of the TCP
header: source IP, destination IP, zero, protocol 6, `swap16(len)`. -/
def tcp_peso_hdr_bytes (src_ip dst_ip : List Nat) (len : Nat) : List Nat :=
  src_ip.take NET_IP_LEN ++ dst_ip.take NET_IP_LEN ++ [0, NET_PROTOCOL_TCP] ++ swap16_bytes len

/-- The function `tcp_checksum` of `tcp.c`: save the 12 bytes in front of `buf->data`,
write the pseudo-header there, compute `checksum16` over the pseudo-header and the
`(uint16_t) buf->len` bytes of the buffer, restore the saved bytes.  The 12 bytes in
front of `buf->data` belong to the buffer whenever this is called. -/
def tcp_checksum (buf : buf_t) (src_ip dst_ip : List Nat) : Nat × buf_t :=
  let len := buf.data.length % 65536
  let pre := buf.head.drop (buf.head.length - TCP_PESO_HDR_LEN)
  let buf1 : buf_t := ⟨buf.head.take (buf.head.length - TCP_PESO_HDR_LEN)
    ++ tcp_peso_hdr_bytes src_ip dst_ip len, buf.data, buf.tail⟩
  let checksum := checksum16
    ((buf1.head.drop (buf1.head.length - TCP_PESO_HDR_LEN) ++ buf1.data ++ buf1.tail).take
      (len + TCP_PESO_HDR_LEN))
  let buf2 : buf_t := ⟨buf1.head.take (buf1.head.length - TCP_PESO_HDR_LEN) ++ pre,
    buf1.data, buf1.tail⟩
  (checksum, buf2)

/-- The function `tcp_read_from_buf` of `tcp.c`: extend `rx_buf` by `buf->len` bytes (the
result of `buf_add_padding` is not looked at), copy the bytes of `buf` behind the old
end of `rx_buf`, advance `ack` (a `uint32_t`) by `buf->len`. -/
def tcp_read_from_buf (c : tcp_connect_t) (buf : buf_t) : tcp_connect_t :=
  let dst := c.rx_buf.data.length
  let rx1 := (buf_add_padding c.rx_buf buf.data.length).2
  let rx2 := buf_write rx1 dst buf.data
  { c with rx_buf := rx2, ack := (c.ack + buf.data.length) % 2 ^ 32 }

/-- The function `tcp_write_to_buf` of `tcp.c`: `sent` and `size` are `uint16_t`,
`tx_buf->len - sent` is computed in `size_t`; `buf` is initialised to `size` bytes,
which are copied from `tx_buf->data + sent`; `next_seq` advances by `size`. -/
def tcp_write_to_buf (c : tcp_connect_t) (buf : buf_t) : Nat × tcp_connect_t × buf_t :=
  let sent := (c.next_seq + 2 ^ 32 - c.unack_seq) % 2 ^ 32 % 2 ^ 16
  let size := min ((c.tx_buf.data.length + 2 ^ 64 - sent) % 2 ^ 64) c.remote_win % 2 ^ 16
  let buf1 := (buf_init buf size).2
  let buf2 := buf_write buf1 0 (buf_read c.tx_buf sent size)
  (size, { c with next_seq := (c.next_seq + size) % 2 ^ 32 }, buf2)

/-- The 20 bytes of the TCP header that `tcp_send` writes, the checksum field still
zero: ports, `swap32(next_seq - prev_len)`, `swap32(ack)`, data offset 5, flags, the
window field (filled from `remote_win`), checksum, urgent pointer. -/
def tcp_hdr_bytes (c : tcp_connect_t) (prev_len : Nat) (flags : tcp_flags_t) : List Nat :=
  swap16_bytes (c.local_port % 65536) ++ swap16_bytes (c.remote_port % 65536)
    ++ swap32_bytes ((c.next_seq + 2 ^ 64 - prev_len) % 2 ^ 64 % 2 ^ 32)
    ++ swap32_bytes (c.ack % 2 ^ 32)
    ++ [TCP_HDR_LEN / 4 * 16, tcp_flags_byte flags]
    ++ swap16_bytes (c.remote_win % 65536) ++ [0, 0] ++ [0, 0]

/-- The function `tcp_send` of `tcp.c`: prepend the TCP header to `buf`, fill it, write
the checksum, hand the segment to `ip_out` (recorded in `ip_out_calls`), and count the
SYN or FIN in `next_seq`.  The buffer and the connection record are changed in place, so
they are returned with the state. -/
def tcp_send (e : Config) (st : net_t) (buf : buf_t) (c : tcp_connect_t) (flags : tcp_flags_t) :
    net_t × buf_t × tcp_connect_t :=
  let prev_len := buf.data.length
  let buf1 := (buf_add_header buf TCP_HDR_LEN).2
  let buf2 := buf_write buf1 0 (tcp_hdr_bytes c prev_len flags)
  let r := tcp_checksum buf2 c.ip e.net_if_ip
  let buf3 := buf_write r.2 16 (swap16_bytes r.1)
  let st1 := { st with ip_out_calls := st.ip_out_calls ++ [⟨buf3.data, c.ip, NET_PROTOCOL_TCP⟩] }
  let c1 := if flags.syn || flags.fin then { c with next_seq := (c.next_seq + 1) % 2 ^ 32 } else c
  (st1, buf3, c1)

/-- The four statements that `tcp_in` has twice (lines 370 to 373 and 395 to 398):
`next_seq = 0`, `ack = getSeq + 1`, `buf_init(&txbuf, 0)`, `tcp_send` of RST|ACK. -/
def tcp_in_reset (e : Config) (st : net_t) (c : tcp_connect_t) (getSeq : Nat) :
    net_t × tcp_connect_t :=
  let c1 := { c with next_seq := 0, ack := (getSeq + 1) % 2 ^ 32 }
  let r := tcp_send e st (buf_init st.txbuf 0).2 c1 tcp_flags_ack_rst
  ({ r.1 with txbuf := r.2.1 }, r.2.2)

/-- The branch `connect->state == TCP_LISTEN` of `tcp_in` (lines 358 to 390).  A store
through `connect` is a store into the entry of `key`.  After the RST|ACK for a segment
without SYN there is no `return`. -/
def tcp_in_listen (e : Config) (st : net_t) (key : tcp_key_t) (c : tcp_connect_t)
    (src_ip : List Nat) (srcPort dstPort getSeq windowSize : Nat) (flags : tcp_flags_t)
    (rnd : Nat) : net_t :=
  if flags.rst then
    let tbl := map_delete (map_store st.connect_table key (release_tcp_connect c)) key
    { st with connect_table := tbl }
  else
    let r0 := if !flags.syn then tcp_in_reset e st c getSeq else (st, c)
    let c1 := init_tcp_connect_rcvd e r0.2
    let isn := rnd % MAX_SQE_RND
    let c2 := { c1 with local_port := dstPort, remote_port := srcPort,
                        ip := src_ip.take NET_IP_LEN, unack_seq := isn, next_seq := isn,
                        ack := (getSeq + 1) % 2 ^ 32, remote_win := windowSize }
    let r := tcp_send e r0.1 (buf_init r0.1.txbuf 0).2 c2 tcp_flags_ack_syn
    { r.1 with txbuf := r.2.1, connect_table := map_store r.1.connect_table key r.2.2 }

/-- The `switch (connect->state)` of `tcp_in` (lines 409 to 514), `buf` being the segment
without its header.  The case TCP_LAST_ACK has no `break` and falls into `default`. -/
def tcp_in_switch (e : Config) (st : net_t) (key : tcp_key_t) (c : tcp_connect_t)
    (handler : Nat) (buf : buf_t) (getAck : Nat) (flags : tcp_flags_t) : net_t :=
  match c.state with
  | tcp_state_t.TCP_LISTEN =>
    { st with panics := st.panics ++ [414], connect_table := map_store st.connect_table key c }
  | tcp_state_t.TCP_SYN_RCVD =>
    if !flags.ack then { st with connect_table := map_store st.connect_table key c }
    else
      let c1 := { c with unack_seq := (c.unack_seq + 1) % 2 ^ 32,
                         state := tcp_state_t.TCP_ESTABLISHED }
      { st with events := st.events ++ [⟨handler, c1, tcp_conn_event_t.TCP_CONN_CONNECTED⟩],
                connect_table := map_store st.connect_table key c1 }
  | tcp_state_t.TCP_ESTABLISHED =>
    if !flags.ack && !flags.fin then
      { st with connect_table := map_store st.connect_table key c }
    else
      let c1 := if flags.ack && decide (c.unack_seq < getAck) && decide (c.next_seq ≥ getAck)
        then { c with
          tx_buf := (buf_remove_header c.tx_buf
            (min ((getAck + 2 ^ 32 - c.unack_seq) % 2 ^ 32)
              ((c.next_seq + 2 ^ 32 - c.unack_seq) % 2 ^ 32))).2,
          unack_seq := min getAck c.next_seq }
        else c
      let c2 := tcp_read_from_buf c1 buf
      let txbuf1 := (buf_init st.txbuf 0).2
      if flags.fin then
        let c3 := { c2 with state := tcp_state_t.TCP_LAST_ACK, ack := (c2.ack + 1) % 2 ^ 32 }
        let r := tcp_send e st txbuf1 c3 tcp_flags_ack_fin
        { r.1 with txbuf := r.2.1, connect_table := map_store r.1.connect_table key r.2.2 }
      else if buf.data.length > 0 then
        let st1 := { st with
          events := st.events ++ [⟨handler, c2, tcp_conn_event_t.TCP_CONN_DATA_RECV⟩] }
        let w := tcp_write_to_buf c2 txbuf1
        let r := tcp_send e st1 w.2.2 w.2.1 tcp_flags_ack
        { r.1 with txbuf := r.2.1, connect_table := map_store r.1.connect_table key r.2.2 }
      else
        { st with txbuf := txbuf1, connect_table := map_store st.connect_table key c2 }
  | tcp_state_t.TCP_CLOSE_WAIT =>
    { st with panics := st.panics ++ [469], connect_table := map_store st.connect_table key c }
  | tcp_state_t.TCP_FIN_WAIT_1 =>
    if flags.fin && flags.ack then
      let tbl := map_delete (map_store st.connect_table key (release_tcp_connect c)) key
      { st with connect_table := tbl }
    else if flags.ack then
      let c1 := { c with state := tcp_state_t.TCP_FIN_WAIT_2 }
      { st with connect_table := map_store st.connect_table key c1 }
    else { st with connect_table := map_store st.connect_table key c }
  | tcp_state_t.TCP_FIN_WAIT_2 =>
    if flags.fin then
      let c1 := { c with ack := (c.ack + 1) % 2 ^ 32 }
      let r := tcp_send e st (buf_init st.txbuf 0).2 c1 tcp_flags_ack
      let tbl := map_delete (map_store r.1.connect_table key (release_tcp_connect r.2.2)) key
      { r.1 with txbuf := r.2.1, connect_table := tbl }
    else { st with connect_table := map_store st.connect_table key c }
  | tcp_state_t.TCP_LAST_ACK =>
    if flags.ack then
      let tbl := map_delete (map_store st.connect_table key (release_tcp_connect c)) key
      { st with events := st.events ++ [⟨handler, c, tcp_conn_event_t.TCP_CONN_CLOSED⟩],
                connect_table := tbl }
    else
      { st with panics := st.panics ++ [510], connect_table := map_store st.connect_table key c }

/-- The function `tcp_in` of `tcp.c`: drop short segments and segments whose checksum
does not verify, look up the handler of the destination port and the connection of
(source IP, source port, destination port), installing `CONNECT_LISTEN` when there is
none; then the LISTEN branch, or the sequence check, the RST check and the switch.  An
application handler is recorded in `events` and leaves the state alone. -/
def tcp_in (e : Config) (st : net_t) (buf : buf_t) (src_ip : List Nat) (rnd now : Nat) : net_t :=
  if buf.data.length < TCP_HDR_LEN then st
  else
    let chk := get16 buf.data 16
    let saved := buf_read buf 16 2
    let r := tcp_checksum (buf_write buf 16 [0, 0]) src_ip e.net_if_ip
    if r.1 ≠ chk then st
    else
      let buf1 := buf_write r.2 16 saved
      let srcPort := get16 buf1.data 0
      let dstPort := get16 buf1.data 2
      let getSeq := get32 buf1.data 4
      let getAck := get32 buf1.data 8
      let flags := tcp_flags_of_byte (buf1.data.getD 13 0)
      match map_get st.tcp_table now dstPort with
      | none => st
      | some handler =>
        let key : tcp_key_t := ⟨src_ip.take NET_IP_LEN, srcPort, dstPort⟩
        let tbl := match map_get st.connect_table now key with
          | none => map_set st.connect_table now key CONNECT_LISTEN
          | some _ => st.connect_table
        let c := (map_get tbl now key).getD CONNECT_LISTEN
        let st1 := { st with connect_table := tbl }
        let windowSize := get16 buf1.data 14
        if c.state = tcp_state_t.TCP_LISTEN then
          tcp_in_listen e st1 key c src_ip srcPort dstPort getSeq windowSize flags rnd
        else
          let r1 := if getSeq ≠ c.ack then tcp_in_reset e st1 c getSeq else (st1, c)
          if flags.rst then
            let tbl1 := map_delete
              (map_store r1.1.connect_table key (release_tcp_connect r1.2)) key
            { r1.1 with connect_table := tbl1 }
          else
            tcp_in_switch e r1.1 key r1.2 handler (buf_remove_header buf1 TCP_HDR_LEN).2
              getAck flags

/-- The function `tcp_open` of `tcp.c`: register `handler` for `port`. -/
def tcp_open (st : net_t) (port handler now : Nat) : net_t :=
  { st with tcp_table := map_set st.tcp_table now port handler }

/-- The statements `memmove(buf->payload, buf->data, buf->len); buf->data = buf->payload`
of `tcp_connect_read` and `tcp_connect_write`: the window is moved to the start of the
region. -/
def buf_compact (buf : buf_t) : buf_t :=
  ⟨[], buf.data, (buf.head ++ buf.data ++ buf.tail).drop buf.data.length⟩

/-- The function `tcp_connect_read` of `tcp.c`: copy `min(rx_buf->len, len)` bytes from
the front of `rx_buf` to the array of the caller and remove them from `rx_buf`.  The
result is the returned size, the bytes written to the array, and the connection. -/
def tcp_connect_read (c : tcp_connect_t) (len : Nat) : Nat × List Nat × tcp_connect_t :=
  let size := min c.rx_buf.data.length len
  let out := buf_read c.rx_buf 0 size
  let r := buf_remove_header c.rx_buf size
  let rx := if r.1 ≠ 0 then buf_compact r.2 else r.2
  (size, out, { c with rx_buf := rx })

/-- The function `tcp_connect_write` of `tcp.c`.  `next_seq - unack_seq` is computed in
`uint32_t`, the sum with `len` in `size_t`; `&tx_buf->payload[BUF_MAX_LEN] - dst` is the
number of bytes behind the window of `tx_buf`; `data` is the array of the caller, of
which `size` bytes are copied.  The result is the returned size, the state and the
connection. -/
def tcp_connect_write (e : Config) (st : net_t) (c : tcp_connect_t) (data : List Nat)
    (len : Nat) : Nat × net_t × tcp_connect_t :=
  let dst := c.tx_buf.data.length
  let size := min c.tx_buf.tail.length len
  if ((c.next_seq + 2 ^ 32 - c.unack_seq) % 2 ^ 32 + len) % 2 ^ 64 ≥ c.remote_win then
    (0, st, c)
  else
    let r := buf_add_padding c.tx_buf size
    if r.1 ≠ 0 then
      let c1 := { c with tx_buf := buf_compact r.2 }
      let w := tcp_write_to_buf c1 st.txbuf
      if w.1 ≠ 0 then
        let r2 := tcp_send e st w.2.2 w.2.1 tcp_flags_ack
        (0, { r2.1 with txbuf := r2.2.1 }, r2.2.2)
      else (0, { st with txbuf := w.2.2 }, w.2.1)
    else
      (size, st, { c with tx_buf := buf_write r.2 dst (data.take size) })

/-! ## Net core (`net.c`) -/

/-- Modelled from the spec: `net_in(buf, proto, src)`, which "returns an error if no
handler is registered" in the "registry: protocol number → handler".  The call is
recorded; the handler that it runs leaves the state alone. -/
def net_in (st : net_t) (buf : buf_t) (protocol : Nat) (src : List Nat) (now : Nat) :
    Int × net_t :=
  let st1 := { st with net_in_calls := st.net_in_calls ++ [⟨buf.data, protocol, src⟩] }
  match map_get st.net_table now protocol with
  | some _ => (0, st1)
  | none => (-1, st1)

/-- Modelled from the spec: `net_add_protocol(protocol, handler)`, an entry of the
registry. -/
def net_add_protocol (st : net_t) (protocol handler now : Nat) : net_t :=
  { st with net_table := map_set st.net_table now protocol handler }

/-! ## Ethernet, receive side (`ethernet.c`) -/

/-- The function `is_mac_equal` of `ethernet.c`: the 6 bytes at `dst` are the local MAC
or the broadcast MAC. -/
def is_mac_equal (e : Config) (dst : List Nat) : Bool :=
  decide (dst.take NET_MAC_LEN = e.net_if_mac.take NET_MAC_LEN)
    || decide (dst.take NET_MAC_LEN = ether_broadcast_mac.take NET_MAC_LEN)

/-- The function `ethernet_in` of `ethernet.c`: drop frames shorter than the header,
remove the header, and hand the payload to `net_in` when the destination is the local or
the broadcast MAC.  `hdr` keeps pointing at the 14 bytes in front of the window. -/
def ethernet_in (e : Config) (st : net_t) (buf : buf_t) (now : Nat) : net_t × buf_t :=
  if buf.data.length < ETHER_HDR_LEN then (st, buf)
  else
    let hdr := buf_read buf 0 ETHER_HDR_LEN
    let buf1 := (buf_remove_header buf ETHER_HDR_LEN).2
    if is_mac_equal e (hdr.take NET_MAC_LEN) then
      ((net_in st buf1 (get16 hdr 12) ((hdr.drop NET_MAC_LEN).take NET_MAC_LEN) now).2, buf1)
    else (st, buf1)

/-! ## ICMP (`icmp.c`) -/

/-- The function `icmp_resp` of `icmp.c`: turn the request into a reply in place (type,
checksum over the whole message) and hand it to `ip_out`. -/
def icmp_resp (st : net_t) (req_buf : buf_t) (src_ip : List Nat) : net_t × buf_t :=
  let buf1 := buf_write req_buf 0 [ICMP_TYPE_ECHO_REPLY]
  let buf2 := buf_write buf1 2 [0, 0]
  let buf3 := buf_write buf2 2 (swap16_bytes (checksum16 buf2.data))
  ({ st with ip_out_calls := st.ip_out_calls ++ [⟨buf3.data, src_ip, NET_PROTOCOL_ICMP⟩] }, buf3)

/-- The function `icmp_in` of `icmp.c`: answer an echo request, ignore everything else. -/
def icmp_in (st : net_t) (buf : buf_t) (src_ip : List Nat) : net_t × buf_t :=
  if buf.data.length < ICMP_HDR_LEN then (st, buf)
  else if buf.data.getD 0 0 = ICMP_TYPE_ECHO_REQUEST then icmp_resp st buf src_ip
  else (st, buf)

/-- The function `icmp_unreachable` of `icmp.c`: build in `txbuf` the header (type 3,
`code`, checksum, id 0, sequence 0) followed by the 28 bytes at `recv_buf->data`, write
the checksum over the message, hand it to `ip_out`. -/
def icmp_unreachable (st : net_t) (recv_buf : buf_t) (src_ip : List Nat) (code : Nat) : net_t :=
  let buf := (buf_init st.txbuf (ICMP_HDR_LEN + IP_HDR_LEN + 8)).2
  let buf1 := buf_write buf 0 [ICMP_TYPE_UNREACH, code % 256, 0, 0, 0, 0, 0, 0]
  let buf2 := buf_write buf1 ICMP_HDR_LEN (buf_read recv_buf 0 (IP_HDR_LEN + 8))
  let buf3 := buf_write buf2 2 (swap16_bytes (checksum16 buf2.data))
  { st with txbuf := buf3,
            ip_out_calls := st.ip_out_calls ++ [⟨buf3.data, src_ip, NET_PROTOCOL_ICMP⟩] }

/-! ## IPv4, receive side (`ip.c`) -/

/-- The function `ip_in` of `ip.c`: drop what is too short, not version 4, longer than
the buffer, not for the local IP, or has a wrong header checksum; remove the padding
behind `total_len` and the 20 header bytes; hand the rest to `net_in`, and answer with
ICMP protocol unreachable when `net_in` returns -1.  `hdr` keeps pointing at the header
bytes, which stay in memory.  The version is the high nibble of the first byte.  The
argument `src_mac` of the C function is not used and left out. -/
def ip_in (e : Config) (st : net_t) (buf : buf_t) (now : Nat) : net_t × buf_t :=
  if buf.data.length < IP_HDR_LEN then (st, buf)
  else
    let hdr := buf_read buf 0 IP_HDR_LEN
    if hdr.getD 0 0 / 16 ≠ IP_VERSION_4 ∨ get16 hdr 2 > buf.data.length then (st, buf)
    else if e.net_if_ip.take NET_IP_LEN ≠ (hdr.drop 16).take NET_IP_LEN then (st, buf)
    else
      let chk := hdr.take 10 ++ [0, 0] ++ hdr.drop 12
      if checksum16 chk ≠ get16 hdr 10 then (st, buf)
      else
        let buf1 := (buf_remove_padding buf (buf.data.length - get16 hdr 2)).2
        let buf2 := (buf_remove_header buf1 IP_HDR_LEN).2
        let src_ip := (hdr.drop 12).take NET_IP_LEN
        let r := net_in st buf2 (hdr.getD 9 0) src_ip now
        if r.1 = -1 then
          let buf3 := (buf_add_header buf2 IP_HDR_LEN).2
          (icmp_unreachable r.2 buf3 src_ip ICMP_CODE_PROTOCOL_UNREACH, buf3)
        else (r.2, buf2)

/-! ## UDP (`udp.c`) -/

/-- The function `udp_checksum` of `udp.c`: make room for the pseudo-header in front of
the UDP header (`hdr` keeps pointing at the UDP header, `off` bytes behind the new
`data` pointer), save the 12 bytes there, write the pseudo-header (the length field
copied from `hdr->total_len16`), compute `checksum16` over the `buf->len` bytes, restore
the saved bytes, remove the room again. -/
def udp_checksum (buf : buf_t) (src_ip dst_ip : List Nat) : Nat × buf_t :=
  let r := buf_add_header buf UDP_PESO_HDR_LEN
  let off := if r.1 = 0 then UDP_PESO_HDR_LEN else 0
  let peso_hdr := buf_read r.2 0 UDP_PESO_HDR_LEN
  let buf1 := buf_write r.2 0 (src_ip.take NET_IP_LEN)
  let buf2 := buf_write buf1 4 (dst_ip.take NET_IP_LEN)
  let buf3 := buf_write buf2 8 [0, NET_PROTOCOL_UDP]
  let buf4 := buf_write buf3 10 (buf_read buf3 (off + 4) 2)
  let sum := checksum16 buf4.data
  let buf5 := buf_write buf4 0 peso_hdr
  (sum, (buf_remove_header buf5 UDP_PESO_HDR_LEN).2)

/-- The function `udp_in` of `udp.c`: drop what is shorter than the header or than its
length field, or has a non-zero checksum; `hdr->dst_port16 = swap16(hdr->dst_port16)`
stores the port in host byte order, which swaps the two bytes of the field in the buffer
(`swap16` exchanges the two bytes of its argument); the value is the key for `udp_table`;
with a handler the header is removed and the handler invoked, without one the IP header
is put back in front and `icmp_unreachable` called.  The buffer has room for the
pseudo-header in front of the window, as it has behind an IP header, so `hdr` and
`buf->data` agree after `udp_checksum`. -/
def udp_in (e : Config) (st : net_t) (buf : buf_t) (src_ip : List Nat) (now : Nat) :
    net_t × buf_t :=
  if buf.data.length < UDP_HDR_LEN then (st, buf)
  else if buf.data.length < get16 buf.data 4 then (st, buf)
  else
    let r := udp_checksum buf src_ip e.net_if_ip
    if r.1 ≠ 0 then (st, r.2)
    else
      let port := get16 r.2.data 2
      let buf1 := buf_write r.2 2 [r.2.data.getD 3 0, r.2.data.getD 2 0]
      match map_get st.udp_table now port with
      | some handler =>
        let buf2 := (buf_remove_header buf1 UDP_HDR_LEN).2
        ({ st with udp_events := st.udp_events
            ++ [⟨handler, buf2.data, buf2.data.length, src_ip, get16 buf1.data 0⟩] }, buf2)
      | none =>
        let buf2 := (buf_add_header buf1 IP_HDR_LEN).2
        (icmp_unreachable st buf2 src_ip ICMP_CODE_PORT_UNREACH, buf2)

/-- The function `udp_out` of `udp.c`: prepend the UDP header, fill it (ports and
`buf->len` are `uint16_t` values), write the checksum and hand the datagram to `ip_out`. -/
def udp_out (e : Config) (st : net_t) (buf : buf_t) (src_port : Nat) (dst_ip : List Nat)
    (dst_port : Nat) : net_t × buf_t :=
  let buf1 := (buf_add_header buf UDP_HDR_LEN).2
  let buf2 := buf_write buf1 6 [0, 0]
  let buf3 := buf_write buf2 0 (swap16_bytes (src_port % 65536))
  let buf4 := buf_write buf3 2 (swap16_bytes (dst_port % 65536))
  let buf5 := buf_write buf4 4 (swap16_bytes (buf4.data.length % 65536))
  let r := udp_checksum buf5 e.net_if_ip dst_ip
  let buf6 := buf_write r.2 6 (swap16_bytes r.1)
  ({ st with ip_out_calls := st.ip_out_calls ++ [⟨buf6.data, dst_ip, NET_PROTOCOL_UDP⟩] }, buf6)

/-- The function `udp_open` of `udp.c`: register `handler` for `port`. -/
def udp_open (st : net_t) (port handler now : Nat) : net_t :=
  { st with udp_table := map_set st.udp_table now port handler }

/-- The function `udp_send` of `udp.c`: copy `len` bytes of `data` into `txbuf` and send
them with `udp_out`. -/
def udp_send (e : Config) (st : net_t) (data : List Nat) (len src_port : Nat)
    (dst_ip : List Nat) (dst_port : Nat) : net_t :=
  let buf := (buf_init st.txbuf len).2
  let buf1 := buf_write buf 0 (data.take len)
  let r := udp_out e st buf1 src_port dst_ip dst_port
  { r.1 with txbuf := r.2 }

/-! ## Descriptions used in the statements -/

/-- The number of iterations of the loop of `ip_out` when `len` bytes remain: the
least `n` with `len - 1480 * n ≤ 1500`. -/
def ip_loop_count (len : Nat) : Nat := (len - 21) / 1480

/-- The window that `ip_fragment_out` hands to `arp_out` for the call `c`: the 20 header
bytes with the checksum in place, then the payload of the call. -/
def ip_datagram (e : Config) (c : ip_fragment_call) : List Nat :=
  let hdr := ip_hdr_bytes e (c.buf.length + IP_HDR_LEN) c.ip c.protocol c.id c.offset c.mf
  hdr.take 10 ++ [checksum16 hdr / 256 % 256, checksum16 hdr % 256] ++ hdr.drop 12 ++ c.buf

/-- The calls of `ip_fragment_out` that one `ip_out` of the payload `data` makes:
`ip_loop_count` fragments of 1480 bytes with `mf = 1`, then the rest with `mf = 0`. -/
def ip_out_frags (data ip : List Nat) (protocol id : Nat) : List ip_fragment_call :=
  (List.range (ip_loop_count data.length)).map
      (fun i => ⟨(data.drop (1480 * i)).take 1480, ip, protocol, id, 185 * i, 1⟩)
    ++ [⟨data.drop (1480 * ip_loop_count data.length), ip, protocol, id,
         185 * ip_loop_count data.length, 0⟩]

/-- The packets that `arp_in` does not drop: at least 28 bytes, hardware type Ethernet,
protocol type IPv4, address lengths 6 and 4, opcode REQUEST or REPLY. -/
def arp_pkt_valid (data : List Nat) : Prop :=
  28 ≤ data.length ∧ get16 data 0 = ARP_HW_ETHER ∧ get16 data 2 = NET_PROTOCOL_IP
    ∧ data.getD 4 0 = NET_MAC_LEN ∧ data.getD 5 0 = NET_IP_LEN
    ∧ (get16 data 6 = ARP_REQUEST ∨ get16 data 6 = ARP_REPLY)

/-- The field `sender_ip` of an ARP packet. -/
def arp_sender_ip (data : List Nat) : List Nat := (data.drop 14).take NET_IP_LEN

/-- The Ethernet frame of the ARP request for `x` that `arp_req` builds, `pad` being the
18 bytes that pad the packet to 46. -/
def arp_req_frame (e : Config) (x pad : List Nat) : List Nat :=
  ether_broadcast_mac ++ e.net_if_mac ++ swap16_bytes NET_PROTOCOL_ARP
    ++ arp_pkt ARP_REQUEST e.net_if_mac e.net_if_ip (List.replicate NET_MAC_LEN 0) x ++ pad

/-- The segments that `tcp_in` does not drop at once: at least 20 bytes, and the checksum
field equals what `tcp_checksum` computes with that field zeroed. -/
def tcp_seg_valid (e : Config) (buf : buf_t) (src_ip : List Nat) : Prop :=
  TCP_HDR_LEN ≤ buf.data.length
    ∧ (tcp_checksum (buf_write buf 16 [0, 0]) src_ip e.net_if_ip).1 = get16 buf.data 16

/-- The flags of a segment. -/
def tcp_seg_flags (data : List Nat) : tcp_flags_t := tcp_flags_of_byte (data.getD 13 0)

/-- The key of the connection of a segment: source IP, source port, destination port. -/
def tcp_seg_key (src_ip data : List Nat) : tcp_key_t :=
  ⟨src_ip.take NET_IP_LEN, get16 data 0, get16 data 2⟩

/-- The buffer that `tcp_in` passes to the switch: the checksum field restored, the 20
header bytes removed. -/
def tcp_in_payload (e : Config) (buf : buf_t) (src_ip : List Nat) : buf_t :=
  (buf_remove_header
    (buf_write (tcp_checksum (buf_write buf 16 [0, 0]) src_ip e.net_if_ip).2 16
      (buf_read buf 16 2)) TCP_HDR_LEN).2

/-- A TCP segment with a correct checksum, for the examples: the 20 header bytes (data
offset 5, urgent pointer 0) and the payload, sent from `src_ip` to `dst_ip`. -/
def tcp_segment (src_ip dst_ip : List Nat) (srcPort dstPort seq ack : Nat) (flags : tcp_flags_t)
    (win : Nat) (payload : List Nat) : List Nat :=
  let front := swap16_bytes srcPort ++ swap16_bytes dstPort ++ swap32_bytes seq
    ++ swap32_bytes ack ++ [80, tcp_flags_byte flags] ++ swap16_bytes win
  let ck := checksum16 (tcp_peso_hdr_bytes src_ip dst_ip (20 + payload.length)
    ++ front ++ [0, 0] ++ [0, 0] ++ payload)
  front ++ swap16_bytes ck ++ [0, 0] ++ payload

/-- The record after the ACK processing of the ESTABLISHED case. -/
def tcp_acked (c : tcp_connect_t) (getAck : Nat) (flags : tcp_flags_t) : tcp_connect_t :=
  if flags.ack && decide (c.unack_seq < getAck) && decide (c.next_seq ≥ getAck)
  then { c with
    tx_buf := (buf_remove_header c.tx_buf
      (min ((getAck + 2 ^ 32 - c.unack_seq) % 2 ^ 32)
        ((c.next_seq + 2 ^ 32 - c.unack_seq) % 2 ^ 32))).2,
    unack_seq := min getAck c.next_seq }
  else c

/-- A host for the examples: MAC `aa:bb:cc:dd:ee:ff`, IP `10.0.0.2`, buffers of 131325
bytes. -/
def cfg0 : Config :=
  ⟨[0xaa, 0xbb, 0xcc, 0xdd, 0xee, 0xff], [10, 0, 0, 2], List.replicate 131325 0⟩

/-- The state after start-up: empty maps with the TTLs of `arp_init`, `tcp_init` and
`udp_init`, `ip_id = 0`, nothing recorded. -/
def net0 : net_t :=
  { arp_table := map_init (List Nat) (List Nat) ARP_TIMEOUT_SEC
    arp_buf := map_init (List Nat) buf_t ARP_MIN_INTERVAL
    ip_id := 0
    txbuf := buf_malloc cfg0
    tcp_table := map_init Nat Nat 0
    connect_table := map_init tcp_key_t tcp_connect_t 0
    sent := []
    frag_calls := []
    arp_calls := []
    ip_out_calls := []
    events := []
    panics := []
    udp_table := map_init Nat Nat 0
    net_table := map_init Nat Nat 0
    udp_events := []
    net_in_calls := [] }

/-- The peer of the examples: IP `10.0.0.1`. -/
def ip_peer : List Nat := [10, 0, 0, 1]

/-- The peer of the examples: MAC `11:22:33:44:55:66`. -/
def mac_peer : List Nat := [0x11, 0x22, 0x33, 0x44, 0x55, 0x66]

/-- A buffer whose window holds `data`, with 64 bytes of room on both sides. -/
def buf_of (data : List Nat) : buf_t := ⟨List.replicate 64 0, data, List.replicate 64 0⟩

/-- The ARP reply of the peer to the example host, as `ethernet_in` hands it to `arp_in`. -/
def arp_reply0 : buf_t :=
  buf_of (arp_pkt ARP_REPLY mac_peer ip_peer cfg0.net_if_mac cfg0.net_if_ip)

/-- The example host with the handler `1` registered for the port `7`. -/
def net_tcp0 : net_t := tcp_open net0 7 1 0

/-- The SYN of the peer: from port 4000 to port 7, sequence number 1000, window 8192. -/
def tcp_syn0 : buf_t :=
  buf_of (tcp_segment ip_peer cfg0.net_if_ip 4000 7 1000 0
    ⟨false, false, false, false, false, false, true, false⟩ 8192 [])

/-- The ACK of the peer that ends the handshake: sequence number 1001, acknowledging the
initial sequence number 42 of the host. -/
def tcp_ack0 : buf_t :=
  buf_of (tcp_segment ip_peer cfg0.net_if_ip 4000 7 1001 43 tcp_flags_ack 8192 [])

/-- The connection of the peer after the handshake, once the peer has sent as many bytes
as `rx_buf` has room for behind its window and the application has read them all:
`tcp_connect_read` moves the window forward, so it stands at the end of the region. -/
def tcp_conn_full : tcp_connect_t :=
  ⟨tcp_state_t.TCP_ESTABLISHED, 7, 4000, ip_peer, 43, 43, 1001, 8192, ⟨cfg0.heap, [], []⟩,
    (buf_init (buf_malloc cfg0) 0).2⟩

/-- The example host with the connection `tcp_conn_full`. -/
def net_tcp_full : net_t :=
  { net_tcp0 with
    connect_table := map_set net_tcp0.connect_table 0 ⟨ip_peer, 4000, 7⟩ tcp_conn_full }

/-- A data segment of the peer: sequence number 1001, three bytes. -/
def tcp_data0 : buf_t :=
  buf_of (tcp_segment ip_peer cfg0.net_if_ip 4000 7 1001 43 tcp_flags_ack 8192 [1, 2, 3])

/-- The connection of the peer right after the handshake. -/
def tcp_conn_est : tcp_connect_t :=
  ⟨tcp_state_t.TCP_ESTABLISHED, 7, 4000, ip_peer, 43, 43, 1001, 8192,
    (buf_init (buf_malloc cfg0) 0).2, (buf_init (buf_malloc cfg0) 0).2⟩

/-- The example host with the connection `tcp_conn_est`. -/
def net_tcp_est : net_t :=
  { net_tcp0 with
    connect_table := map_set net_tcp0.connect_table 0 ⟨ip_peer, 4000, 7⟩ tcp_conn_est }

/-- A segment of the peer with FIN, ACK and RST: sequence number 1001, no payload. -/
def tcp_fin_rst0 : buf_t :=
  buf_of (tcp_segment ip_peer cfg0.net_if_ip 4000 7 1001 43
    ⟨false, false, false, true, false, true, false, true⟩ 8192 [])

/-- The FIN of the peer: FIN|ACK, sequence number 1001, two bytes of payload. -/
def tcp_fin0 : buf_t :=
  buf_of (tcp_segment ip_peer cfg0.net_if_ip 4000 7 1001 43 tcp_flags_ack_fin 8192 [5, 6])

/-- The last ACK of the peer: sequence number 1004, acknowledging the FIN of the host. -/
def tcp_last_ack0 : buf_t :=
  buf_of (tcp_segment ip_peer cfg0.net_if_ip 4000 7 1004 44 tcp_flags_ack 8192 [])

/-- The destination MAC of an Ethernet frame: bytes 0 to 5. -/
def eth_dst (frame : List Nat) : List Nat := frame.take 6

/-- The source MAC of an Ethernet frame: bytes 6 to 11. -/
def eth_src (frame : List Nat) : List Nat := (frame.drop 6).take 6

/-- The ethertype of an Ethernet frame: the big-endian value of bytes 12 and 13. -/
def eth_type (frame : List Nat) : Nat := get16 frame 12

/-- The version field of an IPv4 header: the high nibble of the first byte. -/
def ip_version (data : List Nat) : Nat := data.getD 0 0 / 16

/-- The field `total_len16` of an IPv4 header, in host byte order. -/
def ip_total_len (data : List Nat) : Nat := get16 data 2

/-- The field `protocol` of an IPv4 header. -/
def ip_protocol (data : List Nat) : Nat := data.getD 9 0

/-- The field `src_ip` of an IPv4 header. -/
def ip_src (data : List Nat) : List Nat := (data.drop 12).take 4

/-- The field `dst_ip` of an IPv4 header. -/
def ip_dst (data : List Nat) : List Nat := (data.drop 16).take 4

/-- The 20 header bytes of a packet with the checksum field zeroed. -/
def ip_hdr_zeroed (data : List Nat) : List Nat :=
  data.take 10 ++ [0, 0] ++ (data.take 20).drop 12

/-- A UDP datagram with a correct checksum, for the examples: the 8 header bytes and the
payload, sent from `src_ip` to `dst_ip`. -/
def udp_datagram (src_ip dst_ip : List Nat) (srcPort dstPort : Nat) (payload : List Nat) :
    List Nat :=
  let front := swap16_bytes srcPort ++ swap16_bytes dstPort ++ swap16_bytes (8 + payload.length)
  let ck := checksum16 (src_ip ++ dst_ip ++ [0, 17] ++ swap16_bytes (8 + payload.length)
    ++ front ++ [0, 0] ++ payload)
  front ++ swap16_bytes ck ++ payload

/-- The 20 bytes of an IPv4 header with a correct checksum, for the examples: version 4,
header length 5, no fragmentation, TTL 64. -/
def ip_header (src_ip dst_ip : List Nat) (protocol id total_len : Nat) : List Nat :=
  let front := [0x45, 0] ++ swap16_bytes total_len ++ swap16_bytes id ++ [0, 0, 64, protocol]
  let ck := checksum16 (front ++ [0, 0] ++ src_ip ++ dst_ip)
  front ++ swap16_bytes ck ++ src_ip ++ dst_ip

/-- A datagram of the peer for the UDP port 9999 of the example host: from port 5000,
four bytes of payload. -/
def udp_dgram0 : List Nat := udp_datagram ip_peer cfg0.net_if_ip 5000 9999 [1, 2, 3, 4]

/-- The IP header of the packet that carries `udp_dgram0`. -/
def ip_hdr0 : List Nat := ip_header ip_peer cfg0.net_if_ip NET_PROTOCOL_UDP 7 32

/-- The buffer with `udp_dgram0` as `ip_in` hands it to `net_in`: the IP header stands in
front of the window. -/
def udp_rx0 : buf_t := ⟨List.replicate 44 0 ++ ip_hdr0, udp_dgram0, List.replicate 64 0⟩

/-- An echo request with id 1, sequence number 2 and 32 bytes `A` of payload. -/
def icmp_echo0 : buf_t := buf_of ([8, 0, 0xe3, 0xe8, 0, 1, 0, 2] ++ List.replicate 32 0x41)

/-- A packet of the peer for another host, `10.0.0.3`: header only. -/
def ip_other0 : buf_t := buf_of (ip_header ip_peer [10, 0, 0, 3] NET_PROTOCOL_UDP 7 20)

/-- A packet of the peer for the example host whose length field says 10: 20 header
bytes, correct checksum. -/
def ip_short0 : buf_t := buf_of (ip_header ip_peer cfg0.net_if_ip NET_PROTOCOL_UDP 7 10)

/-- The packet of the peer that carries `udp_dgram0`, as it comes out of an Ethernet
frame: 32 bytes and 14 bytes of padding. -/
def ip_rx0 : buf_t := buf_of (ip_hdr0 ++ udp_dgram0 ++ List.replicate 14 0)

/-- An Ethernet frame of the peer for the example host that carries the packet of
`ip_rx0`. -/
def eth_frame0 : buf_t := buf_of (cfg0.net_if_mac ++ mac_peer ++ [8, 0] ++ ip_rx0.data)

/-- The value of `connect->next_seq - connect->unack_seq + len` in `tcp_connect_write`:
the difference in `uint32_t`, the sum in `size_t`. -/
def tcp_window_used (c : tcp_connect_t) (len : Nat) : Nat :=
  ((c.next_seq + 2 ^ 32 - c.unack_seq) % 2 ^ 32 + len) % 2 ^ 64

/-- Successive calls of `tcp_connect_read` with the lengths `lens`: the chunks written to
the arrays of the caller, in order, and the connection after the last call. -/
def tcp_connect_reads (c : tcp_connect_t) : List Nat → List (List Nat) × tcp_connect_t
  | [] => ([], c)
  | len :: lens =>
    let r := tcp_connect_read c len
    let rs := tcp_connect_reads r.2.2 lens
    (r.2.1 :: rs.1, rs.2)

/-- An ESTABLISHED connection of the example host with `hello` in `rx_buf` and `abc` in
`tx_buf`, 3 bytes sent and not acknowledged, window 8192. -/
def tcp_conn_io : tcp_connect_t :=
  ⟨tcp_state_t.TCP_ESTABLISHED, 7, 4000, ip_peer, 43, 46, 1006, 8192,
    buf_of [104, 101, 108, 108, 111], buf_of [97, 98, 99]⟩

/-- The connection of the peer right after the handshake (ISN 42), with the two bytes
that the application has written in `tx_buf`. -/
def tcp_conn_idle : tcp_connect_t :=
  ⟨tcp_state_t.TCP_ESTABLISHED, 7, 4000, ip_peer, 43, 43, 1001, 8192, buf_of [], buf_of [104, 105]⟩

/-- The variable `sent` of `tcp_write_to_buf`: `next_seq - unack_seq` as a `uint16_t`. -/
def tcp_sent (c : tcp_connect_t) : Nat := (c.next_seq + 2 ^ 32 - c.unack_seq) % 2 ^ 32 % 2 ^ 16

/-- The application calls `tcp_connect_write(connect, data, len)` on the record that the
connection table holds for `key`; the record is changed in place. -/
def tcp_app_write (e : Config) (st : net_t) (key : tcp_key_t) (data : List Nat) (len now : Nat) :
    net_t :=
  match map_get st.connect_table now key with
  | none => st
  | some c =>
    let r := tcp_connect_write e st c data len
    { r.2.1 with connect_table := map_store r.2.1.connect_table key r.2.2 }

/-- The key of the connection of the peer in the examples. -/
def key_peer : tcp_key_t := ⟨ip_peer, 4000, 7⟩

/-- The record that the connection table holds for the peer of the examples. -/
def conn_peer (st : net_t) (now : Nat) : Option tcp_connect_t :=
  map_get st.connect_table now key_peer

/-- The example host after the handshake with the peer: `tcp_open` on port 7, the SYN
(the host draws 42), the ACK. -/
def net_hs0 : net_t := tcp_in cfg0 (tcp_in cfg0 net_tcp0 tcp_syn0 ip_peer 42 0) tcp_ack0 ip_peer 17 1

/-- A segment of the peer out of sequence: ACK, sequence number 5000 where 1001 is
expected, no payload. -/
def tcp_ooo0 : buf_t :=
  buf_of (tcp_segment ip_peer cfg0.net_if_ip 4000 7 5000 43 tcp_flags_ack 8192 [])

/-- A segment of the peer with FIN only, without ACK, sequence number 1004. -/
def tcp_fin_bare0 : buf_t :=
  buf_of (tcp_segment ip_peer cfg0.net_if_ip 4000 7 1004 44
    ⟨false, false, false, false, false, false, false, true⟩ 8192 [])

/-- The SYN of the peer with a window of 4 bytes: sequence number 1000. -/
def tcp_syn_w4 : buf_t :=
  buf_of (tcp_segment ip_peer cfg0.net_if_ip 4000 7 1000 0
    ⟨false, false, false, false, false, false, true, false⟩ 4 [])

/-- The first data segment of the peer: sequence number 1001, one byte, acknowledging 43. -/
def tcp_data1 : buf_t :=
  buf_of (tcp_segment ip_peer cfg0.net_if_ip 4000 7 1001 43 tcp_flags_ack 4 [9])

/-- The second data segment of the peer: sequence number 1002, one byte, acknowledging
43 still. -/
def tcp_data2 : buf_t :=
  buf_of (tcp_segment ip_peer cfg0.net_if_ip 4000 7 1002 43 tcp_flags_ack 4 [9])

/-- The record of a connection after the handshake: the SYN had the bytes `syn` and came
from `src_ip`, the host drew `rnd`. -/
def tcp_conn_hs (e : Config) (src_ip syn : List Nat) (rnd : Nat) : tcp_connect_t :=
  { state := tcp_state_t.TCP_ESTABLISHED
    local_port := get16 syn 2
    remote_port := get16 syn 0
    ip := src_ip.take 4
    unack_seq := (rnd % 100 + 1) % 2 ^ 32
    next_seq := rnd % 100 + 1
    ack := (get32 syn 4 + 1) % 2 ^ 32
    remote_win := get16 syn 14
    rx_buf := (buf_init (buf_malloc e) 0).2
    tx_buf := (buf_init (buf_malloc e) 0).2 }

/-- The connection table of `st` holds the record `c` for `key`, at every time. -/
def tcp_holds (st : net_t) (key : tcp_key_t) (c : tcp_connect_t) : Prop :=
  ∀ t, map_get st.connect_table t key = some c

/-- The connection table of `st` holds for `key` an ESTABLISHED record with the given
`unack_seq`, `next_seq`, `ack` and `remote_win`, whose `tx_buf` holds the bytes `tx` and
has at least `room` bytes behind its window. -/
def tcp_est (st : net_t) (key : tcp_key_t) (un nx ak win : Nat) (tx : List Nat) (room : Nat) :
    Prop :=
  ∃ c, tcp_holds st key c ∧ c.state = tcp_state_t.TCP_ESTABLISHED ∧ 4 ≤ c.ip.length
    ∧ c.unack_seq = un ∧ c.next_seq = nx ∧ c.ack = ak ∧ c.remote_win = win
    ∧ c.tx_buf.data = tx ∧ room ≤ c.tx_buf.tail.length

/-- The registered handlers, the recorded panics and the capacity of `txbuf` are in `st`
what they are in `st0`. -/
def tcp_same_env (st st0 : net_t) : Prop :=
  st.tcp_table = st0.tcp_table ∧ st.panics = st0.panics ∧ buf_cap st.txbuf = buf_cap st0.txbuf

/-- The number of bytes that `tcp_write_to_buf` sends for a connection with the given
`unack_seq`, `next_seq`, `remote_win` and `txlen` bytes in `tx_buf`: the variable `size`,
a `uint16_t`. -/
def tcp_pump_size (un nx win txlen : Nat) : Nat :=
  min ((txlen + 2 ^ 64 - (nx + 2 ^ 32 - un) % 2 ^ 32 % 2 ^ 16) % 2 ^ 64) win % 2 ^ 16

/-- The example host after the handshake with the peer when the SYN announces a window of
4 bytes. -/
def net_hs4 : net_t :=
  tcp_in cfg0 (tcp_in cfg0 net_tcp0 tcp_syn_w4 ip_peer 42 0) tcp_ack0 ip_peer 17 1

/-- The host `net_hs4` after the application has written `[1, 2, 3]` and then `[4, 5, 6]`
with `tcp_connect_write`. -/
def net_wr4 : net_t :=
  tcp_app_write cfg0 (tcp_app_write cfg0 net_hs4 key_peer [1, 2, 3] 3 1) key_peer [4, 5, 6] 3 1

/-- The connection of the peer right after the handshake (ISN 42) when the peer has
announced a window of 65535 bytes and the application has written 65534 bytes, each of
them 1, with one `tcp_connect_write`. -/
def tcp_conn_big : tcp_connect_t :=
  ⟨tcp_state_t.TCP_ESTABLISHED, 7, 4000, ip_peer, 43, 43, 1001, 65535, buf_of [],
    buf_of (List.replicate 65534 1)⟩

/-! ## Facts about buffers -/

theorem buf_write_data (buf : buf_t) (off : Nat) (bs : List Nat)
    (h : off + bs.length ≤ buf.data.length) :
    buf_write buf off bs
      = ⟨buf.head, buf.data.take off ++ bs ++ buf.data.drop (off + bs.length), buf.tail⟩ := by
  have h1 : off ≤ buf.data.length := by omega
  have hlen : (buf.data.take off ++ bs ++ buf.data.drop (off + bs.length)).length
      = buf.data.length := by
    simp only [List.length_append, List.length_take, List.length_drop]
    omega
  have e0 : List.take (buf.data ++ buf.tail).length
      (List.take off (buf.data ++ buf.tail) ++ bs
        ++ List.drop (off + bs.length) (buf.data ++ buf.tail))
      = (buf.data.take off ++ bs ++ buf.data.drop (off + bs.length)) ++ buf.tail := by
    rw [List.take_append_of_le_length h1, List.drop_append_of_le_length h]
    rw [← List.append_assoc]
    apply List.take_of_length_le
    simp only [List.length_append] at hlen ⊢
    omega
  unfold buf_write
  simp only []
  rw [e0, List.take_left' hlen, List.drop_left' hlen]

theorem buf_write_all (buf : buf_t) (bs : List Nat) (h : bs.length = buf.data.length) :
    buf_write buf 0 bs = ⟨buf.head, bs, buf.tail⟩ := by
  rw [buf_write_data buf 0 bs (by omega)]
  simp [h]

theorem buf_write_head (hd dt tl hdr : List Nat) :
    buf_write ⟨hd, hdr ++ dt, tl⟩ 0 hdr = ⟨hd, hdr ++ dt, tl⟩ := by
  rw [buf_write_data _ 0 hdr (by simp)]
  simp

theorem buf_write_cap (buf : buf_t) (off : Nat) (bs : List Nat) :
    buf_cap (buf_write buf off bs) = buf_cap buf := by
  unfold buf_write buf_cap
  simp only [List.length_take, List.length_drop, List.length_append]
  omega

theorem buf_write_data_length (buf : buf_t) (off : Nat) (bs : List Nat) :
    (buf_write buf off bs).data.length = buf.data.length := by
  unfold buf_write
  simp only [List.length_take, List.length_drop, List.length_append]
  omega

theorem buf_write_head_eq (buf : buf_t) (off : Nat) (bs : List Nat) :
    (buf_write buf off bs).head = buf.head := rfl

theorem buf_read_data (buf : buf_t) (off n : Nat) (h : off + n ≤ buf.data.length) :
    buf_read buf off n = (buf.data.drop off).take n := by
  unfold buf_read
  rw [List.drop_append_of_le_length (by omega), List.take_append_of_le_length]
  simp only [List.length_drop]
  omega

theorem buf_init_ok (buf : buf_t) (len : Nat) (h : len ≤ buf_cap buf / 2) :
    (buf_init buf len).2.data.length = len
      ∧ (buf_init buf len).2.head.length = buf_cap buf / 2 - len
      ∧ (buf_init buf len).2.tail.length = buf_cap buf - buf_cap buf / 2 := by
  unfold buf_init buf_cap at *
  simp only [List.length_append] at *
  split
  · omega
  · simp only [List.length_take, List.length_drop, List.length_append]
    refine ⟨by omega, by omega, trivial⟩

theorem buf_init_cap (buf : buf_t) (len : Nat) : buf_cap (buf_init buf len).2 = buf_cap buf := by
  unfold buf_init
  simp only [List.length_append]
  split
  · rfl
  · unfold buf_cap
    simp only [List.length_take, List.length_drop, List.length_append]
    omega

theorem buf_add_header_cap (buf : buf_t) (len : Nat) :
    buf_cap (buf_add_header buf len).2 = buf_cap buf := by
  unfold buf_add_header
  split
  · rfl
  · unfold buf_cap
    simp only [List.length_take, List.length_drop, List.length_append]
    omega

theorem buf_add_padding_cap (buf : buf_t) (len : Nat) :
    buf_cap (buf_add_padding buf len).2 = buf_cap buf := by
  unfold buf_add_padding
  split
  · rfl
  · unfold buf_cap
    simp only [List.length_take, List.length_drop, List.length_append]
    omega

theorem buf_malloc_cap (e : Config) : buf_cap (buf_malloc e) = e.heap.length := by
  simp [buf_cap, buf_malloc]

/-! ## Facts about the send path below IP -/

theorem ethernet_out_cap (e : Config) (st : net_t) (buf : buf_t) (mac : List Nat)
    (protocol : Nat) : buf_cap (ethernet_out e st buf mac protocol).2 = buf_cap buf := by
  unfold ethernet_out
  simp only [buf_write_cap, buf_add_header_cap]
  split
  · exact buf_add_padding_cap _ _
  · rfl

theorem arp_out_frame (e : Config) (st : net_t) (buf : buf_t) (ip : List Nat) (now : Nat) :
    (arp_out e st buf ip now).1.frag_calls = st.frag_calls
      ∧ (arp_out e st buf ip now).1.ip_id = st.ip_id
      ∧ (arp_out e st buf ip now).1.arp_calls = st.arp_calls ++ [(buf.data, ip)]
      ∧ buf_cap (arp_out e st buf ip now).2 = buf_cap buf := by
  unfold arp_out
  simp only []
  split
  · split
    · exact ⟨rfl, rfl, rfl, rfl⟩
    · exact ⟨rfl, rfl, rfl, rfl⟩
  · exact ⟨rfl, rfl, rfl, ethernet_out_cap _ _ _ _ _⟩

theorem ip_fragment_out_frame (e : Config) (st : net_t) (buf : buf_t) (ip : List Nat)
    (protocol id offset mf now : Nat) :
    (ip_fragment_out e st buf ip protocol id offset mf now).1.frag_calls
        = st.frag_calls ++ [⟨buf.data, ip, protocol, id, offset, mf⟩]
      ∧ (ip_fragment_out e st buf ip protocol id offset mf now).1.ip_id = st.ip_id
      ∧ buf_cap (ip_fragment_out e st buf ip protocol id offset mf now).2 = buf_cap buf := by
  unfold ip_fragment_out
  simp only []
  refine ⟨(arp_out_frame _ _ _ _ _).1, (arp_out_frame _ _ _ _ _).2.1, ?_⟩
  rw [(arp_out_frame _ _ _ _ _).2.2.2, buf_write_cap, buf_write_cap, buf_add_header_cap]

/-- The fragment buffer after `buf_init(tbuf, l)` and the `memcpy` of `l` bytes from
`buf->data + off`. -/
theorem ip_tbuf_fill (tbuf buf : buf_t) (off l : Nat) (hc : l ≤ buf_cap tbuf / 2)
    (h : off + l ≤ buf.data.length) :
    (buf_write (buf_init tbuf l).2 0 (buf_read buf off l)).data = (buf.data.drop off).take l
      ∧ (buf_write (buf_init tbuf l).2 0 (buf_read buf off l)).head.length
          = buf_cap tbuf / 2 - l
      ∧ buf_cap (buf_write (buf_init tbuf l).2 0 (buf_read buf off l)) = buf_cap tbuf := by
  have hi := buf_init_ok tbuf l hc
  have hr : (buf_read buf off l).length = (buf_init tbuf l).2.data.length := by
    rw [buf_read_data buf off l h, hi.1]
    simp only [List.length_take, List.length_drop]
    omega
  rw [buf_write_all _ _ hr]
  refine ⟨buf_read_data buf off l h, hi.2.1, ?_⟩
  have hcap := buf_init_cap tbuf l
  unfold buf_cap at hcap ⊢
  simp only [] at hcap ⊢
  omega

theorem ip_out_loop_succ (e : Config) (buf : buf_t) (ip : List Nat) (protocol now len fuel : Nat)
    (st : net_t) (tbuf : buf_t) (offset : Nat) :
    ip_out_loop e buf ip protocol now len (fuel + 1) st tbuf offset
      = if (len + 2 ^ 64 - offset * IP_HDR_OFFSET_PER_BYTE) % 2 ^ 64 > ETHERNET_MAX_TRANSPORT_UNIT
        then
          ip_out_loop e buf ip protocol now len fuel
            (ip_fragment_out e st
              (buf_write (buf_init tbuf (ETHERNET_MAX_TRANSPORT_UNIT - IP_HDR_LEN)).2 0
                (buf_read buf (offset * IP_HDR_OFFSET_PER_BYTE)
                  (ETHERNET_MAX_TRANSPORT_UNIT - IP_HDR_LEN)))
              ip protocol st.ip_id offset 1 now).1
            (ip_fragment_out e st
              (buf_write (buf_init tbuf (ETHERNET_MAX_TRANSPORT_UNIT - IP_HDR_LEN)).2 0
                (buf_read buf (offset * IP_HDR_OFFSET_PER_BYTE)
                  (ETHERNET_MAX_TRANSPORT_UNIT - IP_HDR_LEN)))
              ip protocol st.ip_id offset 1 now).2
            ((offset + (ETHERNET_MAX_TRANSPORT_UNIT - IP_HDR_LEN) / IP_HDR_OFFSET_PER_BYTE)
              % 2 ^ 16)
        else some (st, tbuf, offset) := rfl

theorem ip_hdr_bytes_length (e : Config) (len : Nat) (ip : List Nat)
    (protocol id offset mf : Nat) (he : 4 ≤ e.net_if_ip.length) (hip : 4 ≤ ip.length) :
    (ip_hdr_bytes e len ip protocol id offset mf).length = 20 := by
  simp only [ip_hdr_bytes, swap16_bytes, List.length_append, List.length_cons,
    List.length_nil, List.length_take, NET_IP_LEN]
  omega

/-- The datagram that `ip_fragment_out` hands to `arp_out`, when the buffer has 20 bytes
of head room. -/
theorem ip_fragment_out_datagram (e : Config) (st : net_t) (buf : buf_t) (ip : List Nat)
    (protocol id offset mf now : Nat) (he : 4 ≤ e.net_if_ip.length) (hip : 4 ≤ ip.length)
    (hroom : 20 ≤ buf.head.length) :
    (ip_fragment_out e st buf ip protocol id offset mf now).1.arp_calls
      = st.arp_calls ++ [(ip_datagram e ⟨buf.data, ip, protocol, id, offset, mf⟩, ip)] := by
  unfold ip_fragment_out
  simp only []
  rw [(arp_out_frame _ _ _ _ _).2.2.1]
  congr 3
  have hadd : (buf_add_header buf IP_HDR_LEN).2
      = ⟨buf.head.take (buf.head.length - 20), buf.head.drop (buf.head.length - 20) ++ buf.data,
         buf.tail⟩ := by
    unfold buf_add_header
    simp only [IP_HDR_LEN]
    rw [if_neg (show ¬ buf.head.length < 20 by omega)]
  have hl : (buf.head.drop (buf.head.length - 20) ++ buf.data).length = buf.data.length + 20 := by
    simp only [List.length_append, List.length_drop]; omega
  rw [hadd]
  simp only [hl, ip_datagram, IP_HDR_LEN]
  have hh := ip_hdr_bytes_length e (buf.data.length + 20) ip protocol id offset mf he hip
  generalize ip_hdr_bytes e (buf.data.length + 20) ip protocol id offset mf = hdr at hh ⊢
  have hd : (buf.head.drop (buf.head.length - 20)).length = 20 := by
    simp only [List.length_drop]; omega
  have e1 : buf_write ⟨buf.head.take (buf.head.length - 20),
      buf.head.drop (buf.head.length - 20) ++ buf.data, buf.tail⟩ 0 hdr
      = ⟨buf.head.take (buf.head.length - 20), hdr ++ buf.data, buf.tail⟩ := by
    rw [buf_write_data _ 0 hdr (by simp only [hl]; omega)]
    simp only [List.take_zero, List.nil_append, Nat.zero_add, hh, List.drop_left' hd]
  rw [e1]
  have e2 : buf_read ⟨buf.head.take (buf.head.length - 20), hdr ++ buf.data, buf.tail⟩ 0 20
      = hdr := by
    rw [buf_read_data _ _ _ (by simp only [List.length_append]; omega)]
    simp only [List.drop_zero, List.take_left' hh]
  have hw : 10 + [checksum16 hdr / 256 % 256, checksum16 hdr % 256].length
      ≤ (⟨buf.head.take (buf.head.length - 20), hdr ++ buf.data, buf.tail⟩ : buf_t).data.length := by
    simp only [List.length_append, List.length_cons, List.length_nil]
    omega
  rw [e2, buf_write_data _ 10 _ hw]
  simp only [List.length_cons, List.length_nil]
  rw [List.take_append_of_le_length (by omega), List.drop_append_of_le_length (by omega)]
  simp only [List.append_assoc]

theorem ip_out_loop_spec (e : Config) (buf : buf_t) (ip : List Nat) (protocol now : Nat)
    (hcap : 3040 ≤ e.heap.length) (hL : buf.data.length ≤ 65535)
    (he : 4 ≤ e.net_if_ip.length) (hip : 4 ≤ ip.length) :
    ∀ (fuel : Nat) (st : net_t) (tbuf : buf_t) (k : Nat),
      buf_cap tbuf = e.heap.length → 1480 * k ≤ buf.data.length →
      ip_loop_count (buf.data.length - 1480 * k) < fuel →
      ∃ st1 tbuf1,
        ip_out_loop e buf ip protocol now buf.data.length fuel st tbuf (185 * k)
          = some (st1, tbuf1, 185 * (k + ip_loop_count (buf.data.length - 1480 * k)))
        ∧ st1.frag_calls = st.frag_calls
            ++ (List.range (ip_loop_count (buf.data.length - 1480 * k))).map
              (fun i => ⟨(buf.data.drop (1480 * (k + i))).take 1480, ip, protocol, st.ip_id,
                185 * (k + i), 1⟩)
        ∧ st1.arp_calls = st.arp_calls
            ++ (List.range (ip_loop_count (buf.data.length - 1480 * k))).map
              (fun i => (ip_datagram e ⟨(buf.data.drop (1480 * (k + i))).take 1480, ip, protocol,
                st.ip_id, 185 * (k + i), 1⟩, ip))
        ∧ st1.ip_id = st.ip_id ∧ buf_cap tbuf1 = e.heap.length := by
  intro fuel
  induction fuel with
  | zero => intro st tbuf k _ _ hf; omega
  | succ f ih =>
    intro st tbuf k hc hk hf
    rw [ip_out_loop_succ]
    simp only [ETHERNET_MAX_TRANSPORT_UNIT, IP_HDR_OFFSET_PER_BYTE, IP_HDR_LEN]
    norm_num only
    by_cases hgt : 1500 < buf.data.length - 1480 * k
    · have hcond : 1500 < (buf.data.length + 18446744073709551616 - 185 * k * 8)
          % 18446744073709551616 := by omega
      rw [if_pos hcond]
      have hoff : (185 * k + 185) % 65536 = 185 * (k + 1) := by omega
      have hmul : 185 * k * 8 = 1480 * k := by omega
      rw [hoff, hmul]
      have hfill := ip_tbuf_fill tbuf buf (1480 * k) 1480 (by omega) (by omega)
      have hfr := ip_fragment_out_frame e st
        (buf_write (buf_init tbuf 1480).2 0 (buf_read buf (1480 * k) 1480)) ip protocol
        st.ip_id (185 * k) 1 now
      have hdg := ip_fragment_out_datagram e st
        (buf_write (buf_init tbuf 1480).2 0 (buf_read buf (1480 * k) 1480)) ip protocol
        st.ip_id (185 * k) 1 now he hip (by rw [hfill.2.1]; omega)
      have hn : ip_loop_count (buf.data.length - 1480 * k)
          = ip_loop_count (buf.data.length - 1480 * (k + 1)) + 1 := by
        unfold ip_loop_count; omega
      obtain ⟨st1, tbuf1, h1, h2, h3, h4, h5⟩ := ih _ _ (k + 1)
        (by rw [hfr.2.2, hfill.2.2, hc]) (by omega) (by omega)
      refine ⟨st1, tbuf1, ?_, ?_, ?_, ?_, h5⟩
      · rw [h1, hn]
        congr 3
        omega
      · rw [h2, hfr.1, hfr.2.1, hfill.1, hn, List.range_succ_eq_map, List.map_cons,
          List.map_map, List.append_assoc]
        simp only [List.singleton_append, Nat.add_zero, Function.comp, Nat.succ_eq_add_one]
        congr 2
        apply List.map_congr_left
        intro i _
        have hi : k + 1 + i = k + (i + 1) := by omega
        rw [hi]
        rfl
      · rw [h3, hdg, hfr.2.1, hfill.1, hn, List.range_succ_eq_map, List.map_cons,
          List.map_map, List.append_assoc]
        simp only [List.singleton_append, Nat.add_zero, Function.comp, Nat.succ_eq_add_one]
        congr 2
        apply List.map_congr_left
        intro i _
        have hi : k + 1 + i = k + (i + 1) := by omega
        rw [hi]
        rfl
      · rw [h4, hfr.2.1]
    · have hcond : ¬ 1500 < (buf.data.length + 18446744073709551616 - 185 * k * 8)
          % 18446744073709551616 := by omega
      rw [if_neg hcond]
      have hn : ip_loop_count (buf.data.length - 1480 * k) = 0 := by
        unfold ip_loop_count; omega
      refine ⟨st, tbuf, ?_, ?_, ?_, rfl, hc⟩
      · rw [hn]; rfl
      · rw [hn]; simp
      · rw [hn]; simp

/-- What one `ip_out` does to the records and to `ip_id`: it returns, the calls of
`ip_fragment_out` are `ip_out_frags`, each hands its datagram to `arp_out`, and `ip_id`
is incremented once. -/
theorem ip_out_spec (e : Config) (st : net_t) (buf : buf_t) (ip : List Nat)
    (protocol now fuel : Nat) (hcap : 3040 ≤ e.heap.length) (hL : buf.data.length ≤ 65535)
    (he : 4 ≤ e.net_if_ip.length) (hip : 4 ≤ ip.length)
    (hfuel : ip_loop_count buf.data.length < fuel) :
    ∃ st1, ip_out e st buf ip protocol now fuel = some st1
      ∧ st1.frag_calls = st.frag_calls ++ ip_out_frags buf.data ip protocol st.ip_id
      ∧ st1.arp_calls = st.arp_calls
          ++ (ip_out_frags buf.data ip protocol st.ip_id).map (fun c => (ip_datagram e c, ip))
      ∧ st1.ip_id = (st.ip_id + 1) % 65536 := by
  obtain ⟨st1, tbuf1, h1, h2, h3, h4, h5⟩ := ip_out_loop_spec e buf ip protocol now hcap hL he hip
    fuel st (buf_malloc e) 0 (buf_malloc_cap e) (by omega) (by simpa using hfuel)
  simp only [Nat.mul_zero, Nat.sub_zero, Nat.zero_add] at h1 h2 h3
  unfold ip_out
  simp only [h1, ETHERNET_MAX_TRANSPORT_UNIT, IP_HDR_OFFSET_PER_BYTE, IP_HDR_LEN]
  norm_num only
  have hcnt : 1480 * ip_loop_count buf.data.length ≤ buf.data.length
      ∧ buf.data.length - 1480 * ip_loop_count buf.data.length ≤ 1500 := by
    unfold ip_loop_count; omega
  have hl : (buf.data.length + 18446744073709551616 - 185 * ip_loop_count buf.data.length * 8)
      % 18446744073709551616 = buf.data.length - 1480 * ip_loop_count buf.data.length := by
    omega
  have hmul : 185 * ip_loop_count buf.data.length * 8 = 1480 * ip_loop_count buf.data.length := by
    omega
  rw [hl, hmul]
  have hfill := ip_tbuf_fill tbuf1 buf (1480 * ip_loop_count buf.data.length)
    (buf.data.length - 1480 * ip_loop_count buf.data.length) (by omega) (by omega)
  have hfr := ip_fragment_out_frame e st1
    (buf_write (buf_init tbuf1 (buf.data.length - 1480 * ip_loop_count buf.data.length)).2 0
      (buf_read buf (1480 * ip_loop_count buf.data.length)
        (buf.data.length - 1480 * ip_loop_count buf.data.length))) ip protocol
    st1.ip_id (185 * ip_loop_count buf.data.length) 0 now
  have hdg := ip_fragment_out_datagram e st1
    (buf_write (buf_init tbuf1 (buf.data.length - 1480 * ip_loop_count buf.data.length)).2 0
      (buf_read buf (1480 * ip_loop_count buf.data.length)
        (buf.data.length - 1480 * ip_loop_count buf.data.length))) ip protocol
    st1.ip_id (185 * ip_loop_count buf.data.length) 0 now he hip (by rw [hfill.2.1]; omega)
  have htake : List.take (buf.data.length - 1480 * ip_loop_count buf.data.length)
      (List.drop (1480 * ip_loop_count buf.data.length) buf.data)
      = List.drop (1480 * ip_loop_count buf.data.length) buf.data := by
    apply List.take_of_length_le
    simp only [List.length_drop]
    omega
  refine ⟨_, rfl, ?_, ?_, ?_⟩
  · show (ip_fragment_out _ _ _ _ _ _ _ _ _).1.frag_calls = _
    rw [hfr.1, h2, h4, hfill.1, htake]
    simp only [ip_out_frags, List.append_assoc]
  · show (ip_fragment_out _ _ _ _ _ _ _ _ _).1.arp_calls = _
    rw [hdg, h3, h4, hfill.1, htake]
    simp only [ip_out_frags, List.map_append, List.map_map, List.map_cons, List.map_nil,
      List.append_assoc, Function.comp_def]
  · show (st1.ip_id + 1) % 65536 = _
    rw [h4]

theorem ip_out_loop_frags (e : Config) (buf : buf_t) (ip : List Nat) (protocol now : Nat)
    (hcap : 3000 ≤ e.heap.length) (hL : buf.data.length ≤ 65535) :
    ∀ (fuel : Nat) (st : net_t) (tbuf : buf_t) (k : Nat),
      buf_cap tbuf = e.heap.length → 1480 * k ≤ buf.data.length →
      ip_loop_count (buf.data.length - 1480 * k) < fuel →
      ∃ st1 tbuf1,
        ip_out_loop e buf ip protocol now buf.data.length fuel st tbuf (185 * k)
          = some (st1, tbuf1, 185 * (k + ip_loop_count (buf.data.length - 1480 * k)))
        ∧ st1.frag_calls = st.frag_calls
            ++ (List.range (ip_loop_count (buf.data.length - 1480 * k))).map
              (fun i => ⟨(buf.data.drop (1480 * (k + i))).take 1480, ip, protocol, st.ip_id,
                185 * (k + i), 1⟩)
        ∧ st1.ip_id = st.ip_id ∧ buf_cap tbuf1 = e.heap.length := by
  intro fuel
  induction fuel with
  | zero => intro st tbuf k _ _ hf; omega
  | succ f ih =>
    intro st tbuf k hc hk hf
    rw [ip_out_loop_succ]
    simp only [ETHERNET_MAX_TRANSPORT_UNIT, IP_HDR_OFFSET_PER_BYTE, IP_HDR_LEN]
    norm_num only
    by_cases hgt : 1500 < buf.data.length - 1480 * k
    · have hcond : 1500 < (buf.data.length + 18446744073709551616 - 185 * k * 8)
          % 18446744073709551616 := by omega
      rw [if_pos hcond]
      have hoff : (185 * k + 185) % 65536 = 185 * (k + 1) := by omega
      have hmul : 185 * k * 8 = 1480 * k := by omega
      rw [hoff, hmul]
      have hfill := ip_tbuf_fill tbuf buf (1480 * k) 1480 (by omega) (by omega)
      have hfr := ip_fragment_out_frame e st
        (buf_write (buf_init tbuf 1480).2 0 (buf_read buf (1480 * k) 1480)) ip protocol
        st.ip_id (185 * k) 1 now
      have hn : ip_loop_count (buf.data.length - 1480 * k)
          = ip_loop_count (buf.data.length - 1480 * (k + 1)) + 1 := by
        unfold ip_loop_count; omega
      obtain ⟨st1, tbuf1, h1, h2, h4, h5⟩ := ih _ _ (k + 1)
        (by rw [hfr.2.2, hfill.2.2, hc]) (by omega) (by omega)
      refine ⟨st1, tbuf1, ?_, ?_, ?_, h5⟩
      · rw [h1, hn]
        congr 3
        omega
      · rw [h2, hfr.1, hfr.2.1, hfill.1, hn, List.range_succ_eq_map, List.map_cons,
          List.map_map, List.append_assoc]
        simp only [List.singleton_append, Nat.add_zero, Function.comp, Nat.succ_eq_add_one]
        congr 2
        apply List.map_congr_left
        intro i _
        have hi : k + 1 + i = k + (i + 1) := by omega
        rw [hi]
        rfl
      · rw [h4, hfr.2.1]
    · have hcond : ¬ 1500 < (buf.data.length + 18446744073709551616 - 185 * k * 8)
          % 18446744073709551616 := by omega
      rw [if_neg hcond]
      have hn : ip_loop_count (buf.data.length - 1480 * k) = 0 := by
        unfold ip_loop_count; omega
      refine ⟨st, tbuf, ?_, ?_, rfl, hc⟩
      · rw [hn]; rfl
      · rw [hn]; simp

/-- One `ip_out` of a payload of at most 65535 bytes returns, and its calls of
`ip_fragment_out` are `ip_out_frags`. -/
theorem ip_out_frags_spec (e : Config) (st : net_t) (buf : buf_t) (ip : List Nat)
    (protocol now fuel : Nat) (hcap : 3000 ≤ e.heap.length) (hL : buf.data.length ≤ 65535)
    (hfuel : ip_loop_count buf.data.length < fuel) :
    ∃ st1, ip_out e st buf ip protocol now fuel = some st1
      ∧ st1.frag_calls = st.frag_calls ++ ip_out_frags buf.data ip protocol st.ip_id
      ∧ st1.ip_id = (st.ip_id + 1) % 65536 := by
  obtain ⟨st1, tbuf1, h1, h2, h4, h5⟩ := ip_out_loop_frags e buf ip protocol now hcap hL
    fuel st (buf_malloc e) 0 (buf_malloc_cap e) (by omega) (by simpa using hfuel)
  simp only [Nat.mul_zero, Nat.sub_zero, Nat.zero_add] at h1 h2
  unfold ip_out
  simp only [h1, ETHERNET_MAX_TRANSPORT_UNIT, IP_HDR_OFFSET_PER_BYTE, IP_HDR_LEN]
  norm_num only
  have hcnt : 1480 * ip_loop_count buf.data.length ≤ buf.data.length
      ∧ buf.data.length - 1480 * ip_loop_count buf.data.length ≤ 1500 := by
    unfold ip_loop_count; omega
  have hl : (buf.data.length + 18446744073709551616 - 185 * ip_loop_count buf.data.length * 8)
      % 18446744073709551616 = buf.data.length - 1480 * ip_loop_count buf.data.length := by
    omega
  have hmul : 185 * ip_loop_count buf.data.length * 8 = 1480 * ip_loop_count buf.data.length := by
    omega
  rw [hl, hmul]
  have hfill := ip_tbuf_fill tbuf1 buf (1480 * ip_loop_count buf.data.length)
    (buf.data.length - 1480 * ip_loop_count buf.data.length) (by omega) (by omega)
  have hfr := ip_fragment_out_frame e st1
    (buf_write (buf_init tbuf1 (buf.data.length - 1480 * ip_loop_count buf.data.length)).2 0
      (buf_read buf (1480 * ip_loop_count buf.data.length)
        (buf.data.length - 1480 * ip_loop_count buf.data.length))) ip protocol
    st1.ip_id (185 * ip_loop_count buf.data.length) 0 now
  have htake : List.take (buf.data.length - 1480 * ip_loop_count buf.data.length)
      (List.drop (1480 * ip_loop_count buf.data.length) buf.data)
      = List.drop (1480 * ip_loop_count buf.data.length) buf.data := by
    apply List.take_of_length_le
    simp only [List.length_drop]
    omega
  refine ⟨_, rfl, ?_, ?_⟩
  · show (ip_fragment_out _ _ _ _ _ _ _ _ _).1.frag_calls = _
    rw [hfr.1, h2, h4, hfill.1, htake]
    simp only [ip_out_frags, List.append_assoc]
  · show (st1.ip_id + 1) % 65536 = _
    rw [h4]

/-- Whatever the payload and the buffers are: when the loop of `ip_out` ends, it has
left `ip_id` alone and every call it made carries `ip_id`. -/
theorem ip_out_loop_id (e : Config) (buf : buf_t) (ip : List Nat) (protocol now len : Nat) :
    ∀ (fuel : Nat) (st : net_t) (tbuf : buf_t) (offset : Nat) (r : net_t × buf_t × Nat),
      ip_out_loop e buf ip protocol now len fuel st tbuf offset = some r →
      r.1.ip_id = st.ip_id
        ∧ ∃ calls, r.1.frag_calls = st.frag_calls ++ calls ∧ ∀ c ∈ calls, c.id = st.ip_id := by
  intro fuel
  induction fuel with
  | zero => intro st tbuf offset r h; simp [ip_out_loop] at h
  | succ f ih =>
    intro st tbuf offset r h
    rw [ip_out_loop_succ] at h
    split at h
    · have hfr := ip_fragment_out_frame e st
        (buf_write (buf_init tbuf (ETHERNET_MAX_TRANSPORT_UNIT - IP_HDR_LEN)).2 0
          (buf_read buf (offset * IP_HDR_OFFSET_PER_BYTE)
            (ETHERNET_MAX_TRANSPORT_UNIT - IP_HDR_LEN))) ip protocol st.ip_id offset 1 now
      obtain ⟨h1, calls, h2, h3⟩ := ih _ _ _ r h
      rw [hfr.2.1] at h1 h3
      refine ⟨h1, _, h2.trans (by rw [hfr.1, List.append_assoc]), ?_⟩
      intro c hc
      rcases List.mem_append.mp hc with hc | hc
      · rw [List.mem_singleton.mp hc]
      · exact h3 c hc
    · simp only [Option.some.injEq] at h
      subst h
      exact ⟨rfl, [], by simp, by simp⟩

/-- The loop of `ip_out` ends within 45 iterations when the payload has at most 65535
bytes. -/
theorem ip_out_loop_returns (e : Config) (buf : buf_t) (ip : List Nat) (protocol now : Nat)
    (hL : buf.data.length ≤ 65535) :
    ∀ (fuel : Nat) (st : net_t) (tbuf : buf_t) (k : Nat), 1480 * k ≤ buf.data.length →
      ip_loop_count (buf.data.length - 1480 * k) < fuel →
      ∃ r, ip_out_loop e buf ip protocol now buf.data.length fuel st tbuf (185 * k) = some r := by
  intro fuel
  induction fuel with
  | zero => intro st tbuf k _ hf; omega
  | succ f ih =>
    intro st tbuf k hk hf
    rw [ip_out_loop_succ]
    simp only [ETHERNET_MAX_TRANSPORT_UNIT, IP_HDR_OFFSET_PER_BYTE, IP_HDR_LEN]
    norm_num only
    by_cases hgt : 1500 < buf.data.length - 1480 * k
    · have hcond : 1500 < (buf.data.length + 18446744073709551616 - 185 * k * 8)
          % 18446744073709551616 := by omega
      rw [if_pos hcond]
      have hoff : (185 * k + 185) % 65536 = 185 * (k + 1) := by omega
      rw [hoff]
      have hn : ip_loop_count (buf.data.length - 1480 * k)
          = ip_loop_count (buf.data.length - 1480 * (k + 1)) + 1 := by
        unfold ip_loop_count; omega
      exact ih _ _ (k + 1) (by omega) (by omega)
    · have hcond : ¬ 1500 < (buf.data.length + 18446744073709551616 - 185 * k * 8)
          % 18446744073709551616 := by omega
      rw [if_neg hcond]
      exact ⟨_, rfl⟩

/-! ## Facts about the fragments of one datagram -/

theorem ip_loop_count_le (len : Nat) :
    1480 * ip_loop_count len ≤ len ∧ len - 1480 * ip_loop_count len ≤ 1500 := by
  unfold ip_loop_count; omega

theorem ip_out_frags_length (data ip : List Nat) (protocol id : Nat) :
    (ip_out_frags data ip protocol id).length = ip_loop_count data.length + 1 := by
  simp [ip_out_frags]

/-- The `i`-th call is a full fragment with `mf = 1` when `i` is below the loop count,
and the rest of the payload with `mf = 0` when `i` is the loop count. -/
theorem ip_out_frags_get (data ip : List Nat) (protocol id i : Nat) (c : ip_fragment_call)
    (h : (ip_out_frags data ip protocol id)[i]? = some c) :
    (i < ip_loop_count data.length
        ∧ c = ⟨(data.drop (1480 * i)).take 1480, ip, protocol, id, 185 * i, 1⟩)
      ∨ (i = ip_loop_count data.length
        ∧ c = ⟨data.drop (1480 * i), ip, protocol, id, 185 * i, 0⟩) := by
  unfold ip_out_frags at h
  by_cases hi : i < ip_loop_count data.length
  · left
    rw [List.getElem?_append_left (by simpa using hi), List.getElem?_map,
      List.getElem?_range hi] at h
    simp only [Option.map_some', Option.some.injEq] at h
    exact ⟨hi, h.symm⟩
  · right
    rw [List.getElem?_append_right (by simpa using hi)] at h
    simp only [List.length_map, List.length_range] at h
    by_cases hn : i = ip_loop_count data.length
    · subst hn
      simp only [Nat.sub_self, List.getElem?_cons_zero, Option.some.injEq] at h
      exact ⟨rfl, h.symm⟩
    · have : i - ip_loop_count data.length = (i - ip_loop_count data.length - 1) + 1 := by omega
      rw [this] at h
      simp at h

theorem ip_out_frags_full_length (data : List Nat) (i : Nat)
    (hi : i < ip_loop_count data.length) :
    ((data.drop (1480 * i)).take 1480).length = 1480 := by
  have := ip_loop_count_le data.length
  simp only [List.length_take, List.length_drop]
  have h2 : 1480 * (i + 1) ≤ 1480 * ip_loop_count data.length := Nat.mul_le_mul_left _ hi
  omega

theorem ip_frags_flatten (data : List Nat) :
    ∀ n, ((List.range n).map (fun i => (data.drop (1480 * i)).take 1480)).flatten
      = data.take (1480 * n) := by
  intro n
  induction n with
  | zero => simp
  | succ m ih =>
    rw [List.range_succ, List.map_append, List.flatten_append, ih, Nat.mul_succ, List.take_add]
    simp

theorem ip_out_frags_flatten (data ip : List Nat) (protocol id : Nat) :
    ((ip_out_frags data ip protocol id).map (fun c => c.buf)).flatten = data := by
  unfold ip_out_frags
  rw [List.map_append, List.flatten_append, List.map_map]
  have h := ip_frags_flatten data (ip_loop_count data.length)
  simp only [Function.comp_def] at h ⊢
  rw [h]
  simp

theorem ip_frags_sum (data : List Nat) (n : Nat) (hn : n ≤ ip_loop_count data.length) :
    ((List.range n).map (fun i => ((data.drop (1480 * i)).take 1480).length)).sum = 1480 * n := by
  induction n with
  | zero => simp
  | succ m ih =>
    rw [List.range_succ, List.map_append, List.sum_append, ih (by omega)]
    simp only [List.map_cons, List.map_nil, List.sum_cons, List.sum_nil, Nat.add_zero]
    rw [ip_out_frags_full_length data m (by omega)]
    omega

theorem ip_out_frags_take_sum (data ip : List Nat) (protocol id i : Nat)
    (hi : i ≤ ip_loop_count data.length) :
    (((ip_out_frags data ip protocol id).take i).map (fun c => c.buf.length)).sum = 1480 * i := by
  unfold ip_out_frags
  rw [List.take_append_of_le_length (by simpa using hi), ← List.map_take, List.take_range,
    Nat.min_eq_left hi, List.map_map]
  exact ip_frags_sum data i hi

theorem ip_datagram_length (e : Config) (c : ip_fragment_call) (he : 4 ≤ e.net_if_ip.length)
    (hip : 4 ≤ c.ip.length) : (ip_datagram e c).length = c.buf.length + 20 := by
  have hh := ip_hdr_bytes_length e (c.buf.length + 20) c.ip c.protocol c.id c.offset c.mf he hip
  simp only [ip_datagram, IP_HDR_LEN, List.length_append, List.length_take, List.length_drop,
    List.length_cons, List.length_nil, hh]
  omega

theorem ip_datagram_id (e : Config) (c : ip_fragment_call) :
    get16 (ip_datagram e c) 4 = c.id % 65536 := by
  simp [get16, ip_datagram, ip_hdr_bytes, swap16_bytes]
  omega

theorem ip_datagram_drop (e : Config) (c : ip_fragment_call) (he : 4 ≤ e.net_if_ip.length)
    (hip : 4 ≤ c.ip.length) : (ip_datagram e c).drop 20 = c.buf := by
  have hh := ip_hdr_bytes_length e (c.buf.length + 20) c.ip c.protocol c.id c.offset c.mf he hip
  simp only [ip_datagram, IP_HDR_LEN]
  generalize ip_hdr_bytes e (c.buf.length + 20) c.ip c.protocol c.id c.offset c.mf = hdr at hh
  exact List.drop_left' (by
    simp only [List.length_append, List.length_take, List.length_drop, List.length_cons,
      List.length_nil, hh]
    norm_num)

/-- The flags and fragment offset field of a datagram (bytes 6 and 7). -/
theorem ip_datagram_frag (e : Config) (c : ip_fragment_call) :
    get16 (ip_datagram e c) 6 = ((c.mf <<< 13) ||| c.offset) % 65536 := by
  simp only [get16, ip_datagram, ip_hdr_bytes, swap16_bytes, List.cons_append, List.nil_append,
    List.take_succ_cons, List.take_zero, List.getD_cons_zero, List.getD_cons_succ]
  omega

/-- The field of the fragments of one payload of at most 65535 bytes: bit 13 is `mf`, the
13 bits below are the offset. -/
theorem ip_frag_field : ∀ i, i < 45 →
    ((1 <<< 13) ||| (185 * i)) % 65536 = 8192 + 185 * i
      ∧ ((0 <<< 13) ||| (185 * i)) % 65536 = 185 * i := by
  decide

theorem ip_out_frags_ip (data ip : List Nat) (protocol id : Nat) :
    ∀ c ∈ ip_out_frags data ip protocol id, c.ip = ip := by
  intro c hc
  simp only [ip_out_frags, List.mem_append, List.mem_map, List.mem_singleton] at hc
  rcases hc with ⟨_, _, rfl⟩ | rfl <;> rfl

/-! ## Facts about maps -/

theorem map_get_set_same {K V : Type} [DecidableEq K] (m : map_t K V) (t t1 : Nat) (k : K)
    (v : V) :
    map_get (map_set m t k v) t1 k
      = if map_entry_valid m.timeout t t1 = true then some v else none := by
  unfold map_get map_set
  simp only [List.find?_cons, decide_True, Bool.true_and]
  split
  · rename_i h
    rw [if_pos h]
    rfl
  · rename_i h
    rw [if_neg (by simpa using h)]
    simp only [Option.map_eq_none']
    rw [List.find?_eq_none]
    intro en hen
    have := (List.mem_filter.mp hen).2
    simp only [decide_eq_true_eq] at this
    simp [this]

theorem map_get_delete_same {K V : Type} [DecidableEq K] (m : map_t K V) (t : Nat) (k : K) :
    map_get (map_delete m k) t k = none := by
  unfold map_get map_delete
  simp only [Option.map_eq_none']
  rw [List.find?_eq_none]
  intro en hen
  have := (List.mem_filter.mp hen).2
  simp only [decide_eq_true_eq] at this
  simp [this]

theorem map_delete_no_entry {K V : Type} [DecidableEq K] (m : map_t K V) (k : K) :
    ∀ en ∈ (map_delete m k).entries, en.1 ≠ k := by
  intro en hen
  have := (List.mem_filter.mp hen).2
  simpa using this

theorem map_set_entries_of_key {K V : Type} [DecidableEq K] (m : map_t K V) (t : Nat) (k : K)
    (v : V) :
    (map_set m t k v).entries.filter (fun en => decide (en.1 = k)) = [(k, v, t)] := by
  unfold map_set
  simp only [List.filter_cons, decide_True, if_true, List.filter_filter]
  congr 1
  rw [List.filter_eq_nil_iff]
  intro en _
  simp

/-- An entry that is dead at `t0` stays dead later. -/
theorem map_get_none_mono {K V : Type} [DecidableEq K] (m : map_t K V) (t0 t1 : Nat) (k : K)
    (ht : t0 ≤ t1) (h : map_get m t0 k = none) : map_get m t1 k = none := by
  unfold map_get at h ⊢
  simp only [Option.map_eq_none'] at h ⊢
  rw [List.find?_eq_none] at h ⊢
  intro en hen
  have := h en hen
  simp only [map_entry_valid, Bool.and_eq_true, decide_eq_true_eq, Bool.or_eq_true, beq_iff_eq,
    not_and, not_or, not_le] at this ⊢
  intro hk
  have := this hk
  omega

/-! ## Facts about header writes -/

/-- Overwriting the middle part of the window. -/
theorem buf_write_mid (h a b c t bs : List Nat) (off : Nat) (hoff : off = a.length)
    (hb : bs.length = b.length) :
    buf_write ⟨h, a ++ b ++ c, t⟩ off bs = ⟨h, a ++ bs ++ c, t⟩ := by
  subst hoff
  rw [buf_write_data _ _ _ (by simp only [List.length_append]; omega)]
  simp only [List.append_assoc, List.take_left' rfl]
  have hd : List.drop (a.length + bs.length) (a ++ (b ++ c)) = c := by
    rw [← List.append_assoc]
    exact List.drop_left' (by simp only [List.length_append]; omega)
  rw [hd]

/-- The three field writes of `ethernet_out` into a window that starts with 14 bytes of
header room. -/
theorem ethernet_hdr_write (h x d t mac src proto : List Nat) (hx : x.length = 14)
    (hm : mac.length = 6) (hs : src.length = 6) (hp : proto.length = 2) :
    buf_write (buf_write (buf_write ⟨h, x ++ d, t⟩ 0 mac) 6 src) 12 proto
      = ⟨h, mac ++ src ++ proto ++ d, t⟩ := by
  have hx1 : x = x.take 6 ++ (x.drop 6).take 6 ++ x.drop 12 := by
    rw [List.append_assoc, ← List.drop_drop 6 6 x, List.take_append_drop, List.take_append_drop]
  have e1 := buf_write_mid h [] (x.take 6) ((x.drop 6).take 6 ++ x.drop 12 ++ d) t mac 0 rfl
    (by simp only [List.length_take]; omega)
  have e2 := buf_write_mid h mac ((x.drop 6).take 6) (x.drop 12 ++ d) t src 6 hm.symm
    (by simp only [List.length_take, List.length_drop]; omega)
  have e3 := buf_write_mid h (mac ++ src) (x.drop 12) d t proto 12
    (by simp only [List.length_append]; omega)
    (by simp only [List.length_drop]; omega)
  have hxd : x ++ d = [] ++ x.take 6 ++ ((x.drop 6).take 6 ++ x.drop 12 ++ d) := by
    conv_lhs => rw [hx1]
    simp only [List.append_assoc, List.nil_append]
  rw [hxd, e1]
  have h2 : [] ++ mac ++ ((x.drop 6).take 6 ++ x.drop 12 ++ d)
      = mac ++ (x.drop 6).take 6 ++ (x.drop 12 ++ d) := by
    simp only [List.append_assoc, List.nil_append]
  rw [h2, e2]
  have h3 : mac ++ src ++ (x.drop 12 ++ d) = mac ++ src ++ x.drop 12 ++ d := by
    simp only [List.append_assoc]
  rw [h3, e3]

/-- The frame that `ethernet_out` hands to the driver, when the buffer has room for the
header and for the padding: destination, source, ethertype, the window of the buffer,
and the bytes that pad it to 46. -/
theorem ethernet_out_sent (e : Config) (st : net_t) (buf : buf_t) (mac : List Nat)
    (protocol : Nat) (hm : mac.length = 6) (he : e.net_if_mac.length = 6)
    (hroom : 14 ≤ buf.head.length) (hpad : 46 - buf.data.length ≤ buf.tail.length) :
    (ethernet_out e st buf mac protocol).1.sent
      = st.sent ++ [mac ++ e.net_if_mac ++ swap16_bytes (protocol % 65536) ++ buf.data
          ++ buf.tail.take (46 - buf.data.length)] := by
  have hpadded : ∃ tl, (if buf.data.length < ETHERNET_MIN_TRANSPORT_UNIT
      then (buf_add_padding buf (ETHERNET_MIN_TRANSPORT_UNIT - buf.data.length)).2 else buf)
      = ⟨buf.head, buf.data ++ buf.tail.take (46 - buf.data.length), tl⟩ := by
    simp only [ETHERNET_MIN_TRANSPORT_UNIT]
    split
    · unfold buf_add_padding
      rw [if_neg (by omega)]
      exact ⟨_, rfl⟩
    · have h0 : 46 - buf.data.length = 0 := by omega
      rw [h0]
      simp only [List.take_zero, List.append_nil]
      exact ⟨buf.tail, rfl⟩
  obtain ⟨tl, hp⟩ := hpadded
  unfold ethernet_out
  simp only []
  rw [hp]
  have hadd : (buf_add_header ⟨buf.head, buf.data ++ buf.tail.take (46 - buf.data.length), tl⟩
      ETHER_HDR_LEN).2
      = ⟨buf.head.take (buf.head.length - 14),
         buf.head.drop (buf.head.length - 14)
           ++ (buf.data ++ buf.tail.take (46 - buf.data.length)), tl⟩ := by
    unfold buf_add_header
    simp only [ETHER_HDR_LEN]
    rw [if_neg (show ¬ buf.head.length < 14 by omega)]
  rw [hadd]
  simp only [NET_MAC_LEN]
  have t1 : List.take 6 mac = mac := List.take_of_length_le (by omega)
  have t2 : List.take 6 e.net_if_mac = e.net_if_mac := List.take_of_length_le (by omega)
  have hx : (buf.head.drop (buf.head.length - 14)).length = 14 := by
    simp only [List.length_drop]; omega
  rw [t1, t2, ethernet_hdr_write _ _ _ _ mac e.net_if_mac (swap16_bytes (protocol % 65536))
    hx hm he rfl]
  simp only [List.append_assoc]

/-! ## Facts about ARP -/

theorem arp_pkt_length (opcode : Nat) (sm si tm ti : List Nat) (h1 : sm.length = 6)
    (h2 : si.length = 4) (h3 : tm.length = 6) (h4 : ti.length = 4) :
    (arp_pkt opcode sm si tm ti).length = 28 := by
  simp only [arp_pkt, swap16_bytes, List.length_append, List.length_cons, List.length_nil,
    List.length_take, NET_MAC_LEN, NET_IP_LEN, h1, h2, h3, h4]
  rfl

/-- The frame of `arp_req`: exactly one frame goes to the driver, the broadcast of the
request for `ip`. -/
theorem arp_req_sent (e : Config) (st : net_t) (ip : List Nat) (he6 : e.net_if_mac.length = 6)
    (he4 : e.net_if_ip.length = 4) (hx : ip.length = 4) (hcap : 84 ≤ e.heap.length) :
    ∃ pad, pad.length = 18 ∧ (arp_req e st ip).sent = st.sent ++ [arp_req_frame e ip pad] := by
  have hi := buf_init_ok (buf_malloc e) 28 (by rw [buf_malloc_cap]; omega)
  rw [buf_malloc_cap] at hi
  have hp := arp_pkt_length ARP_REQUEST e.net_if_mac e.net_if_ip (List.replicate NET_MAC_LEN 0) ip
    he6 he4 (by simp) hx
  unfold arp_req
  simp only [ARP_PKT_LEN, ETHERNET_MIN_TRANSPORT_UNIT]
  rw [buf_write_all _ _ (by rw [hp, hi.1])]
  have hpadd : (buf_add_padding ⟨(buf_init (buf_malloc e) 28).2.head,
      arp_pkt ARP_REQUEST e.net_if_mac e.net_if_ip (List.replicate NET_MAC_LEN 0) ip,
      (buf_init (buf_malloc e) 28).2.tail⟩ (46 - 28)).2
      = ⟨(buf_init (buf_malloc e) 28).2.head,
        arp_pkt ARP_REQUEST e.net_if_mac e.net_if_ip (List.replicate NET_MAC_LEN 0) ip
          ++ (buf_init (buf_malloc e) 28).2.tail.take 18,
        (buf_init (buf_malloc e) 28).2.tail.drop 18⟩ := by
    unfold buf_add_padding
    simp only []
    rw [if_neg (by omega)]
  rw [hpadd]
  have hlen : (arp_pkt ARP_REQUEST e.net_if_mac e.net_if_ip (List.replicate NET_MAC_LEN 0) ip
      ++ (buf_init (buf_malloc e) 28).2.tail.take 18).length = 46 := by
    simp only [List.length_append, hp, List.length_take]
    omega
  rw [ethernet_out_sent e st _ ether_broadcast_mac NET_PROTOCOL_ARP rfl he6
    (by simp only []; omega) (by simp only [hlen]; omega)]
  refine ⟨(buf_init (buf_malloc e) 28).2.tail.take 18, ?_, ?_⟩
  · simp only [List.length_take]; omega
  · simp only [hlen, Nat.sub_self, List.take_zero, List.append_nil, arp_req_frame,
      List.append_assoc]
    rfl

theorem arp_out_unresolved (e : Config) (st : net_t) (buf : buf_t) (ip : List Nat) (now : Nat)
    (hx : ip.take 4 ≠ e.net_if_ip.take 4) (hun : map_get st.arp_table now (ip.take 4) = none) :
    (arp_out e st buf ip now).1.arp_buf = map_set st.arp_buf now (ip.take 4) buf
      ∧ (arp_out e st buf ip now).1.arp_table = st.arp_table
      ∧ (arp_out e st buf ip now).1.sent
          = match map_get st.arp_buf now (ip.take 4) with
            | none => (arp_req e st ip).sent
            | some _ => st.sent := by
  unfold arp_out
  simp only [NET_IP_LEN, if_neg hx, hun]
  cases hp : map_get st.arp_buf now (ip.take 4) with
  | none => exact ⟨rfl, rfl, rfl⟩
  | some c => exact ⟨rfl, rfl, rfl⟩

theorem arp_out_resolved (e : Config) (st : net_t) (buf : buf_t) (ip m : List Nat) (now : Nat)
    (hx : ip.take 4 ≠ e.net_if_ip.take 4) (hm : map_get st.arp_table now (ip.take 4) = some m) :
    arp_out e st buf ip now
      = ethernet_out e { st with arp_calls := st.arp_calls ++ [(buf.data, ip)] } buf m
          NET_PROTOCOL_IP := by
  unfold arp_out
  simp only [NET_IP_LEN, if_neg hx, hm]

theorem arp_in_accept (e : Config) (st : net_t) (buf : buf_t) (src_mac : List Nat) (now : Nat)
    (hv : arp_pkt_valid buf.data) :
    arp_in e st buf src_mac now
      = let src_ip := arp_sender_ip buf.data
        let st1 := { st with
          arp_table := map_set st.arp_table now src_ip (src_mac.take NET_MAC_LEN) }
        match map_get st.arp_buf now src_ip with
        | none =>
          if get16 buf.data 6 = ARP_REQUEST
              ∧ (buf.data.drop 24).take NET_IP_LEN = e.net_if_ip.take NET_IP_LEN
          then arp_resp e st1 src_ip src_mac
          else st1
        | some cache =>
          let r := ethernet_out e st1 cache src_mac (get16 buf.data 2)
          { r.1 with arp_buf := map_delete st.arp_buf src_ip } := by
  obtain ⟨h1, h2, h3, h4, h5, h6⟩ := hv
  unfold arp_in
  rw [if_neg (by simp only [ARP_PKT_LEN]; omega)]
  rw [if_neg (by
    simp only [h2, h3, h4, h5, ne_eq, not_true_eq_false, false_or, not_and, not_not]
    intro h
    rcases h6 with h6 | h6
    · exact absurd h6 h
    · exact h6)]
  rfl

theorem arp_in_learns (e : Config) (st : net_t) (buf : buf_t) (src_mac : List Nat) (now : Nat)
    (hv : arp_pkt_valid buf.data) :
    (arp_in e st buf src_mac now).arp_table
      = map_set st.arp_table now (arp_sender_ip buf.data) (src_mac.take NET_MAC_LEN) := by
  rw [arp_in_accept e st buf src_mac now hv]
  simp only []
  split
  · split
    · rfl
    · rfl
  · rfl

/-- The drain of a pending buffer: `arp_out` for an unresolved, non-local `x` queues
`buf`; a valid ARP packet from sender `x`, arriving from `m` while the entry is alive,
makes `arp_in` send exactly one frame, to `m`, with ethertype IPv4 and the queued window
padded to 46 bytes, and removes the entry of `x`. -/
theorem arp_drain_spec (e : Config) (st : net_t) (buf pkt : buf_t) (x m : List Nat)
    (t0 t1 : Nat) (hx4 : x.length = 4) (hm6 : m.length = 6) (he6 : e.net_if_mac.length = 6)
    (he4 : e.net_if_ip.length = 4) (hloc : x ≠ e.net_if_ip)
    (hun : map_get st.arp_table t0 x = none)
    (hlive : map_entry_valid st.arp_buf.timeout t0 t1 = true)
    (hv : arp_pkt_valid pkt.data) (hs : arp_sender_ip pkt.data = x)
    (hroom : 14 ≤ buf.head.length) (hpad : 46 - buf.data.length ≤ buf.tail.length) :
    (arp_in e (arp_out e st buf x t0).1 pkt m t1).sent
        = (arp_out e st buf x t0).1.sent
          ++ [m ++ e.net_if_mac ++ [8, 0] ++ buf.data ++ buf.tail.take (46 - buf.data.length)]
      ∧ (∀ en ∈ (arp_in e (arp_out e st buf x t0).1 pkt m t1).arp_buf.entries, en.1 ≠ x)
      ∧ map_get (arp_in e (arp_out e st buf x t0).1 pkt m t1).arp_buf t1 x = none := by
  have hx : x.take 4 = x := List.take_of_length_le (by omega)
  have hn : e.net_if_ip.take 4 = e.net_if_ip := List.take_of_length_le (by omega)
  have ho := arp_out_unresolved e st buf x t0 (by rw [hx, hn]; exact hloc) (by rw [hx]; exact hun)
  rw [hx] at ho
  have hget : map_get (arp_out e st buf x t0).1.arp_buf t1 x = some buf := by
    rw [ho.1, map_get_set_same, if_pos hlive]
  have hproto : get16 pkt.data 2 = 2048 := hv.2.2.1
  rw [arp_in_accept e _ pkt m t1 hv]
  simp only [hs, hget, hproto]
  refine ⟨?_, ?_, ?_⟩
  · rw [ethernet_out_sent e _ buf m 2048 hm6 he6 hroom hpad]
    rfl
  · exact map_delete_no_entry _ _
  · exact map_get_delete_same _ _ _

/-- Two calls of `arp_out` for an unresolved, non-local `x` with nothing pending, the
second while the entry of the first is alive: one frame goes to the driver in total, the
ARP request for `x`, and `arp_buf` holds one entry for `x`, the second buffer. -/
theorem arp_out_twice_spec (e : Config) (st : net_t) (b1 b2 : buf_t) (x : List Nat)
    (t0 t1 : Nat) (hx4 : x.length = 4) (he6 : e.net_if_mac.length = 6)
    (he4 : e.net_if_ip.length = 4) (hcap : 84 ≤ e.heap.length) (hloc : x ≠ e.net_if_ip)
    (hun : map_get st.arp_table t0 x = none) (hnp : map_get st.arp_buf t0 x = none)
    (ht : t0 ≤ t1) (hlive : map_entry_valid st.arp_buf.timeout t0 t1 = true) :
    ∃ pad, pad.length = 18
      ∧ (arp_out e (arp_out e st b1 x t0).1 b2 x t1).1.sent = st.sent ++ [arp_req_frame e x pad]
      ∧ (arp_out e (arp_out e st b1 x t0).1 b2 x t1).1.arp_buf.entries.filter
          (fun en => decide (en.1 = x)) = [(x, b2, t1)] := by
  have hx : x.take 4 = x := List.take_of_length_le (by omega)
  have hn : e.net_if_ip.take 4 = e.net_if_ip := List.take_of_length_le (by omega)
  have ho := arp_out_unresolved e st b1 x t0 (by rw [hx, hn]; exact hloc) (by rw [hx]; exact hun)
  rw [hx, hnp] at ho
  have hun1 : map_get (arp_out e st b1 x t0).1.arp_table t1 (x.take 4) = none := by
    rw [ho.2.1, hx]
    exact map_get_none_mono _ _ _ _ ht hun
  have ho2 := arp_out_unresolved e (arp_out e st b1 x t0).1 b2 x t1
    (by rw [hx, hn]; exact hloc) hun1
  have hget : map_get (arp_out e st b1 x t0).1.arp_buf t1 x = some b1 := by
    rw [ho.1, map_get_set_same, if_pos hlive]
  rw [hx, hget] at ho2
  obtain ⟨pad, hp1, hp2⟩ := arp_req_sent e st x he6 he4 hx4 hcap
  refine ⟨pad, hp1, ?_, ?_⟩
  · rw [ho2.2.2, ho.2.2, hp2]
  · rw [ho2.1]
    exact map_set_entries_of_key _ _ _ _

/-- While something is pending for an unresolved `x`, `arp_out` sends nothing. -/
theorem arp_out_pending_silent (e : Config) (st : net_t) (buf c : buf_t) (x : List Nat)
    (now : Nat) (hx4 : x.length = 4) (he4 : e.net_if_ip.length = 4) (hloc : x ≠ e.net_if_ip)
    (hun : map_get st.arp_table now x = none) (hp : map_get st.arp_buf now x = some c) :
    (arp_out e st buf x now).1.sent = st.sent
      ∧ (arp_out e st buf x now).1.arp_table = st.arp_table
      ∧ (arp_out e st buf x now).1.arp_buf = map_set st.arp_buf now x buf := by
  have hx : x.take 4 = x := List.take_of_length_le (by omega)
  have hn : e.net_if_ip.take 4 = e.net_if_ip := List.take_of_length_le (by omega)
  have ho := arp_out_unresolved e st buf x now (by rw [hx, hn]; exact hloc)
    (by rw [hx]; exact hun)
  rw [hx, hp] at ho
  exact ⟨ho.2.2, ho.2.1, ho.1⟩

/-- A destination learned by `arp_in` and still alive is sent to directly. -/
theorem arp_out_learned_spec (e : Config) (st : net_t) (buf pkt : buf_t) (x m : List Nat)
    (t0 t1 : Nat) (hx4 : x.length = 4) (hm6 : m.length = 6) (he6 : e.net_if_mac.length = 6)
    (he4 : e.net_if_ip.length = 4) (hloc : x ≠ e.net_if_ip)
    (hv : arp_pkt_valid pkt.data) (hs : arp_sender_ip pkt.data = x)
    (hlive : map_entry_valid st.arp_table.timeout t0 t1 = true)
    (hroom : 14 ≤ buf.head.length) (hpad : 46 - buf.data.length ≤ buf.tail.length) :
    (arp_out e (arp_in e st pkt m t0) buf x t1).1.sent
        = (arp_in e st pkt m t0).sent
          ++ [m ++ e.net_if_mac ++ [8, 0] ++ buf.data ++ buf.tail.take (46 - buf.data.length)]
      ∧ (arp_out e (arp_in e st pkt m t0) buf x t1).1.arp_buf = (arp_in e st pkt m t0).arp_buf := by
  have hx : x.take 4 = x := List.take_of_length_le (by omega)
  have hn : e.net_if_ip.take 4 = e.net_if_ip := List.take_of_length_le (by omega)
  have hm : m.take NET_MAC_LEN = m := List.take_of_length_le (by simp only [NET_MAC_LEN]; omega)
  have hget : map_get (arp_in e st pkt m t0).arp_table t1 (x.take 4) = some m := by
    rw [arp_in_learns e st pkt m t0 hv, hs, hx, hm, map_get_set_same, if_pos hlive]
  rw [arp_out_resolved e _ buf x m t1 (by rw [hx, hn]; exact hloc) hget]
  refine ⟨?_, rfl⟩
  rw [ethernet_out_sent e _ buf m NET_PROTOCOL_IP hm6 he6 hroom hpad]
  rfl

theorem get16_swap16 (v : Nat) (h : v < 65536) (rest : List Nat) :
    get16 (swap16_bytes v ++ rest) 0 = v := by
  simp only [get16, swap16_bytes, List.cons_append, List.nil_append, List.getD_cons_zero,
    Nat.zero_add, List.getD_cons_succ]
  omega

theorem tcp_flags_roundtrip (f : tcp_flags_t) : tcp_flags_of_byte (tcp_flags_byte f) = f := by
  rcases f with ⟨a, b, c, d, e, f, g, h⟩
  cases a <;> cases b <;> cases c <;> cases d <;> cases e <;> cases f <;> cases g <;> cases h <;>
    simp [tcp_flags_of_byte, tcp_flags_byte]

theorem buf_add_header_write (buf : buf_t) (n : Nat) (hdr : List Nat)
    (hroom : n ≤ buf.head.length) (hl : hdr.length = n) :
    buf_write (buf_add_header buf n).2 0 hdr
      = ⟨buf.head.take (buf.head.length - n), hdr ++ buf.data, buf.tail⟩ := by
  have hadd : (buf_add_header buf n).2
      = ⟨buf.head.take (buf.head.length - n), buf.head.drop (buf.head.length - n) ++ buf.data,
         buf.tail⟩ := by
    unfold buf_add_header
    rw [if_neg (by omega)]
  rw [hadd]
  have hd : (buf.head.drop (buf.head.length - n)).length = hdr.length := by
    simp only [List.length_drop]; omega
  have := buf_write_mid (buf.head.take (buf.head.length - n)) []
    (buf.head.drop (buf.head.length - n)) buf.data buf.tail hdr 0 rfl hd.symm
  simpa using this

theorem tcp_hdr_bytes_length (c : tcp_connect_t) (n : Nat) (f : tcp_flags_t) :
    (tcp_hdr_bytes c n f).length = 20 := by
  simp [tcp_hdr_bytes, swap16_bytes, swap32_bytes]

/-- The segment that `tcp_send` hands to `ip_out` when the buffer has 20 bytes of head
room: one call of `ip_out`, to the IP of the connection with protocol TCP, whose header
fields are those of the connection and whose payload is the window of the buffer;
nothing else changes in the state, and `next_seq` counts a SYN or FIN. -/
theorem tcp_send_spec (e : Config) (st : net_t) (buf : buf_t) (c : tcp_connect_t)
    (flags : tcp_flags_t) (hroom : 20 ≤ buf.head.length) :
    ∃ seg, (tcp_send e st buf c flags).1
        = { st with ip_out_calls := st.ip_out_calls ++ [⟨seg, c.ip, NET_PROTOCOL_TCP⟩] }
      ∧ (tcp_send e st buf c flags).2.2
        = (if flags.syn || flags.fin then { c with next_seq := (c.next_seq + 1) % 2 ^ 32 } else c)
      ∧ seg.length = buf.data.length + 20
      ∧ get16 seg 0 = c.local_port % 65536
      ∧ get16 seg 2 = c.remote_port % 65536
      ∧ get32 seg 4 = (c.next_seq + 2 ^ 64 - buf.data.length) % 2 ^ 64 % 2 ^ 32
      ∧ get32 seg 8 = c.ack % 2 ^ 32
      ∧ seg.getD 12 0 = 80
      ∧ tcp_flags_of_byte (seg.getD 13 0) = flags
      ∧ get16 seg 14 = c.remote_win % 65536
      ∧ seg.drop 20 = buf.data := by
  have hw := buf_add_header_write buf 20 (tcp_hdr_bytes c buf.data.length flags) hroom
    (tcp_hdr_bytes_length _ _ _)
  have hl := tcp_hdr_bytes_length c buf.data.length flags
  have hdata : ∀ (b : buf_t) (ck : Nat),
      b.data = tcp_hdr_bytes c buf.data.length flags ++ buf.data →
      (buf_write b 16 (swap16_bytes ck)).data
        = (tcp_hdr_bytes c buf.data.length flags).take 16 ++ swap16_bytes ck
          ++ (tcp_hdr_bytes c buf.data.length flags).drop 18 ++ buf.data := by
    intro b ck hb
    have hlen : 16 + (swap16_bytes ck).length ≤ b.data.length := by
      rw [hb]
      simp only [List.length_append, hl, swap16_bytes, List.length_cons, List.length_nil]
      omega
    rw [buf_write_data _ 16 _ hlen, hb]
    simp only [swap16_bytes, List.length_cons, List.length_nil]
    rw [List.take_append_of_le_length (by omega), List.drop_append_of_le_length (by omega)]
    simp only [List.append_assoc]
  have hseg := hdata (tcp_checksum ⟨buf.head.take (buf.head.length - 20),
      tcp_hdr_bytes c buf.data.length flags ++ buf.data, buf.tail⟩ c.ip e.net_if_ip).2
    (tcp_checksum ⟨buf.head.take (buf.head.length - 20),
      tcp_hdr_bytes c buf.data.length flags ++ buf.data, buf.tail⟩ c.ip e.net_if_ip).1 rfl
  refine ⟨(buf_write (tcp_checksum ⟨buf.head.take (buf.head.length - 20),
      tcp_hdr_bytes c buf.data.length flags ++ buf.data, buf.tail⟩ c.ip e.net_if_ip).2 16
      (swap16_bytes (tcp_checksum ⟨buf.head.take (buf.head.length - 20),
        tcp_hdr_bytes c buf.data.length flags ++ buf.data, buf.tail⟩ c.ip e.net_if_ip).1)).data,
    ?_, ?_, ?_⟩
  · unfold tcp_send
    simp only [TCP_HDR_LEN, hw]
  · unfold tcp_send
    simp only []
  · rw [hseg]
    generalize (tcp_checksum ⟨buf.head.take (buf.head.length - 20),
      tcp_hdr_bytes c buf.data.length flags ++ buf.data, buf.tail⟩ c.ip e.net_if_ip).1 = ck
    have hf := tcp_flags_roundtrip flags
    simp only [tcp_hdr_bytes, swap16_bytes, swap32_bytes, List.cons_append, List.nil_append,
      List.take_succ_cons, List.take_zero, List.drop_succ_cons, List.drop_zero, get16, get32,
      List.getD_cons_zero, List.getD_cons_succ, List.length_cons, List.length_append,
      List.length_nil, TCP_HDR_LEN]
    have h32 : ∀ v : Nat, v % 2 ^ 32 / 16777216 % 256 * 16777216
        + v % 2 ^ 32 / 65536 % 256 * 65536 + v % 2 ^ 32 / 256 % 256 * 256 + v % 2 ^ 32 % 256
        = v % 2 ^ 32 := by
      intro v
      have : v % 2 ^ 32 < 4294967296 := Nat.mod_lt _ (by norm_num)
      generalize v % 2 ^ 32 = w at this ⊢
      omega
    exact ⟨trivial, by omega, by omega, h32 _, h32 _, trivial, hf, by omega, trivial⟩

theorem map_store_timeout {K V : Type} [DecidableEq K] (m : map_t K V) (k : K) (v : V) :
    (map_store m k v).timeout = m.timeout := rfl

theorem map_get_store_same {K V : Type} [DecidableEq K] (m : map_t K V) (t : Nat) (k : K)
    (v : V) : map_get (map_store m k v) t k = (map_get m t k).map (fun _ => v) := by
  unfold map_get map_store
  simp only []
  induction m.entries with
  | nil => rfl
  | cons en rest ih =>
    simp only [List.map_cons, List.find?_cons]
    by_cases hk : en.1 = k
    · simp only [hk, if_true, decide_True, Bool.true_and]
      cases hv : map_entry_valid m.timeout en.2.2 t with
      | true => simp
      | false => simpa using ih
    · simp only [hk, if_false, decide_False, Bool.false_and]
      simpa using ih

theorem tcp_in_restore_data (buf : buf_t) (src_ip dst_ip : List Nat)
    (h : 20 ≤ buf.data.length) :
    (buf_write (tcp_checksum (buf_write buf 16 [0, 0]) src_ip dst_ip).2 16
      (buf_read buf 16 2)).data = buf.data := by
  have hw : buf_write buf 16 [0, 0]
      = ⟨buf.head, buf.data.take 16 ++ [0, 0] ++ buf.data.drop 18, buf.tail⟩ := by
    rw [buf_write_data _ 16 _ (by simp only [List.length_cons, List.length_nil]; omega)]
    rfl
  have hr : buf_read buf 16 2 = (buf.data.drop 16).take 2 := buf_read_data buf 16 2 (by omega)
  rw [hw, hr]
  have hl16 : (buf.data.take 16).length = 16 := by simp only [List.length_take]; omega
  have hmid := buf_write_mid
    (tcp_checksum ⟨buf.head, buf.data.take 16 ++ [0, 0] ++ buf.data.drop 18, buf.tail⟩
      src_ip dst_ip).2.head
    (buf.data.take 16) [0, 0] (buf.data.drop 18) buf.tail ((buf.data.drop 16).take 2) 16
    hl16.symm (by simp only [List.length_take, List.length_drop, List.length_cons,
      List.length_nil]; omega)
  have hck : (tcp_checksum ⟨buf.head, buf.data.take 16 ++ [0, 0] ++ buf.data.drop 18, buf.tail⟩
      src_ip dst_ip).2
      = ⟨(tcp_checksum ⟨buf.head, buf.data.take 16 ++ [0, 0] ++ buf.data.drop 18, buf.tail⟩
          src_ip dst_ip).2.head,
        buf.data.take 16 ++ [0, 0] ++ buf.data.drop 18, buf.tail⟩ := rfl
  rw [hck, hmid]
  simp only []
  have h18 : buf.data.drop 18 = (buf.data.drop 16).drop 2 := by rw [List.drop_drop]
  rw [h18, List.append_assoc, List.take_append_drop, List.take_append_drop]

theorem tcp_in_payload_data (e : Config) (buf : buf_t) (src_ip : List Nat)
    (h : 20 ≤ buf.data.length) : (tcp_in_payload e buf src_ip).data = buf.data.drop 20 := by
  unfold tcp_in_payload buf_remove_header
  simp only [TCP_HDR_LEN, tcp_in_restore_data buf src_ip e.net_if_ip h]
  rw [if_neg (by omega)]

/-- What `tcp_in` does with a segment that passes the length and checksum tests and whose
destination port has a handler. -/
theorem tcp_in_accept (e : Config) (st : net_t) (buf : buf_t) (src_ip : List Nat)
    (rnd now handler : Nat) (hv : tcp_seg_valid e buf src_ip)
    (hh : map_get st.tcp_table now (get16 buf.data 2) = some handler) :
    tcp_in e st buf src_ip rnd now
      = let key := tcp_seg_key src_ip buf.data
        let tbl := match map_get st.connect_table now key with
          | none => map_set st.connect_table now key CONNECT_LISTEN
          | some _ => st.connect_table
        let c := (map_get tbl now key).getD CONNECT_LISTEN
        let st1 := { st with connect_table := tbl }
        if c.state = tcp_state_t.TCP_LISTEN then
          tcp_in_listen e st1 key c src_ip (get16 buf.data 0) (get16 buf.data 2)
            (get32 buf.data 4) (get16 buf.data 14) (tcp_seg_flags buf.data) rnd
        else
          let r1 := if get32 buf.data 4 ≠ c.ack then tcp_in_reset e st1 c (get32 buf.data 4)
            else (st1, c)
          if (tcp_seg_flags buf.data).rst then
            let tbl1 := map_delete
              (map_store r1.1.connect_table key (release_tcp_connect r1.2)) key
            { r1.1 with connect_table := tbl1 }
          else
            tcp_in_switch e r1.1 key r1.2 handler (tcp_in_payload e buf src_ip)
              (get32 buf.data 8) (tcp_seg_flags buf.data) := by
  obtain ⟨h1, h2⟩ := hv
  unfold tcp_in
  rw [if_neg (by omega)]
  simp only [h2, ne_eq, not_true_eq_false, if_false,
    tcp_in_restore_data buf src_ip e.net_if_ip (by simpa using h1), hh]
  rfl

theorem map_entry_valid_self (timeout t : Nat) : map_entry_valid timeout t t = true := by
  simp [map_entry_valid]

theorem map_entry_valid_zero (ts t : Nat) : map_entry_valid 0 ts t = true := by
  simp [map_entry_valid]

theorem buf_init_zero_head (buf : buf_t) :
    (buf_init buf 0).2.head.length = buf_cap buf / 2 ∧ (buf_init buf 0).2.data = [] := by
  have h := buf_init_ok buf 0 (Nat.zero_le _)
  exact ⟨by rw [h.2.1]; omega, List.length_eq_zero.mp h.1⟩

/-- The first segment of a handshake: a valid segment with SYN and without RST, for a
port with a handler and a key without connection.  `tcp_in` installs a LISTEN record,
turns it into a SYN_RCVD record with the initial sequence number `rnd % 100`, and sends
one segment, SYN|ACK. -/
theorem tcp_in_syn_spec (e : Config) (st : net_t) (buf : buf_t) (src_ip : List Nat)
    (rnd now handler : Nat) (hv : tcp_seg_valid e buf src_ip)
    (hh : map_get st.tcp_table now (get16 buf.data 2) = some handler)
    (hnone : map_get st.connect_table now (tcp_seg_key src_ip buf.data) = none)
    (hsyn : (tcp_seg_flags buf.data).syn = true) (hrst : (tcp_seg_flags buf.data).rst = false)
    (hroom : 40 ≤ buf_cap st.txbuf) :
    ∃ seg txb,
      tcp_in e st buf src_ip rnd now
        = { st with
            txbuf := txb
            connect_table := map_store
              (map_set st.connect_table now (tcp_seg_key src_ip buf.data) CONNECT_LISTEN)
              (tcp_seg_key src_ip buf.data)
              { state := tcp_state_t.TCP_SYN_RCVD
                local_port := get16 buf.data 2
                remote_port := get16 buf.data 0
                ip := src_ip.take 4
                unack_seq := rnd % 100
                next_seq := rnd % 100 + 1
                ack := (get32 buf.data 4 + 1) % 2 ^ 32
                remote_win := get16 buf.data 14
                rx_buf := (buf_init (buf_malloc e) 0).2
                tx_buf := (buf_init (buf_malloc e) 0).2 }
            ip_out_calls := st.ip_out_calls ++ [⟨seg, src_ip.take 4, NET_PROTOCOL_TCP⟩] }
      ∧ seg.length = 20
      ∧ tcp_seg_flags seg = tcp_flags_ack_syn
      ∧ get32 seg 4 = rnd % 100
      ∧ get32 seg 8 = (get32 buf.data 4 + 1) % 2 ^ 32
      ∧ get16 seg 0 = get16 buf.data 2 % 65536
      ∧ get16 seg 2 = get16 buf.data 0 % 65536 := by
  rw [tcp_in_accept e st buf src_ip rnd now handler hv hh]
  simp only [hnone, map_get_set_same, map_entry_valid_self, if_true, Option.getD_some]
  have hl : CONNECT_LISTEN.state = tcp_state_t.TCP_LISTEN := rfl
  rw [if_pos hl]
  unfold tcp_in_listen
  simp only [hrst, hsyn, Bool.false_eq_true, if_false, Bool.not_true]
  have hi := buf_init_zero_head st.txbuf
  obtain ⟨seg, h1, h2, h3, h4, h5, h6, h7, h8, h9, h10, h11⟩ := tcp_send_spec e
    { st with connect_table :=
        map_set st.connect_table now (tcp_seg_key src_ip buf.data) CONNECT_LISTEN }
    (buf_init st.txbuf 0).2
    { init_tcp_connect_rcvd e CONNECT_LISTEN with
        local_port := get16 buf.data 2, remote_port := get16 buf.data 0,
        ip := src_ip.take NET_IP_LEN, unack_seq := rnd % MAX_SQE_RND,
        next_seq := rnd % MAX_SQE_RND, ack := (get32 buf.data 4 + 1) % 2 ^ 32,
        remote_win := get16 buf.data 14 }
    tcp_flags_ack_syn (by rw [hi.1]; omega)
  generalize hr : tcp_send e _ (buf_init st.txbuf 0).2 _ tcp_flags_ack_syn = r at h1 h2 ⊢
  refine ⟨seg, r.2.1, ?_, ?_, ?_, ?_, ?_, ?_, ?_⟩
  · rw [h1, h2]
    have hm : (rnd % 100 + 1) % 2 ^ 32 = rnd % 100 + 1 := by
      apply Nat.mod_eq_of_lt
      have : rnd % 100 < 100 := Nat.mod_lt _ (by norm_num)
      have : (2 : Nat) ^ 32 = 4294967296 := by norm_num
      omega
    simp only [tcp_flags_ack_syn, Bool.or_false, if_true, MAX_SQE_RND, NET_IP_LEN, hm,
      init_tcp_connect_rcvd, hl, Bool.true_or]
  · rw [h3, hi.2]; rfl
  · exact h9
  · rw [h6, hi.2]
    simp only [MAX_SQE_RND, List.length_nil, Nat.sub_zero]
    have : rnd % 100 < 100 := Nat.mod_lt _ (by norm_num)
    have e64 : (2 : Nat) ^ 64 = 18446744073709551616 := by norm_num
    have e32 : (2 : Nat) ^ 32 = 4294967296 := by norm_num
    rw [e64, e32]
    omega
  · rw [h7]
    simp only [Nat.mod_mod]
  · exact h4
  · exact h5

/-- A valid segment for an existing connection outside LISTEN, in sequence and without
RST, goes to the switch with the state untouched. -/
theorem tcp_in_existing (e : Config) (st : net_t) (buf : buf_t) (src_ip : List Nat)
    (rnd now handler : Nat) (c : tcp_connect_t) (hv : tcp_seg_valid e buf src_ip)
    (hh : map_get st.tcp_table now (get16 buf.data 2) = some handler)
    (hc : map_get st.connect_table now (tcp_seg_key src_ip buf.data) = some c)
    (hstate : c.state ≠ tcp_state_t.TCP_LISTEN) (hseq : get32 buf.data 4 = c.ack)
    (hrst : (tcp_seg_flags buf.data).rst = false) :
    tcp_in e st buf src_ip rnd now
      = tcp_in_switch e st (tcp_seg_key src_ip buf.data) c handler (tcp_in_payload e buf src_ip)
          (get32 buf.data 8) (tcp_seg_flags buf.data) := by
  rw [tcp_in_accept e st buf src_ip rnd now handler hv hh]
  simp only [hc, Option.getD_some, if_neg hstate, hseq, ne_eq, not_true_eq_false, if_false,
    hrst, Bool.false_eq_true]

/-- A valid segment with RST for an existing connection outside LISTEN, in sequence:
the connection is released and its entry deleted; nothing is sent, no handler runs. -/
theorem tcp_in_existing_rst (e : Config) (st : net_t) (buf : buf_t) (src_ip : List Nat)
    (rnd now handler : Nat) (c : tcp_connect_t) (hv : tcp_seg_valid e buf src_ip)
    (hh : map_get st.tcp_table now (get16 buf.data 2) = some handler)
    (hc : map_get st.connect_table now (tcp_seg_key src_ip buf.data) = some c)
    (hstate : c.state ≠ tcp_state_t.TCP_LISTEN) (hseq : get32 buf.data 4 = c.ack)
    (hrst : (tcp_seg_flags buf.data).rst = true) :
    tcp_in e st buf src_ip rnd now
      = let key := tcp_seg_key src_ip buf.data
        let tbl := map_delete (map_store st.connect_table key (release_tcp_connect c)) key
        { st with connect_table := tbl } := by
  rw [tcp_in_accept e st buf src_ip rnd now handler hv hh]
  simp only [hc, Option.getD_some, if_neg hstate, hseq, ne_eq, not_true_eq_false, if_false,
    hrst, if_true]

/-- The switch in SYN_RCVD on a segment with ACK: `unack_seq` steps over the SYN, the
connection is ESTABLISHED, the handler gets CONNECTED; nothing is sent. -/
theorem tcp_in_switch_syn_rcvd (e : Config) (st : net_t) (key : tcp_key_t) (c : tcp_connect_t)
    (handler : Nat) (buf : buf_t) (getAck : Nat) (flags : tcp_flags_t)
    (hstate : c.state = tcp_state_t.TCP_SYN_RCVD) (hack : flags.ack = true) :
    tcp_in_switch e st key c handler buf getAck flags
      = { st with
          events := st.events ++ [⟨handler,
            { c with unack_seq := (c.unack_seq + 1) % 2 ^ 32,
                     state := tcp_state_t.TCP_ESTABLISHED },
            tcp_conn_event_t.TCP_CONN_CONNECTED⟩]
          connect_table := map_store st.connect_table key
            { c with unack_seq := (c.unack_seq + 1) % 2 ^ 32,
                     state := tcp_state_t.TCP_ESTABLISHED } } := by
  unfold tcp_in_switch
  simp only [hstate, hack, Bool.not_true, Bool.false_eq_true, if_false]

/-- The switch in LAST_ACK on a segment with ACK: the handler gets CLOSED, the
connection is released and its entry deleted; nothing is sent. -/
theorem tcp_in_switch_last_ack (e : Config) (st : net_t) (key : tcp_key_t) (c : tcp_connect_t)
    (handler : Nat) (buf : buf_t) (getAck : Nat) (flags : tcp_flags_t)
    (hstate : c.state = tcp_state_t.TCP_LAST_ACK) (hack : flags.ack = true) :
    tcp_in_switch e st key c handler buf getAck flags
      = let tbl := map_delete (map_store st.connect_table key (release_tcp_connect c)) key
        { st with
          events := st.events ++ [⟨handler, c, tcp_conn_event_t.TCP_CONN_CLOSED⟩]
          connect_table := tbl } := by
  unfold tcp_in_switch
  simp only [hstate, hack, if_true]

theorem tcp_acked_frame (c : tcp_connect_t) (getAck : Nat) (flags : tcp_flags_t) :
    (tcp_acked c getAck flags).ack = c.ack ∧ (tcp_acked c getAck flags).rx_buf = c.rx_buf
      ∧ (tcp_acked c getAck flags).ip = c.ip ∧ (tcp_acked c getAck flags).state = c.state
      ∧ (tcp_acked c getAck flags).next_seq = c.next_seq := by
  unfold tcp_acked
  split <;> exact ⟨rfl, rfl, rfl, rfl, rfl⟩

theorem tcp_read_from_buf_frame (c : tcp_connect_t) (buf : buf_t) :
    (tcp_read_from_buf c buf).ack = (c.ack + buf.data.length) % 2 ^ 32
      ∧ (tcp_read_from_buf c buf).ip = c.ip ∧ (tcp_read_from_buf c buf).state = c.state
      ∧ (tcp_read_from_buf c buf).next_seq = c.next_seq
      ∧ (tcp_read_from_buf c buf).tx_buf = c.tx_buf := ⟨rfl, rfl, rfl, rfl, rfl⟩

/-- The receive buffer after `tcp_read_from_buf` when there is room: the bytes are
appended. -/
theorem tcp_read_from_buf_room (c : tcp_connect_t) (buf : buf_t)
    (h : buf.data.length ≤ c.rx_buf.tail.length) :
    (tcp_read_from_buf c buf).rx_buf.data = c.rx_buf.data ++ buf.data := by
  unfold tcp_read_from_buf buf_add_padding
  simp only []
  rw [if_neg (by omega)]
  have := buf_write_mid c.rx_buf.head c.rx_buf.data (c.rx_buf.tail.take buf.data.length) []
    (c.rx_buf.tail.drop buf.data.length) buf.data c.rx_buf.data.length rfl
    (by simp only [List.length_take]; omega)
  simp only [List.append_nil] at this
  rw [this]

/-- The receive buffer after `tcp_read_from_buf` when there is no room: `buf_add_padding`
fails, the window of `rx_buf` stays as it is, and `ack` advances all the same. -/
theorem tcp_read_from_buf_full (c : tcp_connect_t) (buf : buf_t)
    (h : c.rx_buf.tail.length < buf.data.length) :
    (tcp_read_from_buf c buf).rx_buf.data = c.rx_buf.data
      ∧ (tcp_read_from_buf c buf).ack = (c.ack + buf.data.length) % 2 ^ 32 := by
  refine ⟨?_, rfl⟩
  unfold tcp_read_from_buf buf_add_padding
  simp only []
  rw [if_pos h]
  unfold buf_write
  simp only [List.take_left' rfl, List.drop_left' rfl, List.take_take]
  have hmin : c.rx_buf.data.length ⊓ (c.rx_buf.data ++ c.rx_buf.tail).length
      = c.rx_buf.data.length := by
    simp only [List.length_append]; omega
  rw [hmin, List.take_append_of_le_length (by simp only [List.length_append]; omega),
    List.take_append_of_le_length (Nat.le_refl _), List.take_length]

theorem map_get_timeout_zero {K V : Type} [DecidableEq K] (m : map_t K V) (t t1 : Nat) (k : K)
    (h : m.timeout = 0) : map_get m t k = map_get m t1 k := by
  unfold map_get
  simp only [h, map_entry_valid_zero]

theorem tcp_write_to_buf_frame (c : tcp_connect_t) (buf : buf_t) (h : 131110 ≤ buf_cap buf) :
    20 ≤ (tcp_write_to_buf c buf).2.2.head.length
      ∧ (tcp_write_to_buf c buf).2.1.ack = c.ack
      ∧ (tcp_write_to_buf c buf).2.1.rx_buf = c.rx_buf
      ∧ (tcp_write_to_buf c buf).2.1.ip = c.ip
      ∧ (tcp_write_to_buf c buf).2.1.state = c.state := by
  refine ⟨?_, rfl, rfl, rfl, rfl⟩
  unfold tcp_write_to_buf
  simp only [buf_write_head_eq]
  have hs : min ((c.tx_buf.data.length + 2 ^ 64
      - (c.next_seq + 2 ^ 32 - c.unack_seq) % 2 ^ 32 % 2 ^ 16) % 2 ^ 64) c.remote_win % 2 ^ 16
      < 65536 := Nat.mod_lt _ (by norm_num)
  have hi := buf_init_ok buf _ (show min ((c.tx_buf.data.length + 2 ^ 64
      - (c.next_seq + 2 ^ 32 - c.unack_seq) % 2 ^ 32 % 2 ^ 16) % 2 ^ 64) c.remote_win % 2 ^ 16
      ≤ buf_cap buf / 2 by omega)
  rw [hi.2.1]
  omega

/-- The case TCP_ESTABLISHED of the switch. -/
theorem tcp_in_switch_established (e : Config) (st : net_t) (key : tcp_key_t)
    (c : tcp_connect_t) (handler : Nat) (buf : buf_t) (getAck : Nat) (flags : tcp_flags_t)
    (hstate : c.state = tcp_state_t.TCP_ESTABLISHED) :
    tcp_in_switch e st key c handler buf getAck flags
      = if !flags.ack && !flags.fin then
          { st with connect_table := map_store st.connect_table key c }
        else
          let c2 := tcp_read_from_buf (tcp_acked c getAck flags) buf
          let txbuf1 := (buf_init st.txbuf 0).2
          if flags.fin then
            let c3 := { c2 with state := tcp_state_t.TCP_LAST_ACK, ack := (c2.ack + 1) % 2 ^ 32 }
            let r := tcp_send e st txbuf1 c3 tcp_flags_ack_fin
            { r.1 with txbuf := r.2.1, connect_table := map_store r.1.connect_table key r.2.2 }
          else if buf.data.length > 0 then
            let st1 := { st with
              events := st.events ++ [⟨handler, c2, tcp_conn_event_t.TCP_CONN_DATA_RECV⟩] }
            let w := tcp_write_to_buf c2 txbuf1
            let r := tcp_send e st1 w.2.2 w.2.1 tcp_flags_ack
            { r.1 with txbuf := r.2.1, connect_table := map_store r.1.connect_table key r.2.2 }
          else
            { st with txbuf := txbuf1, connect_table := map_store st.connect_table key c2 } := by
  cases c
  simp only at hstate
  subst hstate
  rfl

/-- The switch in ESTABLISHED on a segment with FIN: the payload is read, the connection
goes to LAST_ACK with `ack` one past the payload, one segment is sent, FIN|ACK; no
handler runs. -/
theorem tcp_in_switch_established_fin (e : Config) (st : net_t) (key : tcp_key_t)
    (c : tcp_connect_t) (handler : Nat) (buf : buf_t) (getAck : Nat) (flags : tcp_flags_t)
    (hstate : c.state = tcp_state_t.TCP_ESTABLISHED) (hfin : flags.fin = true)
    (hroom : 40 ≤ buf_cap st.txbuf) :
    ∃ seg c1,
      (tcp_in_switch e st key c handler buf getAck flags).ip_out_calls
          = st.ip_out_calls ++ [⟨seg, c.ip, NET_PROTOCOL_TCP⟩]
      ∧ (tcp_in_switch e st key c handler buf getAck flags).events = st.events
      ∧ (tcp_in_switch e st key c handler buf getAck flags).panics = st.panics
      ∧ (tcp_in_switch e st key c handler buf getAck flags).tcp_table = st.tcp_table
      ∧ (tcp_in_switch e st key c handler buf getAck flags).connect_table
          = map_store st.connect_table key c1
      ∧ c1.state = tcp_state_t.TCP_LAST_ACK
      ∧ c1.ack = (c.ack + buf.data.length + 1) % 2 ^ 32
      ∧ seg.length = 20
      ∧ tcp_seg_flags seg = tcp_flags_ack_fin
      ∧ get32 seg 8 = (c.ack + buf.data.length + 1) % 2 ^ 32 := by
  have hi := buf_init_zero_head st.txbuf
  obtain ⟨seg, h1, h2, h3, h4, h5, h6, h7, h8, h9, h10, h11⟩ := tcp_send_spec e st
    (buf_init st.txbuf 0).2
    { tcp_read_from_buf (tcp_acked c getAck flags) buf with
        state := tcp_state_t.TCP_LAST_ACK,
        ack := ((tcp_read_from_buf (tcp_acked c getAck flags) buf).ack + 1) % 2 ^ 32 }
    tcp_flags_ack_fin (by rw [hi.1]; omega)
  have hack : ((tcp_read_from_buf (tcp_acked c getAck flags) buf).ack + 1) % 2 ^ 32
      = (c.ack + buf.data.length + 1) % 2 ^ 32 := by
    rw [(tcp_read_from_buf_frame _ _).1, (tcp_acked_frame _ _ _).1]
    omega
  rw [tcp_in_switch_established e st key c handler buf getAck flags hstate]
  simp only [hfin, Bool.not_true, Bool.and_false, Bool.false_eq_true, if_false, if_true]
  generalize hr : tcp_send e st (buf_init st.txbuf 0).2 _ tcp_flags_ack_fin = r at h1 h2 ⊢
  refine ⟨seg, r.2.2, ?_, ?_, ?_, ?_, ?_, ?_, ?_, ?_, h9, ?_⟩
  · show r.1.ip_out_calls = _
    rw [h1]
    show st.ip_out_calls ++ [⟨seg, (tcp_read_from_buf (tcp_acked c getAck flags) buf).ip,
      NET_PROTOCOL_TCP⟩] = _
    rw [(tcp_read_from_buf_frame _ _).2.1, (tcp_acked_frame _ _ _).2.2.1]
  · show r.1.events = _
    rw [h1]
  · show r.1.panics = _
    rw [h1]
  · show r.1.tcp_table = _
    rw [h1]
  · show map_store r.1.connect_table key r.2.2 = _
    rw [h1]
  · rw [h2]; rfl
  · rw [h2, ← hack]; rfl
  · rw [h3, hi.2]; rfl
  · rw [h7, hack, Nat.mod_mod]

/-- The switch in ESTABLISHED on a segment with ACK, without FIN, with a payload: the
payload goes through `tcp_read_from_buf`, the handler gets DATA_RECV, one segment is sent,
flagged ACK, acknowledging `ack + buf->len`. -/
theorem tcp_in_switch_established_data (e : Config) (st : net_t) (key : tcp_key_t)
    (c : tcp_connect_t) (handler : Nat) (buf : buf_t) (getAck : Nat) (flags : tcp_flags_t)
    (hstate : c.state = tcp_state_t.TCP_ESTABLISHED) (hack : flags.ack = true)
    (hfin : flags.fin = false) (hlen : 0 < buf.data.length)
    (hroom : 131110 ≤ buf_cap st.txbuf) :
    ∃ seg c1,
      (tcp_in_switch e st key c handler buf getAck flags).ip_out_calls
          = st.ip_out_calls ++ [⟨seg, c.ip, NET_PROTOCOL_TCP⟩]
      ∧ (tcp_in_switch e st key c handler buf getAck flags).events
          = st.events ++ [⟨handler, tcp_read_from_buf (tcp_acked c getAck flags) buf,
              tcp_conn_event_t.TCP_CONN_DATA_RECV⟩]
      ∧ (tcp_in_switch e st key c handler buf getAck flags).connect_table
          = map_store st.connect_table key c1
      ∧ c1.state = tcp_state_t.TCP_ESTABLISHED
      ∧ c1.ack = (c.ack + buf.data.length) % 2 ^ 32
      ∧ c1.rx_buf = (tcp_read_from_buf (tcp_acked c getAck flags) buf).rx_buf
      ∧ tcp_seg_flags seg = tcp_flags_ack
      ∧ get32 seg 8 = (c.ack + buf.data.length) % 2 ^ 32 := by
  have hw := tcp_write_to_buf_frame (tcp_read_from_buf (tcp_acked c getAck flags) buf)
    (buf_init st.txbuf 0).2 (by rw [buf_init_cap]; exact hroom)
  obtain ⟨hw1, hw2, hw3, hw4, hw5⟩ := hw
  obtain ⟨seg, h1, h2, h3, h4, h5, h6, h7, h8, h9, h10, h11⟩ := tcp_send_spec e
    { st with events := st.events ++ [⟨handler,
        tcp_read_from_buf (tcp_acked c getAck flags) buf, tcp_conn_event_t.TCP_CONN_DATA_RECV⟩] }
    (tcp_write_to_buf (tcp_read_from_buf (tcp_acked c getAck flags) buf)
      (buf_init st.txbuf 0).2).2.2
    (tcp_write_to_buf (tcp_read_from_buf (tcp_acked c getAck flags) buf)
      (buf_init st.txbuf 0).2).2.1
    tcp_flags_ack hw1
  have hack2 : (tcp_read_from_buf (tcp_acked c getAck flags) buf).ack
      = (c.ack + buf.data.length) % 2 ^ 32 := by
    rw [(tcp_read_from_buf_frame _ _).1, (tcp_acked_frame _ _ _).1]
  rw [tcp_in_switch_established e st key c handler buf getAck flags hstate]
  simp only [hfin, hack, Bool.not_true, Bool.not_false, Bool.false_and, Bool.false_eq_true,
    if_false, gt_iff_lt, hlen, if_true]
  generalize hr : tcp_send e _ _ _ tcp_flags_ack = r at h1 h2 ⊢
  refine ⟨seg, r.2.2, ?_, ?_, ?_, ?_, ?_, ?_, h9, ?_⟩
  · show r.1.ip_out_calls = _
    rw [h1]
    show st.ip_out_calls ++ [⟨seg, _, NET_PROTOCOL_TCP⟩] = _
    rw [hw4, (tcp_read_from_buf_frame _ _).2.1, (tcp_acked_frame _ _ _).2.2.1]
  · show r.1.events = _
    rw [h1]
  · show map_store r.1.connect_table key r.2.2 = _
    rw [h1]
  · rw [h2]
    show (tcp_write_to_buf _ _).2.1.state = _
    rw [hw5, (tcp_read_from_buf_frame _ _).2.2.1, (tcp_acked_frame _ _ _).2.2.2.1, hstate]
  · rw [h2]
    show (tcp_write_to_buf _ _).2.1.ack = _
    rw [hw2, hack2]
  · rw [h2]
    show (tcp_write_to_buf _ _).2.1.rx_buf = _
    rw [hw3]
  · rw [h7, hw2, hack2, Nat.mod_mod]

theorem tcp_checksum_cap (buf : buf_t) (src_ip dst_ip : List Nat) (hs : 4 ≤ src_ip.length)
    (hd : 4 ≤ dst_ip.length) : buf_cap (tcp_checksum buf src_ip dst_ip).2 = buf_cap buf := by
  unfold tcp_checksum buf_cap tcp_peso_hdr_bytes swap16_bytes
  simp only [List.length_append, List.length_take, List.length_drop, List.length_cons,
    List.length_nil, TCP_PESO_HDR_LEN, NET_IP_LEN]
  omega

theorem tcp_send_cap (e : Config) (st : net_t) (buf : buf_t) (c : tcp_connect_t)
    (flags : tcp_flags_t) (hc : 4 ≤ c.ip.length) (he : 4 ≤ e.net_if_ip.length) :
    buf_cap (tcp_send e st buf c flags).2.1 = buf_cap buf := by
  unfold tcp_send
  simp only []
  rw [buf_write_cap, tcp_checksum_cap _ _ _ hc he, buf_write_cap, buf_add_header_cap]

/-- A valid segment without SYN and without RST, for a port with a handler and a key
without connection.  `tcp_in` installs a LISTEN record, sends RST|ACK from it, and goes
on: the record becomes a SYN_RCVD record with fresh buffers and SYN|ACK is sent. -/
theorem tcp_in_nosyn_spec (e : Config) (st : net_t) (buf : buf_t) (src_ip : List Nat)
    (rnd now handler : Nat) (hv : tcp_seg_valid e buf src_ip)
    (hh : map_get st.tcp_table now (get16 buf.data 2) = some handler)
    (hnone : map_get st.connect_table now (tcp_seg_key src_ip buf.data) = none)
    (hsyn : (tcp_seg_flags buf.data).syn = false) (hrst : (tcp_seg_flags buf.data).rst = false)
    (hroom : 40 ≤ buf_cap st.txbuf) (he : 4 ≤ e.net_if_ip.length) :
    ∃ seg1 seg2 c1,
      (tcp_in e st buf src_ip rnd now).ip_out_calls
          = st.ip_out_calls ++ [⟨seg1, CONNECT_LISTEN.ip, NET_PROTOCOL_TCP⟩,
              ⟨seg2, src_ip.take 4, NET_PROTOCOL_TCP⟩]
      ∧ tcp_seg_flags seg1 = tcp_flags_ack_rst
      ∧ get32 seg1 4 = 0
      ∧ get32 seg1 8 = (get32 buf.data 4 + 1) % 2 ^ 32
      ∧ tcp_seg_flags seg2 = tcp_flags_ack_syn
      ∧ (tcp_in e st buf src_ip rnd now).connect_table
          = map_store (map_set st.connect_table now (tcp_seg_key src_ip buf.data) CONNECT_LISTEN)
              (tcp_seg_key src_ip buf.data) c1
      ∧ c1.state = tcp_state_t.TCP_SYN_RCVD
      ∧ c1.rx_buf = (buf_init (buf_malloc e) 0).2
      ∧ c1.tx_buf = (buf_init (buf_malloc e) 0).2
      ∧ (tcp_in e st buf src_ip rnd now).events = st.events := by
  rw [tcp_in_accept e st buf src_ip rnd now handler hv hh]
  simp only [hnone, map_get_set_same, map_entry_valid_self, if_true, Option.getD_some]
  have hl : CONNECT_LISTEN.state = tcp_state_t.TCP_LISTEN := rfl
  rw [if_pos hl]
  unfold tcp_in_listen tcp_in_reset
  simp only [hrst, hsyn, Bool.false_eq_true, if_false, Bool.not_false, if_true]
  have hi := buf_init_zero_head st.txbuf
  obtain ⟨seg1, h1, h2, h3, h4, h5, h6, h7, h8, h9, h10, h11⟩ := tcp_send_spec e
    { st with connect_table :=
        map_set st.connect_table now (tcp_seg_key src_ip buf.data) CONNECT_LISTEN }
    (buf_init st.txbuf 0).2
    { CONNECT_LISTEN with next_seq := 0, ack := (get32 buf.data 4 + 1) % 2 ^ 32 }
    tcp_flags_ack_rst (by rw [hi.1]; omega)
  have hcap1 := tcp_send_cap e
    { st with connect_table :=
        map_set st.connect_table now (tcp_seg_key src_ip buf.data) CONNECT_LISTEN }
    (buf_init st.txbuf 0).2
    { CONNECT_LISTEN with next_seq := 0, ack := (get32 buf.data 4 + 1) % 2 ^ 32 }
    tcp_flags_ack_rst (Nat.le_refl 4) he
  rw [buf_init_cap] at hcap1
  generalize hr1 : tcp_send e _ (buf_init st.txbuf 0).2 _ tcp_flags_ack_rst = r1
    at h1 h2 hcap1 ⊢
  have hi2 := buf_init_zero_head r1.2.1
  obtain ⟨seg2, k1, k2, k3, k4, k5, k6, k7, k8, k9, k10, k11⟩ := tcp_send_spec e
    { r1.1 with txbuf := r1.2.1 }
    (buf_init r1.2.1 0).2
    { init_tcp_connect_rcvd e r1.2.2 with
        local_port := get16 buf.data 2, remote_port := get16 buf.data 0,
        ip := src_ip.take NET_IP_LEN, unack_seq := rnd % MAX_SQE_RND,
        next_seq := rnd % MAX_SQE_RND, ack := (get32 buf.data 4 + 1) % 2 ^ 32,
        remote_win := get16 buf.data 14 }
    tcp_flags_ack_syn (by rw [hi2.1]; omega)
  generalize hr2 : tcp_send e _ (buf_init r1.2.1 0).2 _ tcp_flags_ack_syn = r2 at k1 k2 ⊢
  have hc1 : r1.2.2.state = tcp_state_t.TCP_LISTEN := by rw [h2]; rfl
  refine ⟨seg1, seg2, r2.2.2, ?_, h9, ?_, ?_, k9, ?_, ?_, ?_, ?_, ?_⟩
  · show r2.1.ip_out_calls = _
    rw [k1]
    show r1.1.ip_out_calls ++ _ = _
    rw [h1]
    simp only [List.append_assoc, List.singleton_append, NET_IP_LEN]
  · rw [h6, hi.2]
    show (0 + 2 ^ 64 - 0) % 2 ^ 64 % 2 ^ 32 = 0
    norm_num
  · rw [h7]
    simp only [Nat.mod_mod]
  · show map_store r2.1.connect_table _ _ = _
    rw [k1]
    show map_store r1.1.connect_table _ _ = _
    rw [h1]
  · rw [k2]
    rfl
  · rw [k2]
    show (init_tcp_connect_rcvd e r1.2.2).rx_buf = _
    unfold init_tcp_connect_rcvd
    simp only [hc1, if_true]
  · rw [k2]
    show (init_tcp_connect_rcvd e r1.2.2).tx_buf = _
    unfold init_tcp_connect_rcvd
    simp only [hc1, if_true]
  · show r2.1.events = _
    rw [k1]
    show r1.1.events = _
    rw [h1]

/-! ## Facts about the checksum -/

theorem sum16_append_even (n : Nat) : ∀ (pre post : List Nat), pre.length = 2 * n →
    sum16 (pre ++ post) = sum16 pre + sum16 post := by
  induction n with
  | zero =>
    intro pre post h
    have : pre = [] := List.length_eq_zero.mp (by omega)
    subst this
    simp [sum16]
  | succ n ih =>
    intro pre post h
    match pre, h with
    | hi :: lo :: rest, h =>
      have hr : rest.length = 2 * n := by
        simp only [List.length_cons] at h
        omega
      show hi * 256 + lo + sum16 (rest ++ post) = hi * 256 + lo + sum16 rest + sum16 post
      rw [ih rest post hr]
      omega

theorem sum16_bound : ∀ (bs : List Nat), (∀ b ∈ bs, b < 256) →
    2 * sum16 bs ≤ 65535 * (bs.length + 1)
  | [], _ => by simp [sum16]
  | [b], h => by
    have := h b (by simp)
    simp only [sum16, List.length_cons, List.length_nil]
    omega
  | hi :: lo :: rest, h => by
    have h1 := h hi (by simp)
    have h2 := h lo (by simp)
    have ih := sum16_bound rest (fun b hb => h b (by simp [hb]))
    simp only [sum16, List.length_cons]
    omega

theorem fold16_roundtrip (t : Nat) (h : t < 4294901760) :
    fold16 (fold16 (t + (65535 - fold16 (fold16 t)))) = 65535 := by
  unfold fold16
  omega

theorem checksum16_roundtrip (pre post : List Nat) (n : Nat) (hn : pre.length = 2 * n)
    (hpre : ∀ b ∈ pre, b < 256) (hpost : ∀ b ∈ post, b < 256)
    (hlen : pre.length + post.length ≤ 65600) :
    checksum16 (pre ++ swap16_bytes (checksum16 (pre ++ [0, 0] ++ post)) ++ post) = 0 := by
  have e1 : ∀ x y : Nat, sum16 (pre ++ [x, y] ++ post) = sum16 pre + (x * 256 + y) + sum16 post := by
    intro x y
    rw [sum16_append_even (n + 1) (pre ++ [x, y]) post (by simp [hn]; omega),
      sum16_append_even n pre [x, y] hn]
    simp [sum16]
  have b1 := sum16_bound pre hpre
  have b2 := sum16_bound post hpost
  have hz := e1 0 0
  unfold checksum16 swap16_bytes at *
  rw [hz]
  generalize ht : sum16 pre + (0 * 256 + 0) + sum16 post = t
  have htb : t < 4294901760 := by omega
  have hf := fold16_roundtrip t htb
  have hc : 65535 - fold16 (fold16 t) ≤ 65535 := by omega
  rw [e1]
  have : sum16 pre + ((65535 - fold16 (fold16 t)) / 256 % 256 * 256
      + (65535 - fold16 (fold16 t)) % 256) + sum16 post = t + (65535 - fold16 (fold16 t)) := by
    omega
  rw [this, hf]

/-! ## Facts about ICMP -/

/-- An echo request of at least 8 bytes: `icmp_in` hands one message to `ip_out`, the
request with type 0 and a checksum that makes the checksum of the whole message 0. -/
theorem icmp_in_echo_spec (st : net_t) (buf : buf_t) (src_ip : List Nat)
    (hlen : 8 ≤ buf.data.length) (htype : buf.data.getD 0 0 = 8)
    (hbytes : ∀ b ∈ buf.data, b < 256) (hmax : buf.data.length ≤ 65535) :
    ∃ msg, (icmp_in st buf src_ip).1
        = { st with ip_out_calls := st.ip_out_calls ++ [⟨msg, src_ip, NET_PROTOCOL_ICMP⟩] }
      ∧ msg.length = buf.data.length
      ∧ msg.getD 0 0 = 0
      ∧ msg.getD 1 0 = buf.data.getD 1 0
      ∧ msg.drop 4 = buf.data.drop 4
      ∧ checksum16 msg = 0 := by
  rcases buf with ⟨hd, data, tl⟩
  match data, hlen, htype, hbytes, hmax with
  | t :: c :: k1 :: k2 :: rest, hlen, htype, hbytes, hmax =>
    dsimp only at hlen htype hbytes hmax
    have w1 : buf_write ⟨hd, t :: c :: k1 :: k2 :: rest, tl⟩ 0 [ICMP_TYPE_ECHO_REPLY]
        = ⟨hd, 0 :: c :: k1 :: k2 :: rest, tl⟩ :=
      buf_write_mid hd [] [t] (c :: k1 :: k2 :: rest) tl [0] 0 rfl rfl
    have w2 : buf_write ⟨hd, 0 :: c :: k1 :: k2 :: rest, tl⟩ 2 [0, 0]
        = ⟨hd, [0, c] ++ [0, 0] ++ rest, tl⟩ :=
      buf_write_mid hd [0, c] [k1, k2] rest tl [0, 0] 2 rfl rfl
    have w3 : buf_write ⟨hd, [0, c] ++ [0, 0] ++ rest, tl⟩ 2
          (swap16_bytes (checksum16 ([0, c] ++ [0, 0] ++ rest)))
        = ⟨hd, [0, c] ++ swap16_bytes (checksum16 ([0, c] ++ [0, 0] ++ rest)) ++ rest, tl⟩ :=
      buf_write_mid hd [0, c] [0, 0] rest tl _ 2 rfl rfl
    have hc : c < 256 := hbytes c (by simp)
    have hrest : ∀ b ∈ rest, b < 256 := fun b hb => hbytes b (by simp [hb])
    have hck := checksum16_roundtrip [0, c] rest 1 rfl
      (by intro b hb; simp only [List.mem_cons, List.mem_singleton, List.not_mem_nil,
            or_false] at hb; rcases hb with hb | hb <;> omega)
      hrest (by simp only [List.length_cons, List.length_nil] at hmax ⊢; omega)
    refine ⟨[0, c] ++ swap16_bytes (checksum16 ([0, c] ++ [0, 0] ++ rest)) ++ rest,
      ?_, ?_, rfl, rfl, rfl, hck⟩
    · unfold icmp_in icmp_resp
      dsimp only [ICMP_HDR_LEN, ICMP_TYPE_ECHO_REQUEST]
      rw [if_neg (by omega), if_pos htype, w1, w2, w3]
    · simp only [swap16_bytes, List.length_append, List.length_cons, List.length_nil]
      omega

/-- A message shorter than 8 bytes or of a type other than 8: `icmp_in` does nothing. -/
theorem icmp_in_ignore (st : net_t) (buf : buf_t) (src_ip : List Nat)
    (h : buf.data.length < 8 ∨ buf.data.getD 0 0 ≠ 8) : icmp_in st buf src_ip = (st, buf) := by
  unfold icmp_in
  simp only [ICMP_HDR_LEN, ICMP_TYPE_ECHO_REQUEST]
  split
  · rfl
  · rcases h with h | h
    · omega
    · rw [if_neg h]

/-! ## Facts about UDP -/

theorem buf_add_header_split (h p d t : List Nat) :
    buf_add_header ⟨h ++ p, d, t⟩ p.length = (0, ⟨h, p ++ d, t⟩) := by
  unfold buf_add_header
  simp only [List.length_append]
  rw [if_neg (by omega)]
  have e1 : h.length + p.length - p.length = h.length := by omega
  rw [e1, List.take_left' rfl, List.drop_left' rfl]

theorem buf_remove_header_split (h p d t : List Nat) :
    buf_remove_header ⟨h, p ++ d, t⟩ p.length = (0, ⟨h ++ p, d, t⟩) := by
  unfold buf_remove_header
  simp only [List.length_append]
  rw [if_neg (by omega), List.take_left' rfl, List.drop_left' rfl]

theorem list_split_last (n : Nat) (l : List Nat) (h : n ≤ l.length) :
    ∃ a b, l = a ++ b ∧ b.length = n :=
  ⟨l.take (l.length - n), l.drop (l.length - n), (List.take_append_drop _ _).symm,
    by simp only [List.length_drop]; omega⟩

theorem list_cons8 (l : List Nat) (h : 8 ≤ l.length) :
    ∃ u0 u1 u2 u3 u4 u5 u6 u7 rest, l = u0 :: u1 :: u2 :: u3 :: u4 :: u5 :: u6 :: u7 :: rest := by
  match l, h with
  | u0 :: u1 :: u2 :: u3 :: u4 :: u5 :: u6 :: u7 :: rest, _ =>
    exact ⟨u0, u1, u2, u3, u4, u5, u6, u7, rest, rfl⟩

/-- The function `udp_checksum` on a buffer with room for the pseudo-header: the checksum
of the pseudo-header followed by the datagram; the buffer is as before. -/
theorem udp_checksum_spec (buf : buf_t) (src_ip dst_ip : List Nat)
    (hroom : 12 ≤ buf.head.length) (hlen : 8 ≤ buf.data.length) (hs : src_ip.length = 4)
    (hd : dst_ip.length = 4) :
    udp_checksum buf src_ip dst_ip
      = (checksum16 (src_ip ++ dst_ip ++ [0, 17] ++ (buf.data.drop 4).take 2 ++ buf.data), buf) := by
  rcases buf with ⟨hd0, data, tl⟩
  dsimp only at hroom hlen
  obtain ⟨h, p, rfl, hp⟩ := list_split_last 12 hd0 hroom
  match p, hp, src_ip, hs, dst_ip, hd, data, hlen with
  | [p0, p1, p2, p3, p4, p5, p6, p7, p8, p9, p10, p11], _, [s0, s1, s2, s3], _,
      [d0, d1, d2, d3], _, u0 :: u1 :: u2 :: u3 :: u4 :: u5 :: rest, _ =>
    have a1 : buf_add_header ⟨h ++ [p0, p1, p2, p3, p4, p5, p6, p7, p8, p9, p10, p11],
        u0 :: u1 :: u2 :: u3 :: u4 :: u5 :: rest, tl⟩ 12
        = (0, ⟨h, p0 :: p1 :: p2 :: p3 :: p4 :: p5 :: p6 :: p7 :: p8 :: p9 :: p10 :: p11 :: 
          u0 :: u1 :: u2 :: u3 :: u4 :: u5 :: rest, tl⟩) :=
      buf_add_header_split h [p0, p1, p2, p3, p4, p5, p6, p7, p8, p9, p10, p11] _ tl
    have w1 : buf_write ⟨h, p0 :: p1 :: p2 :: p3 :: p4 :: p5 :: p6 :: p7 :: p8 :: p9 :: p10 :: p11 :: 
          u0 :: u1 :: u2 :: u3 :: u4 :: u5 :: rest, tl⟩ 0 [s0, s1, s2, s3]
        = ⟨h, s0 :: s1 :: s2 :: s3 :: p4 :: p5 :: p6 :: p7 :: p8 :: p9 :: p10 :: p11 ::
          u0 :: u1 :: u2 :: u3 :: u4 :: u5 :: rest, tl⟩ :=
      buf_write_mid h [] [p0, p1, p2, p3] _ tl [s0, s1, s2, s3] 0 rfl rfl
    have w2 : buf_write ⟨h, s0 :: s1 :: s2 :: s3 :: p4 :: p5 :: p6 :: p7 :: p8 :: p9 :: p10 :: p11 ::
          u0 :: u1 :: u2 :: u3 :: u4 :: u5 :: rest, tl⟩ 4 [d0, d1, d2, d3]
        = ⟨h, s0 :: s1 :: s2 :: s3 :: d0 :: d1 :: d2 :: d3 :: p8 :: p9 :: p10 :: p11 ::
          u0 :: u1 :: u2 :: u3 :: u4 :: u5 :: rest, tl⟩ :=
      buf_write_mid h [s0, s1, s2, s3] [p4, p5, p6, p7] _ tl [d0, d1, d2, d3] 4 rfl rfl
    have w3 : buf_write ⟨h, s0 :: s1 :: s2 :: s3 :: d0 :: d1 :: d2 :: d3 :: p8 :: p9 :: p10 :: p11 ::
          u0 :: u1 :: u2 :: u3 :: u4 :: u5 :: rest, tl⟩ 8 [0, 17]
        = ⟨h, s0 :: s1 :: s2 :: s3 :: d0 :: d1 :: d2 :: d3 :: 0 :: 17 :: p10 :: p11 ::
          u0 :: u1 :: u2 :: u3 :: u4 :: u5 :: rest, tl⟩ :=
      buf_write_mid h [s0, s1, s2, s3, d0, d1, d2, d3] [p8, p9] _ tl [0, 17] 8 rfl rfl
    have rd : buf_read ⟨h, s0 :: s1 :: s2 :: s3 :: d0 :: d1 :: d2 :: d3 :: 0 :: 17 :: p10 :: p11 ::
          u0 :: u1 :: u2 :: u3 :: u4 :: u5 :: rest, tl⟩ (12 + 4) 2 = [u4, u5] := rfl
    have w4 : buf_write ⟨h, s0 :: s1 :: s2 :: s3 :: d0 :: d1 :: d2 :: d3 :: 0 :: 17 :: p10 :: p11 ::
          u0 :: u1 :: u2 :: u3 :: u4 :: u5 :: rest, tl⟩ 10 [u4, u5]
        = ⟨h, s0 :: s1 :: s2 :: s3 :: d0 :: d1 :: d2 :: d3 :: 0 :: 17 :: u4 :: u5 ::
          u0 :: u1 :: u2 :: u3 :: u4 :: u5 :: rest, tl⟩ :=
      buf_write_mid h [s0, s1, s2, s3, d0, d1, d2, d3, 0, 17] [p10, p11] _ tl [u4, u5] 10 rfl rfl
    have rp : buf_read ⟨h, p0 :: p1 :: p2 :: p3 :: p4 :: p5 :: p6 :: p7 :: p8 :: p9 :: p10 :: p11 :: 
          u0 :: u1 :: u2 :: u3 :: u4 :: u5 :: rest, tl⟩ 0 12
        = [p0, p1, p2, p3, p4, p5, p6, p7, p8, p9, p10, p11] := rfl
    have w5 : buf_write ⟨h, s0 :: s1 :: s2 :: s3 :: d0 :: d1 :: d2 :: d3 :: 0 :: 17 :: u4 :: u5 ::
          u0 :: u1 :: u2 :: u3 :: u4 :: u5 :: rest, tl⟩ 0 [p0, p1, p2, p3, p4, p5, p6, p7, p8, p9, p10, p11]
        = ⟨h, p0 :: p1 :: p2 :: p3 :: p4 :: p5 :: p6 :: p7 :: p8 :: p9 :: p10 :: p11 :: 
          u0 :: u1 :: u2 :: u3 :: u4 :: u5 :: rest, tl⟩ :=
      buf_write_mid h [] [s0, s1, s2, s3, d0, d1, d2, d3, 0, 17, u4, u5] _ tl _ 0 rfl rfl
    have r1 : buf_remove_header ⟨h, p0 :: p1 :: p2 :: p3 :: p4 :: p5 :: p6 :: p7 :: p8 :: p9 :: p10 :: p11 :: 
          u0 :: u1 :: u2 :: u3 :: u4 :: u5 :: rest, tl⟩ 12
        = (0, ⟨h ++ [p0, p1, p2, p3, p4, p5, p6, p7, p8, p9, p10, p11],
          u0 :: u1 :: u2 :: u3 :: u4 :: u5 :: rest, tl⟩) :=
      buf_remove_header_split h [p0, p1, p2, p3, p4, p5, p6, p7, p8, p9, p10, p11] _ tl
    have t1 : List.take 4 [s0, s1, s2, s3] = [s0, s1, s2, s3] := rfl
    have t2 : List.take 4 [d0, d1, d2, d3] = [d0, d1, d2, d3] := rfl
    unfold udp_checksum
    dsimp only [UDP_PESO_HDR_LEN, NET_IP_LEN, NET_PROTOCOL_UDP]
    rw [a1]
    dsimp only []
    rw [if_pos rfl, t1, t2, rp, w1, w2, w3, rd, w4, w5, r1]
    rfl

/-- The datagram that `udp_out` hands to `ip_out` for the payload `data`: ports, length,
checksum over the pseudo-header and the datagram with a zero checksum field, payload. -/
theorem udp_out_spec (e : Config) (st : net_t) (buf : buf_t) (src_port : Nat)
    (dst_ip : List Nat) (dst_port : Nat) (hroom : 20 ≤ buf.head.length)
    (he : e.net_if_ip.length = 4) (hd : dst_ip.length = 4) :
    (udp_out e st buf src_port dst_ip dst_port).1
      = { st with ip_out_calls := st.ip_out_calls ++ [⟨
          swap16_bytes (src_port % 65536) ++ swap16_bytes (dst_port % 65536)
            ++ swap16_bytes ((buf.data.length + 8) % 65536)
            ++ swap16_bytes (checksum16 (e.net_if_ip ++ dst_ip ++ [0, 17]
                ++ swap16_bytes ((buf.data.length + 8) % 65536)
                ++ (swap16_bytes (src_port % 65536) ++ swap16_bytes (dst_port % 65536)
                  ++ swap16_bytes ((buf.data.length + 8) % 65536) ++ [0, 0] ++ buf.data)))
            ++ buf.data,
          dst_ip, NET_PROTOCOL_UDP⟩] } := by
  rcases buf with ⟨hd0, data, tl⟩
  dsimp only at hroom ⊢
  obtain ⟨h, q, rfl, hq⟩ := list_split_last 8 hd0 (by omega)
  have hh : 12 ≤ h.length := by
    simp only [List.length_append] at hroom
    omega
  match q, hq with
  | [q0, q1, q2, q3, q4, q5, q6, q7], _ =>
    have a1 : buf_add_header ⟨h ++ [q0, q1, q2, q3, q4, q5, q6, q7], data, tl⟩ 8
        = (0, ⟨h, q0 :: q1 :: q2 :: q3 :: q4 :: q5 :: q6 :: q7 :: data, tl⟩) :=
      buf_add_header_split h [q0, q1, q2, q3, q4, q5, q6, q7] data tl
    have w1 : buf_write ⟨h, q0 :: q1 :: q2 :: q3 :: q4 :: q5 :: q6 :: q7 :: data, tl⟩ 6 [0, 0]
        = ⟨h, q0 :: q1 :: q2 :: q3 :: q4 :: q5 :: 0 :: 0 :: data, tl⟩ :=
      buf_write_mid h [q0, q1, q2, q3, q4, q5] [q6, q7] data tl [0, 0] 6 rfl rfl
    have w2 : buf_write ⟨h, q0 :: q1 :: q2 :: q3 :: q4 :: q5 :: 0 :: 0 :: data, tl⟩ 0
          [src_port % 65536 / 256 % 256, src_port % 65536 % 256]
        = ⟨h, (src_port % 65536 / 256 % 256) :: (src_port % 65536 % 256) :: q2 :: q3 :: q4 :: q5 :: 0 :: 0 :: data, tl⟩ :=
      buf_write_mid h [] [q0, q1] _ tl _ 0 rfl rfl
    have w3 : buf_write ⟨h, (src_port % 65536 / 256 % 256) :: (src_port % 65536 % 256) :: q2 :: q3 :: q4 :: q5 :: 0 :: 0 :: data, tl⟩ 2
          [dst_port % 65536 / 256 % 256, dst_port % 65536 % 256]
        = ⟨h, (src_port % 65536 / 256 % 256) :: (src_port % 65536 % 256) :: (dst_port % 65536 / 256 % 256) :: (dst_port % 65536 % 256) :: q4 :: q5 :: 0 :: 0 :: data, tl⟩ :=
      buf_write_mid h [src_port % 65536 / 256 % 256, src_port % 65536 % 256] [q2, q3] _ tl _ 2 rfl rfl
    have hl : ((src_port % 65536 / 256 % 256) :: (src_port % 65536 % 256) :: (dst_port % 65536 / 256 % 256) :: (dst_port % 65536 % 256) :: q4 :: q5 :: 0 :: 0 :: data).length
        = data.length + 8 := rfl
    have w4 : buf_write ⟨h, (src_port % 65536 / 256 % 256) :: (src_port % 65536 % 256) :: (dst_port % 65536 / 256 % 256) :: (dst_port % 65536 % 256) :: q4 :: q5 :: 0 :: 0 :: data, tl⟩ 4
          [(data.length + 8) % 65536 / 256 % 256, (data.length + 8) % 65536 % 256]
        = ⟨h, (src_port % 65536 / 256 % 256) :: (src_port % 65536 % 256) :: (dst_port % 65536 / 256 % 256) :: (dst_port % 65536 % 256) :: ((data.length + 8) % 65536 / 256 % 256) :: ((data.length + 8) % 65536 % 256) :: 0 :: 0 :: data, tl⟩ :=
      buf_write_mid h [src_port % 65536 / 256 % 256, src_port % 65536 % 256, dst_port % 65536 / 256 % 256, dst_port % 65536 % 256] [q4, q5] _ tl _ 4 rfl rfl
    have ck := udp_checksum_spec
      ⟨h, (src_port % 65536 / 256 % 256) :: (src_port % 65536 % 256) :: (dst_port % 65536 / 256 % 256) :: (dst_port % 65536 % 256) :: ((data.length + 8) % 65536 / 256 % 256) :: ((data.length + 8) % 65536 % 256) :: 0 :: 0 :: data, tl⟩
      e.net_if_ip dst_ip hh (by simp only [List.length_cons]; omega) he hd
    have w5 : ∀ c0 c1 : Nat,
        buf_write ⟨h, (src_port % 65536 / 256 % 256) :: (src_port % 65536 % 256) :: (dst_port % 65536 / 256 % 256) :: (dst_port % 65536 % 256) :: ((data.length + 8) % 65536 / 256 % 256) :: ((data.length + 8) % 65536 % 256) :: 0 :: 0 :: data, tl⟩
          6 [c0, c1]
        = ⟨h, (src_port % 65536 / 256 % 256) :: (src_port % 65536 % 256) :: (dst_port % 65536 / 256 % 256) :: (dst_port % 65536 % 256) :: ((data.length + 8) % 65536 / 256 % 256) :: ((data.length + 8) % 65536 % 256) :: c0 :: c1 :: data, tl⟩ :=
      fun c0 c1 => buf_write_mid h [src_port % 65536 / 256 % 256, src_port % 65536 % 256, dst_port % 65536 / 256 % 256, dst_port % 65536 % 256, (data.length + 8) % 65536 / 256 % 256, (data.length + 8) % 65536 % 256] [0, 0] data tl _ 6 rfl rfl
    unfold udp_out
    dsimp only [UDP_HDR_LEN, swap16_bytes]
    rw [a1]
    dsimp only []
    rw [w1, w2, w3, hl, w4, ck]
    dsimp only []
    rw [w5]
    rfl

/-- The message that `icmp_unreachable` hands to `ip_out`, `q` being the 28 bytes at
`recv_buf->data`: type 3, the code, the checksum, id 0 and sequence 0, then `q`. -/
theorem icmp_unreachable_spec (st : net_t) (recv_buf : buf_t) (src_ip : List Nat) (code : Nat)
    (q : List Nat) (hq : buf_read recv_buf 0 28 = q) (hql : q.length = 28)
    (hcap : 72 ≤ buf_cap st.txbuf) :
    ∃ txb, icmp_unreachable st recv_buf src_ip code
      = { st with
          txbuf := txb
          ip_out_calls := st.ip_out_calls ++ [⟨[3, code % 256]
            ++ swap16_bytes (checksum16 ([3, code % 256, 0, 0, 0, 0, 0, 0] ++ q))
            ++ ([0, 0, 0, 0] ++ q), src_ip, NET_PROTOCOL_ICMP⟩] } := by
  have hi := buf_init_ok st.txbuf 36 (by omega)
  unfold icmp_unreachable
  dsimp only [ICMP_HDR_LEN, IP_HDR_LEN, ICMP_TYPE_UNREACH]
  rw [hq]
  generalize (buf_init st.txbuf 36).2 = b at hi ⊢
  rcases b with ⟨h, d, t⟩
  obtain ⟨d8, d28, rfl, h28⟩ := list_split_last 28 d (by rw [hi.1]; decide)
  have h8 : d8.length = 8 := by
    have := hi.1
    simp only [List.length_append] at this
    omega
  have w1 : buf_write ⟨h, d8 ++ d28, t⟩ 0 [3, code % 256, 0, 0, 0, 0, 0, 0]
      = ⟨h, [3, code % 256, 0, 0, 0, 0, 0, 0] ++ d28, t⟩ :=
    buf_write_mid h [] d8 d28 t _ 0 rfl (by rw [h8]; rfl)
  have w2 : buf_write ⟨h, [3, code % 256, 0, 0, 0, 0, 0, 0] ++ d28, t⟩ 8 q
      = ⟨h, [3, code % 256, 0, 0, 0, 0, 0, 0] ++ q, t⟩ := by
    have := buf_write_mid h [3, code % 256, 0, 0, 0, 0, 0, 0] d28 [] t q 8 rfl (by rw [hql, h28])
    simpa only [List.append_nil] using this
  have w3 : ∀ k : Nat,
      buf_write ⟨h, [3, code % 256, 0, 0, 0, 0, 0, 0] ++ q, t⟩ 2 (swap16_bytes k)
        = ⟨h, [3, code % 256] ++ swap16_bytes k ++ ([0, 0, 0, 0] ++ q), t⟩ :=
    fun k => buf_write_mid h [3, code % 256] [0, 0] ([0, 0, 0, 0] ++ q) t (swap16_bytes k) 2
      rfl rfl
  rw [w1, w2]
  dsimp only []
  rw [w3]
  exact ⟨_, rfl⟩

/-- A datagram that passes the tests of `udp_in`, for a port with a handler: the handler
is invoked with the bytes behind the 8 header bytes. -/
theorem udp_in_handler_spec (e : Config) (st : net_t) (buf : buf_t) (src_ip : List Nat)
    (now handler : Nat) (hroom : 12 ≤ buf.head.length) (hlen : 8 ≤ buf.data.length)
    (htl : get16 buf.data 4 ≤ buf.data.length) (hs : src_ip.length = 4)
    (he : e.net_if_ip.length = 4)
    (hck : checksum16 (src_ip ++ e.net_if_ip ++ [0, 17] ++ (buf.data.drop 4).take 2 ++ buf.data)
      = 0)
    (hh : map_get st.udp_table now (get16 buf.data 2) = some handler) :
    (udp_in e st buf src_ip now).1
      = { st with udp_events := st.udp_events
            ++ [⟨handler, buf.data.drop 8, buf.data.length - 8, src_ip, get16 buf.data 0⟩] } := by
  unfold udp_in
  dsimp only [UDP_HDR_LEN]
  rw [if_neg (by omega), if_neg (by omega), udp_checksum_spec buf src_ip e.net_if_ip hroom hlen hs he,
    hck]
  dsimp only []
  rw [if_neg (by decide), hh]
  dsimp only []
  rcases buf with ⟨hd0, data, tl⟩
  obtain ⟨u0, u1, u2, u3, u4, u5, u6, u7, rest, rfl⟩ := list_cons8 data hlen
  · have w1 : buf_write ⟨hd0, u0 :: u1 :: u2 :: u3 :: u4 :: u5 :: u6 :: u7 :: rest, tl⟩ 2 [u3, u2]
        = ⟨hd0, u0 :: u1 :: u3 :: u2 :: u4 :: u5 :: u6 :: u7 :: rest, tl⟩ :=
      buf_write_mid hd0 [u0, u1] [u2, u3] _ tl _ 2 rfl rfl
    have r1 : buf_remove_header ⟨hd0, u0 :: u1 :: u3 :: u2 :: u4 :: u5 :: u6 :: u7 :: rest, tl⟩ 8
        = (0, ⟨hd0 ++ [u0, u1, u3, u2, u4, u5, u6, u7], rest, tl⟩) :=
      buf_remove_header_split hd0 [u0, u1, u3, u2, u4, u5, u6, u7] rest tl
    have g2 : (u0 :: u1 :: u2 :: u3 :: u4 :: u5 :: u6 :: u7 :: rest).getD 2 0 = u2 := rfl
    have g3 : (u0 :: u1 :: u2 :: u3 :: u4 :: u5 :: u6 :: u7 :: rest).getD 3 0 = u3 := rfl
    dsimp only []
    rw [g2, g3, w1, r1]
    rfl

/-- A datagram that passes the tests of `udp_in`, for a port without handler, with the 20
bytes `iph` of the IP header in front of the window: one ICMP message goes to `ip_out`,
which quotes `iph` and the first 8 bytes of the datagram with the two bytes of the
destination port exchanged. -/
theorem udp_in_unreach_spec (e : Config) (st : net_t) (h iph data tl : List Nat)
    (src_ip : List Nat) (now : Nat) (hiph : iph.length = 20) (hlen : 8 ≤ data.length)
    (htl : get16 data 4 ≤ data.length) (hs : src_ip.length = 4) (he : e.net_if_ip.length = 4)
    (hck : checksum16 (src_ip ++ e.net_if_ip ++ [0, 17] ++ (data.drop 4).take 2 ++ data) = 0)
    (hh : map_get st.udp_table now (get16 data 2) = none) (hcap : 72 ≤ buf_cap st.txbuf) :
    ∃ txb, (udp_in e st ⟨h ++ iph, data, tl⟩ src_ip now).1
      = { st with
          txbuf := txb
          ip_out_calls := st.ip_out_calls ++ [⟨[3, 3]
            ++ swap16_bytes (checksum16 ([3, 3, 0, 0, 0, 0, 0, 0]
                ++ (iph ++ [data.getD 0 0, data.getD 1 0, data.getD 3 0, data.getD 2 0]
                  ++ (data.drop 4).take 4)))
            ++ ([0, 0, 0, 0]
              ++ (iph ++ [data.getD 0 0, data.getD 1 0, data.getD 3 0, data.getD 2 0]
                ++ (data.drop 4).take 4)), src_ip, NET_PROTOCOL_ICMP⟩] } := by
  unfold udp_in
  dsimp only [UDP_HDR_LEN]
  rw [if_neg (by omega), if_neg (by omega),
    udp_checksum_spec ⟨h ++ iph, data, tl⟩ src_ip e.net_if_ip
      (by simp only [List.length_append]; omega) hlen hs he, hck]
  dsimp only []
  rw [if_neg (by decide), hh]
  dsimp only []
  obtain ⟨u0, u1, u2, u3, u4, u5, u6, u7, rest, rfl⟩ := list_cons8 data hlen
  · have w1 : buf_write ⟨h ++ iph, u0 :: u1 :: u2 :: u3 :: u4 :: u5 :: u6 :: u7 :: rest, tl⟩ 2
          [u3, u2]
        = ⟨h ++ iph, u0 :: u1 :: u3 :: u2 :: u4 :: u5 :: u6 :: u7 :: rest, tl⟩ :=
      buf_write_mid (h ++ iph) [u0, u1] [u2, u3] _ tl _ 2 rfl rfl
    have a1 : buf_add_header ⟨h ++ iph, u0 :: u1 :: u3 :: u2 :: u4 :: u5 :: u6 :: u7 :: rest, tl⟩
          20
        = (0, ⟨h, iph ++ u0 :: u1 :: u3 :: u2 :: u4 :: u5 :: u6 :: u7 :: rest, tl⟩) := by
      rw [← hiph]
      exact buf_add_header_split h iph _ tl
    have g2 : (u0 :: u1 :: u2 :: u3 :: u4 :: u5 :: u6 :: u7 :: rest).getD 2 0 = u2 := rfl
    have g3 : (u0 :: u1 :: u2 :: u3 :: u4 :: u5 :: u6 :: u7 :: rest).getD 3 0 = u3 := rfl
    have hq : buf_read ⟨h, iph ++ u0 :: u1 :: u3 :: u2 :: u4 :: u5 :: u6 :: u7 :: rest, tl⟩ 0 28
        = iph ++ [u0, u1, u3, u2] ++ [u4, u5, u6, u7] := by
      unfold buf_read
      dsimp only []
      rw [List.drop_zero, List.append_assoc, List.take_append_eq_append_take, hiph,
        List.take_of_length_le (by omega), List.append_assoc]
      rfl
    dsimp only [IP_HDR_LEN, ICMP_CODE_PORT_UNREACH]
    rw [g2, g3, w1, a1]
    dsimp only []
    obtain ⟨txb, hx⟩ := icmp_unreachable_spec st
      ⟨h, iph ++ u0 :: u1 :: u3 :: u2 :: u4 :: u5 :: u6 :: u7 :: rest, tl⟩ src_ip 3
      (iph ++ [u0, u1, u3, u2] ++ [u4, u5, u6, u7]) hq
      (by simp only [List.length_append, List.length_cons, List.length_nil, hiph]) hcap
    exact ⟨txb, hx⟩

/-! ## Facts about the receive path -/

theorem getD_take (l : List Nat) (n i : Nat) (h : i < n) :
    (l.take n).getD i 0 = l.getD i 0 := by
  simp only [List.getD_eq_getElem?_getD, List.getElem?_take, h, if_true]

theorem get16_take (l : List Nat) (n off : Nat) (h : off + 1 < n) :
    get16 (l.take n) off = get16 l off := by
  unfold get16
  rw [getD_take l n off (by omega), getD_take l n (off + 1) h]

theorem net_in_state (st : net_t) (buf : buf_t) (protocol : Nat) (src : List Nat) (now : Nat) :
    (net_in st buf protocol src now).2
      = { st with net_in_calls := st.net_in_calls ++ [⟨buf.data, protocol, src⟩] } := by
  unfold net_in
  split <;> rfl

/-- The tests of `ip_in`, on the bytes of the window. -/
theorem ip_in_tests (e : Config) (st : net_t) (buf : buf_t) (now : Nat)
    (hlen : 20 ≤ buf.data.length) :
    ip_in e st buf now
      = if ip_version buf.data ≠ 4 ∨ ip_total_len buf.data > buf.data.length then (st, buf)
        else if e.net_if_ip.take 4 ≠ ip_dst buf.data then (st, buf)
        else if checksum16 (ip_hdr_zeroed buf.data) ≠ get16 buf.data 10 then (st, buf)
        else
          let buf1 := (buf_remove_padding buf (buf.data.length - ip_total_len buf.data)).2
          let buf2 := (buf_remove_header buf1 20).2
          let r := net_in st buf2 (ip_protocol buf.data) (ip_src buf.data) now
          if r.1 = -1 then
            let buf3 := (buf_add_header buf2 20).2
            (icmp_unreachable r.2 buf3 (ip_src buf.data) ICMP_CODE_PROTOCOL_UNREACH, buf3)
          else (r.2, buf2) := by
  have hr : buf_read buf 0 20 = buf.data.take 20 := by
    rw [buf_read_data buf 0 20 (by omega), List.drop_zero]
  have e1 : (buf.data.take 20).getD 0 0 = buf.data.getD 0 0 := getD_take _ _ _ (by decide)
  have e2 : get16 (buf.data.take 20) 2 = get16 buf.data 2 := get16_take _ _ _ (by decide)
  have e3 : ((buf.data.take 20).drop 16).take 4 = (buf.data.drop 16).take 4 := by
    rw [List.drop_take, List.take_take]
    rfl
  have e4 : (buf.data.take 20).take 10 = buf.data.take 10 := by
    rw [List.take_take]
    rfl
  have e5 : get16 (buf.data.take 20) 10 = get16 buf.data 10 := get16_take _ _ _ (by decide)
  have e6 : (buf.data.take 20).getD 9 0 = buf.data.getD 9 0 := getD_take _ _ _ (by decide)
  have e7 : ((buf.data.take 20).drop 12).take 4 = (buf.data.drop 12).take 4 := by
    rw [List.drop_take, List.take_take]
    rfl
  unfold ip_in
  rw [if_neg (by simp only [IP_HDR_LEN]; omega)]
  simp only [IP_HDR_LEN, IP_VERSION_4, NET_IP_LEN, hr, e1, e2, e3, e4, e5, e6, e7, ip_version,
    ip_total_len, ip_dst, ip_src, ip_protocol, ip_hdr_zeroed]

/-- A packet that fails one of the tests of `ip_in` is dropped: nothing changes. -/
theorem ip_in_drop (e : Config) (st : net_t) (buf : buf_t) (now : Nat)
    (h : buf.data.length < 20 ∨ ip_version buf.data ≠ 4
      ∨ buf.data.length < ip_total_len buf.data ∨ ip_dst buf.data ≠ e.net_if_ip.take 4
      ∨ checksum16 (ip_hdr_zeroed buf.data) ≠ get16 buf.data 10) :
    ip_in e st buf now = (st, buf) := by
  by_cases hlen : buf.data.length < 20
  · unfold ip_in
    rw [if_pos (by simp only [IP_HDR_LEN]; omega)]
  · rw [ip_in_tests e st buf now (by omega)]
    rcases h with h | h | h | h | h
    · omega
    · rw [if_pos (Or.inl h)]
    · rw [if_pos (Or.inr h)]
    · by_cases a : ip_version buf.data ≠ 4 ∨ ip_total_len buf.data > buf.data.length
      · rw [if_pos a]
      · rw [if_neg a, if_pos (fun hh => h hh.symm)]
    · by_cases a : ip_version buf.data ≠ 4 ∨ ip_total_len buf.data > buf.data.length
      · rw [if_pos a]
      · rw [if_neg a]
        by_cases b : e.net_if_ip.take 4 ≠ ip_dst buf.data
        · rw [if_pos b]
        · rw [if_neg b, if_pos h]

/-- A packet that passes the tests of `ip_in`: one call of `net_in`, with the window that
is left after `buf_remove_padding` and `buf_remove_header`. -/
theorem ip_in_pass (e : Config) (st : net_t) (buf : buf_t) (now : Nat)
    (hlen : 20 ≤ buf.data.length) (hver : ip_version buf.data = 4)
    (htl : ip_total_len buf.data ≤ buf.data.length)
    (hdst : ip_dst buf.data = e.net_if_ip.take 4)
    (hck : checksum16 (ip_hdr_zeroed buf.data) = get16 buf.data 10) :
    (ip_in e st buf now).1.net_in_calls
      = st.net_in_calls ++ [⟨(buf_remove_header
          (buf_remove_padding buf (buf.data.length - ip_total_len buf.data)).2 20).2.data,
          ip_protocol buf.data, ip_src buf.data⟩] := by
  rw [ip_in_tests e st buf now hlen, if_neg (by rw [hver]; omega), if_neg (by rw [hdst]; simp),
    if_neg (by rw [hck]; simp)]
  dsimp only []
  split
  · show (net_in _ _ _ _ _).2.net_in_calls = _
    rw [net_in_state]
  · show (net_in _ _ _ _ _).2.net_in_calls = _
    rw [net_in_state]

theorem list_eq6 (l : List Nat) (h : l.length = 6) :
    ∃ a0 a1 a2 a3 a4 a5, l = [a0, a1, a2, a3, a4, a5] := by
  match l, h with
  | [a0, a1, a2, a3, a4, a5], _ => exact ⟨a0, a1, a2, a3, a4, a5, rfl⟩

/-- What `ethernet_in` does with a frame: one call of `net_in` when the frame has 14 bytes
and is for the local or the broadcast MAC, nothing otherwise. -/
theorem ethernet_in_spec (e : Config) (st : net_t) (buf : buf_t) (now : Nat)
    (he : e.net_if_mac.length = 6) :
    (ethernet_in e st buf now).1
      = { st with net_in_calls := st.net_in_calls
            ++ (if 14 ≤ buf.data.length
                  ∧ (eth_dst buf.data = e.net_if_mac ∨ eth_dst buf.data = ether_broadcast_mac)
                then [⟨buf.data.drop 14, eth_type buf.data, eth_src buf.data⟩] else []) } := by
  have ht : e.net_if_mac.take 6 = e.net_if_mac := List.take_of_length_le (by omega)
  unfold ethernet_in
  dsimp only [ETHER_HDR_LEN, NET_MAC_LEN]
  by_cases hlen : buf.data.length < 14
  · rw [if_pos hlen, if_neg (by omega), List.append_nil]
  · have hr : buf_read buf 0 14 = buf.data.take 14 := by
      rw [buf_read_data buf 0 14 (by omega), List.drop_zero]
    have e1 : (buf.data.take 14).take 6 = buf.data.take 6 := by
      rw [List.take_take]
      rfl
    have e2 : get16 (buf.data.take 14) 12 = get16 buf.data 12 := get16_take _ _ _ (by decide)
    have e3 : ((buf.data.take 14).drop 6).take 6 = (buf.data.drop 6).take 6 := by
      rw [List.drop_take, List.take_take]
      rfl
    have e4 : (buf_remove_header buf 14).2.data = buf.data.drop 14 := by
      unfold buf_remove_header
      rw [if_neg hlen]
    have e5 : ether_broadcast_mac.take 6 = ether_broadcast_mac := rfl
    rw [if_neg hlen, hr, e1, e2, e3]
    unfold is_mac_equal
    dsimp only [NET_MAC_LEN]
    rw [List.take_take, ht, e5]
    have e6 : List.take (6 ⊓ 6) buf.data = eth_dst buf.data := rfl
    rw [e6]
    by_cases hm : eth_dst buf.data = e.net_if_mac ∨ eth_dst buf.data = ether_broadcast_mac
    · have c1 : 14 ≤ buf.data.length
          ∧ (eth_dst buf.data = e.net_if_mac ∨ eth_dst buf.data = ether_broadcast_mac) :=
        ⟨by omega, hm⟩
      have c2 : (decide (eth_dst buf.data = e.net_if_mac)
          || decide (eth_dst buf.data = ether_broadcast_mac)) = true := by
        simpa only [Bool.or_eq_true, decide_eq_true_eq] using hm
      rw [if_pos c1, if_pos c2, net_in_state, e4]
      rfl
    · have c1 : ¬ (14 ≤ buf.data.length
          ∧ (eth_dst buf.data = e.net_if_mac ∨ eth_dst buf.data = ether_broadcast_mac)) :=
        fun h => hm h.2
      have c2 : ¬ (decide (eth_dst buf.data = e.net_if_mac)
          || decide (eth_dst buf.data = ether_broadcast_mac)) = true := by
        simpa only [Bool.or_eq_true, decide_eq_true_eq] using hm
      rw [if_neg c1, if_neg c2, List.append_nil]

/-! ## Facts about the application interface of TCP -/

theorem tcp_connect_read_spec (c : tcp_connect_t) (len : Nat) :
    tcp_connect_read c len
      = (min c.rx_buf.data.length len, c.rx_buf.data.take (min c.rx_buf.data.length len),
          { c with rx_buf := ⟨c.rx_buf.head ++ c.rx_buf.data.take (min c.rx_buf.data.length len),
              c.rx_buf.data.drop (min c.rx_buf.data.length len), c.rx_buf.tail⟩ }) := by
  have hm : min c.rx_buf.data.length len ≤ c.rx_buf.data.length := Nat.min_le_left _ _
  have hrem : buf_remove_header c.rx_buf (min c.rx_buf.data.length len)
      = (0, ⟨c.rx_buf.head ++ c.rx_buf.data.take (min c.rx_buf.data.length len),
          c.rx_buf.data.drop (min c.rx_buf.data.length len), c.rx_buf.tail⟩) := by
    unfold buf_remove_header
    rw [if_neg (by omega)]
  unfold tcp_connect_read
  dsimp only []
  rw [buf_read_data c.rx_buf 0 _ (by omega), List.drop_zero, hrem]
  dsimp only []
  rw [if_neg (by decide)]

theorem tcp_connect_reads_spec (lens : List Nat) : ∀ c : tcp_connect_t,
    (tcp_connect_reads c lens).1.flatten = c.rx_buf.data.take lens.sum
      ∧ (tcp_connect_reads c lens).2.rx_buf.data = c.rx_buf.data.drop lens.sum := by
  induction lens with
  | nil =>
    intro c
    exact ⟨rfl, rfl⟩
  | cons len lens ih =>
    intro c
    have h := tcp_connect_read_spec c len
    have h1 : (tcp_connect_read c len).2.1
        = c.rx_buf.data.take (min c.rx_buf.data.length len) := by rw [h]
    have h2 : (tcp_connect_read c len).2.2.rx_buf.data
        = c.rx_buf.data.drop (min c.rx_buf.data.length len) := by rw [h]
    obtain ⟨i1, i2⟩ := ih (tcp_connect_read c len).2.2
    rw [h2] at i1 i2
    show (tcp_connect_read c len).2.1 ++ (tcp_connect_reads _ lens).1.flatten = _
      ∧ (tcp_connect_reads _ lens).2.rx_buf.data = _
    rw [i1, i2, h1, List.sum_cons, List.drop_drop]
    by_cases hl : len ≤ c.rx_buf.data.length
    · rw [Nat.min_eq_right hl, ← List.take_add]
      exact ⟨rfl, by rw [Nat.add_comm]⟩
    · have hk : min c.rx_buf.data.length len = c.rx_buf.data.length := Nat.min_eq_left (by omega)
      rw [hk, List.take_length, List.drop_length, List.take_nil, List.append_nil,
        List.take_of_length_le (by omega), List.drop_of_length_le (by omega),
        List.drop_of_length_le (by omega)]
      exact ⟨rfl, rfl⟩

/-! ## Facts about the segments of `tcp_send` -/

/-- The pump `tcp_write_to_buf` on a connection with nothing in flight: the buffer gets
the first `min(tx_buf->len, remote_win)` bytes of `tx_buf`, with room for the TCP header
in front, and `next_seq` advances by their number. -/
theorem tcp_write_to_buf_idle (c : tcp_connect_t) (buf : buf_t) (hcap : 131110 ≤ buf_cap buf)
    (hfl : c.unack_seq = c.next_seq) (hwin : c.remote_win < 65536)
    (htx : c.tx_buf.data.length < 2 ^ 64) :
    (tcp_write_to_buf c buf).2.2.data
        = c.tx_buf.data.take (min c.tx_buf.data.length c.remote_win)
      ∧ (tcp_write_to_buf c buf).2.1
        = { c with next_seq := (c.next_seq + min c.tx_buf.data.length c.remote_win) % 2 ^ 32 }
      ∧ 20 ≤ (tcp_write_to_buf c buf).2.2.head.length := by
  have e32 : (2 : Nat) ^ 32 = 4294967296 := by norm_num
  have e64 : (2 : Nat) ^ 64 = 18446744073709551616 := by norm_num
  have e16 : (2 : Nat) ^ 16 = 65536 := by norm_num
  have hsent : (c.next_seq + 2 ^ 32 - c.unack_seq) % 2 ^ 32 % 2 ^ 16 = 0 := by
    rw [hfl, e32, e16]
    omega
  have hsize : min ((c.tx_buf.data.length + 2 ^ 64 - 0) % 2 ^ 64) c.remote_win % 2 ^ 16
      = min c.tx_buf.data.length c.remote_win := by
    rw [e64] at htx ⊢
    rw [e16]
    omega
  have hm : min c.tx_buf.data.length c.remote_win ≤ c.tx_buf.data.length := Nat.min_le_left _ _
  have hi := buf_init_ok buf (min c.tx_buf.data.length c.remote_win) (by omega)
  have hrd : buf_read c.tx_buf 0 (min c.tx_buf.data.length c.remote_win)
      = c.tx_buf.data.take (min c.tx_buf.data.length c.remote_win) := by
    rw [buf_read_data c.tx_buf 0 _ (by omega), List.drop_zero]
  have hw := (tcp_write_to_buf_frame c buf hcap).1
  refine ⟨?_, ?_, hw⟩
  · unfold tcp_write_to_buf
    dsimp only []
    rw [hsent, hsize, hrd]
    generalize (buf_init buf (min c.tx_buf.data.length c.remote_win)).2 = b at hi
    rw [buf_write_all b _ (by rw [hi.1, List.length_take]; omega)]
  · unfold tcp_write_to_buf
    dsimp only []
    rw [hsent, hsize]

/-! ## Facts about sequences of calls of TCP -/

theorem tcp_holds_store (st st2 : net_t) (key : tcp_key_t) (c c2 : tcp_connect_t)
    (h : tcp_holds st key c) (h2 : st2.connect_table = map_store st.connect_table key c2) :
    tcp_holds st2 key c2 := by
  intro t
  rw [h2, map_get_store_same, h t]
  rfl

/-- The state after the first segment of a handshake. -/
theorem tcp_in_syn_state (e : Config) (st : net_t) (buf : buf_t) (src_ip : List Nat)
    (rnd now handler : Nat) (hv : tcp_seg_valid e buf src_ip)
    (hh : map_get st.tcp_table now (get16 buf.data 2) = some handler)
    (hnone : map_get st.connect_table now (tcp_seg_key src_ip buf.data) = none)
    (hsyn : (tcp_seg_flags buf.data).syn = true) (hrst : (tcp_seg_flags buf.data).rst = false)
    (hroom : 40 ≤ buf_cap st.txbuf) (he : 4 ≤ e.net_if_ip.length) (hsrc : 4 ≤ src_ip.length) :
    (tcp_in e st buf src_ip rnd now).tcp_table = st.tcp_table
      ∧ (tcp_in e st buf src_ip rnd now).panics = st.panics
      ∧ buf_cap (tcp_in e st buf src_ip rnd now).txbuf = buf_cap st.txbuf
      ∧ (tcp_in e st buf src_ip rnd now).connect_table
          = map_store
              (map_set st.connect_table now (tcp_seg_key src_ip buf.data) CONNECT_LISTEN)
              (tcp_seg_key src_ip buf.data)
              { state := tcp_state_t.TCP_SYN_RCVD
                local_port := get16 buf.data 2
                remote_port := get16 buf.data 0
                ip := src_ip.take 4
                unack_seq := rnd % 100
                next_seq := rnd % 100 + 1
                ack := (get32 buf.data 4 + 1) % 2 ^ 32
                remote_win := get16 buf.data 14
                rx_buf := (buf_init (buf_malloc e) 0).2
                tx_buf := (buf_init (buf_malloc e) 0).2 } := by
  obtain ⟨seg, txb, hst1, _⟩ :=
    tcp_in_syn_spec e st buf src_ip rnd now handler hv hh hnone hsyn hrst hroom
  refine ⟨by rw [hst1], by rw [hst1], ?_, by rw [hst1]⟩
  rw [tcp_in_accept e st buf src_ip rnd now handler hv hh]
  simp only [hnone, map_get_set_same, map_entry_valid_self, if_true, Option.getD_some]
  have hl : CONNECT_LISTEN.state = tcp_state_t.TCP_LISTEN := rfl
  rw [if_pos hl]
  unfold tcp_in_listen
  simp only [hrst, hsyn, Bool.false_eq_true, if_false, Bool.not_true]
  rw [tcp_send_cap _ _ _ _ _ (by
    show 4 ≤ (src_ip.take NET_IP_LEN).length
    rw [List.length_take, NET_IP_LEN]
    omega) he, buf_init_cap]

/-- The state after a handshake in a table that never expires: the table holds the
ESTABLISHED record `tcp_conn_hs`; handlers, panics and the capacity of `txbuf` are as
before. -/
theorem tcp_handshake_state (e : Config) (st : net_t) (syn ack : buf_t) (src_ip : List Nat)
    (rnd rnd2 now now2 handler : Nat)
    (hv1 : tcp_seg_valid e syn src_ip)
    (hh1 : map_get st.tcp_table now (get16 syn.data 2) = some handler)
    (hnone : map_get st.connect_table now (tcp_seg_key src_ip syn.data) = none)
    (hsyn : (tcp_seg_flags syn.data).syn = true) (hrst1 : (tcp_seg_flags syn.data).rst = false)
    (hroom : 40 ≤ buf_cap st.txbuf)
    (hv2 : tcp_seg_valid e ack src_ip)
    (hkey : tcp_seg_key src_ip ack.data = tcp_seg_key src_ip syn.data)
    (hh2 : map_get st.tcp_table now2 (get16 ack.data 2) = some handler)
    (hack : (tcp_seg_flags ack.data).ack = true) (hrst2 : (tcp_seg_flags ack.data).rst = false)
    (hseq : get32 ack.data 4 = (get32 syn.data 4 + 1) % 2 ^ 32)
    (hto : st.connect_table.timeout = 0)
    (he : 4 ≤ e.net_if_ip.length) (hsrc : 4 ≤ src_ip.length) :
    (tcp_in e (tcp_in e st syn src_ip rnd now) ack src_ip rnd2 now2).tcp_table = st.tcp_table
      ∧ (tcp_in e (tcp_in e st syn src_ip rnd now) ack src_ip rnd2 now2).panics = st.panics
      ∧ buf_cap (tcp_in e (tcp_in e st syn src_ip rnd now) ack src_ip rnd2 now2).txbuf
          = buf_cap st.txbuf
      ∧ tcp_holds (tcp_in e (tcp_in e st syn src_ip rnd now) ack src_ip rnd2 now2)
          (tcp_seg_key src_ip syn.data) (tcp_conn_hs e src_ip syn.data rnd) := by
  obtain ⟨h1t, h1p, h1c, h1tbl⟩ :=
    tcp_in_syn_state e st syn src_ip rnd now handler hv1 hh1 hnone hsyn hrst1 hroom he hsrc
  generalize tcp_in e st syn src_ip rnd now = s1 at h1t h1p h1c h1tbl
  generalize hc1 : tcp_connect_t.mk tcp_state_t.TCP_SYN_RCVD (get16 syn.data 2)
    (get16 syn.data 0) (src_ip.take 4) (rnd % 100) (rnd % 100 + 1)
    ((get32 syn.data 4 + 1) % 2 ^ 32) (get16 syn.data 14) (buf_init (buf_malloc e) 0).2
    (buf_init (buf_malloc e) 0).2 = c1 at h1tbl
  have hget : ∀ t, map_get s1.connect_table t (tcp_seg_key src_ip syn.data) = some c1 := by
    intro t
    rw [h1tbl, map_get_store_same, map_get_set_same, hto,
      if_pos (map_entry_valid_zero now t)]
    rfl
  have hstate1 : c1.state = tcp_state_t.TCP_SYN_RCVD := by rw [← hc1]
  have hsw := tcp_in_existing e s1 ack src_ip rnd2 now2 handler c1
    hv2 (by rw [h1t]; exact hh2) (by rw [hkey]; exact hget now2)
    (by rw [hstate1]; decide) (by rw [hseq, ← hc1]) hrst2
  rw [tcp_in_switch_syn_rcvd _ _ _ _ _ _ _ _ hstate1 hack, hkey] at hsw
  rw [hsw]
  refine ⟨h1t, h1p, h1c, ?_⟩
  intro t
  show map_get (map_store s1.connect_table _ _) t _ = _
  rw [map_get_store_same, hget t, ← hc1]
  rfl

/-- A call of `tcp_connect_write` that the window test lets through and whose bytes fit
behind the window of `tx_buf`: the bytes are appended, nothing else changes. -/
theorem tcp_connect_write_append (e : Config) (st : net_t) (c : tcp_connect_t)
    (data : List Nat) (len : Nat) (h : tcp_window_used c len < c.remote_win)
    (hfit : len ≤ c.tx_buf.tail.length) (hdata : len ≤ data.length) :
    tcp_connect_write e st c data len
      = (len, st, { c with tx_buf := ⟨c.tx_buf.head, c.tx_buf.data ++ data.take len,
          c.tx_buf.tail.drop len⟩ }) := by
  unfold tcp_window_used at h
  have hpad : buf_add_padding c.tx_buf (min c.tx_buf.tail.length len)
      = (0, ⟨c.tx_buf.head, c.tx_buf.data ++ c.tx_buf.tail.take len,
          c.tx_buf.tail.drop len⟩) := by
    rw [Nat.min_eq_right hfit]
    unfold buf_add_padding
    rw [if_neg (by omega)]
  have hw := buf_write_mid c.tx_buf.head c.tx_buf.data (c.tx_buf.tail.take len) []
    (c.tx_buf.tail.drop len) (data.take len) c.tx_buf.data.length rfl
    (by simp only [List.length_take]; omega)
  simp only [List.append_nil] at hw
  unfold tcp_connect_write
  dsimp only []
  rw [if_neg (by omega), hpad]
  dsimp only []
  rw [if_neg (by decide), Nat.min_eq_right hfit, hw]

/-- The application writes through the record of the table. -/
theorem tcp_app_write_spec (e : Config) (st : net_t) (key : tcp_key_t) (c : tcp_connect_t)
    (data : List Nat) (len now : Nat) (hc : map_get st.connect_table now key = some c)
    (h : tcp_window_used c len < c.remote_win) (hfit : len ≤ c.tx_buf.tail.length)
    (hdata : len ≤ data.length) :
    tcp_app_write e st key data len now
      = { st with
          connect_table := map_store st.connect_table key
            (tcp_connect_write e st c data len).2.2 }
      ∧ (tcp_connect_write e st c data len).2.2
          = { c with
              tx_buf := ⟨c.tx_buf.head, c.tx_buf.data ++ data.take len, c.tx_buf.tail.drop len⟩ } := by
  have hw := tcp_connect_write_append e st c data len h hfit hdata
  refine ⟨?_, by rw [hw]⟩
  unfold tcp_app_write
  simp only [hc, hw]

theorem tcp_write_to_buf_cap (c : tcp_connect_t) (buf : buf_t) :
    buf_cap (tcp_write_to_buf c buf).2.2 = buf_cap buf := by
  unfold tcp_write_to_buf
  simp only []
  rw [buf_write_cap, buf_init_cap]

/-- A data segment in sequence for an ESTABLISHED connection: the table holds the record
that `tcp_write_to_buf` returns; handlers, panics and the capacity of `txbuf` are as
before. -/
theorem tcp_in_pump_state (e : Config) (st : net_t) (buf : buf_t) (src_ip : List Nat)
    (rnd now handler : Nat) (c : tcp_connect_t) (hv : tcp_seg_valid e buf src_ip)
    (hh : map_get st.tcp_table now (get16 buf.data 2) = some handler)
    (hc : map_get st.connect_table now (tcp_seg_key src_ip buf.data) = some c)
    (hstate : c.state = tcp_state_t.TCP_ESTABLISHED) (hseq : get32 buf.data 4 = c.ack)
    (hrst : (tcp_seg_flags buf.data).rst = false) (hack : (tcp_seg_flags buf.data).ack = true)
    (hfin : (tcp_seg_flags buf.data).fin = false) (hlen : 20 < buf.data.length)
    (he : 4 ≤ e.net_if_ip.length) (hip : 4 ≤ c.ip.length) :
    (tcp_in e st buf src_ip rnd now).tcp_table = st.tcp_table
      ∧ (tcp_in e st buf src_ip rnd now).panics = st.panics
      ∧ buf_cap (tcp_in e st buf src_ip rnd now).txbuf = buf_cap st.txbuf
      ∧ (tcp_in e st buf src_ip rnd now).connect_table
          = map_store st.connect_table (tcp_seg_key src_ip buf.data)
              (tcp_write_to_buf
                (tcp_read_from_buf (tcp_acked c (get32 buf.data 8) (tcp_seg_flags buf.data))
                  (tcp_in_payload e buf src_ip))
                (buf_init st.txbuf 0).2).2.1 := by
  have hpl : 0 < (tcp_in_payload e buf src_ip).data.length := by
    rw [tcp_in_payload_data e buf src_ip (by omega), List.length_drop]
    omega
  rw [tcp_in_existing e st buf src_ip rnd now handler c hv hh hc (by rw [hstate]; decide) hseq
    hrst, tcp_in_switch_established e st _ c handler _ _ _ hstate]
  simp only [hfin, hack, Bool.not_true, Bool.not_false, Bool.false_and, Bool.false_eq_true,
    if_false, gt_iff_lt, hpl, if_true]
  refine ⟨rfl, rfl, ?_, rfl⟩
  show buf_cap (tcp_send e _ _ _ tcp_flags_ack).2.1 = _
  rw [tcp_send_cap _ _ _ _ _ (by
    show 4 ≤ (tcp_acked c (get32 buf.data 8) (tcp_seg_flags buf.data)).ip.length
    rw [(tcp_acked_frame _ _ _).2.2.1]
    exact hip) he, tcp_write_to_buf_cap, buf_init_cap]

/-- A segment out of sequence, with ACK and without RST, FIN and payload, for an
ESTABLISHED connection: after the RST|ACK the switch runs on the record with
`next_seq = 0`, and that record is stored. -/
theorem tcp_in_ooo_state (e : Config) (st : net_t) (buf : buf_t) (src_ip : List Nat)
    (rnd now handler : Nat) (c : tcp_connect_t) (hv : tcp_seg_valid e buf src_ip)
    (hh : map_get st.tcp_table now (get16 buf.data 2) = some handler)
    (hc : map_get st.connect_table now (tcp_seg_key src_ip buf.data) = some c)
    (hstate : c.state = tcp_state_t.TCP_ESTABLISHED) (hseq : get32 buf.data 4 ≠ c.ack)
    (hrst : (tcp_seg_flags buf.data).rst = false) (hack : (tcp_seg_flags buf.data).ack = true)
    (hfin : (tcp_seg_flags buf.data).fin = false) (hlen : buf.data.length = 20) :
    (tcp_in e st buf src_ip rnd now).connect_table
      = map_store st.connect_table (tcp_seg_key src_ip buf.data)
          (tcp_read_from_buf { c with next_seq := 0, ack := (get32 buf.data 4 + 1) % 2 ^ 32 }
            (tcp_in_payload e buf src_ip)) := by
  have hpl : (tcp_in_payload e buf src_ip).data.length = 0 := by
    rw [tcp_in_payload_data e buf src_ip (by omega), List.length_drop]
    omega
  have hr : ∀ s : net_t, (tcp_in_reset e s c (get32 buf.data 4)).2
      = { c with next_seq := 0, ack := (get32 buf.data 4 + 1) % 2 ^ 32 } := fun _ => rfl
  have hr1 : ∀ s : net_t, (tcp_in_reset e s c (get32 buf.data 4)).1.connect_table
      = s.connect_table := fun _ => rfl
  have hacked : tcp_acked { c with next_seq := 0, ack := (get32 buf.data 4 + 1) % 2 ^ 32 }
      (get32 buf.data 8) (tcp_seg_flags buf.data)
      = { c with next_seq := 0, ack := (get32 buf.data 4 + 1) % 2 ^ 32 } := by
    unfold tcp_acked
    rw [if_neg]
    simp only [hack, Bool.true_and, Bool.and_eq_true, decide_eq_true_eq, ge_iff_le, not_and]
    intro h1 h2
    omega
  rw [tcp_in_accept e st buf src_ip rnd now handler hv hh]
  simp only [hc, Option.getD_some, hstate, hseq, ne_eq, not_false_eq_true, if_true, hrst,
    Bool.false_eq_true, if_false, reduceCtorEq]
  rw [tcp_in_switch_established e _ _ _ handler _ _ _ (by rw [hr]; exact hstate), hr, hacked]
  simp only [hfin, hack, Bool.not_true, Bool.not_false, Bool.false_and, Bool.false_eq_true,
    if_false, gt_iff_lt, hpl, Nat.lt_irrefl]
  show map_store (tcp_in_reset e _ c (get32 buf.data 4)).1.connect_table _ _ = _
  rw [hr1, hstate]

theorem tcp_conn_hs_tx (e : Config) (src_ip syn : List Nat) (rnd : Nat) :
    (tcp_conn_hs e src_ip syn rnd).tx_buf.data = []
      ∧ (tcp_conn_hs e src_ip syn rnd).tx_buf.tail.length
          = e.heap.length - e.heap.length / 2 := by
  have h := buf_init_ok (buf_malloc e) 0 (Nat.zero_le _)
  rw [buf_malloc_cap] at h
  exact ⟨List.length_eq_zero.mp h.1, h.2.2⟩

/-- The handshake, in terms of `tcp_est`. -/
theorem tcp_handshake_est (e : Config) (st : net_t) (syn ack : buf_t) (src_ip : List Nat)
    (rnd rnd2 now now2 handler : Nat)
    (hv1 : tcp_seg_valid e syn src_ip)
    (hh1 : map_get st.tcp_table now (get16 syn.data 2) = some handler)
    (hnone : map_get st.connect_table now (tcp_seg_key src_ip syn.data) = none)
    (hsyn : (tcp_seg_flags syn.data).syn = true) (hrst1 : (tcp_seg_flags syn.data).rst = false)
    (hroom : 40 ≤ buf_cap st.txbuf)
    (hv2 : tcp_seg_valid e ack src_ip)
    (hkey : tcp_seg_key src_ip ack.data = tcp_seg_key src_ip syn.data)
    (hh2 : map_get st.tcp_table now2 (get16 ack.data 2) = some handler)
    (hack : (tcp_seg_flags ack.data).ack = true) (hrst2 : (tcp_seg_flags ack.data).rst = false)
    (hseq : get32 ack.data 4 = (get32 syn.data 4 + 1) % 2 ^ 32)
    (hto : st.connect_table.timeout = 0)
    (he : 4 ≤ e.net_if_ip.length) (hsrc : 4 ≤ src_ip.length) :
    tcp_same_env (tcp_in e (tcp_in e st syn src_ip rnd now) ack src_ip rnd2 now2) st
      ∧ tcp_est (tcp_in e (tcp_in e st syn src_ip rnd now) ack src_ip rnd2 now2)
          (tcp_seg_key src_ip syn.data) ((rnd % 100 + 1) % 2 ^ 32) (rnd % 100 + 1)
          ((get32 syn.data 4 + 1) % 2 ^ 32) (get16 syn.data 14) []
          (e.heap.length - e.heap.length / 2) := by
  obtain ⟨ht, hp, hc, hh⟩ := tcp_handshake_state e st syn ack src_ip rnd rnd2 now now2 handler
    hv1 hh1 hnone hsyn hrst1 hroom hv2 hkey hh2 hack hrst2 hseq hto he hsrc
  refine ⟨⟨ht, hp, hc⟩, tcp_conn_hs e src_ip syn.data rnd, hh, rfl, ?_, rfl, rfl, rfl, rfl,
    (tcp_conn_hs_tx e src_ip syn.data rnd).1, ?_⟩
  · show 4 ≤ (src_ip.take 4).length
    rw [List.length_take]
    omega
  · rw [(tcp_conn_hs_tx e src_ip syn.data rnd).2]

/-- A write of the application that the window test lets through, in terms of `tcp_est`:
the bytes are appended to `tx_buf`, the sequence numbers stay. -/
theorem tcp_app_write_est (e : Config) (st : net_t) (key : tcp_key_t)
    (un nx ak win : Nat) (tx : List Nat) (room : Nat) (data : List Nat) (len now : Nat)
    (hest : tcp_est st key un nx ak win tx room)
    (hwin : ((nx + 2 ^ 32 - un) % 2 ^ 32 + len) % 2 ^ 64 < win) (hfit : len ≤ room)
    (hdata : len ≤ data.length) :
    tcp_same_env (tcp_app_write e st key data len now) st
      ∧ tcp_est (tcp_app_write e st key data len now) key un nx ak win (tx ++ data.take len)
          (room - len) := by
  obtain ⟨c, hh, hst, hip, hun, hnx, hak, hw, htx, hroom⟩ := hest
  obtain ⟨w1, w2⟩ := tcp_app_write_spec e st key c data len now (hh now)
    (by unfold tcp_window_used; rw [hnx, hun, hw]; exact hwin) (by omega) hdata
  rw [w1, w2]
  refine ⟨⟨rfl, rfl, rfl⟩,
    { c with
      tx_buf := ⟨c.tx_buf.head, c.tx_buf.data ++ data.take len, c.tx_buf.tail.drop len⟩ },
    tcp_holds_store st _ key c _ hh rfl, hst, hip, hun, hnx, hak, hw, ?_, ?_⟩
  · show c.tx_buf.data ++ data.take len = _
    rw [htx]
  · show room - len ≤ (c.tx_buf.tail.drop len).length
    rw [List.length_drop]
    omega

/-- A data segment in sequence whose ACK acknowledges nothing new, in terms of `tcp_est`:
`next_seq` advances by the `size` of `tcp_write_to_buf`, `ack` by the payload. -/
theorem tcp_in_pump_est (e : Config) (st : net_t) (buf : buf_t) (src_ip : List Nat)
    (rnd now handler : Nat) (key : tcp_key_t) (un nx ak win : Nat) (tx : List Nat) (room : Nat)
    (hest : tcp_est st key un nx ak win tx room)
    (hv : tcp_seg_valid e buf src_ip)
    (hh : map_get st.tcp_table now (get16 buf.data 2) = some handler)
    (hkey : tcp_seg_key src_ip buf.data = key) (hseq : get32 buf.data 4 = ak)
    (hrst : (tcp_seg_flags buf.data).rst = false) (hack : (tcp_seg_flags buf.data).ack = true)
    (hfin : (tcp_seg_flags buf.data).fin = false) (hlen : 20 < buf.data.length)
    (he : 4 ≤ e.net_if_ip.length)
    (hnew : ¬ (un < get32 buf.data 8 ∧ get32 buf.data 8 ≤ nx)) :
    tcp_same_env (tcp_in e st buf src_ip rnd now) st
      ∧ tcp_est (tcp_in e st buf src_ip rnd now) key un
          ((nx + tcp_pump_size un nx win tx.length) % 2 ^ 32)
          ((ak + (buf.data.length - 20)) % 2 ^ 32) win tx room := by
  obtain ⟨c, hc, hst, hip, hun, hnx, hak, hw, htx, hroom⟩ := hest
  have hp := tcp_in_pump_state e st buf src_ip rnd now handler c hv hh
    (by rw [hkey]; exact hc now) hst (by rw [hseq, hak]) hrst hack hfin hlen he hip
  have hacked : tcp_acked c (get32 buf.data 8) (tcp_seg_flags buf.data) = c := by
    unfold tcp_acked
    rw [if_neg]
    simp only [hack, Bool.true_and, Bool.and_eq_true, decide_eq_true_eq, ge_iff_le, not_and]
    intro h1 h2
    exact hnew ⟨by rw [← hun]; exact h1, by rw [← hnx]; exact h2⟩
  rw [hacked] at hp
  refine ⟨⟨hp.1, hp.2.1, hp.2.2.1⟩,
    (tcp_write_to_buf (tcp_read_from_buf c (tcp_in_payload e buf src_ip))
      (buf_init st.txbuf 0).2).2.1,
    tcp_holds_store st _ key c _ hc (by rw [hp.2.2.2, hkey]), hst, hip, hun, ?_, ?_, hw, htx,
    hroom⟩
  · show (c.next_seq + min ((c.tx_buf.data.length + 2 ^ 64
      - (c.next_seq + 2 ^ 32 - c.unack_seq) % 2 ^ 32 % 2 ^ 16) % 2 ^ 64) c.remote_win % 2 ^ 16)
      % 2 ^ 32 = _
    rw [hnx, hun, hw, htx]
    rfl
  · show (c.ack + (tcp_in_payload e buf src_ip).data.length) % 2 ^ 32 = _
    rw [hak, tcp_in_payload_data e buf src_ip (by omega), List.length_drop]

/-- A segment out of sequence, in terms of `tcp_est`: the record stays ESTABLISHED with
its `unack_seq` and its `tx_buf`, and `next_seq` is 0. -/
theorem tcp_in_ooo_est (e : Config) (st : net_t) (buf : buf_t) (src_ip : List Nat)
    (rnd now handler : Nat) (key : tcp_key_t) (un nx ak win : Nat) (tx : List Nat) (room : Nat)
    (hest : tcp_est st key un nx ak win tx room)
    (hv : tcp_seg_valid e buf src_ip)
    (hh : map_get st.tcp_table now (get16 buf.data 2) = some handler)
    (hkey : tcp_seg_key src_ip buf.data = key) (hseq : get32 buf.data 4 ≠ ak)
    (hrst : (tcp_seg_flags buf.data).rst = false) (hack : (tcp_seg_flags buf.data).ack = true)
    (hfin : (tcp_seg_flags buf.data).fin = false) (hlen : buf.data.length = 20) :
    tcp_est (tcp_in e st buf src_ip rnd now) key un 0 ((get32 buf.data 4 + 1) % 2 ^ 32) win tx
      room := by
  obtain ⟨c, hc, hst, hip, hun, hnx, hak, hw, htx, hroom⟩ := hest
  have ho := tcp_in_ooo_state e st buf src_ip rnd now handler c hv hh
    (by rw [hkey]; exact hc now) hst (by rw [hak]; exact hseq) hrst hack hfin hlen
  refine ⟨tcp_read_from_buf { c with next_seq := 0, ack := (get32 buf.data 4 + 1) % 2 ^ 32 }
      (tcp_in_payload e buf src_ip),
    tcp_holds_store st _ key c _ hc (by rw [ho, hkey]), hst, hip, hun, rfl, ?_, hw, htx, hroom⟩
  show ((get32 buf.data 4 + 1) % 2 ^ 32 + (tcp_in_payload e buf src_ip).data.length) % 2 ^ 32 = _
  rw [tcp_in_payload_data e buf src_ip (by omega), List.length_drop, hlen]
  simp only [Nat.sub_self, Nat.add_zero, Nat.mod_mod]

/-! ## Facts about the checksum of `tcp_send` -/

/-- The sum of the 16-bit words does not change when two 4-byte addresses in front are
exchanged. -/
theorem checksum16_swap_addr (a b rest : List Nat) (ha : a.length = 4) (hb : b.length = 4) :
    checksum16 (a ++ (b ++ rest)) = checksum16 (b ++ (a ++ rest)) := by
  unfold checksum16
  rw [sum16_append_even 2 a _ ha, sum16_append_even 2 b rest hb,
    sum16_append_even 2 b _ hb, sum16_append_even 2 a rest ha]
  have : sum16 a + (sum16 b + sum16 rest) = sum16 b + (sum16 a + sum16 rest) := by omega
  rw [this]

/-- All of `tcp_checksum` when the addresses have 4 bytes and the length of the window
fits 16 bits: the result is
`checksum16` of the pseudo-header and the window, and the buffer is as before. -/
theorem tcp_checksum_spec (buf : buf_t) (src_ip dst_ip : List Nat)
    (hs : src_ip.length = 4) (hd : dst_ip.length = 4)
    (hlen : buf.data.length < 65536) :
    tcp_checksum buf src_ip dst_ip
      = (checksum16 (src_ip ++ dst_ip ++ [0, 6] ++ swap16_bytes buf.data.length ++ buf.data),
          buf) := by
  have hm : buf.data.length % 65536 = buf.data.length := Nat.mod_eq_of_lt hlen
  have hp : tcp_peso_hdr_bytes src_ip dst_ip buf.data.length
      = src_ip ++ dst_ip ++ [0, 6] ++ swap16_bytes buf.data.length := by
    unfold tcp_peso_hdr_bytes
    rw [List.take_of_length_le (by rw [hs, NET_IP_LEN]),
      List.take_of_length_le (by rw [hd, NET_IP_LEN])]
    rfl
  have hpl : (tcp_peso_hdr_bytes src_ip dst_ip buf.data.length).length = 12 := by
    rw [hp]
    simp only [List.length_append, hs, hd, swap16_bytes, List.length_cons, List.length_nil]
  unfold tcp_checksum
  simp only [hm, TCP_PESO_HDR_LEN]
  rw [← hp]
  generalize tcp_peso_hdr_bytes src_ip dst_ip buf.data.length = P at hpl
  have h1 : (buf.head.take (buf.head.length - 12) ++ P).length - 12
      = (buf.head.take (buf.head.length - 12)).length := by
    simp only [List.length_append, hpl]
    omega
  rw [h1, List.drop_left, List.take_left, List.take_append_drop,
    List.take_left' (by simp only [List.length_append, hpl]; omega)]

theorem sum16_replicate (b : Nat) : ∀ k, sum16 (List.replicate (2 * k) b) = k * (b * 256 + b) := by
  intro k
  induction k with
  | zero => simp [sum16]
  | succ n ih =>
    have h : List.replicate (2 * (n + 1)) b = b :: b :: List.replicate (2 * n) b := by
      rw [show 2 * (n + 1) = 2 * n + 1 + 1 by omega, List.replicate_succ, List.replicate_succ]
    rw [h]
    show b * 256 + b + sum16 (List.replicate (2 * n) b) = _
    rw [ih, Nat.succ_mul]
    omega

/-- All of `tcp_checksum` for addresses of 4 bytes: `len` is `buf->len` cut to 16 bits;
the result is `checksum16` of the first `len + 12` bytes of the pseudo-header and the
window, and the buffer is as before. -/
theorem tcp_checksum_trunc (buf : buf_t) (src_ip dst_ip : List Nat)
    (hs : src_ip.length = 4) (hd : dst_ip.length = 4) :
    tcp_checksum buf src_ip dst_ip
      = (checksum16 ((src_ip ++ dst_ip ++ [0, 6] ++ swap16_bytes (buf.data.length % 65536)
            ++ buf.data ++ buf.tail).take (buf.data.length % 65536 + 12)), buf) := by
  have hp : tcp_peso_hdr_bytes src_ip dst_ip (buf.data.length % 65536)
      = src_ip ++ dst_ip ++ [0, 6] ++ swap16_bytes (buf.data.length % 65536) := by
    unfold tcp_peso_hdr_bytes
    rw [List.take_of_length_le (by rw [hs, NET_IP_LEN]),
      List.take_of_length_le (by rw [hd, NET_IP_LEN])]
    rfl
  have hpl : (tcp_peso_hdr_bytes src_ip dst_ip (buf.data.length % 65536)).length = 12 := by
    rw [hp]
    simp only [List.length_append, hs, hd, swap16_bytes, List.length_cons, List.length_nil]
  unfold tcp_checksum
  simp only [TCP_PESO_HDR_LEN]
  rw [← hp]
  generalize tcp_peso_hdr_bytes src_ip dst_ip (buf.data.length % 65536) = P at hpl
  have h1 : (buf.head.take (buf.head.length - 12) ++ P).length - 12
      = (buf.head.take (buf.head.length - 12)).length := by
    simp only [List.length_append, hpl]
    omega
  rw [h1, List.drop_left, List.take_left, List.take_append_drop]

/-- The checksum field of the segment of `tcp_send`, whatever the length of the segment:
`checksum16` of the first `len + 12` bytes of the pseudo-header (remote IP, local IP, 0,
6, `len`) and the segment with a zero checksum field, `len` being the length of the
segment cut to 16 bits.  The buffer in front of the header and behind the window is as
before. -/
theorem tcp_send_field (e : Config) (st : net_t) (buf : buf_t) (c : tcp_connect_t)
    (flags : tcp_flags_t) (hroom : 20 ≤ buf.head.length) (hip : c.ip.length = 4)
    (he : e.net_if_ip.length = 4) :
    ∃ seg, (tcp_send e st buf c flags).1.ip_out_calls
          = st.ip_out_calls ++ [⟨seg, c.ip, NET_PROTOCOL_TCP⟩]
      ∧ seg.length = buf.data.length + 20
      ∧ seg.take 16 ++ [0, 0] ++ seg.drop 18 = tcp_hdr_bytes c buf.data.length flags ++ buf.data
      ∧ get16 seg 16
          = checksum16 ((c.ip ++ e.net_if_ip ++ [0, 6]
              ++ swap16_bytes ((buf.data.length + 20) % 65536)
              ++ (tcp_hdr_bytes c buf.data.length flags ++ buf.data) ++ buf.tail).take
                ((buf.data.length + 20) % 65536 + 12))
      ∧ (tcp_checksum ⟨buf.head.take (buf.head.length - 20),
            tcp_hdr_bytes c buf.data.length flags ++ buf.data, buf.tail⟩ c.ip e.net_if_ip).2
          = ⟨buf.head.take (buf.head.length - 20),
              tcp_hdr_bytes c buf.data.length flags ++ buf.data, buf.tail⟩
      ∧ (tcp_send e st buf c flags).2.1.head = buf.head.take (buf.head.length - 20)
      ∧ (tcp_send e st buf c flags).2.1.tail = buf.tail := by
  have hl := tcp_hdr_bytes_length c buf.data.length flags
  have hw := buf_add_header_write buf 20 (tcp_hdr_bytes c buf.data.length flags) hroom hl
  have hlen2 : (tcp_hdr_bytes c buf.data.length flags ++ buf.data).length
      = buf.data.length + 20 := by
    rw [List.length_append, hl]
    omega
  have hck := tcp_checksum_trunc ⟨buf.head.take (buf.head.length - 20),
      tcp_hdr_bytes c buf.data.length flags ++ buf.data, buf.tail⟩ c.ip e.net_if_ip hip he
  dsimp only [] at hck
  rw [hlen2] at hck
  generalize hck0 : checksum16 ((c.ip ++ e.net_if_ip ++ [0, 6]
    ++ swap16_bytes ((buf.data.length + 20) % 65536)
    ++ (tcp_hdr_bytes c buf.data.length flags ++ buf.data) ++ buf.tail).take
      ((buf.data.length + 20) % 65536 + 12)) = ck at hck
  have hckb : ck ≤ 65535 := by
    rw [← hck0]
    unfold checksum16
    exact Nat.sub_le _ _
  have hwr : buf_write ⟨buf.head.take (buf.head.length - 20),
        tcp_hdr_bytes c buf.data.length flags ++ buf.data, buf.tail⟩ 16 (swap16_bytes ck)
      = ⟨buf.head.take (buf.head.length - 20),
          (tcp_hdr_bytes c buf.data.length flags).take 16 ++ swap16_bytes ck
            ++ (tcp_hdr_bytes c buf.data.length flags).drop 18 ++ buf.data, buf.tail⟩ := by
    rw [buf_write_data _ 16 _ (by
      simp only [List.length_append, hl, swap16_bytes, List.length_cons, List.length_nil]
      omega)]
    simp only [swap16_bytes, List.length_cons, List.length_nil]
    rw [List.take_append_of_le_length (by omega), List.drop_append_of_le_length (by omega)]
    simp only [List.append_assoc]
  have hsend : tcp_send e st buf c flags
      = ({ st with ip_out_calls := st.ip_out_calls ++ [⟨
            (tcp_hdr_bytes c buf.data.length flags).take 16 ++ swap16_bytes ck
              ++ (tcp_hdr_bytes c buf.data.length flags).drop 18 ++ buf.data,
            c.ip, NET_PROTOCOL_TCP⟩] },
          ⟨buf.head.take (buf.head.length - 20),
            (tcp_hdr_bytes c buf.data.length flags).take 16 ++ swap16_bytes ck
              ++ (tcp_hdr_bytes c buf.data.length flags).drop 18 ++ buf.data, buf.tail⟩,
          if flags.syn || flags.fin then { c with next_seq := (c.next_seq + 1) % 2 ^ 32 }
          else c) := by
    unfold tcp_send
    simp only [TCP_HDR_LEN, hw, hck, hwr]
  have hz : (tcp_hdr_bytes c buf.data.length flags).take 16 ++ [0, 0]
      ++ (tcp_hdr_bytes c buf.data.length flags).drop 18
      = tcp_hdr_bytes c buf.data.length flags := by
    simp only [tcp_hdr_bytes, swap16_bytes, swap32_bytes, List.cons_append, List.nil_append,
      List.take_succ_cons, List.take_zero, List.drop_succ_cons, List.drop_zero]
  rw [hsend, hck]
  generalize tcp_hdr_bytes c buf.data.length flags = hdr at hl hz
  have h16 : (hdr.take 16).length = 16 := by
    rw [List.length_take]
    omega
  have hd18 : (hdr.drop 18).length = 2 := by
    rw [List.length_drop]
    omega
  have hseglen : (hdr.take 16 ++ swap16_bytes ck ++ hdr.drop 18 ++ buf.data).length
      = buf.data.length + 20 := by
    simp only [List.length_append, h16, hd18, swap16_bytes, List.length_cons, List.length_nil]
    omega
  have htake : (hdr.take 16 ++ swap16_bytes ck ++ hdr.drop 18 ++ buf.data).take 16
      = hdr.take 16 := by
    rw [List.append_assoc, List.append_assoc]
    exact List.take_left' h16
  have hdrop : (hdr.take 16 ++ swap16_bytes ck ++ hdr.drop 18 ++ buf.data).drop 18
      = hdr.drop 18 ++ buf.data := by
    rw [List.append_assoc]
    exact List.drop_left' (by
      simp only [List.length_append, h16, swap16_bytes, List.length_cons, List.length_nil])
  have hbody : (hdr.take 16 ++ swap16_bytes ck ++ hdr.drop 18 ++ buf.data).take 16 ++ [0, 0]
      ++ (hdr.take 16 ++ swap16_bytes ck ++ hdr.drop 18 ++ buf.data).drop 18
      = hdr ++ buf.data := by
    rw [htake, hdrop, ← List.append_assoc, hz]
  have hget : get16 (hdr.take 16 ++ swap16_bytes ck ++ hdr.drop 18 ++ buf.data) 16 = ck := by
    have hsplit : hdr.take 16 ++ swap16_bytes ck ++ hdr.drop 18 ++ buf.data
        = hdr.take 16 ++ (swap16_bytes ck ++ (hdr.drop 18 ++ buf.data)) := by
      simp only [List.append_assoc]
    rw [hsplit]
    have g0 : (hdr.take 16 ++ (swap16_bytes ck ++ (hdr.drop 18 ++ buf.data))).getD 16 0
        = (swap16_bytes ck ++ (hdr.drop 18 ++ buf.data)).getD (16 - (hdr.take 16).length) 0 :=
      List.getD_append_right _ _ _ _ (by omega)
    have g1 : (hdr.take 16 ++ (swap16_bytes ck ++ (hdr.drop 18 ++ buf.data))).getD (16 + 1) 0
        = (swap16_bytes ck ++ (hdr.drop 18 ++ buf.data)).getD (16 + 1 - (hdr.take 16).length)
            0 :=
      List.getD_append_right _ _ _ _ (by omega)
    unfold get16
    rw [g0, g1, h16]
    simp only [swap16_bytes, List.cons_append, List.nil_append, Nat.sub_self,
      Nat.add_sub_cancel_left, List.getD_cons_zero, List.getD_cons_succ]
    omega
  exact ⟨hdr.take 16 ++ swap16_bytes ck ++ hdr.drop 18 ++ buf.data, rfl, hseglen, hbody, hget,
    rfl, rfl, rfl⟩

/-- The checksum of two parts, the first of even length. -/
theorem checksum16_append_even (pre post : List Nat) (n : Nat) (hn : pre.length = 2 * n) :
    checksum16 (pre ++ post) = 65535 - fold16 (fold16 (sum16 pre + sum16 post)) := by
  unfold checksum16
  rw [sum16_append_even n pre post hn]

/-- The room in front of the window after `tcp_write_to_buf`, `n` being its `size`. -/
theorem tcp_write_to_buf_head (c : tcp_connect_t) (buf : buf_t) (n : Nat)
    (hn : min ((c.tx_buf.data.length + 2 ^ 64
      - (c.next_seq + 2 ^ 32 - c.unack_seq) % 2 ^ 32 % 2 ^ 16) % 2 ^ 64) c.remote_win % 2 ^ 16
      = n) (hcap : n ≤ buf_cap buf / 2) :
    (tcp_write_to_buf c buf).2.2.head.length = buf_cap buf / 2 - n := by
  unfold tcp_write_to_buf
  simp only [buf_write_head_eq, hn]
  exact (buf_init_ok buf n hcap).2.1

/-! ## Facts about the example host -/

theorem cfg0_heap_length : cfg0.heap.length = 131325 := by
  simp only [cfg0, List.length_replicate]

theorem cfg0_ip_length : cfg0.net_if_ip.length = 4 := rfl

theorem cfg0_mac_length : cfg0.net_if_mac.length = 6 := rfl

theorem buf_of_replicate_length (n x : Nat) : (buf_of (List.replicate n x)).data.length = n := by
  simp only [buf_of, List.length_replicate]

theorem net_tcp0_room : 40 ≤ buf_cap net_tcp0.txbuf := by
  show 40 ≤ buf_cap (buf_malloc cfg0)
  rw [buf_malloc_cap, cfg0_heap_length]
  decide

theorem tcp_syn0_valid : tcp_seg_valid cfg0 tcp_syn0 ip_peer := by
  unfold tcp_seg_valid
  decide

theorem tcp_ack0_valid : tcp_seg_valid cfg0 tcp_ack0 ip_peer := by
  unfold tcp_seg_valid
  decide

theorem tcp_data0_valid : tcp_seg_valid cfg0 tcp_data0 ip_peer := by
  unfold tcp_seg_valid
  decide

theorem net_tcp_full_room : 131110 ≤ buf_cap net_tcp_full.txbuf := by
  show 131110 ≤ buf_cap (buf_malloc cfg0)
  rw [buf_malloc_cap, cfg0_heap_length]
  decide

theorem net_tcp_full_get (t : Nat) :
    map_get net_tcp_full.connect_table t ⟨ip_peer, 4000, 7⟩ = some tcp_conn_full := by
  show map_get (map_set net_tcp0.connect_table 0 _ _) t _ = _
  rw [map_get_set_same]
  exact if_pos (map_entry_valid_zero 0 t)

theorem tcp_fin_rst0_valid : tcp_seg_valid cfg0 tcp_fin_rst0 ip_peer := by
  unfold tcp_seg_valid
  decide

theorem tcp_fin0_valid : tcp_seg_valid cfg0 tcp_fin0 ip_peer := by
  unfold tcp_seg_valid
  decide

theorem tcp_last_ack0_valid : tcp_seg_valid cfg0 tcp_last_ack0 ip_peer := by
  unfold tcp_seg_valid
  decide

theorem net_tcp_est_room : 40 ≤ buf_cap net_tcp_est.txbuf := by
  show 40 ≤ buf_cap (buf_malloc cfg0)
  rw [buf_malloc_cap, cfg0_heap_length]
  decide

theorem net_tcp_est_get (t : Nat) :
    map_get net_tcp_est.connect_table t ⟨ip_peer, 4000, 7⟩ = some tcp_conn_est := by
  show map_get (map_set net_tcp0.connect_table 0 _ _) t _ = _
  rw [map_get_set_same]
  exact if_pos (map_entry_valid_zero 0 t)

theorem net0_room : 72 ≤ buf_cap net0.txbuf := by
  show 72 ≤ buf_cap (buf_malloc cfg0)
  rw [buf_malloc_cap, cfg0_heap_length]
  decide

theorem net0_room_pump : 131110 ≤ buf_cap net0.txbuf := by
  show 131110 ≤ buf_cap (buf_malloc cfg0)
  rw [buf_malloc_cap, cfg0_heap_length]
  decide

theorem tcp_ooo0_valid : tcp_seg_valid cfg0 tcp_ooo0 ip_peer := by
  unfold tcp_seg_valid
  decide

theorem tcp_fin_bare0_valid : tcp_seg_valid cfg0 tcp_fin_bare0 ip_peer := by
  unfold tcp_seg_valid
  decide

theorem tcp_syn_w4_valid : tcp_seg_valid cfg0 tcp_syn_w4 ip_peer := by
  unfold tcp_seg_valid
  decide

theorem tcp_data1_valid : tcp_seg_valid cfg0 tcp_data1 ip_peer := by
  unfold tcp_seg_valid
  decide

theorem tcp_data2_valid : tcp_seg_valid cfg0 tcp_data2 ip_peer := by
  unfold tcp_seg_valid
  decide

/-- The example host after the handshake: the connection of the peer is ESTABLISHED with
`unack_seq = next_seq = 43`, `ack = 1001`, window 8192, nothing in `tx_buf`. -/
theorem net_hs0_est :
    tcp_same_env net_hs0 net_tcp0 ∧ tcp_est net_hs0 key_peer 43 43 1001 8192 [] 65663 := by
  have h := tcp_handshake_est cfg0 net_tcp0 tcp_syn0 tcp_ack0 ip_peer 42 17 0 1 1
    tcp_syn0_valid (by decide) (by rfl) (by decide) (by decide) net_tcp0_room tcp_ack0_valid
    (by decide) (by decide) (by decide) (by decide) (by decide) rfl (by decide) (by decide)
  rw [cfg0_heap_length] at h
  exact h

/-- The same with the window of 4 bytes. -/
theorem net_hs4_est :
    tcp_same_env net_hs4 net_tcp0 ∧ tcp_est net_hs4 key_peer 43 43 1001 4 [] 65663 := by
  have h := tcp_handshake_est cfg0 net_tcp0 tcp_syn_w4 tcp_ack0 ip_peer 42 17 0 1 1
    tcp_syn_w4_valid (by decide) (by rfl) (by decide) (by decide) net_tcp0_room tcp_ack0_valid
    (by decide) (by decide) (by decide) (by decide) (by decide) rfl (by decide) (by decide)
  rw [cfg0_heap_length] at h
  exact h

/-- Both writes of the application are taken: `tx_buf` holds the six bytes, nothing is
sent. -/
theorem net_wr4_est :
    tcp_same_env net_wr4 net_tcp0
      ∧ tcp_est net_wr4 key_peer 43 43 1001 4 [1, 2, 3, 4, 5, 6] 65657 := by
  obtain ⟨henv, hest⟩ := net_hs4_est
  obtain ⟨henv1, hest1⟩ := tcp_app_write_est cfg0 net_hs4 key_peer 43 43 1001 4 [] 65663
    [1, 2, 3] 3 1 hest (by decide) (by decide) (by decide)
  obtain ⟨henv2, hest2⟩ := tcp_app_write_est cfg0 _ key_peer 43 43 1001 4 _ _
    [4, 5, 6] 3 1 hest1 (by decide) (by decide) (by decide)
  refine ⟨⟨?_, ?_, ?_⟩, hest2⟩
  · exact henv2.1.trans (henv1.1.trans henv.1)
  · exact henv2.2.1.trans (henv1.2.1.trans henv.2.1)
  · exact henv2.2.2.trans (henv1.2.2.trans henv.2.2)

/-! ## IPv4 fragmentation: the claims -/

/-- C1 (counterexample): the fragment count is not `ceil(L / 1480)` for every `L`.  With
an empty payload `ip_out` makes one call of `ip_fragment_out` where `ceil(0 / 1480) = 0`,
and with a payload of 1490 bytes it makes one call where `ceil(1490 / 1480) = 2`. -/
theorem ip_out_fragment_count_counterexample :
    (∃ st1, ip_out cfg0 net0 (buf_of []) [10, 0, 0, 1] NET_PROTOCOL_TCP 0 50 = some st1
        ∧ st1.frag_calls.length = 1
        ∧ ((buf_of []).data.length + 1479) / 1480 = 0)
      ∧ (∃ st1, ip_out cfg0 net0 (buf_of (List.replicate 1490 0)) [10, 0, 0, 1]
            NET_PROTOCOL_TCP 0 50 = some st1
        ∧ st1.frag_calls.length = 1
        ∧ ((buf_of (List.replicate 1490 0)).data.length + 1479) / 1480 = 2) := by
  constructor
  · obtain ⟨st1, h1, h2, _⟩ := ip_out_frags_spec cfg0 net0 (buf_of []) [10, 0, 0, 1]
      NET_PROTOCOL_TCP 0 50 (by rw [cfg0_heap_length]; decide) (by decide) (by decide)
    refine ⟨st1, h1, ?_, by decide⟩
    rw [h2, List.length_append, ip_out_frags_length]
    rfl
  · obtain ⟨st1, h1, h2, _⟩ := ip_out_frags_spec cfg0 net0 (buf_of (List.replicate 1490 0))
      [10, 0, 0, 1] NET_PROTOCOL_TCP 0 50 (by rw [cfg0_heap_length]; decide)
      (by rw [buf_of_replicate_length]; decide) (by rw [buf_of_replicate_length]; decide)
    refine ⟨st1, h1, ?_, by rw [buf_of_replicate_length]⟩
    rw [h2, List.length_append, ip_out_frags_length, buf_of_replicate_length]
    rfl

/-- C1 (amended): for a payload of `L ≤ 65535` bytes `ip_out` returns; it makes exactly
one call of `ip_fragment_out` when `L = 0`; it makes exactly `ceil(L / 1480)` calls when
`1 ≤ L` and `L` is at most 20, a multiple of 1480, or more than 20 bytes above a multiple
of 1480; and for `L = 3000` the calls have the offsets 0, 185, 370, the MF flags 1, 1, 0
and the payload sizes 1480, 1480, 40. -/
theorem ip_out_fragment_count (e : Config) (st : net_t) (buf : buf_t) (ip : List Nat)
    (protocol now fuel : Nat) (hcap : 3000 ≤ e.heap.length) (hL : buf.data.length ≤ 65535)
    (hfuel : 45 ≤ fuel) :
    ∃ st1 calls, ip_out e st buf ip protocol now fuel = some st1
      ∧ st1.frag_calls = st.frag_calls ++ calls
      ∧ (buf.data.length = 0 → calls.length = 1)
      ∧ (1 ≤ buf.data.length →
          (buf.data.length ≤ 20 ∨ buf.data.length % 1480 = 0 ∨ 20 < buf.data.length % 1480) →
          calls.length = (buf.data.length + 1479) / 1480)
      ∧ (buf.data.length = 3000 →
          calls.map (fun c => (c.offset, c.mf, c.buf.length))
            = [(0, 1, 1480), (185, 1, 1480), (370, 0, 40)]) := by
  obtain ⟨st1, h1, h2, _⟩ := ip_out_frags_spec e st buf ip protocol now fuel hcap hL
    (by unfold ip_loop_count; omega)
  refine ⟨st1, _, h1, h2, ?_, ?_, ?_⟩
  · intro h0
    rw [ip_out_frags_length]
    unfold ip_loop_count; omega
  · intro h1 h2
    rw [ip_out_frags_length]
    unfold ip_loop_count; omega
  · intro h3
    have hc : ip_loop_count 3000 = 2 := by decide
    simp only [ip_out_frags, h3, hc, List.range_succ, List.range_zero, List.nil_append,
      List.map_append, List.map_cons, List.map_nil, List.cons_append, List.length_take,
      List.length_drop]
    norm_num

/-- C1 (witness): a payload of 3000 bytes sent from the example host. -/
theorem ip_out_fragment_count_witness :
    (3000 ≤ cfg0.heap.length ∧ (buf_of (List.replicate 3000 7)).data.length ≤ 65535 ∧ 45 ≤ 50)
      ∧ ∃ st1 calls, ip_out cfg0 net0 (buf_of (List.replicate 3000 7)) [10, 0, 0, 1]
            NET_PROTOCOL_TCP 0 50 = some st1
          ∧ st1.frag_calls = net0.frag_calls ++ calls
          ∧ ((buf_of (List.replicate 3000 7)).data.length = 0 → calls.length = 1)
          ∧ (1 ≤ (buf_of (List.replicate 3000 7)).data.length →
              ((buf_of (List.replicate 3000 7)).data.length ≤ 20
                ∨ (buf_of (List.replicate 3000 7)).data.length % 1480 = 0
                ∨ 20 < (buf_of (List.replicate 3000 7)).data.length % 1480) →
              calls.length = ((buf_of (List.replicate 3000 7)).data.length + 1479) / 1480)
          ∧ ((buf_of (List.replicate 3000 7)).data.length = 3000 →
              calls.map (fun c => (c.offset, c.mf, c.buf.length))
                = [(0, 1, 1480), (185, 1, 1480), (370, 0, 40)]) :=
  ⟨⟨by rw [cfg0_heap_length]; decide, by rw [buf_of_replicate_length]; decide, by decide⟩,
    ip_out_fragment_count cfg0 net0 (buf_of (List.replicate 3000 7)) [10, 0, 0, 1]
      NET_PROTOCOL_TCP 0 50 (by rw [cfg0_heap_length]; decide)
      (by rw [buf_of_replicate_length]; decide) (by decide)⟩

/-- C2: for a payload of `L ≤ 65535` bytes, on a host with a 4-byte address and buffers of
at least 3040 bytes, `ip_out` returns and hands to `arp_out`, in this order, the datagrams
`dgrams`, one for each call of `ip_fragment_out`.  In the flags and fragment offset field
(bytes 6 and 7) of each datagram the MF bit (bit 13) is 1 for every datagram but the last
and 0 for the last; the offset (the 13 bits below) times 8 is the number of payload bytes
of the datagrams before it, and the payload of the datagram (the bytes behind the 20
header bytes) is what the original payload holds at that byte position; the payloads
concatenated are the original payload.  The same holds of the arguments of the calls of
`ip_fragment_out`. -/
theorem ip_out_fragments_cover (e : Config) (st : net_t) (buf : buf_t) (ip : List Nat)
    (protocol now fuel : Nat) (hcap : 3040 ≤ e.heap.length) (hL : buf.data.length ≤ 65535)
    (he : 4 ≤ e.net_if_ip.length) (hip : 4 ≤ ip.length) (hfuel : 45 ≤ fuel) :
    ∃ st1 calls dgrams, ip_out e st buf ip protocol now fuel = some st1
      ∧ st1.frag_calls = st.frag_calls ++ calls
      ∧ st1.arp_calls = st.arp_calls ++ dgrams.map (fun d => (d, ip))
      ∧ dgrams = calls.map (ip_datagram e)
      ∧ (∀ i d, dgrams[i]? = some d →
          20 ≤ d.length
            ∧ get16 d 6 / 8192 % 2 = (if i + 1 = dgrams.length then 0 else 1)
            ∧ get16 d 6 % 8192 * 8 = ((dgrams.take i).map (fun x => x.length - 20)).sum
            ∧ d.drop 20 = (buf.data.drop (get16 d 6 % 8192 * 8)).take (d.length - 20))
      ∧ (dgrams.map (fun d => d.drop 20)).flatten = buf.data
      ∧ (∀ i c, calls[i]? = some c → c.mf = if i + 1 = calls.length then 0 else 1)
      ∧ (∀ i c, calls[i]? = some c →
          c.offset * 8 = ((calls.take i).map (fun d => d.buf.length)).sum
            ∧ c.buf = (buf.data.drop (c.offset * 8)).take c.buf.length)
      ∧ (calls.map (fun c => c.buf)).flatten = buf.data := by
  obtain ⟨st1, h1, h2, h3, _⟩ := ip_out_spec e st buf ip protocol now fuel hcap hL he hip
    (by unfold ip_loop_count; omega)
  have hcnt : ip_loop_count buf.data.length ≤ 44 := by unfold ip_loop_count; omega
  have hips := ip_out_frags_ip buf.data ip protocol st.ip_id
  have hlen : ∀ c ∈ ip_out_frags buf.data ip protocol st.ip_id,
      (ip_datagram e c).length - 20 = c.buf.length := by
    intro c hc
    rw [ip_datagram_length e c he (by rw [hips c hc]; exact hip)]
    omega
  have hdrop : ∀ c ∈ ip_out_frags buf.data ip protocol st.ip_id,
      (ip_datagram e c).drop 20 = c.buf := by
    intro c hc
    exact ip_datagram_drop e c he (by rw [hips c hc]; exact hip)
  have hsum : ∀ i, i ≤ ip_loop_count buf.data.length →
      ((((ip_out_frags buf.data ip protocol st.ip_id).map (ip_datagram e)).take i).map
        (fun x => x.length - 20)).sum = 1480 * i := by
    intro i hi
    rw [← List.map_take, List.map_map,
      ← ip_out_frags_take_sum buf.data ip protocol st.ip_id i hi]
    congr 1
    apply List.map_congr_left
    intro c hc
    exact hlen c (List.mem_of_mem_take hc)
  refine ⟨st1, ip_out_frags buf.data ip protocol st.ip_id,
    (ip_out_frags buf.data ip protocol st.ip_id).map (ip_datagram e), h1, h2, ?_, rfl, ?_, ?_,
    ?_, ?_, ip_out_frags_flatten _ _ _ _⟩
  · rw [h3, List.map_map]
    rfl
  · intro i d hd
    rw [List.getElem?_map] at hd
    cases hc : (ip_out_frags buf.data ip protocol st.ip_id)[i]? with
    | none => rw [hc] at hd; exact absurd hd (by simp)
    | some c =>
      rw [hc] at hd
      simp only [Option.map_some', Option.some.injEq] at hd
      subst hd
      have hmem : c ∈ ip_out_frags buf.data ip protocol st.ip_id := List.mem_iff_getElem?.mpr ⟨i, hc⟩
      have hl := ip_datagram_length e c he (by rw [hips c hmem]; exact hip)
      have hdr := hdrop c hmem
      rw [List.length_map, ip_out_frags_length, ip_datagram_frag, hl, hdr]
      rcases ip_out_frags_get _ _ _ _ _ _ hc with ⟨hi, rfl⟩ | ⟨hi, rfl⟩
      · have hf := (ip_frag_field i (by omega)).1
        have hs := hsum i (by omega)
        dsimp only []
        rw [hf, hs, if_neg (by omega), ip_out_frags_full_length buf.data i hi]
        have h8 : (8192 + 185 * i) % 8192 * 8 = 1480 * i := by omega
        rw [h8]
        refine ⟨by omega, by omega, rfl, ?_⟩
        simp only [Nat.add_sub_cancel]
      · have hf := (ip_frag_field i (by omega)).2
        have hs := hsum i (by omega)
        dsimp only []
        rw [hf, hs, if_pos (by omega)]
        have h8 : 185 * i % 8192 * 8 = 1480 * i := by omega
        rw [h8]
        refine ⟨by omega, by omega, rfl, ?_⟩
        simp only [Nat.add_sub_cancel]
        exact (List.take_of_length_le (Nat.le_refl _)).symm
  · rw [List.map_map]
    refine Eq.trans ?_ (ip_out_frags_flatten buf.data ip protocol st.ip_id)
    congr 1
    apply List.map_congr_left
    intro c hc
    exact hdrop c hc
  · intro i c hc
    rw [ip_out_frags_length]
    rcases ip_out_frags_get _ _ _ _ _ _ hc with ⟨hi, rfl⟩ | ⟨hi, rfl⟩
    · rw [if_neg (by omega)]
    · rw [if_pos (by omega)]
  · intro i c hc
    rcases ip_out_frags_get _ _ _ _ _ _ hc with ⟨hi, rfl⟩ | ⟨hi, rfl⟩
    · rw [ip_out_frags_take_sum _ _ _ _ _ (by omega)]
      have h8 : 185 * i * 8 = 1480 * i := by omega
      refine ⟨h8, ?_⟩
      simp only [h8, ip_out_frags_full_length buf.data i hi]
    · rw [ip_out_frags_take_sum _ _ _ _ _ (by omega)]
      have h8 : 185 * i * 8 = 1480 * i := by omega
      refine ⟨h8, ?_⟩
      simp only [h8]
      exact (List.take_of_length_le (Nat.le_refl _)).symm

/-- C2 (witness): a payload of 3000 bytes sent from the example host. -/
theorem ip_out_fragments_cover_witness :
    (3040 ≤ cfg0.heap.length ∧ (buf_of (List.replicate 3000 7)).data.length ≤ 65535
        ∧ 4 ≤ cfg0.net_if_ip.length ∧ 4 ≤ [10, 0, 0, 1].length ∧ 45 ≤ 50)
      ∧ ∃ st1 calls dgrams, ip_out cfg0 net0 (buf_of (List.replicate 3000 7)) [10, 0, 0, 1]
            NET_PROTOCOL_TCP 0 50 = some st1
          ∧ st1.frag_calls = net0.frag_calls ++ calls
          ∧ st1.arp_calls = net0.arp_calls ++ dgrams.map (fun d => (d, [10, 0, 0, 1]))
          ∧ dgrams = calls.map (ip_datagram cfg0)
          ∧ (∀ i d, dgrams[i]? = some d →
              20 ≤ d.length
                ∧ get16 d 6 / 8192 % 2 = (if i + 1 = dgrams.length then 0 else 1)
                ∧ get16 d 6 % 8192 * 8 = ((dgrams.take i).map (fun x => x.length - 20)).sum
                ∧ d.drop 20 = ((buf_of (List.replicate 3000 7)).data.drop
                    (get16 d 6 % 8192 * 8)).take (d.length - 20))
          ∧ (dgrams.map (fun d => d.drop 20)).flatten = (buf_of (List.replicate 3000 7)).data
          ∧ (∀ i c, calls[i]? = some c → c.mf = if i + 1 = calls.length then 0 else 1)
          ∧ (∀ i c, calls[i]? = some c →
              c.offset * 8 = ((calls.take i).map (fun d => d.buf.length)).sum
                ∧ c.buf = ((buf_of (List.replicate 3000 7)).data.drop (c.offset * 8)).take
                    c.buf.length)
          ∧ (calls.map (fun c => c.buf)).flatten = (buf_of (List.replicate 3000 7)).data :=
  ⟨⟨by rw [cfg0_heap_length]; decide, by rw [buf_of_replicate_length]; decide, by decide,
      by decide, by decide⟩,
    ip_out_fragments_cover cfg0 net0 (buf_of (List.replicate 3000 7)) [10, 0, 0, 1]
      NET_PROTOCOL_TCP 0 50 (by rw [cfg0_heap_length]; decide)
      (by rw [buf_of_replicate_length]; decide) (by decide) (by decide) (by decide)⟩

/-- C3 (the code at the failing input): for a payload of 1490 bytes `ip_out` makes a
single call of `ip_fragment_out`, with `mf = 0` and all 1490 bytes, which is more than
`MTU - 20 = 1480`; the datagram handed to `arp_out` has 1510 bytes, which is more than
the MTU of 1500. -/
theorem ip_out_oversize_fragment :
    ∃ st1, ip_out cfg0 net0 (buf_of (List.replicate 1490 0)) [10, 0, 0, 1]
          NET_PROTOCOL_TCP 0 50 = some st1
      ∧ st1.frag_calls.map (fun c => (c.mf, c.buf.length)) = [(0, 1490)]
      ∧ st1.arp_calls.map (fun c => c.1.length) = [1510] := by
  obtain ⟨st1, h1, h2, h3, _⟩ := ip_out_spec cfg0 net0 (buf_of (List.replicate 1490 0))
    [10, 0, 0, 1] NET_PROTOCOL_TCP 0 50 (by rw [cfg0_heap_length]; decide)
    (by rw [buf_of_replicate_length]; decide) (by decide) (by decide)
    (by rw [buf_of_replicate_length]; decide)
  have hc : ip_loop_count 1490 = 0 := by decide
  have hfr : ip_out_frags (buf_of (List.replicate 1490 0)).data [10, 0, 0, 1] NET_PROTOCOL_TCP
      net0.ip_id = [⟨List.replicate 1490 0, [10, 0, 0, 1], NET_PROTOCOL_TCP, 0, 0, 0⟩] := by
    simp only [ip_out_frags, buf_of, List.length_replicate, hc, List.range_zero, List.map_nil,
      List.nil_append, Nat.mul_zero, List.drop_zero]
    rfl
  refine ⟨st1, h1, ?_, ?_⟩
  · rw [h2, hfr]
    simp only [net0, List.nil_append, List.map_cons, List.map_nil, List.length_replicate]
  · rw [h3, hfr]
    simp only [net0, List.nil_append, List.map_cons, List.map_nil]
    rw [ip_datagram_length cfg0 _ (by decide) (by decide)]
    simp only [List.length_replicate]

/-- C4: whenever a call of `ip_out` returns, every call of `ip_fragment_out` it made
carries the value `ip_id` had at the start, and `ip_id` is then that value plus one
modulo `2^16`; the call returns when the payload has at most 65535 bytes; and on a host
with a 4-byte address and buffers of at least 3040 bytes, the ID field (bytes 4 and 5) of
every datagram handed to `arp_out` holds the value `ip_id` had at the start. -/
theorem ip_out_id (e : Config) (st : net_t) (buf : buf_t) (ip : List Nat) (protocol now : Nat) :
    (∀ fuel st1, ip_out e st buf ip protocol now fuel = some st1 →
        (∃ calls, st1.frag_calls = st.frag_calls ++ calls ∧ ∀ c ∈ calls, c.id = st.ip_id)
          ∧ st1.ip_id = (st.ip_id + 1) % 2 ^ 16)
      ∧ (buf.data.length ≤ 65535 → ∀ fuel, 45 ≤ fuel →
          ∃ st1, ip_out e st buf ip protocol now fuel = some st1)
      ∧ (buf.data.length ≤ 65535 → 3040 ≤ e.heap.length → 4 ≤ e.net_if_ip.length →
          4 ≤ ip.length → st.ip_id < 2 ^ 16 → ∀ fuel, 45 ≤ fuel →
          ∃ st1 calls, ip_out e st buf ip protocol now fuel = some st1
            ∧ st1.frag_calls = st.frag_calls ++ calls
            ∧ st1.arp_calls = st.arp_calls ++ calls.map (fun c => (ip_datagram e c, ip))
            ∧ ∀ c ∈ calls, get16 (ip_datagram e c) 4 = st.ip_id) := by
  refine ⟨?_, ?_, ?_⟩
  · intro fuel st1 h
    unfold ip_out at h
    simp only [] at h
    split at h
    · exact absurd h (by simp)
    · rename_i st2 tbuf offset hloop
      obtain ⟨hid, calls, hc1, hc2⟩ := ip_out_loop_id e buf ip protocol now _ fuel st _ 0 _ hloop
      simp only [Option.some.injEq] at h
      subst h
      simp only [] at hid hc1
      have hfr := ip_fragment_out_frame e st2
        (buf_write (buf_init tbuf ((buf.data.length + 2 ^ 64 - offset * IP_HDR_OFFSET_PER_BYTE)
            % 2 ^ 64)).2 0
          (buf_read buf (offset * IP_HDR_OFFSET_PER_BYTE)
            ((buf.data.length + 2 ^ 64 - offset * IP_HDR_OFFSET_PER_BYTE) % 2 ^ 64)))
        ip protocol st2.ip_id offset 0 now
      refine ⟨⟨_, hfr.1.trans (by rw [hc1, List.append_assoc]), ?_⟩, by rw [hid]⟩
      intro c hc
      rcases List.mem_append.mp hc with hc | hc
      · exact hc2 c hc
      · rw [List.mem_singleton.mp hc]; exact hid
  · intro hL fuel hfuel
    obtain ⟨r, hr⟩ := ip_out_loop_returns e buf ip protocol now hL fuel st (buf_malloc e) 0
      (by omega) (by unfold ip_loop_count; omega)
    unfold ip_out
    simp only [Nat.mul_zero] at hr
    simp only [hr]
    exact ⟨_, rfl⟩
  · intro hL hcap he hip hid fuel hfuel
    obtain ⟨st2, h2, h3, h4, _⟩ := ip_out_spec e st buf ip protocol now fuel hcap hL he hip
      (by unfold ip_loop_count; omega)
    refine ⟨st2, _, h2, h3, h4, ?_⟩
    intro c hc
    rw [ip_datagram_id]
    have : c.id = st.ip_id := by
      simp only [ip_out_frags, List.mem_append, List.mem_map, List.mem_singleton] at hc
      rcases hc with ⟨_, _, rfl⟩ | rfl <;> rfl
    rw [this]
    norm_num at hid
    omega

/-- C4 (witness): a payload of 3000 bytes sent from the example host with `ip_id = 0`. -/
theorem ip_out_id_witness :
    ((buf_of (List.replicate 3000 7)).data.length ≤ 65535 ∧ 45 ≤ 50 ∧ 3040 ≤ cfg0.heap.length
        ∧ 4 ≤ cfg0.net_if_ip.length ∧ 4 ≤ [10, 0, 0, 1].length ∧ net0.ip_id < 2 ^ 16)
      ∧ (∃ st1, ip_out cfg0 net0 (buf_of (List.replicate 3000 7)) [10, 0, 0, 1]
            NET_PROTOCOL_TCP 0 50 = some st1)
      ∧ (∃ st1 calls, ip_out cfg0 net0 (buf_of (List.replicate 3000 7)) [10, 0, 0, 1]
            NET_PROTOCOL_TCP 0 50 = some st1
          ∧ st1.frag_calls = net0.frag_calls ++ calls
          ∧ st1.arp_calls = net0.arp_calls
              ++ calls.map (fun c => (ip_datagram cfg0 c, [10, 0, 0, 1]))
          ∧ ∀ c ∈ calls, get16 (ip_datagram cfg0 c) 4 = net0.ip_id) :=
  ⟨⟨by rw [buf_of_replicate_length]; decide, by decide, by rw [cfg0_heap_length]; decide,
      by decide, by decide, by decide⟩,
    (ip_out_id cfg0 net0 (buf_of (List.replicate 3000 7)) [10, 0, 0, 1] NET_PROTOCOL_TCP 0).2.1
      (by rw [buf_of_replicate_length]; decide) 50 (by decide),
    (ip_out_id cfg0 net0 (buf_of (List.replicate 3000 7)) [10, 0, 0, 1] NET_PROTOCOL_TCP 0).2.2
      (by rw [buf_of_replicate_length]; decide) (by rw [cfg0_heap_length]; decide) (by decide)
      (by decide) (by decide) 50 (by decide)⟩

/-! ## ARP: the claims -/

/-- C5 (counterexample): a queued buffer of 20 bytes is not the payload of the frame that
the drain sends; the payload (the frame without its 14 header bytes) has 46 bytes. -/
theorem arp_drain_counterexample :
    ∃ frame,
      (arp_in cfg0 (arp_out cfg0 net0 (buf_of (List.replicate 20 7)) ip_peer 0).1
          arp_reply0 mac_peer 0).sent
        = (arp_out cfg0 net0 (buf_of (List.replicate 20 7)) ip_peer 0).1.sent ++ [frame]
      ∧ frame.take 6 = mac_peer
      ∧ (frame.drop 14).length = 46
      ∧ (buf_of (List.replicate 20 7)).data.length = 20
      ∧ frame.drop 14 ≠ (buf_of (List.replicate 20 7)).data := by
  have h := arp_drain_spec cfg0 net0 (buf_of (List.replicate 20 7)) arp_reply0 ip_peer mac_peer
    0 0 (by decide) (by decide) (by decide) (by decide) (by decide) (by rfl) (by decide)
    (by unfold arp_pkt_valid; decide) (by decide) (by decide) (by decide)
  refine ⟨_, h.1, by decide, by decide, by decide, by decide⟩

/-- C5 (amended): for an IP `x` that is not the local IP and has no live `arp_table`
entry, after `arp_out(buf, x)` followed, while the pending entry is alive, by `arp_in` of
a valid ARP packet (a reply or a request) whose sender IP is `x`, arriving from the MAC
`m`, that `arp_in` hands exactly one frame to the driver; its destination is `m`, its
source the local MAC, its ethertype IPv4, its payload is the queued `buf` followed by the
bytes that pad it to 46 when it is shorter; and `arp_buf` has no entry for `x` any more.
The buffer has 14 bytes of head room and room for the padding. -/
theorem arp_drain (e : Config) (st : net_t) (buf pkt : buf_t) (x m : List Nat)
    (t0 t1 : Nat) (hx4 : x.length = 4) (hm6 : m.length = 6) (he6 : e.net_if_mac.length = 6)
    (he4 : e.net_if_ip.length = 4) (hloc : x ≠ e.net_if_ip)
    (hun : map_get st.arp_table t0 x = none)
    (hlive : map_entry_valid st.arp_buf.timeout t0 t1 = true)
    (hv : arp_pkt_valid pkt.data) (hs : arp_sender_ip pkt.data = x)
    (hroom : 14 ≤ buf.head.length) (hpad : 46 - buf.data.length ≤ buf.tail.length) :
    ∃ pad, pad.length = 46 - buf.data.length
      ∧ (arp_in e (arp_out e st buf x t0).1 pkt m t1).sent
          = (arp_out e st buf x t0).1.sent ++ [m ++ e.net_if_mac ++ [8, 0] ++ buf.data ++ pad]
      ∧ (∀ en ∈ (arp_in e (arp_out e st buf x t0).1 pkt m t1).arp_buf.entries, en.1 ≠ x)
      ∧ map_get (arp_in e (arp_out e st buf x t0).1 pkt m t1).arp_buf t1 x = none := by
  have h := arp_drain_spec e st buf pkt x m t0 t1 hx4 hm6 he6 he4 hloc hun hlive hv hs hroom hpad
  refine ⟨buf.tail.take (46 - buf.data.length), ?_, h.1, h.2.1, h.2.2⟩
  simp only [List.length_take]
  omega

/-- C5 (witness): the example host queues a datagram of 60 bytes for `10.0.0.1` and
receives the ARP reply of `11:22:33:44:55:66`. -/
theorem arp_drain_witness :
    (ip_peer.length = 4 ∧ mac_peer.length = 6 ∧ cfg0.net_if_mac.length = 6
        ∧ cfg0.net_if_ip.length = 4 ∧ ip_peer ≠ cfg0.net_if_ip
        ∧ map_get net0.arp_table 0 ip_peer = none
        ∧ map_entry_valid net0.arp_buf.timeout 0 1 = true
        ∧ arp_pkt_valid arp_reply0.data ∧ arp_sender_ip arp_reply0.data = ip_peer
        ∧ 14 ≤ (buf_of (List.replicate 60 7)).head.length
        ∧ 46 - (buf_of (List.replicate 60 7)).data.length
            ≤ (buf_of (List.replicate 60 7)).tail.length)
      ∧ ∃ pad, pad.length = 46 - (buf_of (List.replicate 60 7)).data.length
        ∧ (arp_in cfg0 (arp_out cfg0 net0 (buf_of (List.replicate 60 7)) ip_peer 0).1
              arp_reply0 mac_peer 1).sent
            = (arp_out cfg0 net0 (buf_of (List.replicate 60 7)) ip_peer 0).1.sent
              ++ [mac_peer ++ cfg0.net_if_mac ++ [8, 0] ++ (buf_of (List.replicate 60 7)).data
                  ++ pad]
        ∧ (∀ en ∈ (arp_in cfg0 (arp_out cfg0 net0 (buf_of (List.replicate 60 7)) ip_peer 0).1
              arp_reply0 mac_peer 1).arp_buf.entries, en.1 ≠ ip_peer)
        ∧ map_get (arp_in cfg0 (arp_out cfg0 net0 (buf_of (List.replicate 60 7)) ip_peer 0).1
              arp_reply0 mac_peer 1).arp_buf 1 ip_peer = none :=
  ⟨⟨by decide, by decide, by decide, by decide, by decide, by rfl, by decide,
      by unfold arp_pkt_valid; decide, by decide, by decide, by decide⟩,
    arp_drain cfg0 net0 (buf_of (List.replicate 60 7)) arp_reply0 ip_peer mac_peer 0 1
      (by decide) (by decide) (by decide) (by decide) (by decide) (by rfl) (by decide)
      (by unfold arp_pkt_valid; decide) (by decide) (by decide) (by decide)⟩

/-- C6 (counterexample): `10.0.0.1` is not the local IP and has no `arp_table` entry, but
a buffer is already pending for it; two further calls of `arp_out` for it hand no frame
to the driver, so they emit no ARP request. -/
theorem arp_out_single_pending_counterexample :
    ip_peer ≠ cfg0.net_if_ip
      ∧ map_get (arp_out cfg0 net0 (buf_of [1]) ip_peer 0).1.arp_table 0 ip_peer = none
      ∧ (arp_out cfg0 (arp_out cfg0 (arp_out cfg0 net0 (buf_of [1]) ip_peer 0).1
            (buf_of [2]) ip_peer 0).1 (buf_of [3]) ip_peer 0).1.sent
          = (arp_out cfg0 net0 (buf_of [1]) ip_peer 0).1.sent := by
  have h0 := arp_out_unresolved cfg0 net0 (buf_of [1]) ip_peer 0 (by decide) (by rfl)
  have hx : ip_peer.take 4 = ip_peer := rfl
  rw [hx] at h0
  have hun : map_get (arp_out cfg0 net0 (buf_of [1]) ip_peer 0).1.arp_table 0 ip_peer = none := by
    rw [h0.2.1]; rfl
  have hp0 : map_get (arp_out cfg0 net0 (buf_of [1]) ip_peer 0).1.arp_buf 0 ip_peer
      = some (buf_of [1]) := by
    rw [h0.1, map_get_set_same]; rfl
  have h1 := arp_out_pending_silent cfg0 _ (buf_of [2]) (buf_of [1]) ip_peer 0 (by decide)
    (by decide) (by decide) hun hp0
  have hp1 : map_get (arp_out cfg0 (arp_out cfg0 net0 (buf_of [1]) ip_peer 0).1 (buf_of [2])
      ip_peer 0).1.arp_buf 0 ip_peer = some (buf_of [2]) := by
    rw [h1.2.2, map_get_set_same, h0.1]; rfl
  have h2 := arp_out_pending_silent cfg0 _ (buf_of [3]) (buf_of [2]) ip_peer 0 (by decide)
    (by decide) (by decide) (by rw [h1.2.1]; exact hun) hp1
  exact ⟨by decide, hun, by rw [h2.1, h1.1]⟩

/-- C6 (amended): for a non-local IP `x` with no live `arp_table` entry and no live
pending entry in `arp_buf`, two successive calls `arp_out(b1, x); arp_out(b2, x)`, the
second while the entry of the first is alive, hand exactly one frame to the driver in
total: the ARP request (broadcast destination, local MAC as source, ethertype ARP, opcode
REQUEST, sender = local MAC/IP, target MAC = zeros, target IP = `x`, 18 bytes of padding);
afterwards `arp_buf` holds exactly one entry for `x`, whose value is `b2`. -/
theorem arp_out_single_pending (e : Config) (st : net_t) (b1 b2 : buf_t) (x : List Nat)
    (t0 t1 : Nat) (hx4 : x.length = 4) (he6 : e.net_if_mac.length = 6)
    (he4 : e.net_if_ip.length = 4) (hcap : 84 ≤ e.heap.length) (hloc : x ≠ e.net_if_ip)
    (hun : map_get st.arp_table t0 x = none) (hnp : map_get st.arp_buf t0 x = none)
    (ht : t0 ≤ t1) (hlive : map_entry_valid st.arp_buf.timeout t0 t1 = true) :
    ∃ pad, pad.length = 18
      ∧ (arp_out e (arp_out e st b1 x t0).1 b2 x t1).1.sent
          = st.sent ++ [ether_broadcast_mac ++ e.net_if_mac ++ [8, 6]
              ++ ([0, 1, 8, 0, 6, 4, 0, 1] ++ e.net_if_mac ++ e.net_if_ip
                  ++ [0, 0, 0, 0, 0, 0] ++ x) ++ pad]
      ∧ (arp_out e (arp_out e st b1 x t0).1 b2 x t1).1.arp_buf.entries.filter
          (fun en => decide (en.1 = x)) = [(x, b2, t1)] := by
  obtain ⟨pad, h1, h2, h3⟩ := arp_out_twice_spec e st b1 b2 x t0 t1 hx4 he6 he4 hcap hloc hun hnp
    ht hlive
  refine ⟨pad, h1, ?_, h3⟩
  rw [h2]
  have t1 : List.take 6 e.net_if_mac = e.net_if_mac := List.take_of_length_le (by omega)
  have t2 : List.take 4 e.net_if_ip = e.net_if_ip := List.take_of_length_le (by omega)
  have t3 : List.take 4 x = x := List.take_of_length_le (by omega)
  simp only [arp_req_frame, arp_pkt, NET_MAC_LEN, NET_IP_LEN, t1, t2, t3]
  simp [swap16_bytes]

/-- C6 (witness): the example host sends two buffers to `10.0.0.1` right after start-up. -/
theorem arp_out_single_pending_witness :
    (ip_peer.length = 4 ∧ cfg0.net_if_mac.length = 6 ∧ cfg0.net_if_ip.length = 4
        ∧ 84 ≤ cfg0.heap.length ∧ ip_peer ≠ cfg0.net_if_ip
        ∧ map_get net0.arp_table 0 ip_peer = none ∧ map_get net0.arp_buf 0 ip_peer = none
        ∧ 0 ≤ 1 ∧ map_entry_valid net0.arp_buf.timeout 0 1 = true)
      ∧ ∃ pad, pad.length = 18
        ∧ (arp_out cfg0 (arp_out cfg0 net0 (buf_of [1]) ip_peer 0).1 (buf_of [2]) ip_peer 1).1.sent
            = net0.sent ++ [ether_broadcast_mac ++ cfg0.net_if_mac ++ [8, 6]
                ++ ([0, 1, 8, 0, 6, 4, 0, 1] ++ cfg0.net_if_mac ++ cfg0.net_if_ip
                    ++ [0, 0, 0, 0, 0, 0] ++ ip_peer) ++ pad]
        ∧ (arp_out cfg0 (arp_out cfg0 net0 (buf_of [1]) ip_peer 0).1 (buf_of [2])
              ip_peer 1).1.arp_buf.entries.filter (fun en => decide (en.1 = ip_peer))
            = [(ip_peer, buf_of [2], 1)] :=
  ⟨⟨by decide, by decide, by decide, by rw [cfg0_heap_length]; decide, by decide, by rfl,
      by rfl, by decide, by decide⟩,
    arp_out_single_pending cfg0 net0 (buf_of [1]) (buf_of [2]) ip_peer 0 1 (by decide)
      (by decide) (by decide) (by rw [cfg0_heap_length]; decide) (by decide) (by rfl) (by rfl)
      (by decide) (by decide)⟩

/-- C8: for a checksum-valid segment `syn` with SYN set and RST clear, addressed to a port
with a registered handler, from a peer without connection, `tcp_in` leaves a connection
`c1` in SYN_RCVD with `ack = syn.seq + 1` (mod 2^32), `remote_win = syn.window`,
`unack_seq = ISN < 100`, `next_seq = ISN + 1`, and emits exactly one segment, flagged
SYN|ACK, with `seq = ISN` and `ack = syn.seq + 1`; no handler runs.  A following
checksum-valid segment `ack` of the same peer with ACK set, RST clear and
`seq = syn.seq + 1` moves the connection to ESTABLISHED with
`unack_seq = next_seq = ISN + 1`, invokes the handler with CONNECTED exactly once and
emits nothing. -/
theorem tcp_handshake (e : Config) (st : net_t) (syn ack : buf_t) (src_ip : List Nat)
    (rnd rnd2 now now2 handler : Nat)
    (hv1 : tcp_seg_valid e syn src_ip)
    (hh1 : map_get st.tcp_table now (get16 syn.data 2) = some handler)
    (hnone : map_get st.connect_table now (tcp_seg_key src_ip syn.data) = none)
    (hsyn : (tcp_seg_flags syn.data).syn = true) (hrst1 : (tcp_seg_flags syn.data).rst = false)
    (hroom : 40 ≤ buf_cap st.txbuf)
    (hv2 : tcp_seg_valid e ack src_ip)
    (hkey : tcp_seg_key src_ip ack.data = tcp_seg_key src_ip syn.data)
    (hh2 : map_get st.tcp_table now2 (get16 ack.data 2) = some handler)
    (hack : (tcp_seg_flags ack.data).ack = true) (hrst2 : (tcp_seg_flags ack.data).rst = false)
    (hseq : get32 ack.data 4 = (get32 syn.data 4 + 1) % 2 ^ 32)
    (hlive : map_entry_valid st.connect_table.timeout now now2 = true) :
    ∃ seg c1 c2 isn,
      map_get (tcp_in e st syn src_ip rnd now).connect_table now (tcp_seg_key src_ip syn.data)
          = some c1
      ∧ c1.state = tcp_state_t.TCP_SYN_RCVD
      ∧ c1.ack = (get32 syn.data 4 + 1) % 2 ^ 32
      ∧ c1.remote_win = get16 syn.data 14
      ∧ c1.unack_seq = isn ∧ isn < 100 ∧ c1.next_seq = isn + 1
      ∧ (tcp_in e st syn src_ip rnd now).ip_out_calls
          = st.ip_out_calls ++ [⟨seg, src_ip.take 4, NET_PROTOCOL_TCP⟩]
      ∧ tcp_seg_flags seg = tcp_flags_ack_syn
      ∧ get32 seg 4 = isn
      ∧ get32 seg 8 = (get32 syn.data 4 + 1) % 2 ^ 32
      ∧ (tcp_in e st syn src_ip rnd now).events = st.events
      ∧ map_get (tcp_in e (tcp_in e st syn src_ip rnd now) ack src_ip rnd2 now2).connect_table
          now2 (tcp_seg_key src_ip syn.data) = some c2
      ∧ c2.state = tcp_state_t.TCP_ESTABLISHED
      ∧ c2.unack_seq = isn + 1 ∧ c2.next_seq = isn + 1
      ∧ (tcp_in e (tcp_in e st syn src_ip rnd now) ack src_ip rnd2 now2).events
          = st.events ++ [⟨handler, c2, tcp_conn_event_t.TCP_CONN_CONNECTED⟩]
      ∧ (tcp_in e (tcp_in e st syn src_ip rnd now) ack src_ip rnd2 now2).ip_out_calls
          = (tcp_in e st syn src_ip rnd now).ip_out_calls := by
  obtain ⟨seg, txb, hst1, _, hfl, hs4, hs8, _, _⟩ :=
    tcp_in_syn_spec e st syn src_ip rnd now handler hv1 hh1 hnone hsyn hrst1 hroom
  have hisn : rnd % 100 < 100 := Nat.mod_lt _ (by norm_num)
  have hm : (rnd % 100 + 1) % 2 ^ 32 = rnd % 100 + 1 := by
    apply Nat.mod_eq_of_lt
    have : (2 : Nat) ^ 32 = 4294967296 := by norm_num
    omega
  generalize hc1 : tcp_connect_t.mk tcp_state_t.TCP_SYN_RCVD (get16 syn.data 2)
    (get16 syn.data 0) (src_ip.take 4) (rnd % 100) (rnd % 100 + 1)
    ((get32 syn.data 4 + 1) % 2 ^ 32) (get16 syn.data 14) (buf_init (buf_malloc e) 0).2
    (buf_init (buf_malloc e) 0).2 = c1 at hst1
  have hget : ∀ t, map_entry_valid st.connect_table.timeout now t = true →
      map_get (tcp_in e st syn src_ip rnd now).connect_table t (tcp_seg_key src_ip syn.data)
        = some c1 := by
    intro t ht
    rw [hst1]
    show map_get (map_store _ _ _) t _ = _
    rw [map_get_store_same, map_get_set_same, if_pos ht]
    rfl
  have hstate1 : c1.state = tcp_state_t.TCP_SYN_RCVD := by rw [← hc1]
  have hsw := tcp_in_existing e (tcp_in e st syn src_ip rnd now) ack src_ip rnd2 now2 handler c1
    hv2 (by rw [hst1]; exact hh2) (by rw [hkey]; exact hget now2 hlive)
    (by rw [hstate1]; decide) (by rw [hseq, ← hc1]) hrst2
  rw [tcp_in_switch_syn_rcvd _ _ _ _ _ _ _ _ hstate1 hack, hkey] at hsw
  generalize hc2 : ({ c1 with
    unack_seq := (c1.unack_seq + 1) % 2 ^ 32
    state := tcp_state_t.TCP_ESTABLISHED } : tcp_connect_t) = c2 at hsw
  have hc2s : c2.state = tcp_state_t.TCP_ESTABLISHED := by rw [← hc2]
  have hc2u : c2.unack_seq = (c1.unack_seq + 1) % 2 ^ 32 := by rw [← hc2]
  have hc2n : c2.next_seq = c1.next_seq := by rw [← hc2]
  refine ⟨seg, c1, c2, rnd % 100, hget now (map_entry_valid_self _ _),
    hstate1, by rw [← hc1], by rw [← hc1], by rw [← hc1], hisn, by rw [← hc1], by rw [hst1],
    hfl, hs4, hs8, by rw [hst1], ?_, hc2s, ?_, by rw [hc2n, ← hc1], ?_, ?_⟩
  · rw [hsw]
    show map_get (map_store _ _ _) now2 _ = _
    rw [map_get_store_same, hget now2 hlive]
    rfl
  · rw [hc2u, ← hc1]
    exact hm
  · rw [hsw]
    show (tcp_in e st syn src_ip rnd now).events ++ _ = _
    rw [hst1]
  · rw [hsw]

/-- C8 (witness): the peer `10.0.0.1` opens a connection from its port 4000 to the port 7
of the example host with the sequence number 1000; the host draws 42. -/
theorem tcp_handshake_witness :
    (tcp_seg_valid cfg0 tcp_syn0 ip_peer
        ∧ map_get net_tcp0.tcp_table 0 (get16 tcp_syn0.data 2) = some 1
        ∧ map_get net_tcp0.connect_table 0 (tcp_seg_key ip_peer tcp_syn0.data) = none
        ∧ (tcp_seg_flags tcp_syn0.data).syn = true ∧ (tcp_seg_flags tcp_syn0.data).rst = false
        ∧ 40 ≤ buf_cap net_tcp0.txbuf
        ∧ tcp_seg_valid cfg0 tcp_ack0 ip_peer
        ∧ tcp_seg_key ip_peer tcp_ack0.data = tcp_seg_key ip_peer tcp_syn0.data
        ∧ map_get net_tcp0.tcp_table 1 (get16 tcp_ack0.data 2) = some 1
        ∧ (tcp_seg_flags tcp_ack0.data).ack = true ∧ (tcp_seg_flags tcp_ack0.data).rst = false
        ∧ get32 tcp_ack0.data 4 = (get32 tcp_syn0.data 4 + 1) % 2 ^ 32
        ∧ map_entry_valid net_tcp0.connect_table.timeout 0 1 = true)
      ∧ ∃ seg c1 c2 isn,
        map_get (tcp_in cfg0 net_tcp0 tcp_syn0 ip_peer 42 0).connect_table 0
            (tcp_seg_key ip_peer tcp_syn0.data) = some c1
        ∧ c1.state = tcp_state_t.TCP_SYN_RCVD
        ∧ c1.ack = (get32 tcp_syn0.data 4 + 1) % 2 ^ 32
        ∧ c1.remote_win = get16 tcp_syn0.data 14
        ∧ c1.unack_seq = isn ∧ isn < 100 ∧ c1.next_seq = isn + 1
        ∧ (tcp_in cfg0 net_tcp0 tcp_syn0 ip_peer 42 0).ip_out_calls
            = net_tcp0.ip_out_calls ++ [⟨seg, ip_peer.take 4, NET_PROTOCOL_TCP⟩]
        ∧ tcp_seg_flags seg = tcp_flags_ack_syn
        ∧ get32 seg 4 = isn
        ∧ get32 seg 8 = (get32 tcp_syn0.data 4 + 1) % 2 ^ 32
        ∧ (tcp_in cfg0 net_tcp0 tcp_syn0 ip_peer 42 0).events = net_tcp0.events
        ∧ map_get (tcp_in cfg0 (tcp_in cfg0 net_tcp0 tcp_syn0 ip_peer 42 0) tcp_ack0 ip_peer
              17 1).connect_table 1 (tcp_seg_key ip_peer tcp_syn0.data) = some c2
        ∧ c2.state = tcp_state_t.TCP_ESTABLISHED
        ∧ c2.unack_seq = isn + 1 ∧ c2.next_seq = isn + 1
        ∧ (tcp_in cfg0 (tcp_in cfg0 net_tcp0 tcp_syn0 ip_peer 42 0) tcp_ack0 ip_peer 17 1).events
            = net_tcp0.events ++ [⟨1, c2, tcp_conn_event_t.TCP_CONN_CONNECTED⟩]
        ∧ (tcp_in cfg0 (tcp_in cfg0 net_tcp0 tcp_syn0 ip_peer 42 0) tcp_ack0 ip_peer
              17 1).ip_out_calls
            = (tcp_in cfg0 net_tcp0 tcp_syn0 ip_peer 42 0).ip_out_calls :=
  ⟨⟨tcp_syn0_valid, by decide, by rfl, by decide, by decide, net_tcp0_room, tcp_ack0_valid,
      by decide, by decide, by decide, by decide, by decide, by decide⟩,
    tcp_handshake cfg0 net_tcp0 tcp_syn0 tcp_ack0 ip_peer 42 17 0 1 1 tcp_syn0_valid (by decide)
      (by rfl) (by decide) (by decide) net_tcp0_room tcp_ack0_valid (by decide) (by decide)
      (by decide) (by decide) (by decide) (by decide)⟩

/-- C9 (the code departs from the claim): an ESTABLISHED connection whose receive buffer
has no room behind its window gets a checksum-valid segment with ACK set, FIN and RST
clear, `seq` equal to the connection's `ack`, and the payload `[1, 2, 3]`.  The handler
is invoked with DATA_RECV once and one ACK segment is emitted, acknowledging
`seq + 3 = 1004`, and the connection's `ack` advances by 3; but no byte of the payload is
stored, the window of `rx_buf` stays empty. -/
theorem tcp_data_not_stored :
    tcp_seg_valid cfg0 tcp_data0 ip_peer
      ∧ tcp_seg_flags tcp_data0.data = tcp_flags_ack
      ∧ map_get net_tcp_full.connect_table 1 (tcp_seg_key ip_peer tcp_data0.data)
          = some tcp_conn_full
      ∧ tcp_conn_full.state = tcp_state_t.TCP_ESTABLISHED
      ∧ get32 tcp_data0.data 4 = tcp_conn_full.ack
      ∧ tcp_data0.data.drop 20 = [1, 2, 3]
      ∧ tcp_conn_full.rx_buf.data = []
      ∧ ∃ seg c1 c2,
        map_get (tcp_in cfg0 net_tcp_full tcp_data0 ip_peer 0 1).connect_table 1
            (tcp_seg_key ip_peer tcp_data0.data) = some c1
        ∧ c1.state = tcp_state_t.TCP_ESTABLISHED
        ∧ c1.rx_buf.data = []
        ∧ c1.ack = tcp_conn_full.ack + 3
        ∧ (tcp_in cfg0 net_tcp_full tcp_data0 ip_peer 0 1).ip_out_calls
            = [⟨seg, ip_peer, NET_PROTOCOL_TCP⟩]
        ∧ tcp_seg_flags seg = tcp_flags_ack
        ∧ get32 seg 8 = 1004
        ∧ (tcp_in cfg0 net_tcp_full tcp_data0 ip_peer 0 1).events
            = [⟨1, c2, tcp_conn_event_t.TCP_CONN_DATA_RECV⟩]
        ∧ c2.rx_buf.data = [] := by
  have hkey : tcp_seg_key ip_peer tcp_data0.data = ⟨ip_peer, 4000, 7⟩ := by decide
  have hget := net_tcp_full_get 1
  have hpl : (tcp_in_payload cfg0 tcp_data0 ip_peer).data = [1, 2, 3] := by
    rw [tcp_in_payload_data cfg0 tcp_data0 ip_peer (by decide)]
    decide
  have hin := tcp_in_existing cfg0 net_tcp_full tcp_data0 ip_peer 0 1 1 tcp_conn_full
    tcp_data0_valid (by decide) (by rw [hkey]; exact hget) (by decide) (by decide) (by decide)
  obtain ⟨seg, c1, h1, h2, h3, h4, h5, h6, h7, h8⟩ := tcp_in_switch_established_data cfg0
    net_tcp_full (tcp_seg_key ip_peer tcp_data0.data) tcp_conn_full 1
    (tcp_in_payload cfg0 tcp_data0 ip_peer) (get32 tcp_data0.data 8) (tcp_seg_flags tcp_data0.data)
    rfl (by decide) (by decide) (by rw [hpl]; decide) net_tcp_full_room
  rw [← hin] at h1 h2 h3
  have hfull := tcp_read_from_buf_full
    (tcp_acked tcp_conn_full (get32 tcp_data0.data 8) (tcp_seg_flags tcp_data0.data))
    (tcp_in_payload cfg0 tcp_data0 ip_peer)
    (by rw [(tcp_acked_frame _ _ _).2.1, hpl]; decide)
  rw [(tcp_acked_frame _ _ _).2.1] at hfull
  refine ⟨tcp_data0_valid, by decide, by rw [hkey]; exact hget, rfl, by decide, by decide, rfl,
    seg, c1, _, ?_, h4, ?_, ?_, h1, h7, ?_, h2, hfull.1⟩
  · rw [h3, map_get_store_same, hkey, hget]
    rfl
  · rw [h6]
    exact hfull.1
  · rw [h5, hpl]
    decide
  · rw [h8, hpl]
    decide

/-- C10 (counterexample): an ESTABLISHED connection gets a checksum-valid segment with FIN
set (and ACK, and RST) and `seq` equal to the connection's `ack`.  `tcp_in` emits no
segment, and the connection is not in LAST_ACK afterwards: its entry is gone. -/
theorem tcp_passive_close_counterexample :
    tcp_seg_valid cfg0 tcp_fin_rst0 ip_peer
      ∧ (tcp_seg_flags tcp_fin_rst0.data).fin = true
      ∧ map_get net_tcp_est.connect_table 1 (tcp_seg_key ip_peer tcp_fin_rst0.data)
          = some tcp_conn_est
      ∧ tcp_conn_est.state = tcp_state_t.TCP_ESTABLISHED
      ∧ get32 tcp_fin_rst0.data 4 = tcp_conn_est.ack
      ∧ (tcp_in cfg0 net_tcp_est tcp_fin_rst0 ip_peer 0 1).ip_out_calls = []
      ∧ map_get (tcp_in cfg0 net_tcp_est tcp_fin_rst0 ip_peer 0 1).connect_table 1
          (tcp_seg_key ip_peer tcp_fin_rst0.data) = none := by
  have hkey : tcp_seg_key ip_peer tcp_fin_rst0.data = ⟨ip_peer, 4000, 7⟩ := by decide
  have hget := net_tcp_est_get 1
  have hin := tcp_in_existing_rst cfg0 net_tcp_est tcp_fin_rst0 ip_peer 0 1 1 tcp_conn_est
    tcp_fin_rst0_valid (by decide) (by rw [hkey]; exact hget) (by decide) (by decide) (by decide)
  refine ⟨tcp_fin_rst0_valid, by decide, by rw [hkey]; exact hget, rfl, by decide, ?_, ?_⟩
  · rw [hin]
    rfl
  · rw [hin]
    exact map_get_delete_same _ _ _

/-- C10 (amended): for an ESTABLISHED connection `c` in the table of `tcp_init` (its
entries do not expire), a checksum-valid segment `fin` with FIN set, RST clear and `seq`
equal to the connection's `ack`, carrying `n = |fin| - 20` bytes of payload, makes
`tcp_in` emit exactly one segment, flagged FIN|ACK, with `ack = fin.seq + n + 1`
(mod 2^32), and move the connection to LAST_ACK without invoking the handler; a following
checksum-valid segment `ack` of the same peer with ACK set, RST clear and
`seq = fin.seq + n + 1` invokes the handler with CLOSED exactly once, emits nothing and
removes the entry of the connection from the connection table. -/
theorem tcp_passive_close (e : Config) (st : net_t) (fin ack : buf_t) (src_ip : List Nat)
    (rnd rnd2 now now2 handler : Nat) (c : tcp_connect_t)
    (hto : st.connect_table.timeout = 0)
    (hv1 : tcp_seg_valid e fin src_ip)
    (hh1 : map_get st.tcp_table now (get16 fin.data 2) = some handler)
    (hc : map_get st.connect_table now (tcp_seg_key src_ip fin.data) = some c)
    (hstate : c.state = tcp_state_t.TCP_ESTABLISHED)
    (hseq1 : get32 fin.data 4 = c.ack)
    (hfin : (tcp_seg_flags fin.data).fin = true) (hrst1 : (tcp_seg_flags fin.data).rst = false)
    (hroom : 40 ≤ buf_cap st.txbuf)
    (hv2 : tcp_seg_valid e ack src_ip)
    (hkey : tcp_seg_key src_ip ack.data = tcp_seg_key src_ip fin.data)
    (hh2 : map_get st.tcp_table now2 (get16 ack.data 2) = some handler)
    (hack : (tcp_seg_flags ack.data).ack = true) (hrst2 : (tcp_seg_flags ack.data).rst = false)
    (hseq2 : get32 ack.data 4 = (get32 fin.data 4 + (fin.data.length - 20) + 1) % 2 ^ 32) :
    ∃ seg c1,
      (tcp_in e st fin src_ip rnd now).ip_out_calls
          = st.ip_out_calls ++ [⟨seg, c.ip, NET_PROTOCOL_TCP⟩]
      ∧ tcp_seg_flags seg = tcp_flags_ack_fin
      ∧ get32 seg 8 = (get32 fin.data 4 + (fin.data.length - 20) + 1) % 2 ^ 32
      ∧ map_get (tcp_in e st fin src_ip rnd now).connect_table now (tcp_seg_key src_ip fin.data)
          = some c1
      ∧ c1.state = tcp_state_t.TCP_LAST_ACK
      ∧ (tcp_in e st fin src_ip rnd now).events = st.events
      ∧ (tcp_in e (tcp_in e st fin src_ip rnd now) ack src_ip rnd2 now2).events
          = st.events ++ [⟨handler, c1, tcp_conn_event_t.TCP_CONN_CLOSED⟩]
      ∧ (tcp_in e (tcp_in e st fin src_ip rnd now) ack src_ip rnd2 now2).ip_out_calls
          = (tcp_in e st fin src_ip rnd now).ip_out_calls
      ∧ map_get (tcp_in e (tcp_in e st fin src_ip rnd now) ack src_ip rnd2 now2).connect_table
          now2 (tcp_seg_key src_ip fin.data) = none
      ∧ ∀ en ∈ (tcp_in e (tcp_in e st fin src_ip rnd now) ack src_ip rnd2 now2).connect_table.entries,
          en.1 ≠ tcp_seg_key src_ip fin.data := by
  have hl20 : 20 ≤ fin.data.length := by simpa using hv1.1
  have hpl : (tcp_in_payload e fin src_ip).data.length = fin.data.length - 20 := by
    rw [tcp_in_payload_data e fin src_ip hl20, List.length_drop]
  have hin := tcp_in_existing e st fin src_ip rnd now handler c hv1 hh1 hc
    (by rw [hstate]; decide) hseq1 hrst1
  obtain ⟨seg, c1, h1, h2, _, h4, h5, h6, h7, _, h9, h10⟩ := tcp_in_switch_established_fin e st
    (tcp_seg_key src_ip fin.data) c handler (tcp_in_payload e fin src_ip) (get32 fin.data 8)
    (tcp_seg_flags fin.data) hstate hfin hroom
  rw [← hin] at h1 h2 h4 h5
  rw [hpl, ← hseq1] at h7 h10
  have hget : ∀ t, map_get (tcp_in e st fin src_ip rnd now).connect_table t
      (tcp_seg_key src_ip fin.data) = some c1 := by
    intro t
    rw [h5, map_get_store_same, map_get_timeout_zero st.connect_table t now _ hto, hc]
    rfl
  have hin2 := tcp_in_existing e (tcp_in e st fin src_ip rnd now) ack src_ip rnd2 now2 handler c1
    hv2 (by rw [h4]; exact hh2) (by rw [hkey]; exact hget now2) (by rw [h6]; decide)
    (by rw [hseq2, h7]) hrst2
  rw [tcp_in_switch_last_ack _ _ _ _ _ _ _ _ h6 hack, hkey] at hin2
  refine ⟨seg, c1, h1, h9, h10, hget now, h6, h2, ?_, ?_, ?_, ?_⟩
  · rw [hin2]
    show (tcp_in e st fin src_ip rnd now).events ++ _ = _
    rw [h2]
  · rw [hin2]
  · rw [hin2]
    exact map_get_delete_same _ _ _
  · rw [hin2]
    exact map_delete_no_entry _ _

/-- C10 (witness): the peer closes the connection of the example host with a FIN that
carries two bytes, then acknowledges the FIN of the host. -/
theorem tcp_passive_close_witness :
    (net_tcp_est.connect_table.timeout = 0
        ∧ tcp_seg_valid cfg0 tcp_fin0 ip_peer
        ∧ map_get net_tcp_est.tcp_table 1 (get16 tcp_fin0.data 2) = some 1
        ∧ map_get net_tcp_est.connect_table 1 (tcp_seg_key ip_peer tcp_fin0.data)
            = some tcp_conn_est
        ∧ tcp_conn_est.state = tcp_state_t.TCP_ESTABLISHED
        ∧ get32 tcp_fin0.data 4 = tcp_conn_est.ack
        ∧ (tcp_seg_flags tcp_fin0.data).fin = true ∧ (tcp_seg_flags tcp_fin0.data).rst = false
        ∧ 40 ≤ buf_cap net_tcp_est.txbuf
        ∧ tcp_seg_valid cfg0 tcp_last_ack0 ip_peer
        ∧ tcp_seg_key ip_peer tcp_last_ack0.data = tcp_seg_key ip_peer tcp_fin0.data
        ∧ map_get net_tcp_est.tcp_table 2 (get16 tcp_last_ack0.data 2) = some 1
        ∧ (tcp_seg_flags tcp_last_ack0.data).ack = true
        ∧ (tcp_seg_flags tcp_last_ack0.data).rst = false
        ∧ get32 tcp_last_ack0.data 4
            = (get32 tcp_fin0.data 4 + (tcp_fin0.data.length - 20) + 1) % 2 ^ 32)
      ∧ ∃ seg c1,
        (tcp_in cfg0 net_tcp_est tcp_fin0 ip_peer 0 1).ip_out_calls
            = net_tcp_est.ip_out_calls ++ [⟨seg, tcp_conn_est.ip, NET_PROTOCOL_TCP⟩]
        ∧ tcp_seg_flags seg = tcp_flags_ack_fin
        ∧ get32 seg 8 = (get32 tcp_fin0.data 4 + (tcp_fin0.data.length - 20) + 1) % 2 ^ 32
        ∧ map_get (tcp_in cfg0 net_tcp_est tcp_fin0 ip_peer 0 1).connect_table 1
            (tcp_seg_key ip_peer tcp_fin0.data) = some c1
        ∧ c1.state = tcp_state_t.TCP_LAST_ACK
        ∧ (tcp_in cfg0 net_tcp_est tcp_fin0 ip_peer 0 1).events = net_tcp_est.events
        ∧ (tcp_in cfg0 (tcp_in cfg0 net_tcp_est tcp_fin0 ip_peer 0 1) tcp_last_ack0 ip_peer
              0 2).events
            = net_tcp_est.events ++ [⟨1, c1, tcp_conn_event_t.TCP_CONN_CLOSED⟩]
        ∧ (tcp_in cfg0 (tcp_in cfg0 net_tcp_est tcp_fin0 ip_peer 0 1) tcp_last_ack0 ip_peer
              0 2).ip_out_calls
            = (tcp_in cfg0 net_tcp_est tcp_fin0 ip_peer 0 1).ip_out_calls
        ∧ map_get (tcp_in cfg0 (tcp_in cfg0 net_tcp_est tcp_fin0 ip_peer 0 1) tcp_last_ack0
              ip_peer 0 2).connect_table 2 (tcp_seg_key ip_peer tcp_fin0.data) = none
        ∧ ∀ en ∈ (tcp_in cfg0 (tcp_in cfg0 net_tcp_est tcp_fin0 ip_peer 0 1) tcp_last_ack0
              ip_peer 0 2).connect_table.entries, en.1 ≠ tcp_seg_key ip_peer tcp_fin0.data :=
  ⟨⟨rfl, tcp_fin0_valid, by decide, net_tcp_est_get 1, rfl, by decide, by decide, by decide,
      net_tcp_est_room, tcp_last_ack0_valid, by decide, by decide, by decide, by decide,
      by decide⟩,
    tcp_passive_close cfg0 net_tcp_est tcp_fin0 tcp_last_ack0 ip_peer 0 0 1 2 1 tcp_conn_est rfl
      tcp_fin0_valid (by decide) (net_tcp_est_get 1) rfl (by decide) (by decide) (by decide)
      net_tcp_est_room tcp_last_ack0_valid (by decide) (by decide) (by decide) (by decide)
      (by decide)⟩

/-- C11 (the code departs from the claim): the example host, with a handler on port 7 and
no connection, gets a checksum-valid segment with ACK only (SYN and RST clear, sequence
number 1001).  `tcp_in` emits RST|ACK with `seq = 0` and `ack = 1002`, sent from the
LISTEN record (to the address `0.0.0.0`), and does not stop: it emits a second segment,
SYN|ACK, to the peer, and leaves the connection in SYN_RCVD with both buffers allocated. -/
theorem tcp_listen_nosyn_goes_on :
    tcp_seg_valid cfg0 tcp_ack0 ip_peer
      ∧ (tcp_seg_flags tcp_ack0.data).syn = false ∧ (tcp_seg_flags tcp_ack0.data).rst = false
      ∧ get32 tcp_ack0.data 4 = 1001
      ∧ map_get net_tcp0.tcp_table 0 (get16 tcp_ack0.data 2) = some 1
      ∧ map_get net_tcp0.connect_table 0 (tcp_seg_key ip_peer tcp_ack0.data) = none
      ∧ ∃ seg1 seg2 c1,
        (tcp_in cfg0 net_tcp0 tcp_ack0 ip_peer 42 0).ip_out_calls
            = [⟨seg1, [0, 0, 0, 0], NET_PROTOCOL_TCP⟩, ⟨seg2, ip_peer, NET_PROTOCOL_TCP⟩]
        ∧ tcp_seg_flags seg1 = tcp_flags_ack_rst
        ∧ get32 seg1 4 = 0
        ∧ get32 seg1 8 = 1002
        ∧ tcp_seg_flags seg2 = tcp_flags_ack_syn
        ∧ map_get (tcp_in cfg0 net_tcp0 tcp_ack0 ip_peer 42 0).connect_table 0
            (tcp_seg_key ip_peer tcp_ack0.data) = some c1
        ∧ c1.state = tcp_state_t.TCP_SYN_RCVD
        ∧ buf_cap c1.rx_buf = 131325 ∧ buf_cap c1.tx_buf = 131325 := by
  obtain ⟨seg1, seg2, c1, h1, h2, h3, h4, h5, h6, h7, h8, h9, _⟩ := tcp_in_nosyn_spec cfg0
    net_tcp0 tcp_ack0 ip_peer 42 0 1 tcp_ack0_valid (by decide) (by rfl) (by decide) (by decide)
    net_tcp0_room (by decide)
  have hcap : buf_cap (buf_init (buf_malloc cfg0) 0).2 = 131325 := by
    rw [buf_init_cap, buf_malloc_cap, cfg0_heap_length]
  refine ⟨tcp_ack0_valid, by decide, by decide, by decide, by decide, by rfl, seg1, seg2, c1,
    h1, h2, h3, ?_, h5, ?_, h7, by rw [h8, hcap], by rw [h9, hcap]⟩
  · rw [h4]
    decide
  · rw [h6, map_get_store_same, map_get_set_same, if_pos (map_entry_valid_self _ _)]
    rfl

/-! ## UDP and ICMP: the claims -/

/-- C12: for a payload `buf` (bytes, at most 65527 of them, with 20 bytes of room in
front), a source port `s` and a destination port `d` with a handler, `udp_out` to the
local IP hands exactly one datagram `dgram` to `ip_out`; and `udp_in` of any buffer that
holds `dgram` (with room for the pseudo-header in front), with the local IP as source,
passes the length and checksum tests and invokes the handler of `d` exactly once, with
the payload, its length, the local IP and the port `s`; nothing else happens. -/
theorem udp_round_trip (e : Config) (st st2 : net_t) (buf : buf_t) (s d handler now : Nat)
    (hroom : 20 ≤ buf.head.length) (he : e.net_if_ip.length = 4)
    (hip : ∀ b ∈ e.net_if_ip, b < 256) (hdata : ∀ b ∈ buf.data, b < 256)
    (hlen : buf.data.length + 8 ≤ 65535) (hs : s < 65536) (hd : d < 65536)
    (hh : map_get st2.udp_table now d = some handler) :
    ∃ dgram,
      (udp_out e st buf s e.net_if_ip d).1
          = { st with ip_out_calls := st.ip_out_calls
                ++ [⟨dgram, e.net_if_ip, NET_PROTOCOL_UDP⟩] }
      ∧ ∀ rbuf : buf_t, rbuf.data = dgram → 12 ≤ rbuf.head.length →
          (udp_in e st2 rbuf e.net_if_ip now).1
            = { st2 with udp_events := st2.udp_events
                  ++ [⟨handler, buf.data, buf.data.length, e.net_if_ip, s⟩] } := by
  refine ⟨_, udp_out_spec e st buf s e.net_if_ip d hroom he he, ?_⟩
  intro rbuf hr hroom2
  obtain ⟨i0, i1, i2, i3, hi⟩ : ∃ i0 i1 i2 i3, e.net_if_ip = [i0, i1, i2, i3] := by
    match e.net_if_ip, he with
    | [i0, i1, i2, i3], _ => exact ⟨i0, i1, i2, i3, rfl⟩
  rw [hi] at hip hr ⊢
  have hb : i0 < 256 ∧ i1 < 256 ∧ i2 < 256 ∧ i3 < 256 := by
    simpa only [List.mem_cons, List.mem_singleton, List.not_mem_nil, or_false, forall_eq_or_imp,
      forall_eq] using hip
  have hl : (buf.data.length + 8) % 65536 = buf.data.length + 8 := Nat.mod_eq_of_lt (by omega)
  have hsm : s % 65536 = s := Nat.mod_eq_of_lt hs
  have hdm : d % 65536 = d := Nat.mod_eq_of_lt hd
  have hck := checksum16_roundtrip
    ([i0, i1, i2, i3] ++ [i0, i1, i2, i3] ++ [0, 17]
      ++ swap16_bytes ((buf.data.length + 8) % 65536)
      ++ (swap16_bytes (s % 65536) ++ swap16_bytes (d % 65536)
        ++ swap16_bytes ((buf.data.length + 8) % 65536)))
    buf.data 9 (by rfl)
    (by
      simp only [swap16_bytes, List.cons_append, List.nil_append, List.mem_cons,
        List.mem_singleton, List.not_mem_nil, or_false, forall_eq_or_imp, forall_eq]
      omega)
    hdata
    (by
      simp only [swap16_bytes, List.length_append, List.length_cons, List.length_nil]
      omega)
  have h := udp_in_handler_spec e st2 rbuf [i0, i1, i2, i3] now handler hroom2
    (by rw [hr]; simp only [swap16_bytes, List.length_append, List.length_cons,
          List.length_nil]; omega)
    (by
      rw [hr]
      simp only [swap16_bytes, List.length_append, List.length_cons, List.length_nil, hl]
      show (buf.data.length + 8) / 256 % 256 * 256 + (buf.data.length + 8) % 256 ≤ _
      omega)
    rfl he
    (by rw [hr, hi]; exact hck)
    (by
      rw [hr]
      show map_get st2.udp_table now (d % 65536 / 256 % 256 * 256 + d % 65536 % 256) = _
      have : d % 65536 / 256 % 256 * 256 + d % 65536 % 256 = d := by omega
      rw [this]
      exact hh)
  rw [h, hr]
  have e1 : ∀ c : Nat, List.drop 8 (swap16_bytes (s % 65536) ++ swap16_bytes (d % 65536)
      ++ swap16_bytes ((buf.data.length + 8) % 65536) ++ swap16_bytes c ++ buf.data)
      = buf.data := fun _ => rfl
  have e2 : ∀ c : Nat, (swap16_bytes (s % 65536) ++ swap16_bytes (d % 65536)
      ++ swap16_bytes ((buf.data.length + 8) % 65536) ++ swap16_bytes c ++ buf.data).length - 8
      = buf.data.length := by
    intro c
    simp only [swap16_bytes, List.length_append, List.length_cons, List.length_nil]
    omega
  have e3 : ∀ c : Nat, get16 (swap16_bytes (s % 65536) ++ swap16_bytes (d % 65536)
      ++ swap16_bytes ((buf.data.length + 8) % 65536) ++ swap16_bytes c ++ buf.data) 0 = s := by
    intro c
    show s % 65536 / 256 % 256 * 256 + s % 65536 % 256 = s
    omega
  rw [e1, e2, e3]

/-- C12 (witness): the example host sends two bytes from port 5000 to its own port 53,
where the handler `9` is registered. -/
theorem udp_round_trip_witness :
    (20 ≤ (buf_of [104, 105]).head.length ∧ cfg0.net_if_ip.length = 4
        ∧ (∀ b ∈ cfg0.net_if_ip, b < 256) ∧ (∀ b ∈ (buf_of [104, 105]).data, b < 256)
        ∧ (buf_of [104, 105]).data.length + 8 ≤ 65535 ∧ 5000 < 65536 ∧ 53 < 65536
        ∧ map_get (udp_open net0 53 9 0).udp_table 1 53 = some 9)
      ∧ ∃ dgram,
        (udp_out cfg0 net0 (buf_of [104, 105]) 5000 cfg0.net_if_ip 53).1
            = { net0 with ip_out_calls := net0.ip_out_calls
                  ++ [⟨dgram, cfg0.net_if_ip, NET_PROTOCOL_UDP⟩] }
        ∧ ∀ rbuf : buf_t, rbuf.data = dgram → 12 ≤ rbuf.head.length →
            (udp_in cfg0 (udp_open net0 53 9 0) rbuf cfg0.net_if_ip 1).1
              = { udp_open net0 53 9 0 with udp_events := (udp_open net0 53 9 0).udp_events
                    ++ [⟨9, (buf_of [104, 105]).data, (buf_of [104, 105]).data.length,
                        cfg0.net_if_ip, 5000⟩] } :=
  ⟨⟨by decide, by decide, by decide, by decide, by decide, by decide, by decide, by decide⟩,
    udp_round_trip cfg0 net0 (udp_open net0 53 9 0) (buf_of [104, 105]) 5000 53 9 1 (by decide)
      (by decide) (by decide) (by decide) (by decide) (by decide) (by decide) (by decide)⟩

/-- C13 (the code departs from the claim): the example host, with no UDP handler, gets the
checksum-valid datagram `udp_dgram0` of the peer for port 9999, its IP header in front of
the window.  One ICMP message goes to the peer: type 3, code 3, id and sequence 0, 36
bytes, quoting the 20 bytes of the IP header as received.  The 8 bytes behind them are not
the first 8 bytes of the datagram as received: the two bytes of the destination port,
`27 0f`, are quoted as `0f 27`. -/
theorem udp_unreachable_quote :
    checksum16 (ip_peer ++ cfg0.net_if_ip ++ [0, 17] ++ (udp_dgram0.drop 4).take 2 ++ udp_dgram0)
        = 0
      ∧ get16 udp_dgram0 2 = 9999
      ∧ map_get net0.udp_table 0 9999 = none
      ∧ ∃ msg,
        (udp_in cfg0 net0 udp_rx0 ip_peer 0).1.ip_out_calls = [⟨msg, ip_peer, NET_PROTOCOL_ICMP⟩]
        ∧ msg.length = 36
        ∧ msg.take 2 = [3, 3]
        ∧ (msg.drop 4).take 4 = [0, 0, 0, 0]
        ∧ (msg.drop 8).take 20 = ip_hdr0
        ∧ udp_dgram0.take 8 = [0x13, 0x88, 0x27, 0x0f, 0, 12, 0xad, 0x36]
        ∧ msg.drop 28 = [0x13, 0x88, 0x0f, 0x27, 0, 12, 0xad, 0x36] := by
  obtain ⟨txb, h⟩ := udp_in_unreach_spec cfg0 net0 (List.replicate 44 0) ip_hdr0 udp_dgram0
    (List.replicate 64 0) ip_peer 0 (by decide) (by decide) (by decide) (by decide) (by decide)
    (by decide) (by rfl) net0_room
  refine ⟨by decide, by decide, by rfl,
    [3, 3] ++ swap16_bytes (checksum16 ([3, 3, 0, 0, 0, 0, 0, 0]
        ++ (ip_hdr0 ++ [udp_dgram0.getD 0 0, udp_dgram0.getD 1 0, udp_dgram0.getD 3 0,
            udp_dgram0.getD 2 0] ++ (udp_dgram0.drop 4).take 4)))
      ++ ([0, 0, 0, 0]
        ++ (ip_hdr0 ++ [udp_dgram0.getD 0 0, udp_dgram0.getD 1 0, udp_dgram0.getD 3 0,
            udp_dgram0.getD 2 0] ++ (udp_dgram0.drop 4).take 4)),
    ?_, ?_, ?_, ?_, ?_, ?_, ?_⟩
  · show (udp_in cfg0 net0 ⟨List.replicate 44 0 ++ ip_hdr0, udp_dgram0, List.replicate 64 0⟩
      ip_peer 0).1.ip_out_calls = _
    rw [h]
    rfl
  · decide
  · decide
  · decide
  · decide
  · decide
  · decide

/-- C14: for an ICMP message `buf` (bytes, at most 65535 of them), (1) when it has at
least 8 bytes and type 8, `icmp_in` hands exactly one message to `ip_out`, for the source
IP with protocol ICMP, which has the length, code, id, sequence number and payload of the
request, type 0, and a checksum field that makes `checksum16` of the whole message 0;
(2) when it is shorter than 8 bytes or of another type, `icmp_in` changes nothing, so it
sends nothing. -/
theorem icmp_echo (st : net_t) (buf : buf_t) (src_ip : List Nat)
    (hbytes : ∀ b ∈ buf.data, b < 256) (hmax : buf.data.length ≤ 65535) :
    (8 ≤ buf.data.length → buf.data.getD 0 0 = 8 →
        ∃ msg, (icmp_in st buf src_ip).1
            = { st with ip_out_calls := st.ip_out_calls ++ [⟨msg, src_ip, NET_PROTOCOL_ICMP⟩] }
          ∧ msg.length = buf.data.length
          ∧ msg.getD 0 0 = 0
          ∧ msg.getD 1 0 = buf.data.getD 1 0
          ∧ msg.drop 4 = buf.data.drop 4
          ∧ checksum16 msg = 0)
      ∧ (buf.data.length < 8 ∨ buf.data.getD 0 0 ≠ 8 → (icmp_in st buf src_ip).1 = st) := by
  refine ⟨fun hlen htype => icmp_in_echo_spec st buf src_ip hlen htype hbytes hmax, ?_⟩
  intro h
  rw [icmp_in_ignore st buf src_ip h]

/-- C14 (witness): the example host gets an echo request with id 1, sequence number 2 and
32 bytes of payload from the peer. -/
theorem icmp_echo_witness :
    ((∀ b ∈ icmp_echo0.data, b < 256) ∧ icmp_echo0.data.length ≤ 65535
        ∧ 8 ≤ icmp_echo0.data.length ∧ icmp_echo0.data.getD 0 0 = 8)
      ∧ ∃ msg, (icmp_in net0 icmp_echo0 ip_peer).1
          = { net0 with ip_out_calls := net0.ip_out_calls
                ++ [⟨msg, ip_peer, NET_PROTOCOL_ICMP⟩] }
        ∧ msg.length = icmp_echo0.data.length
        ∧ msg.getD 0 0 = 0
        ∧ msg.getD 1 0 = icmp_echo0.data.getD 1 0
        ∧ msg.drop 4 = icmp_echo0.data.drop 4
        ∧ checksum16 msg = 0 :=
  ⟨⟨by decide, by decide, by decide, by decide⟩,
    (icmp_echo net0 icmp_echo0 ip_peer (by decide) (by decide)).1 (by decide) (by decide)⟩

/-! ## IPv4 and Ethernet, receive side: the claims -/

/-- C15: a received buffer with fewer than 20 bytes, or a version other than 4, or a total
length above its own length, or a destination other than the local IP, or a stored header
checksum that differs from `checksum16` of the 20 header bytes with the checksum field
zeroed, is dropped by `ip_in`: the state is as before, so there is no call of `net_in`,
no ICMP message and no frame. -/
theorem ip_in_rejects (e : Config) (st : net_t) (buf : buf_t) (now : Nat)
    (he : e.net_if_ip.length = 4)
    (h : buf.data.length < 20 ∨ ip_version buf.data ≠ 4
      ∨ buf.data.length < ip_total_len buf.data ∨ ip_dst buf.data ≠ e.net_if_ip
      ∨ checksum16 (ip_hdr_zeroed buf.data) ≠ get16 buf.data 10) :
    (ip_in e st buf now).1 = st
      ∧ (ip_in e st buf now).1.net_in_calls = st.net_in_calls
      ∧ (ip_in e st buf now).1.ip_out_calls = st.ip_out_calls
      ∧ (ip_in e st buf now).1.sent = st.sent := by
  have ht : e.net_if_ip.take 4 = e.net_if_ip := List.take_of_length_le (by omega)
  have hd := ip_in_drop e st buf now (by rw [ht]; exact h)
  rw [hd]
  exact ⟨rfl, rfl, rfl, rfl⟩

/-- C15 (witness): the example host gets a packet of the peer for `10.0.0.3`. -/
theorem ip_in_rejects_witness :
    (cfg0.net_if_ip.length = 4
        ∧ (ip_other0.data.length < 20 ∨ ip_version ip_other0.data ≠ 4
          ∨ ip_other0.data.length < ip_total_len ip_other0.data
          ∨ ip_dst ip_other0.data ≠ cfg0.net_if_ip
          ∨ checksum16 (ip_hdr_zeroed ip_other0.data) ≠ get16 ip_other0.data 10))
      ∧ (ip_in cfg0 net0 ip_other0 0).1 = net0
      ∧ (ip_in cfg0 net0 ip_other0 0).1.net_in_calls = net0.net_in_calls
      ∧ (ip_in cfg0 net0 ip_other0 0).1.ip_out_calls = net0.ip_out_calls
      ∧ (ip_in cfg0 net0 ip_other0 0).1.sent = net0.sent :=
  ⟨⟨by decide, Or.inr (Or.inr (Or.inr (Or.inl (by decide))))⟩,
    ip_in_rejects cfg0 net0 ip_other0 0 (by decide)
      (Or.inr (Or.inr (Or.inr (Or.inl (by decide)))))⟩

/-- C16 (counterexample): the packet `ip_short0` passes the tests of `ip_in` (20 bytes,
version 4, total length 10 not above 20, for the local IP, correct checksum), and `net_in`
is called once with a payload of 10 bytes, the first 10 bytes of the header: not
`total_len - 20` bytes, and not the bytes from offset 20 on. -/
theorem ip_in_delivers_counterexample :
    20 ≤ ip_short0.data.length ∧ ip_version ip_short0.data = 4
      ∧ ip_total_len ip_short0.data = 10
      ∧ ip_total_len ip_short0.data ≤ ip_short0.data.length
      ∧ ip_dst ip_short0.data = cfg0.net_if_ip
      ∧ checksum16 (ip_hdr_zeroed ip_short0.data) = get16 ip_short0.data 10
      ∧ (ip_in cfg0 net0 ip_short0 0).1.net_in_calls
          = [⟨ip_short0.data.take 10, NET_PROTOCOL_UDP, ip_peer⟩]
      ∧ (ip_short0.data.take 10).length = 10 := by
  have h := ip_in_pass cfg0 net0 ip_short0 0 (by decide) (by decide) (by decide) (by decide)
    (by decide)
  refine ⟨by decide, by decide, by decide, by decide, by decide, by decide, ?_, by decide⟩
  rw [h]
  decide

/-- C16 (amended): a received buffer that passes the tests of `ip_in` (at least 20 bytes,
version 4, total length at most its length, for the local IP, correct header checksum)
and whose total length is at least 20 makes `ip_in` call `net_in` exactly once, with the
protocol number and the source IP of the header and a payload of exactly
`total_len - 20` bytes, the bytes from offset 20 up to `total_len` of the buffer. -/
theorem ip_in_delivers (e : Config) (st : net_t) (buf : buf_t) (now : Nat)
    (he : e.net_if_ip.length = 4) (hlen : 20 ≤ buf.data.length)
    (hver : ip_version buf.data = 4) (h20 : 20 ≤ ip_total_len buf.data)
    (htl : ip_total_len buf.data ≤ buf.data.length) (hdst : ip_dst buf.data = e.net_if_ip)
    (hck : checksum16 (ip_hdr_zeroed buf.data) = get16 buf.data 10) :
    (ip_in e st buf now).1.net_in_calls
        = st.net_in_calls ++ [⟨(buf.data.drop 20).take (ip_total_len buf.data - 20),
            ip_protocol buf.data, ip_src buf.data⟩]
      ∧ ((buf.data.drop 20).take (ip_total_len buf.data - 20)).length
          = ip_total_len buf.data - 20 := by
  have ht : e.net_if_ip.take 4 = e.net_if_ip := List.take_of_length_le (by omega)
  have h := ip_in_pass e st buf now hlen hver htl (by rw [ht]; exact hdst) hck
  have hp : (buf_remove_header
      (buf_remove_padding buf (buf.data.length - ip_total_len buf.data)).2 20).2.data
      = (buf.data.drop 20).take (ip_total_len buf.data - 20) := by
    unfold buf_remove_padding
    rw [if_neg (by omega)]
    have e1 : buf.data.length - (buf.data.length - ip_total_len buf.data)
        = ip_total_len buf.data := by omega
    unfold buf_remove_header
    dsimp only []
    rw [e1, if_neg (by simp only [List.length_take]; omega)]
    dsimp only []
    rw [List.drop_take]
  rw [h, hp]
  refine ⟨rfl, ?_⟩
  simp only [List.length_take, List.length_drop]
  omega

/-- C16 (witness): the example host gets the packet of the peer that carries `udp_dgram0`,
with 14 bytes of padding behind it. -/
theorem ip_in_delivers_witness :
    (cfg0.net_if_ip.length = 4 ∧ 20 ≤ ip_rx0.data.length ∧ ip_version ip_rx0.data = 4
        ∧ 20 ≤ ip_total_len ip_rx0.data ∧ ip_total_len ip_rx0.data ≤ ip_rx0.data.length
        ∧ ip_dst ip_rx0.data = cfg0.net_if_ip
        ∧ checksum16 (ip_hdr_zeroed ip_rx0.data) = get16 ip_rx0.data 10)
      ∧ (ip_in cfg0 net0 ip_rx0 0).1.net_in_calls
          = net0.net_in_calls ++ [⟨(ip_rx0.data.drop 20).take (ip_total_len ip_rx0.data - 20),
              ip_protocol ip_rx0.data, ip_src ip_rx0.data⟩]
      ∧ ((ip_rx0.data.drop 20).take (ip_total_len ip_rx0.data - 20)).length
          = ip_total_len ip_rx0.data - 20 :=
  ⟨⟨by decide, by decide, by decide, by decide, by decide, by decide, by decide⟩,
    ip_in_delivers cfg0 net0 ip_rx0 0 (by decide) (by decide) (by decide) (by decide) (by decide)
      (by decide) (by decide)⟩

/-- C17: `ethernet_in` calls `net_in` if and only if the frame has at least 14 bytes and
its destination MAC is the local MAC or the broadcast MAC; when it does, it calls `net_in`
exactly once, with the ethertype decoded from the big-endian bytes 12 and 13, the source
MAC (bytes 6 to 11) and the frame without its first 14 bytes; otherwise the state is as
before. -/
theorem ethernet_in_dispatch (e : Config) (st : net_t) (buf : buf_t) (now : Nat)
    (he : e.net_if_mac.length = 6) :
    ((ethernet_in e st buf now).1.net_in_calls ≠ st.net_in_calls
        ↔ 14 ≤ buf.data.length
          ∧ (eth_dst buf.data = e.net_if_mac ∨ eth_dst buf.data = ether_broadcast_mac))
      ∧ (14 ≤ buf.data.length
          ∧ (eth_dst buf.data = e.net_if_mac ∨ eth_dst buf.data = ether_broadcast_mac) →
        (ethernet_in e st buf now).1
          = { st with net_in_calls := st.net_in_calls
                ++ [⟨buf.data.drop 14, eth_type buf.data, eth_src buf.data⟩] })
      ∧ (¬ (14 ≤ buf.data.length
          ∧ (eth_dst buf.data = e.net_if_mac ∨ eth_dst buf.data = ether_broadcast_mac)) →
        (ethernet_in e st buf now).1 = st) := by
  have h := ethernet_in_spec e st buf now he
  refine ⟨?_, ?_, ?_⟩
  · rw [h]
    dsimp only []
    by_cases c : 14 ≤ buf.data.length
        ∧ (eth_dst buf.data = e.net_if_mac ∨ eth_dst buf.data = ether_broadcast_mac)
    · rw [if_pos c]
      refine ⟨fun _ => c, fun _ hh => ?_⟩
      have hl := congrArg List.length hh
      simp only [List.length_append, List.length_cons, List.length_nil] at hl
      omega
    · rw [if_neg c, List.append_nil]
      exact ⟨fun hh => absurd rfl hh, fun hc => absurd hc c⟩
  · intro c
    rw [h, if_pos c]
  · intro c
    rw [h, if_neg c, List.append_nil]

/-- C17 (witness): the example host gets a frame of the peer that is addressed to it. -/
theorem ethernet_in_dispatch_witness :
    cfg0.net_if_mac.length = 6
      ∧ ((ethernet_in cfg0 net0 eth_frame0 0).1.net_in_calls ≠ net0.net_in_calls
        ↔ 14 ≤ eth_frame0.data.length
          ∧ (eth_dst eth_frame0.data = cfg0.net_if_mac
            ∨ eth_dst eth_frame0.data = ether_broadcast_mac))
      ∧ (14 ≤ eth_frame0.data.length
          ∧ (eth_dst eth_frame0.data = cfg0.net_if_mac
            ∨ eth_dst eth_frame0.data = ether_broadcast_mac) →
        (ethernet_in cfg0 net0 eth_frame0 0).1
          = { net0 with net_in_calls := net0.net_in_calls
                ++ [⟨eth_frame0.data.drop 14, eth_type eth_frame0.data,
                    eth_src eth_frame0.data⟩] })
      ∧ (¬ (14 ≤ eth_frame0.data.length
          ∧ (eth_dst eth_frame0.data = cfg0.net_if_mac
            ∨ eth_dst eth_frame0.data = ether_broadcast_mac)) →
        (ethernet_in cfg0 net0 eth_frame0 0).1 = net0) :=
  ⟨by decide, ethernet_in_dispatch cfg0 net0 eth_frame0 0 (by decide)⟩

/-- C18: for a payload `buf` of `n` bytes (with 14 bytes of room in front and room for the
padding behind), a destination MAC `m` and a protocol `p` (16 bits), `ethernet_out` hands
the driver exactly one frame, of `max(n, 46) + 14` bytes: `m`, the local MAC, `p` in
big-endian, then the payload, whose first `n` bytes are those of `buf`; and when `m` is
the local or the broadcast MAC, `ethernet_in` of a buffer that holds this frame calls
`net_in` once, with the protocol `p`, the local MAC as source and a payload whose first
`n` bytes are those of `buf`. -/
theorem ethernet_round_trip (e : Config) (st : net_t) (buf : buf_t) (m : List Nat) (p : Nat)
    (hm : m.length = 6) (he : e.net_if_mac.length = 6) (hroom : 14 ≤ buf.head.length)
    (hpad : 46 - buf.data.length ≤ buf.tail.length) (hp : p < 65536) :
    ∃ frame,
      (ethernet_out e st buf m p).1 = { st with sent := st.sent ++ [frame] }
      ∧ frame.length = max buf.data.length 46 + 14
      ∧ eth_dst frame = m ∧ eth_src frame = e.net_if_mac ∧ eth_type frame = p
      ∧ (frame.drop 14).take buf.data.length = buf.data
      ∧ (m = e.net_if_mac ∨ m = ether_broadcast_mac →
          ∀ (st2 : net_t) (rbuf : buf_t) (now : Nat), rbuf.data = frame →
            ∃ payload, (ethernet_in e st2 rbuf now).1
                = { st2 with net_in_calls := st2.net_in_calls ++ [⟨payload, p, e.net_if_mac⟩] }
              ∧ payload.take buf.data.length = buf.data) := by
  have hs := ethernet_out_sent e st buf m p hm he hroom hpad
  have hpm : p % 65536 = p := Nat.mod_eq_of_lt hp
  rw [hpm] at hs
  obtain ⟨m0, m1, m2, m3, m4, m5, rfl⟩ := list_eq6 m hm
  obtain ⟨a0, a1, a2, a3, a4, a5, ha⟩ := list_eq6 e.net_if_mac he
  rw [ha] at hs ⊢
  have hty : p / 256 % 256 * 256 + p % 256 = p := by omega
  have hpay : ((buf.data ++ buf.tail.take (46 - buf.data.length)).take buf.data.length)
      = buf.data := List.take_left' rfl
  refine ⟨[m0, m1, m2, m3, m4, m5] ++ [a0, a1, a2, a3, a4, a5] ++ swap16_bytes p ++ buf.data
      ++ buf.tail.take (46 - buf.data.length), ?_, ?_, rfl, rfl, ?_, ?_, ?_⟩
  · have h0 : (ethernet_out e st buf [m0, m1, m2, m3, m4, m5] p).1
        = { st with sent := (ethernet_out e st buf [m0, m1, m2, m3, m4, m5] p).1.sent } := rfl
    rw [h0, hs]
  · simp only [swap16_bytes, List.length_append, List.length_cons, List.length_nil,
      List.length_take]
    omega
  · exact hty
  · exact hpay
  · intro hloc st2 rbuf now hr
    have hi := ethernet_in_spec e st2 rbuf now he
    rw [hr, ha] at hi
    refine ⟨buf.data ++ buf.tail.take (46 - buf.data.length), ?_, hpay⟩
    rw [hi, if_pos ⟨by
      simp only [swap16_bytes, List.length_append, List.length_cons, List.length_nil]
      omega, hloc⟩]
    have e1 : eth_type ([m0, m1, m2, m3, m4, m5] ++ [a0, a1, a2, a3, a4, a5] ++ swap16_bytes p
        ++ buf.data ++ buf.tail.take (46 - buf.data.length)) = p := hty
    rw [e1]
    rfl

/-- C18 (witness): the example host sends 20 bytes to the broadcast MAC with the IPv4
ethertype. -/
theorem ethernet_round_trip_witness :
    (ether_broadcast_mac.length = 6 ∧ cfg0.net_if_mac.length = 6
        ∧ 14 ≤ (buf_of (List.replicate 20 7)).head.length
        ∧ 46 - (buf_of (List.replicate 20 7)).data.length ≤ (buf_of (List.replicate 20 7)).tail.length
        ∧ NET_PROTOCOL_IP < 65536)
      ∧ ∃ frame,
        (ethernet_out cfg0 net0 (buf_of (List.replicate 20 7)) ether_broadcast_mac NET_PROTOCOL_IP).1
            = { net0 with sent := net0.sent ++ [frame] }
        ∧ frame.length = max (buf_of (List.replicate 20 7)).data.length 46 + 14
        ∧ eth_dst frame = ether_broadcast_mac ∧ eth_src frame = cfg0.net_if_mac
        ∧ eth_type frame = NET_PROTOCOL_IP
        ∧ (frame.drop 14).take (buf_of (List.replicate 20 7)).data.length = (buf_of (List.replicate 20 7)).data
        ∧ (ether_broadcast_mac = cfg0.net_if_mac ∨ ether_broadcast_mac = ether_broadcast_mac →
            ∀ (st2 : net_t) (rbuf : buf_t) (now : Nat), rbuf.data = frame →
              ∃ payload, (ethernet_in cfg0 st2 rbuf now).1
                  = { st2 with net_in_calls := st2.net_in_calls
                        ++ [⟨payload, NET_PROTOCOL_IP, cfg0.net_if_mac⟩] }
                ∧ payload.take (buf_of (List.replicate 20 7)).data.length = (buf_of (List.replicate 20 7)).data) :=
  ⟨⟨by decide, by decide, by decide, by decide, by decide⟩,
    ethernet_round_trip cfg0 net0 (buf_of (List.replicate 20 7)) ether_broadcast_mac NET_PROTOCOL_IP (by decide)
      (by decide) (by decide) (by decide) (by decide)⟩

/-! ## TCP, application interface: the claims -/

/-- C19: (1) when `next_seq - unack_seq + len` (computed as in C, `tcp_window_used`) is at
least `remote_win`, `tcp_connect_write` returns 0 and leaves the state and the connection
as they are: `tx_buf`, `next_seq` and `unack_seq` are unchanged and nothing is sent;
(2) otherwise, when `len` bytes fit behind the window of `tx_buf`, it returns `len`, the
`len` bytes of `data` are appended to `tx_buf`, the bytes already in `tx_buf` and
everything else stay, and nothing is sent; (3) for `unack_seq ≤ next_seq < 2^32` and
`len < 2^64 - 2^32` the value computed in C is `next_seq - unack_seq + len`. -/
theorem tcp_connect_write_window (e : Config) (st : net_t) (c : tcp_connect_t)
    (data : List Nat) (len : Nat) (hdata : len ≤ data.length) :
    (tcp_window_used c len ≥ c.remote_win → tcp_connect_write e st c data len = (0, st, c))
      ∧ (tcp_window_used c len < c.remote_win → len ≤ c.tx_buf.tail.length →
          tcp_connect_write e st c data len
              = (len, st, { c with tx_buf := ⟨c.tx_buf.head, c.tx_buf.data ++ data.take len,
                  c.tx_buf.tail.drop len⟩ })
            ∧ (data.take len).length = len)
      ∧ (c.unack_seq ≤ c.next_seq → c.next_seq < 2 ^ 32 → len < 2 ^ 64 - 2 ^ 32 →
          tcp_window_used c len = c.next_seq - c.unack_seq + len) := by
  refine ⟨?_, ?_, ?_⟩
  · intro h
    unfold tcp_connect_write
    unfold tcp_window_used at h
    dsimp only []
    rw [if_pos h]
  · intro h hfit
    unfold tcp_window_used at h
    have hpad : buf_add_padding c.tx_buf (min c.tx_buf.tail.length len)
        = (0, ⟨c.tx_buf.head, c.tx_buf.data ++ c.tx_buf.tail.take len,
            c.tx_buf.tail.drop len⟩) := by
      rw [Nat.min_eq_right hfit]
      unfold buf_add_padding
      rw [if_neg (by omega)]
    have hw := buf_write_mid c.tx_buf.head c.tx_buf.data (c.tx_buf.tail.take len) []
      (c.tx_buf.tail.drop len) (data.take len) c.tx_buf.data.length rfl
      (by simp only [List.length_take]; omega)
    simp only [List.append_nil] at hw
    refine ⟨?_, by simp only [List.length_take]; omega⟩
    unfold tcp_connect_write
    dsimp only []
    rw [if_neg (by omega), hpad]
    dsimp only []
    rw [if_neg (by decide), Nat.min_eq_right hfit, hw]
  · intro h1 h2 h3
    unfold tcp_window_used
    have e32 : (2 : Nat) ^ 32 = 4294967296 := by norm_num
    have e64 : (2 : Nat) ^ 64 = 18446744073709551616 := by norm_num
    rw [e32, e64] at *
    omega

/-- C19 (witness): the connection `tcp_conn_io` (3 bytes in flight, window 8192) is asked
to take 8189 bytes, which is refused, and 2 bytes, which are appended. -/
theorem tcp_connect_write_window_witness :
    (8189 ≤ (List.replicate 8189 1).length ∧ tcp_window_used tcp_conn_io 8189 ≥ tcp_conn_io.remote_win
        ∧ 2 ≤ [100, 101].length ∧ tcp_window_used tcp_conn_io 2 < tcp_conn_io.remote_win
        ∧ 2 ≤ tcp_conn_io.tx_buf.tail.length)
      ∧ tcp_connect_write cfg0 net0 tcp_conn_io (List.replicate 8189 1) 8189
          = (0, net0, tcp_conn_io)
      ∧ tcp_connect_write cfg0 net0 tcp_conn_io [100, 101] 2
          = (2, net0, { tcp_conn_io with tx_buf := ⟨tcp_conn_io.tx_buf.head,
              tcp_conn_io.tx_buf.data ++ [100, 101].take 2, tcp_conn_io.tx_buf.tail.drop 2⟩ }) :=
  ⟨⟨by rw [List.length_replicate], by decide, by decide, by decide, by decide⟩,
    (tcp_connect_write_window cfg0 net0 tcp_conn_io (List.replicate 8189 1) 8189
      (by rw [List.length_replicate])).1 (by decide),
    ((tcp_connect_write_window cfg0 net0 tcp_conn_io [100, 101] 2 (by decide)).2.1 (by decide)
      (by decide)).1⟩

/-- C20: for a connection whose `rx_buf` holds the bytes `R` and a requested `len`,
`tcp_connect_read` returns `k = min(|R|, len)`, writes the first `k` bytes of `R` to the
array of the caller, and leaves `rx_buf` holding the remaining `|R| - k` bytes of `R` in
order, everything else in the connection staying; hence the chunks of successive reads
with the lengths `lens` concatenate to the first `sum lens` bytes of `R`, the rest stays
in `rx_buf`, and the chunks are all of `R` once the lengths total at least `|R|`. -/
theorem tcp_connect_read_chunks (c : tcp_connect_t) (len : Nat) (lens : List Nat) :
    (tcp_connect_read c len).1 = min c.rx_buf.data.length len
      ∧ (tcp_connect_read c len).2.1 = c.rx_buf.data.take (min c.rx_buf.data.length len)
      ∧ (tcp_connect_read c len).2.2.rx_buf.data
          = c.rx_buf.data.drop (min c.rx_buf.data.length len)
      ∧ (tcp_connect_read c len).2.2.rx_buf.data.length
          = c.rx_buf.data.length - min c.rx_buf.data.length len
      ∧ { (tcp_connect_read c len).2.2 with rx_buf := c.rx_buf } = c
      ∧ (tcp_connect_reads c lens).1.flatten = c.rx_buf.data.take lens.sum
      ∧ (tcp_connect_reads c lens).2.rx_buf.data = c.rx_buf.data.drop lens.sum
      ∧ (c.rx_buf.data.length ≤ lens.sum → (tcp_connect_reads c lens).1.flatten = c.rx_buf.data) := by
  have h := tcp_connect_read_spec c len
  have hs := tcp_connect_reads_spec lens c
  refine ⟨by rw [h], by rw [h], by rw [h], ?_, by rw [h], hs.1, hs.2, ?_⟩
  · rw [h]
    simp only [List.length_drop]
  · intro hl
    rw [hs.1, List.take_of_length_le hl]

/-- C20 (witness): the application reads `hello` from `tcp_conn_io` in calls for 2, 2
and 4 bytes. -/
theorem tcp_connect_read_chunks_witness :
    tcp_conn_io.rx_buf.data.length ≤ [2, 2, 4].sum
      ∧ (tcp_connect_reads tcp_conn_io [2, 2, 4]).1.flatten = tcp_conn_io.rx_buf.data :=
  ⟨by decide, (tcp_connect_read_chunks tcp_conn_io 2 [2, 2, 4]).2.2.2.2.2.2.2 (by decide)⟩

/-! ## TCP, segments and invariants: the claims -/

/-- C21: for a connection `c` (sequence numbers of 32 bits, ports of 16 bits), a payload
buffer of `n` bytes with room for the header in front, and any flags, `tcp_send` hands
exactly one segment to `ip_out`: its sequence number is `(next_seq - n) mod 2^32`, its
acknowledgement number is `c.ack`, its data offset is 5, its source and destination ports
are the local and the remote port of `c`, its payload is the buffer; afterwards
`next_seq` is increased by 1 (mod 2^32) if SYN or FIN is set and unchanged otherwise, and
nothing else of `c` changes.  Consequently the data that `tcp_write_to_buf` pumps from a
connection with nothing in flight (`unack_seq = next_seq`, as right after the handshake,
where both are ISN + 1) is sent with `seq = next_seq`, i.e. ISN + 1. -/
theorem tcp_send_labels (e : Config) (st : net_t) (buf : buf_t) (c : tcp_connect_t)
    (flags : tcp_flags_t) (hroom : 20 ≤ buf.head.length) (hn : buf.data.length < 2 ^ 64)
    (hseq : c.next_seq < 2 ^ 32) (hack : c.ack < 2 ^ 32) (hlp : c.local_port < 65536)
    (hrp : c.remote_port < 65536) :
    (∃ seg, (tcp_send e st buf c flags).1
          = { st with ip_out_calls := st.ip_out_calls ++ [⟨seg, c.ip, NET_PROTOCOL_TCP⟩] }
        ∧ (get32 seg 4 : Int) = ((c.next_seq : Int) - (buf.data.length : Int)) % 2 ^ 32
        ∧ get32 seg 8 = c.ack
        ∧ seg.getD 12 0 / 16 = 5
        ∧ get16 seg 0 = c.local_port ∧ get16 seg 2 = c.remote_port
        ∧ tcp_seg_flags seg = flags
        ∧ seg.drop 20 = buf.data)
      ∧ (tcp_send e st buf c flags).2.2
          = { c with next_seq := if flags.syn || flags.fin then (c.next_seq + 1) % 2 ^ 32
                                  else c.next_seq }
      ∧ (∀ txb : buf_t, 131110 ≤ buf_cap txb → c.unack_seq = c.next_seq →
          c.remote_win < 65536 → c.tx_buf.data.length < 2 ^ 64 →
          ∃ seg, (tcp_send e st (tcp_write_to_buf c txb).2.2 (tcp_write_to_buf c txb).2.1
                flags).1
              = { st with ip_out_calls := st.ip_out_calls ++ [⟨seg, c.ip, NET_PROTOCOL_TCP⟩] }
            ∧ get32 seg 4 = c.next_seq
            ∧ seg.drop 20 = c.tx_buf.data.take (min c.tx_buf.data.length c.remote_win)) := by
  have e32 : (2 : Nat) ^ 32 = 4294967296 := by norm_num
  have e64 : (2 : Nat) ^ 64 = 18446744073709551616 := by norm_num
  refine ⟨?_, ?_, ?_⟩
  · obtain ⟨seg, h1, _, _, h4, h5, h6, h7, h8, h9, _, h11⟩ := tcp_send_spec e st buf c flags hroom
    refine ⟨seg, h1, ?_, ?_, ?_, ?_, ?_, h9, h11⟩
    · rw [h6, e64, e32]
      rw [e64] at hn
      rw [e32] at hseq
      have e32i : (2 : Int) ^ 32 = 4294967296 := by norm_num
      rw [e32i]
      omega
    · rw [h7]
      exact Nat.mod_eq_of_lt hack
    · rw [h8]
    · rw [h4]
      exact Nat.mod_eq_of_lt hlp
    · rw [h5]
      exact Nat.mod_eq_of_lt hrp
  · unfold tcp_send
    dsimp only []
    split <;> rfl
  · intro txb hcap hfl hwin htx
    obtain ⟨w1, w2, w3⟩ := tcp_write_to_buf_idle c txb hcap hfl hwin htx
    obtain ⟨seg, h1, _, _, _, _, h6, _, _, _, _, h11⟩ := tcp_send_spec e st
      (tcp_write_to_buf c txb).2.2 (tcp_write_to_buf c txb).2.1 flags w3
    refine ⟨seg, ?_, ?_, ?_⟩
    · rw [h1, w2]
    · rw [h6, w1, w2]
      dsimp only []
      have hm : min c.tx_buf.data.length c.remote_win ≤ c.tx_buf.data.length :=
        Nat.min_le_left _ _
      have hm2 : min c.tx_buf.data.length c.remote_win ≤ c.remote_win := Nat.min_le_right _ _
      rw [List.length_take, Nat.min_eq_left hm, e64, e32]
      rw [e32] at hseq
      omega
    · rw [h11, w1]

/-- C21 (witness): right after the handshake with ISN 42 the example host pumps the two
bytes of `tx_buf` into a segment; its sequence number is 43. -/
theorem tcp_send_labels_witness :
    (20 ≤ (buf_of [1, 2]).head.length ∧ (buf_of [1, 2]).data.length < 2 ^ 64
        ∧ tcp_conn_idle.next_seq < 2 ^ 32 ∧ tcp_conn_idle.ack < 2 ^ 32
        ∧ tcp_conn_idle.local_port < 65536 ∧ tcp_conn_idle.remote_port < 65536
        ∧ 131110 ≤ buf_cap net0.txbuf ∧ tcp_conn_idle.unack_seq = tcp_conn_idle.next_seq
        ∧ tcp_conn_idle.remote_win < 65536 ∧ tcp_conn_idle.tx_buf.data.length < 2 ^ 64)
      ∧ (tcp_send cfg0 net0 (buf_of [1, 2]) tcp_conn_idle tcp_flags_ack_fin).2.2
          = { tcp_conn_idle with
              next_seq := if tcp_flags_ack_fin.syn || tcp_flags_ack_fin.fin
                then (tcp_conn_idle.next_seq + 1) % 2 ^ 32 else tcp_conn_idle.next_seq }
      ∧ ∃ seg, (tcp_send cfg0 net0 (tcp_write_to_buf tcp_conn_idle net0.txbuf).2.2
              (tcp_write_to_buf tcp_conn_idle net0.txbuf).2.1 tcp_flags_ack).1
            = { net0 with ip_out_calls := net0.ip_out_calls
                  ++ [⟨seg, tcp_conn_idle.ip, NET_PROTOCOL_TCP⟩] }
          ∧ get32 seg 4 = tcp_conn_idle.next_seq
          ∧ seg.drop 20 = tcp_conn_idle.tx_buf.data.take
              (min tcp_conn_idle.tx_buf.data.length tcp_conn_idle.remote_win) :=
  ⟨⟨by decide, by decide, by decide, by decide, by decide, by decide, net0_room_pump, by decide,
      by decide, by decide⟩,
    (tcp_send_labels cfg0 net0 (buf_of [1, 2]) tcp_conn_idle tcp_flags_ack_fin (by decide)
      (by decide) (by decide) (by decide) (by decide) (by decide)).2.1,
    (tcp_send_labels cfg0 net0 (buf_of [1, 2]) tcp_conn_idle tcp_flags_ack (by decide)
      (by decide) (by decide) (by decide) (by decide) (by decide)).2.2 net0.txbuf net0_room_pump
      (by decide) (by decide) (by decide)⟩

/-- C22 (the code departs from the claim): from the empty connection table, the handshake
with the peer leaves an ESTABLISHED connection with `unack_seq = next_seq = 43`.  A
checksum-valid segment out of sequence (ACK, `seq = 5000` where 1001 is expected) then
makes `tcp_in` set `next_seq = 0` for the RST|ACK and go on: the connection stays
ESTABLISHED with `unack_seq = 43 > 0 = next_seq`, and the `sent` that `tcp_write_to_buf`
computes, 65493, exceeds `tx_buf->len = 0`. -/
theorem tcp_invariant_broken :
    net_tcp0.connect_table.entries = []
      ∧ tcp_seg_valid cfg0 tcp_syn0 ip_peer ∧ tcp_seg_valid cfg0 tcp_ack0 ip_peer
      ∧ tcp_seg_valid cfg0 tcp_ooo0 ip_peer
      ∧ (∃ c, conn_peer net_hs0 1 = some c ∧ c.state = tcp_state_t.TCP_ESTABLISHED
          ∧ c.unack_seq = 43 ∧ c.next_seq = 43)
      ∧ ∃ c, conn_peer (tcp_in cfg0 net_hs0 tcp_ooo0 ip_peer 0 2) 2 = some c
          ∧ c.state = tcp_state_t.TCP_ESTABLISHED ∧ c.unack_seq = 43 ∧ c.next_seq = 0
          ∧ c.next_seq < c.unack_seq
          ∧ tcp_sent c = 65493 ∧ c.tx_buf.data.length = 0
          ∧ c.tx_buf.data.length < tcp_sent c := by
  obtain ⟨henv, hest⟩ := net_hs0_est
  have h2 := tcp_in_ooo_est cfg0 net_hs0 tcp_ooo0 ip_peer 0 2 1 key_peer 43 43 1001 8192 []
    65663 hest tcp_ooo0_valid (by rw [henv.1]; decide) (by decide) (by decide) (by decide)
    (by decide) (by decide) (by decide)
  obtain ⟨c0, hc0, hs0, _, hu0, hn0, _⟩ := hest
  obtain ⟨c, hc, hs, _, hu, hn, _, _, htx, _⟩ := h2
  have hsent : tcp_sent c = 65493 := by
    unfold tcp_sent
    rw [hn, hu]
    decide
  have hlen : c.tx_buf.data.length = 0 := by rw [htx]; rfl
  refine ⟨rfl, tcp_syn0_valid, tcp_ack0_valid, tcp_ooo0_valid, ⟨c0, hc0 1, hs0, hu0, hn0⟩,
    c, hc 2, hs, hu, hn, by omega, hsent, hlen, by omega⟩

/-- C23 (the code departs from the claim): the peer opens a connection announcing a window
of 4 bytes, the application writes 3 bytes twice (each write passes the test
`next_seq - unack_seq + len < remote_win`, nothing being in flight), and the peer sends two
data segments in sequence that acknowledge nothing new.  The first pump sends
`min(6, 4) = 4` bytes (`next_seq = 47`); at the second, 4 bytes are in flight, which is
the whole window, and `tcp_write_to_buf` sends `min(6 - 4, 4) = 2` more: the connection
stays ESTABLISHED with `next_seq - unack_seq = 6 > 4 = remote_win`. -/
theorem tcp_window_overrun :
    net_tcp0.connect_table.entries = []
      ∧ tcp_seg_valid cfg0 tcp_syn_w4 ip_peer ∧ tcp_seg_valid cfg0 tcp_ack0 ip_peer
      ∧ tcp_seg_valid cfg0 tcp_data1 ip_peer ∧ tcp_seg_valid cfg0 tcp_data2 ip_peer
      ∧ (∃ c, conn_peer net_wr4 1 = some c ∧ c.state = tcp_state_t.TCP_ESTABLISHED
          ∧ c.unack_seq = 43 ∧ c.next_seq = 43 ∧ c.ack = 1001 ∧ c.remote_win = 4
          ∧ c.tx_buf.data = [1, 2, 3, 4, 5, 6])
      ∧ (∃ c, conn_peer (tcp_in cfg0 net_wr4 tcp_data1 ip_peer 0 2) 2 = some c
          ∧ c.state = tcp_state_t.TCP_ESTABLISHED
          ∧ c.unack_seq = 43 ∧ c.next_seq = 47 ∧ c.ack = 1002 ∧ c.remote_win = 4
          ∧ c.remote_win - (c.next_seq - c.unack_seq) = 0
          ∧ ∀ b, (tcp_write_to_buf c b).1 = 2)
      ∧ ∃ c, conn_peer (tcp_in cfg0 (tcp_in cfg0 net_wr4 tcp_data1 ip_peer 0 2) tcp_data2
            ip_peer 0 3) 3 = some c
          ∧ c.state = tcp_state_t.TCP_ESTABLISHED
          ∧ c.unack_seq = 43 ∧ c.next_seq = 49 ∧ c.remote_win = 4
          ∧ c.remote_win < c.next_seq - c.unack_seq := by
  obtain ⟨henv, hest⟩ := net_wr4_est
  obtain ⟨henv1, hest1⟩ := tcp_in_pump_est cfg0 net_wr4 tcp_data1 ip_peer 0 2 1 key_peer
    43 43 1001 4 [1, 2, 3, 4, 5, 6] 65657 hest tcp_data1_valid (by rw [henv.1]; decide)
    (by decide) (by decide) (by decide) (by decide) (by decide) (by decide) (by decide)
    (by decide)
  have hest1b : tcp_est (tcp_in cfg0 net_wr4 tcp_data1 ip_peer 0 2) key_peer 43 47 1002 4
      [1, 2, 3, 4, 5, 6] 65657 := hest1
  obtain ⟨henv2, hest2⟩ := tcp_in_pump_est cfg0 _ tcp_data2 ip_peer 0 3 1 key_peer
    43 47 1002 4 [1, 2, 3, 4, 5, 6] 65657 hest1b tcp_data2_valid
    (by rw [henv1.1, henv.1]; decide)
    (by decide) (by decide) (by decide) (by decide) (by decide) (by decide) (by decide)
    (by decide)
  have hest2b : tcp_est (tcp_in cfg0 (tcp_in cfg0 net_wr4 tcp_data1 ip_peer 0 2) tcp_data2
      ip_peer 0 3) key_peer 43 49 1003 4 [1, 2, 3, 4, 5, 6] 65657 := hest2
  obtain ⟨c0, hc0, hs0, _, hu0, hn0, ha0, hw0, htx0, _⟩ := hest
  obtain ⟨c1, hc1, hs1, _, hu1, hn1, ha1, hw1, htx1, _⟩ := hest1b
  obtain ⟨c2, hc2, hs2, _, hu2, hn2, _, hw2, _, _⟩ := hest2b
  refine ⟨rfl, tcp_syn_w4_valid, tcp_ack0_valid, tcp_data1_valid, tcp_data2_valid,
    ⟨c0, hc0 1, hs0, hu0, hn0, ha0, hw0, htx0⟩,
    ⟨c1, hc1 2, hs1, hu1, hn1, ha1, hw1, by rw [hw1, hn1, hu1], ?_⟩,
    c2, hc2 3, hs2, hu2, hn2, hw2, by rw [hw2, hn2, hu2]; decide⟩
  intro b
  show min ((c1.tx_buf.data.length + 2 ^ 64
    - (c1.next_seq + 2 ^ 32 - c1.unack_seq) % 2 ^ 32 % 2 ^ 16) % 2 ^ 64) c1.remote_win % 2 ^ 16
    = 2
  rw [htx1, hn1, hu1, hw1]
  decide

/-- C24 (the code departs from the claim): after the handshake and a FIN|ACK of the peer
in sequence, the connection is in LAST_ACK and nothing has panicked.  A checksum-valid
segment in sequence with FIN and without ACK and RST then falls from `case TCP_LAST_ACK`,
which has no `break`, into `default`, and `tcp_in` calls `panic` (line 510). -/
theorem tcp_last_ack_panics :
    net_tcp0.connect_table.entries = []
      ∧ tcp_seg_valid cfg0 tcp_syn0 ip_peer ∧ tcp_seg_valid cfg0 tcp_ack0 ip_peer
      ∧ tcp_seg_valid cfg0 tcp_fin0 ip_peer ∧ tcp_seg_valid cfg0 tcp_fin_bare0 ip_peer
      ∧ (conn_peer (tcp_in cfg0 net_hs0 tcp_fin0 ip_peer 0 2) 2).map (fun c => c.state)
          = some tcp_state_t.TCP_LAST_ACK
      ∧ (conn_peer (tcp_in cfg0 net_hs0 tcp_fin0 ip_peer 0 2) 2).map (fun c => c.ack)
          = some (get32 tcp_fin_bare0.data 4)
      ∧ (tcp_seg_flags tcp_fin_bare0.data).rst = false
      ∧ (tcp_in cfg0 net_hs0 tcp_fin0 ip_peer 0 2).panics = []
      ∧ (tcp_in cfg0 (tcp_in cfg0 net_hs0 tcp_fin0 ip_peer 0 2) tcp_fin_bare0 ip_peer 0 3).panics
          = [510] := by
  refine ⟨rfl, tcp_syn0_valid, tcp_ack0_valid, tcp_fin0_valid, tcp_fin_bare0_valid, ?_, ?_, ?_,
    ?_, ?_⟩
  · decide
  · decide
  · decide
  · decide
  · decide

/-- C25 (counterexample): the connection `tcp_conn_big` (window 65535, nothing in flight,
65534 bytes in `tx_buf`) is pumped as `tcp_in` does it: `tcp_write_to_buf` fills the buffer
with the 65534 bytes, leaving 128 bytes of room in front, and `tcp_send` emits a segment
of 65554 bytes.  `tcp_checksum` cuts the length to 16 bits, 18, and sums 18 + 12 bytes
only: the checksum field is 34841, while the checksum over the pseudo-header (local IP,
remote IP, 0, 6, length) and the whole segment with a zero checksum field is 2202. -/
theorem tcp_send_checksum_counterexample :
    32 ≤ (tcp_write_to_buf tcp_conn_big net0.txbuf).2.2.head.length
      ∧ (tcp_write_to_buf tcp_conn_big net0.txbuf).2.1.ip.length = 4
      ∧ cfg0.net_if_ip.length = 4
      ∧ (tcp_write_to_buf tcp_conn_big net0.txbuf).2.2.data = List.replicate 65534 1
      ∧ ∃ seg, (tcp_send cfg0 net0 (tcp_write_to_buf tcp_conn_big net0.txbuf).2.2
              (tcp_write_to_buf tcp_conn_big net0.txbuf).2.1 tcp_flags_ack).1.ip_out_calls
            = net0.ip_out_calls ++ [⟨seg, ip_peer, NET_PROTOCOL_TCP⟩]
        ∧ seg.length = 65554
        ∧ get16 seg 16 = 34841
        ∧ checksum16 (cfg0.net_if_ip ++ ip_peer ++ [0, 6] ++ swap16_bytes seg.length
            ++ (seg.take 16 ++ [0, 0] ++ seg.drop 18)) = 2202 := by
  have hlen : tcp_conn_big.tx_buf.data.length = 65534 := List.length_replicate _ _
  obtain ⟨w1, w2, w3⟩ := tcp_write_to_buf_idle tcp_conn_big net0.txbuf net0_room_pump rfl
    (by decide) (by rw [hlen]; norm_num)
  have hd : (tcp_write_to_buf tcp_conn_big net0.txbuf).2.2.data = List.replicate 65534 1 := by
    rw [w1, hlen]
    show (List.replicate 65534 1).take (min 65534 65535) = _
    apply List.take_of_length_le
    rw [List.length_replicate]
    decide
  have hc : (tcp_write_to_buf tcp_conn_big net0.txbuf).2.1
      = { tcp_conn_big with next_seq := 65577 } := by
    rw [w2, hlen]
    rfl
  have hsize : min ((tcp_conn_big.tx_buf.data.length + 2 ^ 64
      - (tcp_conn_big.next_seq + 2 ^ 32 - tcp_conn_big.unack_seq) % 2 ^ 32 % 2 ^ 16) % 2 ^ 64)
      tcp_conn_big.remote_win % 2 ^ 16 = 65534 := by
    rw [hlen]
    decide
  have hcap : buf_cap net0.txbuf = 131325 := by
    show buf_cap (buf_malloc cfg0) = _
    rw [buf_malloc_cap, cfg0_heap_length]
  have hhead : (tcp_write_to_buf tcp_conn_big net0.txbuf).2.2.head.length = 128 := by
    rw [tcp_write_to_buf_head tcp_conn_big net0.txbuf 65534 hsize (by rw [hcap]; decide), hcap]
  obtain ⟨seg, h1, h2, h3, h4, _⟩ := tcp_send_field cfg0 net0
    (tcp_write_to_buf tcp_conn_big net0.txbuf).2.2 (tcp_write_to_buf tcp_conn_big net0.txbuf).2.1
    tcp_flags_ack w3 (by rw [hc]; rfl) rfl
  rw [hd, List.length_replicate] at h2
  rw [hd, hc, List.length_replicate] at h3 h4
  refine ⟨by rw [hhead]; decide, by rw [hc]; rfl, rfl, hd, seg, ?_, h2, ?_, ?_⟩
  · rw [h1, hc]
    rfl
  · rw [h4]
    have hs : ({ tcp_conn_big with next_seq := 65577 } : tcp_connect_t).ip ++ cfg0.net_if_ip
          ++ [0, 6] ++ swap16_bytes ((65534 + 20) % 65536)
          ++ (tcp_hdr_bytes { tcp_conn_big with next_seq := 65577 } 65534 tcp_flags_ack
            ++ List.replicate 65534 1)
          ++ (tcp_write_to_buf tcp_conn_big net0.txbuf).2.2.tail
        = (({ tcp_conn_big with next_seq := 65577 } : tcp_connect_t).ip ++ cfg0.net_if_ip
            ++ [0, 6] ++ swap16_bytes ((65534 + 20) % 65536)
            ++ tcp_hdr_bytes { tcp_conn_big with next_seq := 65577 } 65534 tcp_flags_ack)
          ++ (List.replicate 65534 1 ++ (tcp_write_to_buf tcp_conn_big net0.txbuf).2.2.tail) := by
      simp only [List.append_assoc]
    rw [hs, show (65534 + 20) % 65536 + 12 = 30 by decide,
      List.take_append_of_le_length (by decide)]
    decide
  · rw [h2, h3]
    have hs : cfg0.net_if_ip ++ ip_peer ++ [0, 6] ++ swap16_bytes 65554
          ++ (tcp_hdr_bytes { tcp_conn_big with next_seq := 65577 } 65534 tcp_flags_ack
            ++ List.replicate 65534 1)
        = (cfg0.net_if_ip ++ ip_peer ++ [0, 6] ++ swap16_bytes 65554
            ++ tcp_hdr_bytes { tcp_conn_big with next_seq := 65577 } 65534 tcp_flags_ack)
          ++ List.replicate (2 * 32767) 1 := by
      simp only [List.append_assoc]
    rw [hs, checksum16_append_even _ _ 16 (by decide), sum16_replicate]
    decide

/-- C25 (amended): for a segment `seg` that `tcp_send` emits on a connection with the remote IP
`c.ip` (4 bytes, as the local IP), of at most 65535 bytes, from a buffer with room for the
TCP header and the pseudo-header in front of its window: the checksum field of `seg`
(bytes 16 and 17) is `checksum16` of the pseudo-header with source = local IP,
destination = `c.ip`, zero, protocol 6 and the length of `seg`, followed by `seg` with a
zero checksum field, which is the header of `tcp_hdr_bytes` and the payload, although
`tcp_checksum` gets the addresses as (source = `c.ip`, destination = local IP); and
`tcp_checksum` returns the buffer as it got it, so that after `tcp_send` the bytes in
front of the TCP header and behind the window are those of before. -/
theorem tcp_send_checksum (e : Config) (st : net_t) (buf : buf_t) (c : tcp_connect_t)
    (flags : tcp_flags_t) (hroom : 32 ≤ buf.head.length) (hip : c.ip.length = 4)
    (he : e.net_if_ip.length = 4) (hlen : buf.data.length + 20 ≤ 65535) :
    ∃ seg, (tcp_send e st buf c flags).1.ip_out_calls
          = st.ip_out_calls ++ [⟨seg, c.ip, NET_PROTOCOL_TCP⟩]
      ∧ seg.length = buf.data.length + 20
      ∧ seg.take 16 ++ [0, 0] ++ seg.drop 18 = tcp_hdr_bytes c buf.data.length flags ++ buf.data
      ∧ get16 seg 16
          = checksum16 (e.net_if_ip ++ c.ip ++ [0, 6] ++ swap16_bytes seg.length
              ++ (seg.take 16 ++ [0, 0] ++ seg.drop 18))
      ∧ (tcp_checksum ⟨buf.head.take (buf.head.length - 20),
            tcp_hdr_bytes c buf.data.length flags ++ buf.data, buf.tail⟩ c.ip e.net_if_ip).2
          = ⟨buf.head.take (buf.head.length - 20),
              tcp_hdr_bytes c buf.data.length flags ++ buf.data, buf.tail⟩
      ∧ (tcp_send e st buf c flags).2.1.head = buf.head.take (buf.head.length - 20)
      ∧ (tcp_send e st buf c flags).2.1.tail = buf.tail := by
  have hl := tcp_hdr_bytes_length c buf.data.length flags
  have hw := buf_add_header_write buf 20 (tcp_hdr_bytes c buf.data.length flags) (by omega) hl
  have hck := tcp_checksum_spec ⟨buf.head.take (buf.head.length - 20),
      tcp_hdr_bytes c buf.data.length flags ++ buf.data, buf.tail⟩ c.ip e.net_if_ip hip he
    (by simp only [List.length_append, hl]; omega)
  have hwr : ∀ ck : Nat, buf_write ⟨buf.head.take (buf.head.length - 20),
        tcp_hdr_bytes c buf.data.length flags ++ buf.data, buf.tail⟩ 16 (swap16_bytes ck)
      = ⟨buf.head.take (buf.head.length - 20),
          (tcp_hdr_bytes c buf.data.length flags).take 16 ++ swap16_bytes ck
            ++ (tcp_hdr_bytes c buf.data.length flags).drop 18 ++ buf.data, buf.tail⟩ := by
    intro ck
    rw [buf_write_data _ 16 _ (by
      simp only [List.length_append, hl, swap16_bytes, List.length_cons, List.length_nil]
      omega)]
    simp only [swap16_bytes, List.length_cons, List.length_nil]
    rw [List.take_append_of_le_length (by omega), List.drop_append_of_le_length (by omega)]
    simp only [List.append_assoc]
  have hsend : tcp_send e st buf c flags
      = ({ st with ip_out_calls := st.ip_out_calls ++ [⟨
            (tcp_hdr_bytes c buf.data.length flags).take 16
              ++ swap16_bytes (checksum16 (c.ip ++ e.net_if_ip ++ [0, 6]
                  ++ swap16_bytes (tcp_hdr_bytes c buf.data.length flags ++ buf.data).length
                  ++ (tcp_hdr_bytes c buf.data.length flags ++ buf.data)))
              ++ (tcp_hdr_bytes c buf.data.length flags).drop 18 ++ buf.data,
            c.ip, NET_PROTOCOL_TCP⟩] },
          ⟨buf.head.take (buf.head.length - 20),
            (tcp_hdr_bytes c buf.data.length flags).take 16
              ++ swap16_bytes (checksum16 (c.ip ++ e.net_if_ip ++ [0, 6]
                  ++ swap16_bytes (tcp_hdr_bytes c buf.data.length flags ++ buf.data).length
                  ++ (tcp_hdr_bytes c buf.data.length flags ++ buf.data)))
              ++ (tcp_hdr_bytes c buf.data.length flags).drop 18 ++ buf.data, buf.tail⟩,
          if flags.syn || flags.fin then { c with next_seq := (c.next_seq + 1) % 2 ^ 32 }
          else c) := by
    unfold tcp_send
    simp only [TCP_HDR_LEN, hw, hck, hwr]
  have hz : (tcp_hdr_bytes c buf.data.length flags).take 16 ++ [0, 0]
      ++ (tcp_hdr_bytes c buf.data.length flags).drop 18
      = tcp_hdr_bytes c buf.data.length flags := by
    simp only [tcp_hdr_bytes, swap16_bytes, swap32_bytes, List.cons_append, List.nil_append,
      List.take_succ_cons, List.take_zero, List.drop_succ_cons, List.drop_zero]
  have hlen2 : (tcp_hdr_bytes c buf.data.length flags ++ buf.data).length
      = buf.data.length + 20 := by
    rw [List.length_append, hl]
    omega
  rw [hsend, hck]
  rw [hlen2]
  generalize hck0 : checksum16 (c.ip ++ e.net_if_ip ++ [0, 6]
    ++ swap16_bytes (buf.data.length + 20)
    ++ (tcp_hdr_bytes c buf.data.length flags ++ buf.data)) = ck
  have hckb : ck ≤ 65535 := by
    rw [← hck0]
    unfold checksum16
    exact Nat.sub_le _ _
  generalize tcp_hdr_bytes c buf.data.length flags = hdr at hl hz hck0 ⊢
  have h16 : (hdr.take 16).length = 16 := by
    rw [List.length_take]
    omega
  have hd18 : (hdr.drop 18).length = 2 := by
    rw [List.length_drop]
    omega
  have hseglen : (hdr.take 16 ++ swap16_bytes ck ++ hdr.drop 18 ++ buf.data).length
      = buf.data.length + 20 := by
    simp only [List.length_append, h16, hd18, swap16_bytes, List.length_cons, List.length_nil]
    omega
  have htake : (hdr.take 16 ++ swap16_bytes ck ++ hdr.drop 18 ++ buf.data).take 16
      = hdr.take 16 := by
    rw [List.append_assoc, List.append_assoc]
    exact List.take_left' h16
  have hdrop : (hdr.take 16 ++ swap16_bytes ck ++ hdr.drop 18 ++ buf.data).drop 18
      = hdr.drop 18 ++ buf.data := by
    rw [List.append_assoc]
    exact List.drop_left' (by
      simp only [List.length_append, h16, swap16_bytes, List.length_cons, List.length_nil])
  have hbody : (hdr.take 16 ++ swap16_bytes ck ++ hdr.drop 18 ++ buf.data).take 16 ++ [0, 0]
      ++ (hdr.take 16 ++ swap16_bytes ck ++ hdr.drop 18 ++ buf.data).drop 18
      = hdr ++ buf.data := by
    rw [htake, hdrop, ← List.append_assoc, hz]
  have hget : get16 (hdr.take 16 ++ swap16_bytes ck ++ hdr.drop 18 ++ buf.data) 16 = ck := by
    have hsplit : hdr.take 16 ++ swap16_bytes ck ++ hdr.drop 18 ++ buf.data
        = hdr.take 16 ++ (swap16_bytes ck ++ (hdr.drop 18 ++ buf.data)) := by
      simp only [List.append_assoc]
    rw [hsplit]
    have g0 : (hdr.take 16 ++ (swap16_bytes ck ++ (hdr.drop 18 ++ buf.data))).getD 16 0
        = (swap16_bytes ck ++ (hdr.drop 18 ++ buf.data)).getD (16 - (hdr.take 16).length) 0 :=
      List.getD_append_right _ _ _ _ (by omega)
    have g1 : (hdr.take 16 ++ (swap16_bytes ck ++ (hdr.drop 18 ++ buf.data))).getD (16 + 1) 0
        = (swap16_bytes ck ++ (hdr.drop 18 ++ buf.data)).getD (16 + 1 - (hdr.take 16).length)
            0 :=
      List.getD_append_right _ _ _ _ (by omega)
    unfold get16
    rw [g0, g1, h16]
    simp only [swap16_bytes, List.cons_append, List.nil_append, Nat.sub_self,
      Nat.add_sub_cancel_left, List.getD_cons_zero, List.getD_cons_succ]
    omega
  refine ⟨hdr.take 16 ++ swap16_bytes ck ++ hdr.drop 18 ++ buf.data, rfl, hseglen, hbody, ?_,
    rfl, rfl, rfl⟩
  rw [hget, hbody, hseglen, ← hck0]
  simp only [List.append_assoc]
  exact checksum16_swap_addr c.ip e.net_if_ip _ hip he

/-- C25 (witness): the pump of C21, `hi` sent from the port 7 of the example host to the
peer. -/
theorem tcp_send_checksum_witness :
    (32 ≤ (buf_of [104, 105]).head.length ∧ tcp_conn_idle.ip.length = 4
        ∧ cfg0.net_if_ip.length = 4 ∧ (buf_of [104, 105]).data.length + 20 ≤ 65535)
      ∧ ∃ seg, (tcp_send cfg0 net0 (buf_of [104, 105]) tcp_conn_idle tcp_flags_ack).1.ip_out_calls
            = net0.ip_out_calls ++ [⟨seg, tcp_conn_idle.ip, NET_PROTOCOL_TCP⟩]
        ∧ seg.length = (buf_of [104, 105]).data.length + 20
        ∧ seg.take 16 ++ [0, 0] ++ seg.drop 18
            = tcp_hdr_bytes tcp_conn_idle (buf_of [104, 105]).data.length tcp_flags_ack
              ++ (buf_of [104, 105]).data
        ∧ get16 seg 16
            = checksum16 (cfg0.net_if_ip ++ tcp_conn_idle.ip ++ [0, 6] ++ swap16_bytes seg.length
                ++ (seg.take 16 ++ [0, 0] ++ seg.drop 18))
        ∧ (tcp_checksum ⟨(buf_of [104, 105]).head.take ((buf_of [104, 105]).head.length - 20),
              tcp_hdr_bytes tcp_conn_idle (buf_of [104, 105]).data.length tcp_flags_ack
                ++ (buf_of [104, 105]).data, (buf_of [104, 105]).tail⟩
              tcp_conn_idle.ip cfg0.net_if_ip).2
            = ⟨(buf_of [104, 105]).head.take ((buf_of [104, 105]).head.length - 20),
                tcp_hdr_bytes tcp_conn_idle (buf_of [104, 105]).data.length tcp_flags_ack
                  ++ (buf_of [104, 105]).data, (buf_of [104, 105]).tail⟩
        ∧ (tcp_send cfg0 net0 (buf_of [104, 105]) tcp_conn_idle tcp_flags_ack).2.1.head
            = (buf_of [104, 105]).head.take ((buf_of [104, 105]).head.length - 20)
        ∧ (tcp_send cfg0 net0 (buf_of [104, 105]) tcp_conn_idle tcp_flags_ack).2.1.tail
            = (buf_of [104, 105]).tail :=
  ⟨⟨by decide, by decide, by decide, by decide⟩,
    tcp_send_checksum cfg0 net0 (buf_of [104, 105]) tcp_conn_idle tcp_flags_ack (by decide)
      (by decide) (by decide) (by decide)⟩


end WebProtocolStack
